import Mathlib

/-! Channel Access server core (`src/ioc/rsrv/caservertask.c`)

A shallow embedding of the circuit lifecycle code of the EPICS CA server:
the per-client buffer slots and their small-to-large promotion
(`casExpandSendBuffer`, `casExpandRecvBuffer`), client construction
(`create_client`, `create_tcp_client`) and teardown (`destroy_client`,
`destroyAllChannels`, `destroy_tcp_client`).

The C code is sequential here: lock and unlock calls are dropped, every
collaborator call that has an observable effect is appended to a trace, and
every answer of the operating system or of the database layer is an explicit
oracle argument.
-/

namespace Rsrv

/-! ## Constants and primitive types -/

/-- Constants of `caProto.h` and `server.h`, headers that are not part of the
sources at hand; they are parameters of the development. -/
structure Config where
  MAX_TCP : Nat
  MAX_UDP_SEND : Nat
  MAX_UDP_RECV : Nat
  sizeofClient : Nat
  CA_PROTO_PRIORITY_MIN : Nat
  CA_UKN_MINOR_VERSION : Nat

abbrev SOCKET := Int

abbrev INVALID_SOCKET : SOCKET := -1

abbrev IPPROTO_TCP : Int := 6

abbrev IPPROTO_UDP : Int := 17

/-- The `enum messageBufferType` tag of a buffer slot, kept as its integer
code so that values outside the enumeration can be expressed. -/
abbrev messageBufferType := Nat

abbrev mbtUDP : messageBufferType := 0

abbrev mbtSmallTCP : messageBufferType := 1

abbrev mbtLargeTCP : messageBufferType := 2

/-- The six free pools of the server. -/
inductive poolId where
  | rsrvClientFreeList
  | rsrvChanFreeList
  | rsrvEventFreeList
  | rsrvSmallBufFreeListTCP
  | rsrvLargeBufFreeListTCP
  | rsrvPutNotifyFreeList
  deriving DecidableEq, Repr

/-- Where a byte buffer was obtained: `malloc`, or one of the pools. -/
inductive memOrigin where
  | heap
  | pool (p : poolId)
  deriving DecidableEq, Repr

/-- A byte buffer in memory: the region `bytes`, and the allocator it came
from (a ghost field standing for the identity of the pointer). -/
structure slab where
  origin : memOrigin
  bytes : List Nat
  deriving DecidableEq, Repr

/-- The C `struct message_buffer`; `buf = none` is the null pointer. -/
structure message_buffer where
  buf : Option slab
  stk : Nat
  maxstk : Nat
  cnt : Nat
  type : messageBufferType
  deriving DecidableEq, Repr

/-- The C `struct event_ext`, as far as teardown reads it. -/
structure event_ext where
  pdbev : Option Nat
  deriving DecidableEq, Repr

/-- The C `struct channel_in_use`, as far as teardown reads it. -/
structure channel_in_use where
  sid : Nat
  eventq : List event_ext
  pPutNotify : Option Nat
  asClientPVT : Nat
  dbch : Nat
  deriving DecidableEq, Repr

/-- The C `struct client`; handles and owned pointers are `Option`s with
`none` for null. -/
structure client where
  send : message_buffer
  recv : message_buffer
  lock : Option Nat
  putNotifyLock : Option Nat
  chanListLock : Option Nat
  eventqLock : Option Nat
  chanList : List channel_in_use
  chanPendingUpdateARList : List channel_in_use
  putNotifyQue : List Nat
  addr : Nat
  time_at_last_send : Nat
  time_at_last_recv : Nat
  pUserName : Option Nat
  pHostName : Option Nat
  blockSem : Option Nat
  sock : SOCKET
  proto : Int
  tid : Nat
  minor_version_number : Nat
  recvBytesToDrain : Nat
  priority : Nat
  disconnect : Bool
  evuser : Option Nat
  deriving DecidableEq, Repr

/-- Messages the code prints; only their identity matters. -/
inductive logMsg where
  | noSpaceBelowThresh
  | noSpaceAllocFailed
  | corruptSendType (code : Nat)
  | corruptRecvType (code : Nat)
  | badIdAtClose (sid : Nat)
  | badAsRemoveClient (status : Nat)
  | tcpNoDelayFailed
  | keepAliveFailed
  | peerAddressFailed
  | eventInitFailed
  | eventSetupFailed
  | eventStartFailed
  deriving DecidableEq, Repr

/-- Observable effects, in the order the code performs them. -/
inductive Event where
  | epicsSocketDestroy (sock : SOCKET)
  | taskwdRemove (tid : Nat)
  | freeListCalloc (p : poolId)
  | freeListFreeBuf (p : poolId) (b : slab)
  | freeListFreeClient
  | freeListFreeChan (pciu : channel_in_use)
  | freeListFreeEvent (sid : Nat) (pevext : event_ext)
  | malloc (size : Nat)
  | free (b : slab)
  | freeString (p : Nat)
  | epicsMutexCreate (h : Nat)
  | epicsMutexDestroy (h : Nat)
  | epicsEventCreate (h : Nat)
  | epicsEventDestroy (h : Nat)
  | print (m : logMsg)
  | ellGetChan (sid : Nat)
  | db_cancel_event (sid : Nat) (pdbev : Nat)
  | rsrvFreePutNotify (sid : Nat) (pNotify : Option Nat)
  | bucketRemoveItemUnsignedId (sid : Nat) (found : Bool)
  | asRemoveClient (sid : Nat)
  | dbChannelDelete (sid : Nat) (dbch : Nat)
  | setsockopt (sock : SOCKET) (opt : Nat)
  | getpeername (sock : SOCKET)
  | db_init_events (evuser : Nat)
  | db_add_extra_labor_event (evuser : Nat) (registered : Bool)
  | db_flush_extra_labor_event (evuser : Nat)
  | db_start_events (evuser : Nat) (priority : Nat)
  | db_close_events (evuser : Nat)
  deriving DecidableEq, Repr

/-- Ways the C code stops instead of returning. -/
inductive Fault where
  | assertFailed
  | outOfBounds
  | nullPointer
  deriving DecidableEq, Repr

/-! ## Free pools and the identifier table -/

/-- Modelled from the spec: a free pool of `freeList.c`, which is not among
the sources. `avail` is what `items_available()` reports; `outstanding` counts
the items allocated and not yet freed. -/
structure freeList where
  avail : Nat
  outstanding : Int
  deriving DecidableEq, Repr

/-- The server-wide variables of `server.h` that this file reads and writes,
with the trace of effects and the counter that hands out fresh handles. -/
structure rsrvGlobals where
  rsrvSizeofLargeBufTCP : Nat
  rsrvClientFreeList : freeList
  rsrvChanFreeList : freeList
  rsrvEventFreeList : freeList
  rsrvSmallBufFreeListTCP : freeList
  rsrvLargeBufFreeListTCP : freeList
  rsrvPutNotifyFreeList : freeList
  pCaBucket : Finset Nat
  rsrvChannelCount : Nat
  nextHandle : Nat
  trace : List Event
  deriving DecidableEq

/-- Append one effect to the trace. -/
def rsrvGlobals.log (g : rsrvGlobals) (e : Event) : rsrvGlobals :=
  { g with trace := g.trace ++ [e] }

/-- Read the pool named `p`. -/
def rsrvGlobals.pool (g : rsrvGlobals) : poolId → freeList
  | .rsrvClientFreeList => g.rsrvClientFreeList
  | .rsrvChanFreeList => g.rsrvChanFreeList
  | .rsrvEventFreeList => g.rsrvEventFreeList
  | .rsrvSmallBufFreeListTCP => g.rsrvSmallBufFreeListTCP
  | .rsrvLargeBufFreeListTCP => g.rsrvLargeBufFreeListTCP
  | .rsrvPutNotifyFreeList => g.rsrvPutNotifyFreeList

/-- Overwrite the pool named `p`. -/
def rsrvGlobals.setPool (g : rsrvGlobals) (p : poolId) (fl : freeList) : rsrvGlobals :=
  match p with
  | .rsrvClientFreeList => { g with rsrvClientFreeList := fl }
  | .rsrvChanFreeList => { g with rsrvChanFreeList := fl }
  | .rsrvEventFreeList => { g with rsrvEventFreeList := fl }
  | .rsrvSmallBufFreeListTCP => { g with rsrvSmallBufFreeListTCP := fl }
  | .rsrvLargeBufFreeListTCP => { g with rsrvLargeBufFreeListTCP := fl }
  | .rsrvPutNotifyFreeList => { g with rsrvPutNotifyFreeList := fl }

/-- Modelled from the spec: `items_available()` of a pool (`freeList.c` is not
among the sources). -/
def freeListItemsAvail (g : rsrvGlobals) (p : poolId) : Nat :=
  (g.pool p).avail

/-- Modelled from the spec: `alloc_zeroed()` of a pool (`freeList.c` is not
among the sources). A slab on the free list is always handed out; with an
empty free list the answer of the heap, `grow`, decides whether a fresh slab
is obtained or null is returned. `none` is the null result and leaves the
state as it was. -/
def freeListCalloc (g : rsrvGlobals) (p : poolId) (grow : Bool) : Option rsrvGlobals :=
  let fl := g.pool p
  if 0 < fl.avail then
    some ((g.setPool p { avail := fl.avail - 1, outstanding := fl.outstanding + 1 }).log
      (.freeListCalloc p))
  else if grow then
    some ((g.setPool p { avail := fl.avail, outstanding := fl.outstanding + 1 }).log
      (.freeListCalloc p))
  else
    none

/-- Modelled from the spec: `free(handle)` of a pool (`freeList.c` is not among
the sources): the item joins the free list of `p`. The effect itself is
logged by the caller, which knows what is being freed. -/
def freeListFree (g : rsrvGlobals) (p : poolId) : rsrvGlobals :=
  let fl := g.pool p
  g.setPool p { avail := fl.avail + 1, outstanding := fl.outstanding - 1 }

/-- Modelled from the spec: `remove(id)` of the identifier table (`bucketLib.c`
is not among the sources): an id that is present is removed and `true`
(`S_bucket_success`) is reported; an absent id leaves the table as it was and
reports `false`. -/
def bucketRemoveItemUnsignedId (t : Finset Nat) (id : Nat) : Finset Nat × Bool :=
  if id ∈ t then (t.erase id, true) else (t, false)

/-- The C `memcpy(dst, src, n)` on byte regions: a fault when either region is
shorter than `n`. -/
def memcpy (dst src : List Nat) (n : Nat) : Except Fault (List Nat) :=
  if n ≤ src.length ∧ n ≤ dst.length then .ok (src.take n ++ dst.drop n)
  else .error .outOfBounds

/-- A zero-filled region of `n` bytes, as `freeListCalloc` returns it. -/
def zeroed (n : Nat) : List Nat := List.replicate n 0

/-! ## Buffer promotion -/

/-- Answers of the environment during one promotion attempt: the memory
oracle `osiSufficentSpaceInPool`, and whether the heap can supply a fresh
large slab when the large pool has none on its free list. -/
structure expandOracle where
  osiSufficentSpaceInPool : Nat → Bool
  grow : Bool

/-- The C function `casExpandSendBuffer`. The large pool was created with
items of `rsrvSizeofLargeBufTCP` bytes, so that is the size of `pNewBuf`. -/
def casExpandSendBuffer (cfg : Config) (o : expandOracle) (g : rsrvGlobals)
    (pClient : client) (size : Nat) : Except Fault (rsrvGlobals × client) :=
  if pClient.send.type = mbtSmallTCP ∧ g.rsrvSizeofLargeBufTCP > cfg.MAX_TCP
      ∧ size ≤ g.rsrvSizeofLargeBufTCP then
    let spaceAvailOnFreeList := decide (freeListItemsAvail g .rsrvLargeBufFreeListTCP > 0)
    if o.osiSufficentSpaceInPool g.rsrvSizeofLargeBufTCP || spaceAvailOnFreeList then
      match freeListCalloc g .rsrvLargeBufFreeListTCP o.grow with
      | some g1 =>
        match pClient.send.buf with
        | none => .error .nullPointer
        | some old =>
          match memcpy (zeroed g.rsrvSizeofLargeBufTCP) old.bytes pClient.send.stk with
          | .error f => .error f
          | .ok pNewBuf =>
            .ok ((freeListFree g1 .rsrvSmallBufFreeListTCP).log
                  (.freeListFreeBuf .rsrvSmallBufFreeListTCP old),
              { pClient with
                send := { pClient.send with
                  buf := some ⟨.pool .rsrvLargeBufFreeListTCP, pNewBuf⟩
                  maxstk := g.rsrvSizeofLargeBufTCP
                  type := mbtLargeTCP } })
      | none => .ok (g, pClient)
    else .ok (g, pClient)
  else .ok (g, pClient)

/-- The C function `casExpandRecvBuffer`. -/
def casExpandRecvBuffer (cfg : Config) (o : expandOracle) (g : rsrvGlobals)
    (pClient : client) (size : Nat) : Except Fault (rsrvGlobals × client) :=
  if pClient.recv.type = mbtSmallTCP ∧ g.rsrvSizeofLargeBufTCP > cfg.MAX_TCP
      ∧ size ≤ g.rsrvSizeofLargeBufTCP then
    let spaceAvailOnFreeList := decide (freeListItemsAvail g .rsrvLargeBufFreeListTCP > 0)
    if o.osiSufficentSpaceInPool g.rsrvSizeofLargeBufTCP || spaceAvailOnFreeList then
      match freeListCalloc g .rsrvLargeBufFreeListTCP o.grow with
      | some g1 =>
        if pClient.recv.cnt ≥ pClient.recv.stk then
          match pClient.recv.buf with
          | none => .error .nullPointer
          | some old =>
            match memcpy (zeroed g.rsrvSizeofLargeBufTCP) (old.bytes.drop pClient.recv.stk)
                (pClient.recv.cnt - pClient.recv.stk) with
            | .error f => .error f
            | .ok pNewBuf =>
              .ok ((freeListFree g1 .rsrvSmallBufFreeListTCP).log
                    (.freeListFreeBuf .rsrvSmallBufFreeListTCP old),
                { pClient with
                  recv := { pClient.recv with
                    buf := some ⟨.pool .rsrvLargeBufFreeListTCP, pNewBuf⟩
                    cnt := pClient.recv.cnt - pClient.recv.stk
                    stk := 0
                    maxstk := g.rsrvSizeofLargeBufTCP
                    type := mbtLargeTCP } })
        else .error .assertFailed
      | none => .ok (g, pClient)
    else .ok (g, pClient)
  else .ok (g, pClient)

/-- One promotion request of the message loop. -/
inductive expandCall where
  | send (o : expandOracle) (size : Nat)
  | recv (o : expandOracle) (size : Nat)

/-- Perform one promotion request. -/
def expandCall.run (cfg : Config) (s : rsrvGlobals × client) :
    expandCall → Except Fault (rsrvGlobals × client)
  | .send o size => casExpandSendBuffer cfg o s.1 s.2 size
  | .recv o size => casExpandRecvBuffer cfg o s.1 s.2 size

/-- Perform a finite sequence of promotion requests, stopping at a fault. -/
def runExpand (cfg : Config) : List expandCall → rsrvGlobals × client →
    Except Fault (rsrvGlobals × client)
  | [], s => .ok s
  | call :: rest, s =>
    match call.run cfg s with
    | .error f => .error f
    | .ok s1 => runExpand cfg rest s1

/-! ## Destruction -/

/-- The idiom `if ( h ) destroy ( h );` for a handle or owned pointer. -/
def destroyIfSet (g : rsrvGlobals) (h : Option Nat) (ev : Nat → Event) : rsrvGlobals :=
  match h with
  | some x => g.log (ev x)
  | none => g

/-- The release of one TCP buffer in `destroy_client`: by the slot's tag to the
small or the large pool, otherwise only the message `corrupt`. -/
def destroyTcpBuf (g : rsrvGlobals) (slot : message_buffer) (corrupt : logMsg) : rsrvGlobals :=
  match slot.buf with
  | some b =>
    if slot.type = mbtSmallTCP then
      (freeListFree g .rsrvSmallBufFreeListTCP).log (.freeListFreeBuf .rsrvSmallBufFreeListTCP b)
    else if slot.type = mbtLargeTCP then
      (freeListFree g .rsrvLargeBufFreeListTCP).log (.freeListFreeBuf .rsrvLargeBufFreeListTCP b)
    else
      g.log (.print corrupt)
  | none => g

/-- The release of one UDP buffer in `destroy_client`. -/
def destroyUdpBuf (g : rsrvGlobals) (slot : message_buffer) : rsrvGlobals :=
  match slot.buf with
  | some b => g.log (.free b)
  | none => g

/-- The C function `destroy_client`; `none` is the null pointer. The message of
the receive branch prints `send.type`, as the code does. -/
def destroy_client (g : rsrvGlobals) (pc : Option client) : rsrvGlobals :=
  match pc with
  | none => g
  | some client =>
    let g := if client.tid ≠ 0 then g.log (.taskwdRemove client.tid) else g
    let g := if client.sock ≠ INVALID_SOCKET then g.log (.epicsSocketDestroy client.sock) else g
    let g :=
      if client.proto = IPPROTO_TCP then
        destroyTcpBuf (destroyTcpBuf g client.send (.corruptSendType client.send.type))
          client.recv (.corruptRecvType client.send.type)
      else if client.proto = IPPROTO_UDP then
        destroyUdpBuf (destroyUdpBuf g client.send) client.recv
      else g
    let g := destroyIfSet g client.eventqLock .epicsMutexDestroy
    let g := destroyIfSet g client.chanListLock .epicsMutexDestroy
    let g := destroyIfSet g client.putNotifyLock .epicsMutexDestroy
    let g := destroyIfSet g client.lock .epicsMutexDestroy
    let g := destroyIfSet g client.blockSem .epicsEventDestroy
    let g := destroyIfSet g client.pUserName .freeString
    let g := destroyIfSet g client.pHostName .freeString
    (freeListFree g .rsrvClientFreeList).log .freeListFreeClient

/-- Answers of the collaborators during teardown: the status of the
deregistering `db_add_extra_labor_event ( evuser, NULL, NULL )`, the status of
`asRemoveClient` for the channel with a given id, and the constant
`S_asLib_asNotActive`. -/
structure teardownOracle where
  db_add_extra_labor_event : Nat
  asRemoveClient : Nat → Nat
  S_asLib_asNotActive : Nat

/-- The inner loop of `destroyAllChannels`: take the events of one channel off
its queue one by one, cancel each that has a database event, and return each
to the event pool. -/
def drainEventq (g : rsrvGlobals) (sid : Nat) : List event_ext → rsrvGlobals
  | [] => g
  | pevext :: rest =>
    let g := destroyIfSet g pevext.pdbev (.db_cancel_event sid)
    let g := (freeListFree g .rsrvEventFreeList).log (.freeListFreeEvent sid pevext)
    drainEventq g sid rest

/-- Modelled from the spec: `rsrvFreePutNotify` of `camessage.c`, which is not
among the sources: "free any put-notify slot", so a non-null slot goes back to
the put-notify pool. -/
def rsrvFreePutNotify (g : rsrvGlobals) (sid : Nat) (pNotify : Option Nat) : rsrvGlobals :=
  let g := g.log (.rsrvFreePutNotify sid pNotify)
  match pNotify with
  | some _ => freeListFree g .rsrvPutNotifyFreeList
  | none => g

/-- The statement `rsrvChannelCount--` on the unsigned 32-bit counter. -/
def decrChannelCount (n : Nat) : Nat := (n + (2 ^ 32 - 1)) % 2 ^ 32

/-- The body of the outer loop of `destroyAllChannels` for the channel `pciu`
that `ellGet` took off the list. -/
def destroyChannel (o : teardownOracle) (g : rsrvGlobals) (pciu : channel_in_use) :
    rsrvGlobals :=
  let g := g.log (.ellGetChan pciu.sid)
  let g := drainEventq g pciu.sid pciu.eventq
  let pciu := { pciu with eventq := [] }
  let g := rsrvFreePutNotify g pciu.sid pciu.pPutNotify
  let r := bucketRemoveItemUnsignedId g.pCaBucket pciu.sid
  let g := { g with pCaBucket := r.1, rsrvChannelCount := decrChannelCount g.rsrvChannelCount }
  let g := g.log (.bucketRemoveItemUnsignedId pciu.sid r.2)
  let g := if r.2 = false then g.log (.print (.badIdAtClose pciu.sid)) else g
  let status := o.asRemoveClient pciu.sid
  let g := g.log (.asRemoveClient pciu.sid)
  let g := if status ≠ 0 ∧ status ≠ o.S_asLib_asNotActive then
      g.log (.print (.badAsRemoveClient status)) else g
  let g := g.log (.dbChannelDelete pciu.sid pciu.dbch)
  (freeListFree g .rsrvChanFreeList).log (.freeListFreeChan pciu)

/-- The outer loop of `destroyAllChannels`: `ellGet` until the list is empty. -/
def destroyChannels (o : teardownOracle) (g : rsrvGlobals) : List channel_in_use → rsrvGlobals
  | [] => g
  | pciu :: rest => destroyChannels o (destroyChannel o g pciu) rest

/-- The C function `destroyAllChannels`; it returns the globals and what is
left of the list `pList`. -/
def destroyAllChannels (o : teardownOracle) (g : rsrvGlobals) (client : client)
    (pList : List channel_in_use) : rsrvGlobals × List channel_in_use :=
  if client.chanListLock = none ∨ client.eventqLock = none then (g, pList)
  else (destroyChannels o g pList, [])

/-- The C function `destroy_tcp_client` (the debug message under `CASDEBUG` is
left out). It returns the globals and the record as it was when it went back
to the client pool. -/
def destroy_tcp_client (o : teardownOracle) (g : rsrvGlobals) (client : client) :
    Except Fault (rsrvGlobals × Rsrv.client) :=
  let quiesce : Except Fault rsrvGlobals :=
    match client.evuser with
    | some ev =>
      let g := g.log (.db_add_extra_labor_event ev false)
      if o.db_add_extra_labor_event = 0 then .ok (g.log (.db_flush_extra_labor_event ev))
      else .error .assertFailed
    | none => .ok g
  match quiesce with
  | .error f => .error f
  | .ok g =>
    let r1 := destroyAllChannels o g client client.chanList
    let client := { client with chanList := r1.2 }
    let r2 := destroyAllChannels o r1.1 client client.chanPendingUpdateARList
    let client := { client with chanPendingUpdateARList := r2.2 }
    let g := destroyIfSet r2.1 client.evuser .db_close_events
    .ok (destroy_client g (some client), client)

/-! ## Construction -/

/-- Answers of the environment during `create_client`: the memory oracle,
whether the heap can supply a client record when the client pool has none on
its free list, whether each of the five synchronisation objects can be
created, whether the heap can supply the send and the receive buffer, the
content of freshly `malloc`ed memory, and the two readings of the clock. -/
structure createOracle where
  osiSufficentSpaceInPool : Nat → Bool
  growClient : Bool
  blockSem : Bool
  lock : Bool
  putNotifyLock : Bool
  chanListLock : Bool
  eventqLock : Bool
  heapSend : Bool
  heapRecv : Bool
  garbage : Nat → Nat
  timeSend : Nat
  timeRecv : Nat

/-- A creation call of the operating system (`epicsMutexCreate`,
`epicsEventCreate`, `db_init_events`): a fresh handle, or null. -/
def newHandle (g : rsrvGlobals) (succeeds : Bool) (ev : Nat → Event) :
    rsrvGlobals × Option Nat :=
  if succeeds then
    (({ g with nextHandle := g.nextHandle + 1 }).log (ev g.nextHandle), some g.nextHandle)
  else (g, none)

/-- The call `freeListCalloc ( rsrvSmallBufFreeListTCP )` of `create_client`:
a zeroed slab of `MAX_TCP` bytes, the item size the pool was created with, or
null. -/
def callocSmallBuf (cfg : Config) (g : rsrvGlobals) (grow : Bool) : rsrvGlobals × Option slab :=
  match freeListCalloc g .rsrvSmallBufFreeListTCP grow with
  | some g1 => (g1, some ⟨.pool .rsrvSmallBufFreeListTCP, zeroed cfg.MAX_TCP⟩)
  | none => (g, none)

/-- The C library call `malloc ( n )`: `n` bytes of unspecified content, or
null. -/
def malloc (g : rsrvGlobals) (succeeds : Bool) (garbage : Nat → Nat) (n : Nat) :
    rsrvGlobals × Option slab :=
  if succeeds then (g.log (.malloc n), some ⟨.heap, (List.range n).map garbage⟩)
  else (g, none)

/-- The record `freeListCalloc ( rsrvClientFreeList )` returns: all zero. -/
def zeroClient : client :=
  { send := ⟨none, 0, 0, 0, 0⟩
    recv := ⟨none, 0, 0, 0, 0⟩
    lock := none
    putNotifyLock := none
    chanListLock := none
    eventqLock := none
    chanList := []
    chanPendingUpdateARList := []
    putNotifyQue := []
    addr := 0
    time_at_last_send := 0
    time_at_last_recv := 0
    pUserName := none
    pHostName := none
    blockSem := none
    sock := 0
    proto := 0
    tid := 0
    minor_version_number := 0
    recvBytesToDrain := 0
    priority := 0
    disconnect := false
    evuser := none }

/-- The admission test of `create_client`: the value of
`osiSufficentSpaceInPool(spaceNeeded) || spaceAvailOnFreeList`. -/
def spaceForClient (cfg : Config) (o : createOracle) (g : rsrvGlobals) : Bool :=
  let spaceAvailOnFreeList :=
    decide (freeListItemsAvail g .rsrvClientFreeList > 0)
      && decide (freeListItemsAvail g .rsrvSmallBufFreeListTCP > 0)
  let spaceNeeded := cfg.sizeofClient + cfg.MAX_TCP
  o.osiSufficentSpaceInPool spaceNeeded || spaceAvailOnFreeList

/-- The five creation calls of `create_client`, in the order of the code:
`blockSem`, `lock`, `putNotifyLock`, `chanListLock`, `eventqLock`. -/
def createSync (o : createOracle) (g : rsrvGlobals) (client : client) :
    rsrvGlobals × Rsrv.client :=
  let r := newHandle g o.blockSem .epicsEventCreate
  let client : Rsrv.client := { client with blockSem := r.2 }
  let r := newHandle r.1 o.lock .epicsMutexCreate
  let client : Rsrv.client := { client with lock := r.2 }
  let r := newHandle r.1 o.putNotifyLock .epicsMutexCreate
  let client : Rsrv.client := { client with putNotifyLock := r.2 }
  let r := newHandle r.1 o.chanListLock .epicsMutexCreate
  let client : Rsrv.client := { client with chanListLock := r.2 }
  let r := newHandle r.1 o.eventqLock .epicsMutexCreate
  (r.1, { client with eventqLock := r.2 })

/-- The test `! client->blockSem || ! client->lock || ...` of `create_client`. -/
def syncMissing (client : client) : Bool :=
  decide (client.blockSem = none) || decide (client.lock = none)
    || decide (client.putNotifyLock = none) || decide (client.chanListLock = none)
    || decide (client.eventqLock = none)

/-- The allocation of the two buffers in `create_client`, by protocol; any
other protocol leaves both buffers null. -/
def allocBuffers (cfg : Config) (o : createOracle) (g : rsrvGlobals) (proto : Int)
    (client : client) : rsrvGlobals × Rsrv.client :=
  if proto = IPPROTO_TCP then
    let rs := callocSmallBuf cfg g o.heapSend
    let rr := callocSmallBuf cfg rs.1 o.heapRecv
    (rr.1, { client with
      send := { client.send with buf := rs.2, maxstk := cfg.MAX_TCP, type := mbtSmallTCP }
      recv := { client.recv with buf := rr.2, maxstk := cfg.MAX_TCP, type := mbtSmallTCP } })
  else if proto = IPPROTO_UDP then
    let rs := malloc g o.heapSend o.garbage cfg.MAX_UDP_SEND
    let rr := malloc rs.1 o.heapRecv o.garbage cfg.MAX_UDP_RECV
    (rr.1, { client with
      send := { client.send with buf := rs.2, maxstk := cfg.MAX_UDP_SEND, type := mbtUDP }
      recv := { client.recv with buf := rr.2, maxstk := cfg.MAX_UDP_RECV, type := mbtUDP } })
  else (g, client)

/-- The test `! client->send.buf || ! client->recv.buf` of `create_client`. -/
def bufMissing (client : client) : Bool :=
  decide (client.send.buf = none) || decide (client.recv.buf = none)

/-- The zeroed record after `client->sock = sock; client->proto = proto;`. -/
def freshClient (sock : SOCKET) (proto : Int) : client :=
  { zeroClient with sock := sock, proto := proto }

/-- The assignments of `create_client` between the creation of the
synchronisation objects and the allocation of the buffers. -/
def initLists (client : client) : Rsrv.client :=
  { client with
    pUserName := none, pHostName := none, chanList := [],
    chanPendingUpdateARList := [], putNotifyQue := [], addr := 0, tid := 0 }

/-- The assignments of `create_client` after the buffers were allocated. -/
def initRest (cfg : Config) (o : createOracle) (client : client) : Rsrv.client :=
  { client with
    send := { client.send with stk := 0, cnt := 0 }
    recv := { client.recv with stk := 0, cnt := 0 }
    evuser := none
    priority := cfg.CA_PROTO_PRIORITY_MIN
    disconnect := false
    time_at_last_send := o.timeSend
    time_at_last_recv := o.timeRecv
    minor_version_number := cfg.CA_UKN_MINOR_VERSION
    recvBytesToDrain := 0 }

/-- The C function `create_client`; the second component is the returned
pointer, `none` for null. -/
def create_client (cfg : Config) (o : createOracle) (g : rsrvGlobals) (sock : SOCKET)
    (proto : Int) : rsrvGlobals × Option client :=
  if spaceForClient cfg o g = false then
    ((g.log (.epicsSocketDestroy sock)).log (.print .noSpaceBelowThresh), none)
  else
    match freeListCalloc g .rsrvClientFreeList o.growClient with
    | none => ((g.log (.epicsSocketDestroy sock)).log (.print .noSpaceAllocFailed), none)
    | some g =>
      let s := createSync o g (freshClient sock proto)
      if syncMissing s.2 = true then
        (destroy_client s.1 (some s.2), none)
      else
        let s := allocBuffers cfg o s.1 proto (initLists s.2)
        if bufMissing s.2 = true then
          (destroy_client s.1 (some s.2), none)
        else
          (s.1, some (initRest cfg o s.2))

/-- Answers of the environment during `create_tcp_client`: those of
`create_client`, the status of the two `setsockopt` calls and of
`getpeername` with the address it stores, whether `db_init_events` yields a
session, the status of the registering `db_add_extra_labor_event` and of
`db_start_events` (`DB_EVENT_OK` is 0), the priority found below
`epicsThreadPriorityCAServerLow` if any, that constant, the answers needed by
a teardown, and the effect of `rsrv_version_reply` on the record. -/
structure tcpOracle where
  create : createOracle
  setsockoptNoDelay : Int
  setsockoptKeepAlive : Int
  getpeername : Int
  peerAddr : Nat
  db_init_events : Bool
  db_add_extra_labor_event : Nat
  epicsThreadHighestPriorityLevelBelow : Option Nat
  epicsThreadPriorityCAServerLow : Nat
  db_start_events : Nat
  teardown : teardownOracle
  rsrv_version_reply : client → client

/-- The failure exit `destroy_tcp_client ( client ); return NULL;`. -/
def failTcp (o : teardownOracle) (g : rsrvGlobals) (client : client) :
    Except Fault (rsrvGlobals × Option Rsrv.client) :=
  match destroy_tcp_client o g client with
  | .error f => .error f
  | .ok r => .ok (r.1, none)

/-- The C function `create_tcp_client` (the block under `#if 0` and the debug
message under `CASDEBUG` are left out). -/
def create_tcp_client (cfg : Config) (o : tcpOracle) (g : rsrvGlobals) (sock : SOCKET) :
    Except Fault (rsrvGlobals × Option client) :=
  match create_client cfg o.create g sock IPPROTO_TCP with
  | (g, none) => .ok (g, none)
  | (g, some client) =>
    let g := g.log (.setsockopt sock 0)
    if o.setsockoptNoDelay < 0 then
      .ok (destroy_client (g.log (.print .tcpNoDelayFailed)) (some client), none)
    else
      let g := g.log (.setsockopt sock 1)
      if o.setsockoptKeepAlive < 0 then
        .ok (destroy_client (g.log (.print .keepAliveFailed)) (some client), none)
      else
        let g := g.log (.getpeername sock)
        let client := { client with addr := o.peerAddr }
        if o.getpeername < 0 then
          failTcp o.teardown (g.log (.print .peerAddressFailed)) client
        else
          let r := newHandle g o.db_init_events .db_init_events
          let g := r.1
          let client := { client with evuser := r.2 }
          match client.evuser with
          | none => failTcp o.teardown (g.log (.print .eventInitFailed)) client
          | some ev =>
            let g := g.log (.db_add_extra_labor_event ev true)
            if o.db_add_extra_labor_event ≠ 0 then
              failTcp o.teardown (g.log (.print .eventSetupFailed)) client
            else
              let priorityOfEvents :=
                o.epicsThreadHighestPriorityLevelBelow.getD o.epicsThreadPriorityCAServerLow
              let g := g.log (.db_start_events ev priorityOfEvents)
              if o.db_start_events ≠ 0 then
                failTcp o.teardown (g.log (.print .eventStartFailed)) client
              else
                .ok (g, some (o.rsrv_version_reply client))

/-! ## Predicates on buffer slots -/

/-- The slot invariant of the spec: `stk ≤ cnt ≤ capacity`, the capacity being
the field `maxstk`. -/
def message_buffer.inv (m : message_buffer) : Prop :=
  m.stk ≤ m.cnt ∧ m.cnt ≤ m.maxstk

/-- The buffer of the slot is present and holds `maxstk` bytes. -/
def message_buffer.backed (m : message_buffer) : Prop :=
  m.buf.map (fun b => b.bytes.length) = some m.maxstk

/-- A well-formed slot: the slot invariant holds, the buffer is present and
has the size the slot records, and a slot tagged small has the capacity of a
small slab, `MAX_TCP`. -/
def message_buffer.wellFormed (cfg : Config) (m : message_buffer) : Prop :=
  m.inv ∧ m.backed ∧ (m.type = mbtSmallTCP → m.maxstk = cfg.MAX_TCP)

/-- The tag of a TCP slot names the pool its buffer came from. -/
def message_buffer.tagNamesPool (m : message_buffer) : Prop :=
  ∀ b, m.buf = some b →
    (m.type = mbtSmallTCP ∧ b.origin = .pool .rsrvSmallBufFreeListTCP)
      ∨ (m.type = mbtLargeTCP ∧ b.origin = .pool .rsrvLargeBufFreeListTCP)

/-! ## Reading a trace -/

/-- The pool an effect returns an item to, if it is a release to a pool. -/
def Event.frees : Event → Option poolId
  | .freeListFreeBuf p _ => some p
  | .freeListFreeClient => some .rsrvClientFreeList
  | .freeListFreeChan _ => some .rsrvChanFreeList
  | .freeListFreeEvent _ _ => some .rsrvEventFreeList
  | .rsrvFreePutNotify _ (some _) => some .rsrvPutNotifyFreeList
  | _ => none

/-- The number of releases to pool `p` in a trace. -/
def freesTo (p : poolId) (tr : List Event) : Nat :=
  (tr.filter (fun e => decide (e.frees = some p))).length

/-- The number of successful allocations from pool `p` in a trace. -/
def allocsFrom (p : poolId) (tr : List Event) : Nat :=
  tr.count (.freeListCalloc p)

/-- Perform one effect that allocates nothing: a release goes to its pool, and
the effect is logged. -/
def replayEvent (g : rsrvGlobals) (e : Event) : rsrvGlobals :=
  match e.frees with
  | some p => (freeListFree g p).log e
  | none => g.log e

/-- Perform a list of effects that allocate nothing. -/
def replay (g : rsrvGlobals) (tr : List Event) : rsrvGlobals :=
  tr.foldl replayEvent g

/-- The mutexes created in a trace, in order. -/
def mutexCreated (tr : List Event) : List Nat :=
  tr.filterMap (fun e => match e with | .epicsMutexCreate h => some h | _ => none)

/-- The mutexes destroyed in a trace, in order. -/
def mutexDestroyed (tr : List Event) : List Nat :=
  tr.filterMap (fun e => match e with | .epicsMutexDestroy h => some h | _ => none)

/-- The semaphores created in a trace, in order. -/
def semCreated (tr : List Event) : List Nat :=
  tr.filterMap (fun e => match e with | .epicsEventCreate h => some h | _ => none)

/-- The semaphores destroyed in a trace, in order. -/
def semDestroyed (tr : List Event) : List Nat :=
  tr.filterMap (fun e => match e with | .epicsEventDestroy h => some h | _ => none)

/-- The event-facility sessions opened in a trace, in order. -/
def sessionsOpened (tr : List Event) : List Nat :=
  tr.filterMap (fun e => match e with | .db_init_events h => some h | _ => none)

/-- The event-facility sessions closed in a trace, in order. -/
def sessionsClosed (tr : List Event) : List Nat :=
  tr.filterMap (fun e => match e with | .db_close_events h => some h | _ => none)

/-- The buffers released to a pool in a trace, each with the pool it went to,
in order. -/
def bufReleases (tr : List Event) : List (poolId × slab) :=
  tr.filterMap (fun e => match e with | .freeListFreeBuf p b => some (p, b) | _ => none)

/-- The number of successful `malloc` calls for buffers in a trace. -/
def mallocs (tr : List Event) : Nat :=
  (tr.filterMap (fun e => match e with | .malloc n => some n | _ => none)).length

/-- The number of buffers given back to the heap in a trace. -/
def heapFrees (tr : List Event) : Nat :=
  (tr.filterMap (fun e => match e with | .free b => some b | _ => none)).length

/-- The number of times the socket `sock` is destroyed in a trace. -/
def socketDestroys (sock : SOCKET) (tr : List Event) : Nat :=
  (tr.filterMap (fun e => match e with
    | .epicsSocketDestroy s => if s = sock then some s else none
    | _ => none)).length

/-- The handle a creation call returns: the next fresh one when it succeeds,
null otherwise. -/
def handleIf (succeeds : Bool) (n : Nat) : Option Nat :=
  if succeeds then some n else none

/-- The handle `createSync` stores in `blockSem` when `n` is the next fresh
handle. -/
def semHandle (o : createOracle) (n : Nat) : Option Nat :=
  handleIf o.blockSem n

/-- The handle `createSync` stores in `lock`. -/
def lockHandle (o : createOracle) (n : Nat) : Option Nat :=
  handleIf o.lock (n + o.blockSem.toNat)

/-- The handle `createSync` stores in `putNotifyLock`. -/
def putNotifyHandle (o : createOracle) (n : Nat) : Option Nat :=
  handleIf o.putNotifyLock (n + o.blockSem.toNat + o.lock.toNat)

/-- The handle `createSync` stores in `chanListLock`. -/
def chanListHandle (o : createOracle) (n : Nat) : Option Nat :=
  handleIf o.chanListLock (n + o.blockSem.toNat + o.lock.toNat + o.putNotifyLock.toNat)

/-- The handle `createSync` stores in `eventqLock`. -/
def eventqHandle (o : createOracle) (n : Nat) : Option Nat :=
  handleIf o.eventqLock
    (n + o.blockSem.toNat + o.lock.toNat + o.putNotifyLock.toNat + o.chanListLock.toNat)

/-- The effects of `createSync` when `n` is the next fresh handle. -/
def syncTrace (o : createOracle) (n : Nat) : List Event :=
  ((semHandle o n).map Event.epicsEventCreate).toList
    ++ ((lockHandle o n).map Event.epicsMutexCreate).toList
    ++ ((putNotifyHandle o n).map Event.epicsMutexCreate).toList
    ++ ((chanListHandle o n).map Event.epicsMutexCreate).toList
    ++ ((eventqHandle o n).map Event.epicsMutexCreate).toList

/-- Effects that neither create nor destroy a socket, mutex or semaphore and
release nothing: allocations of small buffers and of heap buffers, socket
option and peer address calls, messages, and the calls of the event
facility. -/
def Event.neutral : Event → Bool
  | .freeListCalloc .rsrvSmallBufFreeListTCP => true
  | .malloc _ => true
  | .setsockopt _ _ => true
  | .getpeername _ => true
  | .print _ => true
  | .db_init_events _ => true
  | .db_add_extra_labor_event _ _ => true
  | .db_flush_extra_labor_event _ => true
  | .db_start_events _ _ => true
  | .db_close_events _ => true
  | _ => false

/-- A call that took the globals from `g` to `g1` has destroyed the socket
`sock` exactly once and has released everything it acquired: in the effects
it added to the trace the mutexes destroyed are the mutexes created (in
reverse order, each created once), likewise the semaphores and the
event-facility sessions, every pool got back as many items as were allocated
from it, as many heap buffers were freed as allocated, and no pool has more or
fewer items outstanding than before. -/
def released (sock : SOCKET) (g g1 : rsrvGlobals) : Prop :=
  ∃ tr, g1.trace = g.trace ++ tr
    ∧ socketDestroys sock tr = 1
    ∧ mutexDestroyed tr = (mutexCreated tr).reverse ∧ (mutexCreated tr).Nodup
    ∧ semDestroyed tr = (semCreated tr).reverse ∧ (semCreated tr).Nodup
    ∧ sessionsClosed tr = (sessionsOpened tr).reverse ∧ (sessionsOpened tr).Nodup
    ∧ (∀ p, freesTo p tr = allocsFrom p tr)
    ∧ heapFrees tr = mallocs tr
    ∧ (∀ p, (g1.pool p).outstanding = (g.pool p).outstanding)

/-- The effects of releasing one TCP buffer in `destroy_client`. -/
def tcpBufTrace (slot : message_buffer) (corrupt : logMsg) : List Event :=
  match slot.buf with
  | some b =>
    if slot.type = mbtSmallTCP then [.freeListFreeBuf .rsrvSmallBufFreeListTCP b]
    else if slot.type = mbtLargeTCP then [.freeListFreeBuf .rsrvLargeBufFreeListTCP b]
    else [.print corrupt]
  | none => []

/-- The effects of releasing one UDP buffer in `destroy_client`. -/
def udpBufTrace (slot : message_buffer) : List Event :=
  match slot.buf with
  | some b => [.free b]
  | none => []

/-- The effects of `destroy_client` on a record, in order. -/
def destroyTrace (c : client) : List Event :=
  (if c.tid ≠ 0 then [.taskwdRemove c.tid] else [])
    ++ (if c.sock ≠ INVALID_SOCKET then [.epicsSocketDestroy c.sock] else [])
    ++ (if c.proto = IPPROTO_TCP then
          tcpBufTrace c.send (.corruptSendType c.send.type)
            ++ tcpBufTrace c.recv (.corruptRecvType c.send.type)
        else if c.proto = IPPROTO_UDP then udpBufTrace c.send ++ udpBufTrace c.recv
        else [])
    ++ (c.eventqLock.map Event.epicsMutexDestroy).toList
    ++ (c.chanListLock.map Event.epicsMutexDestroy).toList
    ++ (c.putNotifyLock.map Event.epicsMutexDestroy).toList
    ++ (c.lock.map Event.epicsMutexDestroy).toList
    ++ (c.blockSem.map Event.epicsEventDestroy).toList
    ++ (c.pUserName.map Event.freeString).toList
    ++ (c.pHostName.map Event.freeString).toList
    ++ [.freeListFreeClient]

/-- The release the spec prescribes for one buffer slot of a TCP client on
destruction: a non-null buffer goes to the small pool when the tag is small,
to the large pool when the tag is large, and to no pool otherwise. -/
def releaseByTag (m : message_buffer) : List (poolId × slab) :=
  match m.buf with
  | some b =>
    if m.type = mbtSmallTCP then [(.rsrvSmallBufFreeListTCP, b)]
    else if m.type = mbtLargeTCP then [(.rsrvLargeBufFreeListTCP, b)]
    else []
  | none => []

/-- The number of buffers in a list of releases that go to pool `p`. -/
def releasesTo (p : poolId) (l : List (poolId × slab)) : Nat :=
  (l.filter (fun r => decide (r.1 = p))).length

/-- The state of a TCP client between calls of the message loop, relative to
the globals `g0` from before its creation: both slots are well-formed, the tag
of each names the pool its buffer came from, and every pool has exactly as
many more items outstanding than in `g0` as `destroy_client` would give back
to it. -/
def tcpClientInv (cfg : Config) (g0 : rsrvGlobals) (s : rsrvGlobals × client) : Prop :=
  s.2.proto = IPPROTO_TCP
    ∧ s.2.send.wellFormed cfg ∧ s.2.recv.wellFormed cfg
    ∧ s.2.send.tagNamesPool ∧ s.2.recv.tagNamesPool
    ∧ ∀ p, (s.1.pool p).outstanding
        = (g0.pool p).outstanding + (freesTo p (destroyTrace s.2) : Int)

/-- The effects of the inner loop of `destroyAllChannels` on the event queue
of the channel `sid`, in order. -/
def eventqTrace (sid : Nat) : List event_ext → List Event
  | [] => []
  | pevext :: rest =>
    (pevext.pdbev.map (Event.db_cancel_event sid)).toList
      ++ [.freeListFreeEvent sid pevext] ++ eventqTrace sid rest

/-- The effects of one pass of the outer loop of `destroyAllChannels`, for the
channel `pciu` when the identifier table is `t`. -/
def channelTrace (o : teardownOracle) (t : Finset Nat) (pciu : channel_in_use) : List Event :=
  [.ellGetChan pciu.sid] ++ eventqTrace pciu.sid pciu.eventq
    ++ [.rsrvFreePutNotify pciu.sid pciu.pPutNotify,
        .bucketRemoveItemUnsignedId pciu.sid (decide (pciu.sid ∈ t))]
    ++ (if pciu.sid ∈ t then [] else [.print (.badIdAtClose pciu.sid)])
    ++ [.asRemoveClient pciu.sid]
    ++ (if o.asRemoveClient pciu.sid ≠ 0 ∧ o.asRemoveClient pciu.sid ≠ o.S_asLib_asNotActive
        then [.print (.badAsRemoveClient (o.asRemoveClient pciu.sid))] else [])
    ++ [.dbChannelDelete pciu.sid pciu.dbch, .freeListFreeChan { pciu with eventq := [] }]

/-- The effects of the outer loop of `destroyAllChannels` on a list of
channels when the identifier table is `t` at its start. -/
def channelsTrace (o : teardownOracle) (t : Finset Nat) : List channel_in_use → List Event
  | [] => []
  | pciu :: rest => channelTrace o t pciu ++ channelsTrace o (t.erase pciu.sid) rest

/-- The channels returned to the channel pool in a trace, each as it was when
it went back, in order. -/
def chansFreed (tr : List Event) : List channel_in_use :=
  tr.filterMap (fun e => match e with | .freeListFreeChan pciu => some pciu | _ => none)

/-- The monitor subscriptions returned to the event pool in a trace, each with
the id of its channel, in order. -/
def eventsFreed (tr : List Event) : List (Nat × event_ext) :=
  tr.filterMap (fun e => match e with | .freeListFreeEvent sid ev => some (sid, ev) | _ => none)

/-- The effects of the quiesce step of `destroy_tcp_client` when the
deregistration succeeds. -/
def quiesceTrace (evuser : Option Nat) : List Event :=
  match evuser with
  | some ev => [.db_add_extra_labor_event ev false, .db_flush_extra_labor_event ev]
  | none => []

/-- The subscriptions of a list of channels, each with the id of its channel,
channel by channel. -/
def subscriptions : List channel_in_use → List (Nat × event_ext)
  | [] => []
  | pciu :: rest => pciu.eventq.map (fun ev => (pciu.sid, ev)) ++ subscriptions rest

/-- The removals from the identifier table in a trace, each with the id and
whether it was found, in order. -/
def removals (tr : List Event) : List (Nat × Bool) :=
  tr.filterMap (fun e => match e with
    | .bucketRemoveItemUnsignedId sid found => some (sid, found)
    | _ => none)

/-- The channels `destroy_tcp_client` takes off the two lists of a client:
all of them, unless the guard at the head of `destroyAllChannels` finds a null
`chanListLock` or `eventqLock`. -/
def takenChannels (c : client) : List channel_in_use :=
  if c.chanListLock = none ∨ c.eventqLock = none then []
  else c.chanList ++ c.chanPendingUpdateARList

/-- The client record as `destroy_tcp_client` hands it to `destroy_client`. -/
def afterChannels (c : client) : client :=
  if c.chanListLock = none ∨ c.eventqLock = none then c
  else { c with chanList := [], chanPendingUpdateARList := [] }

/-- The effects of `destroy_tcp_client` on a client whose deregistration
succeeds, when the identifier table is `t`, in order. -/
def teardownTrace (o : teardownOracle) (t : Finset Nat) (c : client) : List Event :=
  quiesceTrace c.evuser ++ channelsTrace o t (takenChannels c)
    ++ (c.evuser.map Event.db_close_events).toList ++ destroyTrace (afterChannels c)

/-- In the trace `tr` every effect satisfying `q` has an effect satisfying `p`
somewhere before it. -/
def precedes (p q : Event → Prop) (tr : List Event) : Prop :=
  ∀ pre e post, tr = pre ++ e :: post → q e → ∃ x ∈ pre, p x

/-- In the trace `tr` every effect satisfying `q` has an effect satisfying `p`
before it, with no effect satisfying `r` between the two. -/
def precedesSince (p q r : Event → Prop) (tr : List Event) : Prop :=
  ∀ pre e post, tr = pre ++ e :: post → q e →
    ∃ a x b, pre = a ++ x :: b ∧ p x ∧ ∀ y ∈ b, ¬ r y

/-- In the trace `tr` an effect satisfying `p` occurs before an effect
satisfying `q` only with an effect satisfying `r` between the two. -/
def notSince (p q r : Event → Prop) (tr : List Event) : Prop :=
  ∀ pre e post, tr = pre ++ e :: post → q e →
    ∀ a x b, pre = a ++ x :: b → p x → ∃ z ∈ b, r z

/-- In the trace `tr` no effect satisfying `p` occurs before an effect
satisfying `q`. -/
def neverBefore (p q : Event → Prop) (tr : List Event) : Prop :=
  ∀ pre e post, tr = pre ++ e :: post → q e → ∀ x ∈ pre, ¬ p x

/-- The effect cancels or returns a monitor subscription of the channel `sid`
or frees its put-notify slot. -/
def Event.freesBeforeRemoval (sid : Nat) : Event → Prop
  | .db_cancel_event s _ => s = sid
  | .freeListFreeEvent s _ => s = sid
  | .rsrvFreePutNotify s _ => s = sid
  | _ => False

/-- The effects that occur in the destruction of a channel. -/
def Event.ofChannel : Event → Bool
  | .ellGetChan _ => true
  | .db_cancel_event _ _ => true
  | .freeListFreeEvent _ _ => true
  | .rsrvFreePutNotify _ _ => true
  | .bucketRemoveItemUnsignedId _ _ => true
  | .print _ => true
  | .asRemoveClient _ => true
  | .dbChannelDelete _ _ => true
  | .freeListFreeChan _ => true
  | _ => false

/-- The effects that occur in `destroy_client`. -/
def Event.ofRecord : Event → Bool
  | .taskwdRemove _ => true
  | .epicsSocketDestroy _ => true
  | .freeListFreeBuf _ _ => true
  | .free _ => true
  | .print _ => true
  | .epicsMutexDestroy _ => true
  | .epicsEventDestroy _ => true
  | .freeString _ => true
  | .freeListFreeClient => true
  | _ => false

/-- The effects of `destroy_client` before the record goes back to the client
pool. -/
def destroyTraceInit (c : client) : List Event :=
  (if c.tid ≠ 0 then [.taskwdRemove c.tid] else [])
    ++ (if c.sock ≠ INVALID_SOCKET then [.epicsSocketDestroy c.sock] else [])
    ++ (if c.proto = IPPROTO_TCP then
          tcpBufTrace c.send (.corruptSendType c.send.type)
            ++ tcpBufTrace c.recv (.corruptRecvType c.send.type)
        else if c.proto = IPPROTO_UDP then udpBufTrace c.send ++ udpBufTrace c.recv
        else [])
    ++ (c.eventqLock.map Event.epicsMutexDestroy).toList
    ++ (c.chanListLock.map Event.epicsMutexDestroy).toList
    ++ (c.putNotifyLock.map Event.epicsMutexDestroy).toList
    ++ (c.lock.map Event.epicsMutexDestroy).toList
    ++ (c.blockSem.map Event.epicsEventDestroy).toList
    ++ (c.pUserName.map Event.freeString).toList
    ++ (c.pHostName.map Event.freeString).toList

/-- The effect takes a channel off a channel list. -/
def Event.takesChannel : Event → Prop
  | .ellGetChan _ => True
  | _ => False

/-- The effect is the removal of the id `sid` from the identifier table. -/
def Event.removesId (sid : Nat) : Event → Prop
  | .bucketRemoveItemUnsignedId s _ => s = sid
  | _ => False

/-- The effect returns a channel with id `sid` to the channel pool. -/
def Event.freesChannel (sid : Nat) : Event → Prop
  | .freeListFreeChan pciu => pciu.sid = sid
  | _ => False

/-- The effect frees a resource of the channel `sid`: it cancels or returns
one of its monitor subscriptions, frees its put-notify slot, deletes its
database channel or returns the channel itself to its pool. -/
def Event.freesResourceOf (sid : Nat) : Event → Prop
  | .db_cancel_event s _ => s = sid
  | .freeListFreeEvent s _ => s = sid
  | .rsrvFreePutNotify s _ => s = sid
  | .dbChannelDelete s _ => s = sid
  | .freeListFreeChan pciu => pciu.sid = sid
  | _ => False

/-- The effect frees a resource of the channel `sid` that the code frees after
it removed the id: the database channel or the channel itself. -/
def Event.freesAfterRemoval (sid : Nat) : Event → Prop
  | .dbChannelDelete s _ => s = sid
  | .freeListFreeChan pciu => pciu.sid = sid
  | _ => False

/-- The effect frees a resource of some channel. -/
def Event.freesChannelResource (e : Event) : Prop :=
  ∃ sid, e.freesResourceOf sid

/-- The effect releases a send or receive buffer. -/
def Event.releasesBuffer : Event → Prop
  | .freeListFreeBuf _ _ => True
  | .free _ => True
  | _ => False

/-! ## Concrete states for the worked examples -/

/-- Small constants: `MAX_TCP` is 4 bytes. -/
def demoConfig : Config :=
  { MAX_TCP := 4, MAX_UDP_SEND := 2, MAX_UDP_RECV := 3, sizeofClient := 100,
    CA_PROTO_PRIORITY_MIN := 0, CA_UKN_MINOR_VERSION := 7 }

/-- Globals with `rsrvSizeofLargeBufTCP = 2 * MAX_TCP`, one client record and
two small buffers in use, and nothing on the large free list. -/
def demoGlobals : rsrvGlobals :=
  { rsrvSizeofLargeBufTCP := 8
    rsrvClientFreeList := ⟨0, 1⟩
    rsrvChanFreeList := ⟨0, 0⟩
    rsrvEventFreeList := ⟨0, 0⟩
    rsrvSmallBufFreeListTCP := ⟨0, 2⟩
    rsrvLargeBufFreeListTCP := ⟨0, 0⟩
    rsrvPutNotifyFreeList := ⟨0, 0⟩
    pCaBucket := ∅
    rsrvChannelCount := 0
    nextHandle := 10
    trace := [] }

/-- A TCP client with two small buffers: two bytes pending in the send
buffer, and the bytes at positions 1 and 2 of the receive buffer unconsumed. -/
def demoClient : client :=
  { zeroClient with
    send := ⟨some ⟨.pool .rsrvSmallBufFreeListTCP, [1, 2, 3, 4]⟩, 2, 4, 3, mbtSmallTCP⟩
    recv := ⟨some ⟨.pool .rsrvSmallBufFreeListTCP, [10, 11, 12, 13]⟩, 1, 4, 3, mbtSmallTCP⟩
    lock := some 1
    putNotifyLock := some 2
    chanListLock := some 3
    eventqLock := some 4
    blockSem := some 0
    sock := 5
    proto := IPPROTO_TCP }

/-- The client `demoClient` with three bytes pending in the send buffer and
`send.cnt` at 0, the value `create_client` gives it. -/
def demoClientPending : client :=
  { demoClient with
    send := ⟨some ⟨.pool .rsrvSmallBufFreeListTCP, [1, 2, 3, 4]⟩, 3, 4, 0, mbtSmallTCP⟩ }

/-- An environment in which memory is plentiful. -/
def demoPlenty : expandOracle := ⟨fun _ => true, true⟩

/-- An environment in which the memory oracle reports plenty of space and the
heap nevertheless refuses the request. -/
def demoRefused : expandOracle := ⟨fun _ => true, false⟩

/-- The globals after a promotion of `demoClient` out of `demoGlobals`. -/
def demoGlobalsPromoted (old : slab) : rsrvGlobals :=
  { demoGlobals with
    rsrvSmallBufFreeListTCP := ⟨1, 1⟩
    rsrvLargeBufFreeListTCP := ⟨0, 1⟩
    trace := [.freeListCalloc .rsrvLargeBufFreeListTCP,
      .freeListFreeBuf .rsrvSmallBufFreeListTCP old] }

/-- The client `demoClient` after `casExpandRecvBuffer`. -/
def demoClientRecvPromoted : client :=
  { demoClient with
    recv := ⟨some ⟨.pool .rsrvLargeBufFreeListTCP, [11, 12, 0, 0, 0, 0, 0, 0]⟩, 0, 8, 2,
      mbtLargeTCP⟩ }

/-- The client `demoClient` after `casExpandSendBuffer`. -/
def demoClientSendPromoted : client :=
  { demoClient with
    send := ⟨some ⟨.pool .rsrvLargeBufFreeListTCP, [1, 2, 0, 0, 0, 0, 0, 0]⟩, 2, 8, 3,
      mbtLargeTCP⟩ }

/-- Globals in which `rsrvSizeofLargeBufTCP` has its floor value `MAX_TCP` and
the large pool has a slab on its free list. -/
def demoGlobalsFloor : rsrvGlobals :=
  { demoGlobals with rsrvSizeofLargeBufTCP := 4, rsrvLargeBufFreeListTCP := ⟨1, 0⟩ }

/-- An environment in which every request of `create_client` succeeds. -/
def demoCreate : createOracle :=
  { osiSufficentSpaceInPool := fun _ => true
    growClient := true
    blockSem := true
    lock := true
    putNotifyLock := true
    chanListLock := true
    eventqLock := true
    heapSend := true
    heapRecv := true
    garbage := fun i => i + 1
    timeSend := 100
    timeRecv := 101 }

/-- The globals after `create_client` for a TCP client out of `demoGlobals`
in the environment `demoCreate`. -/
def demoGlobalsCreated : rsrvGlobals :=
  { demoGlobals with
    rsrvClientFreeList := ⟨0, 2⟩
    rsrvSmallBufFreeListTCP := ⟨0, 4⟩
    nextHandle := 15
    trace := [.freeListCalloc .rsrvClientFreeList, .epicsEventCreate 10, .epicsMutexCreate 11,
      .epicsMutexCreate 12, .epicsMutexCreate 13, .epicsMutexCreate 14,
      .freeListCalloc .rsrvSmallBufFreeListTCP, .freeListCalloc .rsrvSmallBufFreeListTCP] }

/-- The TCP client `create_client` returns for socket 5 out of `demoGlobals`
in the environment `demoCreate`. -/
def demoClientCreated : client :=
  { zeroClient with
    send := ⟨some ⟨.pool .rsrvSmallBufFreeListTCP, [0, 0, 0, 0]⟩, 0, 4, 0, mbtSmallTCP⟩
    recv := ⟨some ⟨.pool .rsrvSmallBufFreeListTCP, [0, 0, 0, 0]⟩, 0, 4, 0, mbtSmallTCP⟩
    blockSem := some 10
    lock := some 11
    putNotifyLock := some 12
    chanListLock := some 13
    eventqLock := some 14
    sock := 5
    proto := IPPROTO_TCP
    minor_version_number := 7
    time_at_last_send := 100
    time_at_last_recv := 101 }

/-- A TCP client whose send slot is large and whose receive slot carries a
tag outside the enumeration. -/
def demoClientCorrupt : client :=
  { demoClientSendPromoted with
    recv := ⟨some ⟨.pool .rsrvSmallBufFreeListTCP, [10, 11, 12, 13]⟩, 1, 4, 3, 9⟩ }

/-- The environment `demoCreate`, except that the heap cannot supply the
receive buffer. -/
def demoCreateNoRecv : createOracle := { demoCreate with heapRecv := false }

/-- Collaborators that answer every call of a teardown with success. -/
def demoTeardown : teardownOracle :=
  { db_add_extra_labor_event := 0, asRemoveClient := fun _ => 0, S_asLib_asNotActive := 99 }

/-- An environment for `create_tcp_client` in which everything succeeds except
`db_start_events`. -/
def demoTcpStartFails : tcpOracle :=
  { create := demoCreate
    setsockoptNoDelay := 0
    setsockoptKeepAlive := 0
    getpeername := 0
    peerAddr := 77
    db_init_events := true
    db_add_extra_labor_event := 0
    epicsThreadHighestPriorityLevelBelow := some 3
    epicsThreadPriorityCAServerLow := 4
    db_start_events := 1
    teardown := demoTeardown
    rsrv_version_reply := fun c => c }

/-- The globals after `create_client` out of `demoGlobals` failed for want of
a receive buffer. -/
def demoGlobalsNoRecv : rsrvGlobals :=
  { demoGlobals with
    rsrvClientFreeList := ⟨1, 1⟩
    rsrvSmallBufFreeListTCP := ⟨1, 2⟩
    nextHandle := 15
    trace := [.freeListCalloc .rsrvClientFreeList, .epicsEventCreate 10, .epicsMutexCreate 11,
      .epicsMutexCreate 12, .epicsMutexCreate 13, .epicsMutexCreate 14,
      .freeListCalloc .rsrvSmallBufFreeListTCP,
      .epicsSocketDestroy 5,
      .freeListFreeBuf .rsrvSmallBufFreeListTCP ⟨.pool .rsrvSmallBufFreeListTCP, [0, 0, 0, 0]⟩,
      .epicsMutexDestroy 14, .epicsMutexDestroy 13, .epicsMutexDestroy 12,
      .epicsMutexDestroy 11, .epicsEventDestroy 10, .freeListFreeClient] }

/-- The globals after `create_tcp_client` out of `demoGlobals` failed in
`db_start_events`. -/
def demoGlobalsStartFailed : rsrvGlobals :=
  { demoGlobals with
    rsrvClientFreeList := ⟨1, 1⟩
    rsrvSmallBufFreeListTCP := ⟨2, 2⟩
    nextHandle := 16
    trace := [.freeListCalloc .rsrvClientFreeList, .epicsEventCreate 10, .epicsMutexCreate 11,
      .epicsMutexCreate 12, .epicsMutexCreate 13, .epicsMutexCreate 14,
      .freeListCalloc .rsrvSmallBufFreeListTCP, .freeListCalloc .rsrvSmallBufFreeListTCP,
      .setsockopt 5 0, .setsockopt 5 1, .getpeername 5, .db_init_events 15,
      .db_add_extra_labor_event 15 true, .db_start_events 15 3, .print .eventStartFailed,
      .db_add_extra_labor_event 15 false, .db_flush_extra_labor_event 15,
      .db_close_events 15,
      .epicsSocketDestroy 5,
      .freeListFreeBuf .rsrvSmallBufFreeListTCP ⟨.pool .rsrvSmallBufFreeListTCP, [0, 0, 0, 0]⟩,
      .freeListFreeBuf .rsrvSmallBufFreeListTCP ⟨.pool .rsrvSmallBufFreeListTCP, [0, 0, 0, 0]⟩,
      .epicsMutexDestroy 14, .epicsMutexDestroy 13, .epicsMutexDestroy 12,
      .epicsMutexDestroy 11, .epicsEventDestroy 10, .freeListFreeClient] }

/-- The environment `demoCreate`, except that the memory oracle reports that
the process is below its threshold. -/
def demoCreateLow : createOracle := { demoCreate with osiSufficentSpaceInPool := fun _ => false }

/-- Globals in which the client pool has a free record and the small-TCP pool
has no free buffer. -/
def demoGlobalsFreeClient : rsrvGlobals :=
  { demoGlobals with rsrvClientFreeList := ⟨1, 1⟩ }

/-- A channel with two monitor subscriptions and a put-notify slot. -/
def demoChannelA : channel_in_use :=
  { sid := 7, eventq := [⟨some 70⟩, ⟨none⟩], pPutNotify := some 3, asClientPVT := 0, dbch := 700 }

/-- A channel without subscriptions. -/
def demoChannelB : channel_in_use :=
  { sid := 9, eventq := [], pPutNotify := none, asClientPVT := 0, dbch := 900 }

/-- Globals with three channels in the identifier table. -/
def demoGlobalsChannels : rsrvGlobals :=
  { demoGlobalsCreated with pCaBucket := {7, 9, 11}, rsrvChannelCount := 3 }

/-- The client `demoClientCreated` holding one channel in each of its lists. -/
def demoClientChannels : client :=
  { demoClientCreated with chanList := [demoChannelA], chanPendingUpdateARList := [demoChannelB] }

/-- The client `demoClientChannels` with a null `chanListLock`. -/
def demoClientNoLock : client :=
  { demoClientChannels with chanListLock := none }


/-- Globals whose identifier table holds two ids, neither of them 7. -/
def demoGlobalsAbsent : rsrvGlobals :=
  { demoGlobalsCreated with pCaBucket := {9, 11}, rsrvChannelCount := 2 }

/-- The client `demoClientCreated` holding the channel with id 7. -/
def demoClientOneChannel : client :=
  { demoClientCreated with chanList := [demoChannelA] }

/-- The client `demoClientChannels` with an event-facility session. -/
def demoClientSession : client :=
  { demoClientChannels with evuser := some 20 }


/-! ## Server initialisation: the TCP sockets of the interfaces -/

/-- The C `osiSockAddr` as far as this file uses it: an IPv4 address and a
port. Ports are kept as port numbers; `htons` and `ntohs`, which only change
the representation and map 0 to 0, are not modelled. -/
structure osiSockAddr where
  sin_addr : Nat
  sin_port : Nat
  deriving DecidableEq, Repr

abbrev INADDR_ANY : Nat := 0

/-- Values of `errno` after a failed `bind`, as far as the code tells them
apart. -/
inductive bindErrno where
  | SOCK_EADDRINUSE
  | SOCK_EADDRNOTAVAIL
  | other (code : Nat)
  deriving DecidableEq, Repr

/-- What the operating system answers when `rsrv_grap_tcp` sets up the socket
of one interface: `epicsSocketCreate` returns `INVALID_SOCKET`; or `bind`
returns 0, and `getsockname`, if it is called, fails (`none`) or reports a
port; or `bind` fails with an `errno`. -/
inductive bindAnswer where
  | noSocket
  | bound (getsockname : Option Nat)
  | failed (errno : bindErrno)
  deriving DecidableEq, Repr

/-- Messages printed during initialisation. -/
inductive srvMsg where
  | getsocknameError
  | skippingNotInterface (addr : Nat)
  | socketBindError (addr : Nat)
  | bindError (name : Nat)
  | maxArrayBytesNotPositive
  | maxArrayBytesRoundedUp (size : Nat)
  | portUnavailable (port : Nat)
  | onlineSocketSetUpError
  | moreThanOneBroadcastAddress (addr : Nat)
  deriving DecidableEq, Repr

/-- Observable effects of the initialisation code, in the order the code
performs them. -/
inductive srvEvent where
  | epicsSocketCreate (sock : SOCKET)
  | epicsSocketEnableAddressReuseDuringTimeWaitState (sock : SOCKET)
  | epicsSocketEnableAddressUseForDatagramFanout (sock : SOCKET)
  | bind (sock : SOCKET) (addr port : Nat) (ok : Bool)
  | getsockname (sock : SOCKET) (port : Option Nat)
  | epicsSocketDestroy (sock : SOCKET)
  | print (m : srvMsg)
  | epicsThreadSuspendSelf
  | ellDelete (addr : osiSockAddr)
  | epicsMutexMustCreate
  | epicsSignalInstallSigPipeIgnore
  | epicsThreadPrivateCreate
  | dbRegisterServer
  | bucketCreate
  | epicsEventMustCreate
  | setsockopt (sock : SOCKET) (ok : Bool)
  | connect (sock : SOCKET) (addr port : Nat) (ok : Bool)
  | connectUnspec (sock : SOCKET)
  | shutdown (sock : SOCKET)
  | osiSockDiscoverBroadcastAddresses (sock : SOCKET) (found : List Nat)
  | epicsThreadMustCreate (name : Nat) (priority : Nat)
  | epicsEventMustWait (event : Nat)
  | free (conf : Nat)
  deriving DecidableEq, Repr

/-- Ways the initialisation code stops instead of returning: a failed
`assert`, or `cantProceed`. -/
inductive srvFault where
  | assertFailed
  | cantProceed
  deriving DecidableEq, Repr

/-- The variables `rsrv_grap_tcp` works on: the global interface list, the
local array `socks`, the port in `scratch`, the counter that hands out fresh
socket handles, and the effects so far. -/
structure grapState where
  casIntfAddrList : List osiSockAddr
  socks : List SOCKET
  sin_port : Nat
  nextSock : Nat
  log : List srvEvent
  deriving DecidableEq, Repr

/-- How the `for` loop over the interfaces ends: it is left (at the end of the
list with `ok = 1`, or by `break` with `ok = 0`), the code stops, or the
answers given do not reach that far. -/
inductive loopResult where
  | left (ok : Bool) (st : grapState) (rest : List bindAnswer)
  | fault (f : srvFault)
  | pending
  deriving DecidableEq, Repr

/-- The `for` loop of `rsrv_grap_tcp` over the interfaces, from index `i` with
`cur` the nodes still to visit. -/
def bindLoop : Nat → List osiSockAddr → grapState → List bindAnswer → loopResult
  | _, [], st, answers => .left true st answers
  | _, _ :: _, _, [] => .pending
  | i, ifaceAddr :: rest, st, a :: answers =>
    match a with
    | .noSocket => .fault .cantProceed
    | .bound gsn =>
      let tcpsock : SOCKET := st.nextSock
      let st := { st with
        socks := st.socks.set i tcpsock
        nextSock := st.nextSock + 1
        log := st.log ++ [.epicsSocketCreate tcpsock,
          .epicsSocketEnableAddressReuseDuringTimeWaitState tcpsock,
          .bind tcpsock ifaceAddr.sin_addr st.sin_port true] }
      if st.sin_port = 0 then
        if i = 0 then
          match gsn with
          | none =>
            .left false { st with log := st.log ++ [.getsockname tcpsock none,
              .print .getsocknameError, .epicsThreadSuspendSelf] } answers
          | some p =>
            let st := { st with sin_port := p, log := st.log ++ [.getsockname tcpsock (some p)] }
            if st.sin_port ≠ 0 then bindLoop (i + 1) rest st answers
            else .fault .assertFailed
        else .fault .assertFailed
      else bindLoop (i + 1) rest st answers
    | .failed errno =>
      let tcpsock : SOCKET := st.nextSock
      let st := { st with
        socks := st.socks.set i tcpsock
        nextSock := st.nextSock + 1
        log := st.log ++ [.epicsSocketCreate tcpsock,
          .epicsSocketEnableAddressReuseDuringTimeWaitState tcpsock,
          .bind tcpsock ifaceAddr.sin_addr st.sin_port false] }
      match errno with
      | .SOCK_EADDRNOTAVAIL =>
        .left false { st with
          casIntfAddrList := st.casIntfAddrList.eraseIdx i
          log := st.log ++ [.print (.skippingNotInterface ifaceAddr.sin_addr),
            .ellDelete ifaceAddr] } answers
      | .SOCK_EADDRINUSE => .left false st answers
      | .other _ =>
        .left false { st with log := st.log ++ [.print (.socketBindError ifaceAddr.sin_addr),
          .epicsThreadSuspendSelf] } answers

/-- The loop `for(i=0; i<ellCount(&casIntfAddrList); i++) socks[i] = INVALID_SOCKET;`
at the head of a pass. -/
def initSocks (st : grapState) : grapState :=
  let socks := (List.range st.casIntfAddrList.length).foldl
    (fun socks i => socks.set i INVALID_SOCKET) st.socks
  { st with socks := socks }

/-- One step of the cleanup loop after a failed pass. -/
def cleanupStep (st : grapState) (i : Nat) : grapState :=
  if st.socks.getD i INVALID_SOCKET ≠ INVALID_SOCKET then
    { st with
      socks := st.socks.set i INVALID_SOCKET
      log := st.log ++ [.epicsSocketDestroy (st.socks.getD i INVALID_SOCKET)] }
  else st

/-- The cleanup loop after a failed pass, over the indices below the current
`ellCount(&casIntfAddrList)`. -/
def cleanupSocks (st : grapState) : grapState :=
  (List.range st.casIntfAddrList.length).foldl cleanupStep st

/-- How `rsrv_grap_tcp` ends: it returns the array with the port written
through `port`, it stops, or the answers given do not reach that far. -/
inductive grapResult where
  | returned (st : grapState) (port : Nat) (rest : List bindAnswer)
  | fault (f : srvFault)
  | pending
  deriving DecidableEq, Repr

/-- The `while(1)` loop of `rsrv_grap_tcp`; `passes` bounds the number of
passes that are followed. -/
def grapLoop : Nat → grapState → List bindAnswer → grapResult
  | 0, _, _ => .pending
  | passes + 1, st, answers =>
    let st := initSocks st
    match bindLoop 0 st.casIntfAddrList st answers with
    | .fault f => .fault f
    | .pending => .pending
    | .left true st rest =>
      if st.sin_port ≠ 0 then .returned st st.sin_port rest
      else .fault .assertFailed
    | .left false st rest =>
      grapLoop passes { cleanupSocks st with sin_port := 0 } rest

/-- The C function `rsrv_grap_tcp`, started with the preferred port `port`,
the interface list `casIntfAddrList` and the next fresh socket handle. Every
pass that fails uses up an answer, so the answers bound the number of passes.
The array from `mallocMustSucceed` has one entry per interface; its first
content is overwritten at once. -/
def rsrv_grap_tcp (casIntfAddrList : List osiSockAddr) (nextSock : Nat) (port : Nat)
    (answers : List bindAnswer) : grapResult :=
  grapLoop (answers.length + 1)
    { casIntfAddrList := casIntfAddrList
      socks := List.replicate casIntfAddrList.length INVALID_SOCKET
      sin_port := port
      nextSock := nextSock
      log := [] } answers

/-- The socket `sock` was created and not destroyed in the effects `log`. -/
def isOpen (log : List srvEvent) (sock : SOCKET) : Prop :=
  .epicsSocketCreate sock ∈ log ∧ .epicsSocketDestroy sock ∉ log

/-- In the effects `log` the socket `sock` was bound to the address `addr` and
the port `port`: by a successful `bind` to that port, or by a successful
`bind` to port 0 after which `getsockname` reported `port`. -/
def boundTo (log : List srvEvent) (sock : SOCKET) (addr port : Nat) : Prop :=
  .bind sock addr port true ∈ log
    ∨ (.bind sock addr 0 true ∈ log ∧ .getsockname sock (some port) ∈ log)


/-- What holds at the head of every pass of the `while(1)` loop of
`rsrv_grap_tcp`: every entry of `socks` is `INVALID_SOCKET` or a handle
already handed out, every socket destroyed so far is a handle already handed
out, and the array has room for the list. -/
def grapInv (st : grapState) : Prop :=
  (∀ s ∈ st.socks, s = INVALID_SOCKET ∨ s < (st.nextSock : Int))
    ∧ (∀ s, srvEvent.epicsSocketDestroy s ∈ st.log → s < (st.nextSock : Int))
    ∧ st.casIntfAddrList.length ≤ st.socks.length

/-- Two interfaces, 192.0.2.10 and 192.0.2.11, with the port 5064. -/
def demoIfaces : List osiSockAddr := [⟨3221225994, 5064⟩, ⟨3221225995, 5064⟩]

/-- The state in which `rsrv_grap_tcp` returns for `demoIfaces`, the preferred
port 5064 and the next handle 3 when both binds succeed. -/
def demoGrapBoth : grapState :=
  { casIntfAddrList := demoIfaces
    socks := [3, 4]
    sin_port := 5064
    nextSock := 5
    log := [.epicsSocketCreate 3, .epicsSocketEnableAddressReuseDuringTimeWaitState 3,
      .bind 3 3221225994 5064 true,
      .epicsSocketCreate 4, .epicsSocketEnableAddressReuseDuringTimeWaitState 4,
      .bind 4 3221225995 5064 true] }

/-- The state in which `rsrv_grap_tcp` returns for `demoIfaces`, the preferred
port 5064 and the next handle 3 when 192.0.2.11 is not an address of the host
and the kernel assigns the port 49152 to a bind with port 0. -/
def demoGrapSecondUnavailable : grapState :=
  { casIntfAddrList := [⟨3221225994, 5064⟩]
    socks := [5, 4]
    sin_port := 49152
    nextSock := 6
    log := [.epicsSocketCreate 3, .epicsSocketEnableAddressReuseDuringTimeWaitState 3,
      .bind 3 3221225994 5064 true,
      .epicsSocketCreate 4, .epicsSocketEnableAddressReuseDuringTimeWaitState 4,
      .bind 4 3221225995 5064 false,
      .print (.skippingNotInterface 3221225995), .ellDelete ⟨3221225995, 5064⟩,
      .epicsSocketDestroy 3,
      .epicsSocketCreate 5, .epicsSocketEnableAddressReuseDuringTimeWaitState 5,
      .bind 5 3221225994 0 true, .getsockname 5 (some 49152)] }

/-- The state at the head of the first pass of `rsrv_grap_tcp` for
`demoIfaces`, the preferred port 5064 and the next handle 3. -/
def demoGrapStart : grapState :=
  { casIntfAddrList := demoIfaces
    socks := [INVALID_SOCKET, INVALID_SOCKET]
    sin_port := 5064
    nextSock := 3
    log := [] }

/-- The state in which the first pass from `demoGrapStart` is left when the
bind to 192.0.2.11 fails with `SOCK_EADDRNOTAVAIL`. -/
def demoGrapBroken : grapState :=
  { casIntfAddrList := [⟨3221225994, 5064⟩]
    socks := [3, 4]
    sin_port := 5064
    nextSock := 5
    log := [.epicsSocketCreate 3, .epicsSocketEnableAddressReuseDuringTimeWaitState 3,
      .bind 3 3221225994 5064 true,
      .epicsSocketCreate 4, .epicsSocketEnableAddressReuseDuringTimeWaitState 4,
      .bind 4 3221225995 5064 false,
      .print (.skippingNotInterface 3221225995), .ellDelete ⟨3221225995, 5064⟩] }

/-! ## Server initialisation: `rsrv_init`, `rsrv_run`, `rsrv_pause`, `casStatsFetch` -/

/-- The values of the control flags that this file assigns and tests; the
enumeration is declared in `server.h`, which is not among the sources. -/
inductive ctl where
  | ctlRun
  | ctlPause
  deriving DecidableEq, Repr

/-- The status `RSRV_OK` of `rsrv.h`. -/
abbrev RSRV_OK : Int := 0

/-- The C `rsrv_iface_config`. -/
structure rsrv_iface_config where
  tcpAddr : osiSockAddr
  tcp : SOCKET
  udpAddr : osiSockAddr
  udp : SOCKET
  udpbcastAddr : osiSockAddr
  udpbcast : SOCKET
  udpbeaconRx : osiSockAddr
  udpbeaconTx : osiSockAddr
  udpbeacon : SOCKET
  startbcast : Nat
  deriving DecidableEq, Repr

/-- The server-wide variables of `server.h` that initialisation, the run
control and the statistics read and write: the globals of the client code, the
client queue, the three control flags, the server port, the lists of
interfaces, beacon addresses and interface configurations, the thread
priorities, the counter that hands out fresh socket handles, and the effects
so far. -/
structure serverState where
  g : rsrvGlobals
  clientQ : List client
  castcp_ctl : ctl
  casudp_ctl : ctl
  beacon_ctl : ctl
  ca_server_port : Nat
  casIntfAddrList : List osiSockAddr
  beaconAddrList : List osiSockAddr
  servers : List rsrv_iface_config
  threadPrios : List Nat
  nextSock : Nat
  log : List srvEvent
  deriving DecidableEq

/-- Append effects to the log. -/
def serverState.logs (s : serverState) (es : List srvEvent) : serverState :=
  { s with log := s.log ++ es }

/-- The C function `rsrv_run`. -/
def rsrv_run (s : serverState) : serverState × Int :=
  let s := { s with castcp_ctl := .ctlRun }
  let s := { s with casudp_ctl := .ctlRun }
  let s := { s with beacon_ctl := .ctlRun }
  (s, RSRV_OK)

/-- The C function `rsrv_pause`. -/
def rsrv_pause (s : serverState) : serverState × Int :=
  let s := { s with beacon_ctl := .ctlPause }
  let s := { s with casudp_ctl := .ctlPause }
  let s := { s with castcp_ctl := .ctlPause }
  (s, RSRV_OK)

/-- The macro `ellCount` of `ellLib.h` on a list: the number of its nodes, an
`int`. -/
def ellCount {α : Type} (l : List α) : Int := l.length

/-- What `casStatsFetch` writes through its two pointers. -/
structure casStats where
  chanCount : Nat
  circuitCount : Nat
  deriving DecidableEq, Repr

/-- The C function `casStatsFetch`: it returns the state, which it only reads
under the client-queue lock, and the two values it writes. A non-negative
`int` converts to `unsigned` unchanged. -/
def casStatsFetch (s : serverState) : serverState × casStats :=
  let circuitCount : Int := ellCount s.clientQ
  let pCircuitCount : Nat := if circuitCount < 0 then 0 else circuitCount.toNat
  let pChanCount : Nat := s.g.rsrvChannelCount
  (s, { chanCount := pChanCount, circuitCount := pCircuitCount })

/-- A change of the client queue as `req_server` makes it: `ellAdd` of a new
client at the end, or `ellDelete` of a client. -/
inductive queueOp where
  | ellAdd (c : client)
  | ellDelete (c : client)

/-- Perform one change of the client queue. -/
def queueOp.apply (q : List client) : queueOp → List client
  | .ellAdd c => q ++ [c]
  | .ellDelete c => q.erase c

/-- Perform a sequence of changes of the client queue. -/
def applyQueueOps (s : serverState) (ops : List queueOp) : serverState :=
  { s with clientQ := ops.foldl queueOp.apply s.clientQ }

/-- What `bind` answers inside `tryBind`: success, `SOCK_EADDRINUSE`, or
another error. -/
inductive tryBindAnswer where
  | ok
  | addrInUse
  | error
  deriving DecidableEq, Repr

/-- Answers of the operating system while `rsrv_init` sets up one interface:
whether the three UDP sockets can be created, what the three binds answer,
whether `setsockopt` and the `connect` to the beacon destination succeed, and
the broadcast addresses discovered. -/
structure ifaceOracle where
  beaconSocket : Bool
  beaconBind : tryBindAnswer
  setsockopt : Bool
  bcastList : List Nat
  beaconConnect : Bool
  udpSocket : Bool
  udpBind : tryBindAnswer
  bcastSocket : Bool
  bcastBind : tryBindAnswer

/-- Answers of the environment during `rsrv_init`: the configured ports (for
the two CAS-specific parameters `none` when the parameter is not set), the
status and the value of reading `EPICS_CA_MAX_ARRAY_BYTES` as a `long`,
whether the identifier table can be created, the addresses configured in
`EPICS_CAS_INTF_ADDR_LIST`, the thread priorities, the answers to
`rsrv_grap_tcp`, the answers per interface, and whether the code is compiled
for `_WIN32`. -/
structure initOracle where
  EPICS_CAS_SERVER_PORT : Option Nat
  EPICS_CA_SERVER_PORT : Nat
  EPICS_CAS_BEACON_PORT : Option Nat
  EPICS_CA_REPEATER_PORT : Nat
  maxArrayStatus : Int
  maxBytesAsALong : Int
  bucketCreate : Bool
  EPICS_CAS_INTF_ADDR_LIST : List Nat
  epicsThreadPriorityCAServerLow : Nat
  epicsThreadHighestPriorityLevelBelow : Nat → Option Nat
  binds : List bindAnswer
  iface : Nat → ifaceOracle
  win32 : Bool

/-- The computation of `rsrvSizeofLargeBufTCP` in `rsrv_init` from the status
and the value of reading `EPICS_CA_MAX_ARRAY_BYTES`, with the messages it
prints. `sizeofCaHdr` is `sizeof ( caHdr )`; a `ca_uint32_t` has 4 bytes; the
cast `( unsigned ) maxBytesAsALong` keeps the low 32 bits. -/
def largeBufSize (cfg : Config) (sizeofCaHdr : Nat) (status maxBytesAsALong : Int) :
    Nat × List srvEvent :=
  if status ≠ 0 ∨ maxBytesAsALong < 0 then
    (cfg.MAX_TCP, [.print .maxArrayBytesNotPositive])
  else
    let headerSize : Nat := (sizeofCaHdr + 2 * 4) % 2 ^ 32
    let maxBytes : Nat := (maxBytesAsALong % 2 ^ 32).toNat
    let maxBytes : Nat :=
      if maxBytes < 0xffffffff - headerSize then (maxBytes + headerSize) % 2 ^ 32
      else 0xffffffff
    if maxBytes < cfg.MAX_TCP then
      (cfg.MAX_TCP, [.print (.maxArrayBytesRoundedUp cfg.MAX_TCP)])
    else (maxBytes, [])

/-- The thread priority below `p`, or `p` itself when there is none. -/
def priorityBelow (o : initOracle) (p : Nat) : Nat :=
  (o.epicsThreadHighestPriorityLevelBelow p).getD p

/-- The head of `rsrv_init`: the client-queue lock, the client queue, the
pools of clients, channels, events, small buffers and put-notifies (each
empty of outstanding items, with the number of items the code asks for), and
the registrations. -/
def initPools (s : serverState) : serverState :=
  let s : serverState := s.logs [.epicsMutexMustCreate]
  let s : serverState := { s with clientQ := [] }
  let g : rsrvGlobals := { s.g with
    rsrvClientFreeList := ⟨8, 0⟩
    rsrvChanFreeList := ⟨512, 0⟩
    rsrvEventFreeList := ⟨512, 0⟩
    rsrvSmallBufFreeListTCP := ⟨16, 0⟩
    rsrvPutNotifyFreeList := ⟨0, 0⟩ }
  let s : serverState := { s with g := g }
  s.logs [.epicsSignalInstallSigPipeIgnore, .epicsThreadPrivateCreate, .dbRegisterServer]

/-- The value of `ca_server_port` that `rsrv_init` reads from the
environment. -/
def configuredServerPort (o : initOracle) : Nat :=
  match o.EPICS_CAS_SERVER_PORT with
  | some p => p
  | none => o.EPICS_CA_SERVER_PORT

/-- The value of `beacon_port` that `rsrv_init` reads from the environment. -/
def configuredBeaconPort (o : initOracle) : Nat :=
  match o.EPICS_CAS_BEACON_PORT with
  | some p => p
  | none => o.EPICS_CA_REPEATER_PORT

/-- The part of `rsrv_init` that sets `rsrvSizeofLargeBufTCP` and creates the
large-buffer pool, the two address lists and the identifier table. -/
def initBuffers (cfg : Config) (sizeofCaHdr : Nat) (o : initOracle) (s : serverState) :
    Except srvFault serverState :=
  let size := largeBufSize cfg sizeofCaHdr o.maxArrayStatus o.maxBytesAsALong
  let s : serverState := s.logs size.2
  let g : rsrvGlobals := { s.g with
    rsrvSizeofLargeBufTCP := size.1
    rsrvLargeBufFreeListTCP := ⟨1, 0⟩ }
  let s : serverState := { s with g := g, casIntfAddrList := [], beaconAddrList := [] }
  let s : serverState := s.logs [.bucketCreate]
  if o.bucketCreate = false then .error .cantProceed
  else
    let g : rsrvGlobals := { s.g with pCaBucket := ∅ }
    .ok { s with g := g }

/-- The part of `rsrv_init` that fills the interface list, creates the three
start/stop events, sets `castcp_ctl` and computes the thread priorities. -/
def initInterfaces (o : initOracle) (s : serverState) : serverState :=
  let s : serverState := { s with casIntfAddrList :=
    o.EPICS_CAS_INTF_ADDR_LIST.map (fun a => ⟨a, s.ca_server_port⟩) }
  let s : serverState :=
    if ellCount s.casIntfAddrList = 0 then
      { s with casIntfAddrList := s.casIntfAddrList ++ [⟨INADDR_ANY, s.ca_server_port⟩] }
    else s
  let s : serverState :=
    s.logs [.epicsEventMustCreate, .epicsEventMustCreate, .epicsEventMustCreate]
  let s : serverState := { s with castcp_ctl := .ctlPause }
  let p0 := o.epicsThreadPriorityCAServerLow
  let p1 := priorityBelow o p0
  let p2 := priorityBelow o p1
  let p3 := priorityBelow o p2
  let p4 := priorityBelow o p3
  { s with threadPrios := [p0, p1, p2, p3, p4] }

/-- The first part of `rsrv_init`, up to the computation of the thread
priorities. It returns the state with `udp_port` and `beacon_port`. -/
def initGlobals (cfg : Config) (sizeofCaHdr : Nat) (o : initOracle) (s : serverState) :
    Except srvFault (serverState × Nat × Nat) :=
  let s : serverState := initPools s
  let s : serverState := { s with ca_server_port := configuredServerPort o }
  let udp_port := s.ca_server_port
  let beacon_port := configuredBeaconPort o
  match initBuffers cfg sizeofCaHdr o s with
  | .error f => .error f
  | .ok s => .ok (initInterfaces o s, udp_port, beacon_port)

/-- The state and the `conf` under construction inside one pass of the loop
over the interfaces. -/
structure ifaceCtx where
  s : serverState
  conf : rsrv_iface_config

/-- How a statement of the loop body ends: the next statement follows, the
pass is over (at `continue`, or after the code at `cleanup:`), or the code
stops. -/
inductive ifaceStep where
  | next (c : ifaceCtx)
  | finished (s : serverState)
  | fault (f : srvFault)

/-- Sequencing of the statements of the loop body. -/
def ifaceStep.andThen (r : ifaceStep) (f : ifaceCtx → ifaceStep) : ifaceStep :=
  match r with
  | .next c => f c
  | .finished s => .finished s
  | .fault e => .fault e

/-- The C function `tryBind`: the state and whether -1 is returned. -/
def tryBind (s : serverState) (sock : SOCKET) (addr : osiSockAddr) (name : Nat)
    (a : tryBindAnswer) : serverState × Bool :=
  match a with
  | .ok => (s.logs [.bind sock addr.sin_addr addr.sin_port true], false)
  | .addrInUse => (s.logs [.bind sock addr.sin_addr addr.sin_port false], true)
  | .error => (s.logs [.bind sock addr.sin_addr addr.sin_port false,
      .print (.bindError name), .epicsThreadSuspendSelf], true)

/-- The code at the label `cleanup:`. -/
def ifaceCleanup (c : ifaceCtx) : serverState :=
  let s := c.s.logs [.epicsSocketDestroy c.conf.tcp]
  let s := if c.conf.udp ≠ INVALID_SOCKET then s.logs [.epicsSocketDestroy c.conf.udp] else s
  let s := if c.conf.udpbcast ≠ INVALID_SOCKET then
      s.logs [.epicsSocketDestroy c.conf.udpbcast] else s
  let s := if c.conf.udpbeacon ≠ INVALID_SOCKET then
      s.logs [.epicsSocketDestroy c.conf.udpbeacon] else s
  s.logs [.free 0]

/-- The head of the loop body: the zeroed `conf` gets the TCP address and
socket of the interface, and the beacon socket is created. -/
def stBeaconSocket (a : ifaceOracle) (s : serverState) (cur : osiSockAddr) (tcp : SOCKET) :
    ifaceStep :=
  let conf : rsrv_iface_config :=
    { tcpAddr := { cur with sin_port := s.ca_server_port }
      tcp := tcp
      udpAddr := ⟨0, 0⟩
      udp := INVALID_SOCKET
      udpbcastAddr := ⟨0, 0⟩
      udpbcast := INVALID_SOCKET
      udpbeaconRx := ⟨0, 0⟩
      udpbeaconTx := ⟨0, 0⟩
      udpbeacon := INVALID_SOCKET
      startbcast := 0 }
  if a.beaconSocket = false then .fault .cantProceed
  else
    let beacon : SOCKET := s.nextSock
    let s := { s with nextSock := s.nextSock + 1, log := s.log ++ [.epicsSocketCreate beacon] }
    let conf := { conf with
      udpbeacon := beacon
      udpbeaconRx := { conf.tcpAddr with sin_port := 0 } }
    .next ⟨s, conf⟩

/-- The bind of the beacon socket, and its socket options. -/
def stBeaconBind (a : ifaceOracle) (c : ifaceCtx) : ifaceStep :=
  let r := tryBind c.s c.conf.udpbeacon c.conf.udpbeaconRx 0 a.beaconBind
  if r.2 then .finished (ifaceCleanup ⟨r.1, c.conf⟩)
  else
    let s := r.1.logs [.setsockopt c.conf.udpbeacon a.setsockopt]
    let s := if a.setsockopt = false then
        s.logs [.print .onlineSocketSetUpError, .epicsThreadSuspendSelf] else s
    let s := s.logs [.connectUnspec c.conf.udpbeacon, .shutdown c.conf.udpbeacon]
    .next ⟨s, c.conf⟩

/-- The block "find interface broadcast address" up to the assignment of
`udpbeaconTx`. -/
def stBroadcast (a : ifaceOracle) (beacon_port : Nat) (c : ifaceCtx) : ifaceStep :=
  let s := c.s.logs [.osiSockDiscoverBroadcastAddresses c.conf.udpbeacon a.bcastList]
  match a.bcastList with
  | [] => .fault .cantProceed
  | pNode :: _ =>
    let s := if ellCount a.bcastList > 1 ∧ c.conf.udpbeaconRx.sin_addr ≠ INADDR_ANY then
        s.logs [.print (.moreThanOneBroadcastAddress c.conf.tcpAddr.sin_addr)] else s
    let conf := { c.conf with udpbeaconTx :=
      { c.conf.udpbeaconRx with sin_addr := pNode, sin_port := beacon_port } }
    .next ⟨s, conf⟩

/-- The `connect` of the beacon socket to its destination. -/
def stBeaconConnect (a : ifaceOracle) (c : ifaceCtx) : ifaceStep :=
  let s := c.s.logs [.connect c.conf.udpbeacon c.conf.udpbeaconTx.sin_addr
    c.conf.udpbeaconTx.sin_port a.beaconConnect]
  if a.beaconConnect = false then .fault .cantProceed else .next ⟨s, c.conf⟩

/-- The UDP name receiver socket. -/
def stUdp (a : ifaceOracle) (udp_port : Nat) (c : ifaceCtx) : ifaceStep :=
  if a.udpSocket = false then .fault .cantProceed
  else
    let udp : SOCKET := c.s.nextSock
    let s : serverState := { c.s with
      nextSock := c.s.nextSock + 1
      log := c.s.log ++ [.epicsSocketCreate udp] }
    let conf : rsrv_iface_config := { c.conf with
      udp := udp
      udpAddr := { c.conf.tcpAddr with sin_port := udp_port } }
    let s := s.logs [.epicsSocketEnableAddressUseForDatagramFanout udp]
    let r := tryBind s conf.udp conf.udpAddr 1 a.udpBind
    if r.2 then .finished (ifaceCleanup ⟨r.1, conf⟩) else .next ⟨r.1, conf⟩

/-- The part under `#if !defined(_WIN32)`: the second UDP socket, bound to the
broadcast address of an interface that is not `INADDR_ANY`, and the `ellAdd`
to `servers`. -/
def stBcast (a : ifaceOracle) (win32 : Bool) (c : ifaceCtx) : ifaceStep :=
  if win32 then .next c
  else
    let r : ifaceStep :=
      if c.conf.udpAddr.sin_addr ≠ INADDR_ANY then
        if a.bcastSocket = false then .fault .cantProceed
        else
          let udpbcast : SOCKET := c.s.nextSock
          let s : serverState := { c.s with
            nextSock := c.s.nextSock + 1
            log := c.s.log ++ [.epicsSocketCreate udpbcast] }
          let conf : rsrv_iface_config := { c.conf with
            udpbcast := udpbcast
            udpbcastAddr := { c.conf.udpAddr with sin_addr := c.conf.udpbeaconTx.sin_addr } }
          let s := s.logs [.epicsSocketEnableAddressUseForDatagramFanout udpbcast]
          let r := tryBind s conf.udpbcast conf.udpbcastAddr 2 a.bcastBind
          if r.2 then .finished (ifaceCleanup ⟨r.1, conf⟩) else .next ⟨r.1, conf⟩
      else .next c
    r.andThen fun c => .next ⟨{ c.s with servers := c.s.servers ++ [c.conf] }, c.conf⟩

/-- The start of the threads of the interface, each followed by the wait for
its start/stop event (0 for TCP, 1 for UDP); thread names are 0 for "CAS-TCP",
1 for "CAS-UDP", 2 for "CAS-UDP2". -/
def stThreads (win32 : Bool) (c : ifaceCtx) : ifaceStep :=
  let s := c.s.logs [.epicsThreadMustCreate 0 (c.s.threadPrios.getD 2 0), .epicsEventMustWait 0,
    .epicsThreadMustCreate 1 (c.s.threadPrios.getD 4 0), .epicsEventMustWait 1]
  let s := if win32 = false ∧ c.conf.udpbcast ≠ INVALID_SOCKET then
      s.logs [.epicsThreadMustCreate 2 (c.s.threadPrios.getD 4 0), .epicsEventMustWait 1]
    else s
  .finished s

/-- One pass of the loop of `rsrv_init` over the interfaces, for the node
`cur` and its TCP socket. -/
def ifaceBody (o : initOracle) (udp_port beacon_port : Nat) (i : Nat) (cur : osiSockAddr)
    (tcp : SOCKET) (s : serverState) : ifaceStep :=
  (((((((stBeaconSocket (o.iface i) s cur tcp).andThen (stBeaconBind (o.iface i))).andThen
    (stBroadcast (o.iface i) beacon_port)).andThen (stBeaconConnect (o.iface i))).andThen
    (stUdp (o.iface i) udp_port)).andThen (stBcast (o.iface i) o.win32)).andThen
    (stThreads o.win32))

/-- The loop of `rsrv_init` over the interfaces, from index `i` with `cur` the
nodes still to visit. -/
def ifaceLoop (o : initOracle) (udp_port beacon_port : Nat) (socks : List SOCKET) :
    Nat → List osiSockAddr → serverState → Except srvFault serverState
  | _, [], s => .ok s
  | i, cur :: rest, s =>
    match ifaceBody o udp_port beacon_port i cur (socks.getD i INVALID_SOCKET) s with
    | .finished s => ifaceLoop o udp_port beacon_port socks (i + 1) rest s
    | .next c => ifaceLoop o udp_port beacon_port socks (i + 1) rest c.s
    | .fault f => .error f

/-- How `rsrv_init` ends: it returns `RSRV_OK`, it stops, or the answers given
to `rsrv_grap_tcp` do not reach as far as its return. -/
inductive initResult where
  | returned (s : serverState)
  | fault (f : srvFault)
  | pending

/-- The C function `rsrv_init`; the thread name 3 is "CAS-beacon" and the
event 2 its start/stop event. -/
def rsrv_init (cfg : Config) (sizeofCaHdr : Nat) (o : initOracle) (s : serverState) :
    initResult :=
  match initGlobals cfg sizeofCaHdr o s with
  | .error f => .fault f
  | .ok (s, udp_port, beacon_port) =>
    match rsrv_grap_tcp s.casIntfAddrList s.nextSock s.ca_server_port o.binds with
    | .fault f => .fault f
    | .pending => .pending
    | .returned gst sport _ =>
      let s : serverState := { s with
        casIntfAddrList := gst.casIntfAddrList
        nextSock := gst.nextSock
        log := s.log ++ gst.log }
      let s : serverState :=
        if sport ≠ s.ca_server_port then
          ({ s with ca_server_port := sport }).logs [.print (.portUnavailable sport)]
        else s
      match ifaceLoop o udp_port beacon_port gst.socks 0 s.casIntfAddrList s with
      | .error f => .fault f
      | .ok s =>
        .returned (s.logs [.epicsThreadMustCreate 3 (s.threadPrios.getD 3 0),
          .epicsEventMustWait 2])


/-- A server state before `rsrv_init`, with the flags `casudp_ctl` and
`beacon_ctl` at `ctlRun`. -/
def demoServer : serverState :=
  { g := demoGlobals
    clientQ := []
    castcp_ctl := .ctlRun
    casudp_ctl := .ctlRun
    beacon_ctl := .ctlRun
    ca_server_port := 0
    casIntfAddrList := []
    beaconAddrList := []
    servers := []
    threadPrios := []
    nextSock := 3
    log := [] }

/-- Answers for one interface: everything succeeds, and two broadcast
addresses are discovered. -/
def demoIfaceOracle : ifaceOracle :=
  { beaconSocket := true
    beaconBind := .ok
    setsockopt := true
    bcastList := [3221226239, 3221226495]
    beaconConnect := true
    udpSocket := true
    udpBind := .ok
    bcastSocket := true
    bcastBind := .ok }

/-- An environment in which no interface is configured, so that the single
interface is `INADDR_ANY`, the ports are 5064 and 5065, and
`EPICS_CA_MAX_ARRAY_BYTES` reads as 16384. -/
def demoInitOracle : initOracle :=
  { EPICS_CAS_SERVER_PORT := none
    EPICS_CA_SERVER_PORT := 5064
    EPICS_CAS_BEACON_PORT := none
    EPICS_CA_REPEATER_PORT := 5065
    maxArrayStatus := 0
    maxBytesAsALong := 16384
    bucketCreate := true
    EPICS_CAS_INTF_ADDR_LIST := []
    epicsThreadPriorityCAServerLow := 20
    epicsThreadHighestPriorityLevelBelow := fun p => if 0 < p then some (p - 1) else none
    binds := [.bound none]
    iface := fun _ => demoIfaceOracle
    win32 := false }

/-- The environment `demoInitOracle` with the single interface 192.0.2.10
configured. -/
def demoInitOracleOne : initOracle :=
  { demoInitOracle with EPICS_CAS_INTF_ADDR_LIST := [3221225994] }

/-- The environment `demoInitOracle` with `EPICS_CA_MAX_ARRAY_BYTES` set to
4294967296, a value a 64-bit `long` holds. -/
def demoInitOracleHuge : initOracle :=
  { demoInitOracle with maxBytesAsALong := 4294967296 }

/-- The constants of `caProto.h` in the sizes EPICS uses: buffers of 16384
bytes. -/
def demoConfigWide : Config :=
  { demoConfig with MAX_TCP := 16384 }

/-- The state `s1` has the globals of the client code, the client queue and
the three control flags of `s`. -/
def keepsGlobals (s s1 : serverState) : Prop :=
  s1.g = s.g ∧ s1.clientQ = s.clientQ ∧ s1.castcp_ctl = s.castcp_ctl
    ∧ s1.casudp_ctl = s.casudp_ctl ∧ s1.beacon_ctl = s.beacon_ctl

/-- Whatever state a statement of the loop body ends in, it has the globals,
the client queue and the control flags of `s`. -/
def ifaceStep.keeps (s : serverState) : ifaceStep → Prop
  | .next c => keepsGlobals s c.s
  | .finished s1 => keepsGlobals s s1
  | .fault _ => True

/-- The effect starts a thread. -/
def srvEvent.startsThread : srvEvent → Bool
  | .epicsThreadMustCreate _ _ => true
  | _ => false

/-- The effect is the warning that an interface has more than one broadcast
address. -/
def srvEvent.warnsBroadcast : srvEvent → Bool
  | .print (.moreThanOneBroadcastAddress _) => true
  | _ => false

/-- The size the specification gives to `rsrvSizeofLargeBufTCP` when
`EPICS_CA_MAX_ARRAY_BYTES` reads as the non-negative value `m`:
`max(MAX_TCP, min(m + headerSize, 0xffffffff))`. -/
def largeBufSizeSpec (cfg : Config) (headerSize : Nat) (m : Int) : Nat :=
  max cfg.MAX_TCP (min (m.toNat + headerSize) 0xffffffff)
/-! ## Lemmas on the promotion code -/

theorem memcpy_ok {dst src : List Nat} {n : Nat} {r : List Nat}
    (h : memcpy dst src n = .ok r) :
    n ≤ src.length ∧ n ≤ dst.length ∧ r = src.take n ++ dst.drop n := by
  unfold memcpy at h
  split at h
  · rename_i hc
    simp only [Except.ok.injEq] at h
    exact ⟨hc.1, hc.2, h.symm⟩
  · cases h

theorem memcpy_eq_ok {dst src : List Nat} {n : Nat} (h1 : n ≤ src.length)
    (h2 : n ≤ dst.length) : memcpy dst src n = .ok (src.take n ++ dst.drop n) := by
  simp [memcpy, h1, h2]

theorem memcpy_length {dst src : List Nat} {n : Nat} {r : List Nat}
    (h : memcpy dst src n = .ok r) : r.length = dst.length := by
  obtain ⟨h1, h2, h3⟩ := memcpy_ok h
  subst h3
  simp [List.length_take, List.length_drop]
  omega

theorem memcpy_take {dst src : List Nat} {n : Nat} {r : List Nat}
    (h : memcpy dst src n = .ok r) : r.take n = src.take n := by
  obtain ⟨h1, _, h3⟩ := memcpy_ok h
  subst h3
  rw [List.take_append_of_le_length (by simp [List.length_take]; omega)]
  rw [List.take_take]
  simp

/-- Every promotion by `casExpandRecvBuffer` went through the whole guarded
block. -/
theorem casExpandRecvBuffer_promoted (cfg : Config) (o : expandOracle) (g g' : rsrvGlobals)
    (c c' : client) (size : Nat)
    (hres : casExpandRecvBuffer cfg o g c size = .ok (g', c'))
    (hsmall : c.recv.type = mbtSmallTCP) (hlarge : c'.recv.type = mbtLargeTCP) :
    ∃ old new g1, c.recv.buf = some old
      ∧ freeListCalloc g .rsrvLargeBufFreeListTCP o.grow = some g1
      ∧ c.recv.stk ≤ c.recv.cnt
      ∧ memcpy (zeroed g.rsrvSizeofLargeBufTCP) (old.bytes.drop c.recv.stk)
          (c.recv.cnt - c.recv.stk) = .ok new
      ∧ g' = (freeListFree g1 .rsrvSmallBufFreeListTCP).log
            (.freeListFreeBuf .rsrvSmallBufFreeListTCP old)
      ∧ c' = { c with recv := { c.recv with
                buf := some ⟨.pool .rsrvLargeBufFreeListTCP, new⟩,
                cnt := c.recv.cnt - c.recv.stk, stk := 0,
                maxstk := g.rsrvSizeofLargeBufTCP, type := mbtLargeTCP } }
      ∧ g.rsrvSizeofLargeBufTCP > cfg.MAX_TCP ∧ size ≤ g.rsrvSizeofLargeBufTCP := by
  have hne : ¬ c.recv.type = mbtLargeTCP := by rw [hsmall]; decide
  have same : (g, c) = (g', c') → False := by
    intro h
    rw [← (Prod.mk.inj h).2] at hlarge
    exact hne hlarge
  by_cases h1 : c.recv.type = mbtSmallTCP ∧ g.rsrvSizeofLargeBufTCP > cfg.MAX_TCP
      ∧ size ≤ g.rsrvSizeofLargeBufTCP
  swap
  · simp only [casExpandRecvBuffer, if_neg h1, Except.ok.injEq] at hres
    exact (same hres).elim
  by_cases h2 : o.osiSufficentSpaceInPool g.rsrvSizeofLargeBufTCP = true
      ∨ 0 < freeListItemsAvail g .rsrvLargeBufFreeListTCP
  swap
  · simp [casExpandRecvBuffer, h1, h2] at hres
    exact (same (Prod.ext hres.1 hres.2)).elim
  cases h3 : freeListCalloc g .rsrvLargeBufFreeListTCP o.grow with
  | none =>
    simp [casExpandRecvBuffer, h1, h2, h3] at hres
    exact (same (Prod.ext hres.1 hres.2)).elim
  | some g1 =>
    by_cases h4 : c.recv.cnt ≥ c.recv.stk
    swap
    · simp [casExpandRecvBuffer, h1, h2, h3, h4] at hres
    cases h5 : c.recv.buf with
    | none => simp [casExpandRecvBuffer, h1, h2, h3, h4, h5] at hres
    | some old =>
      cases h6 : memcpy (zeroed g.rsrvSizeofLargeBufTCP) (old.bytes.drop c.recv.stk)
          (c.recv.cnt - c.recv.stk) with
      | error f => simp [casExpandRecvBuffer, h1, h2, h3, h4, h5, h6] at hres
      | ok new =>
        simp [casExpandRecvBuffer, h1, h2, h3, h4, h5, h6] at hres
        exact ⟨old, new, g1, rfl, rfl, h4, h6, hres.1.symm, hres.2.symm, h1.2.1, h1.2.2⟩

/-- Every promotion by `casExpandSendBuffer` went through the whole guarded
block. -/
theorem casExpandSendBuffer_promoted (cfg : Config) (o : expandOracle) (g g' : rsrvGlobals)
    (c c' : client) (size : Nat)
    (hres : casExpandSendBuffer cfg o g c size = .ok (g', c'))
    (hsmall : c.send.type = mbtSmallTCP) (hlarge : c'.send.type = mbtLargeTCP) :
    ∃ old new g1, c.send.buf = some old
      ∧ freeListCalloc g .rsrvLargeBufFreeListTCP o.grow = some g1
      ∧ memcpy (zeroed g.rsrvSizeofLargeBufTCP) old.bytes c.send.stk = .ok new
      ∧ g' = (freeListFree g1 .rsrvSmallBufFreeListTCP).log
            (.freeListFreeBuf .rsrvSmallBufFreeListTCP old)
      ∧ c' = { c with send := { c.send with
                buf := some ⟨.pool .rsrvLargeBufFreeListTCP, new⟩,
                maxstk := g.rsrvSizeofLargeBufTCP, type := mbtLargeTCP } }
      ∧ g.rsrvSizeofLargeBufTCP > cfg.MAX_TCP ∧ size ≤ g.rsrvSizeofLargeBufTCP := by
  have hne : ¬ c.send.type = mbtLargeTCP := by rw [hsmall]; decide
  have same : (g, c) = (g', c') → False := by
    intro h
    rw [← (Prod.mk.inj h).2] at hlarge
    exact hne hlarge
  by_cases h1 : c.send.type = mbtSmallTCP ∧ g.rsrvSizeofLargeBufTCP > cfg.MAX_TCP
      ∧ size ≤ g.rsrvSizeofLargeBufTCP
  swap
  · simp only [casExpandSendBuffer, if_neg h1, Except.ok.injEq] at hres
    exact (same hres).elim
  by_cases h2 : o.osiSufficentSpaceInPool g.rsrvSizeofLargeBufTCP = true
      ∨ 0 < freeListItemsAvail g .rsrvLargeBufFreeListTCP
  swap
  · simp [casExpandSendBuffer, h1, h2] at hres
    exact (same (Prod.ext hres.1 hres.2)).elim
  cases h3 : freeListCalloc g .rsrvLargeBufFreeListTCP o.grow with
  | none =>
    simp [casExpandSendBuffer, h1, h2, h3] at hres
    exact (same (Prod.ext hres.1 hres.2)).elim
  | some g1 =>
    cases h5 : c.send.buf with
    | none => simp [casExpandSendBuffer, h1, h2, h3, h5] at hres
    | some old =>
      cases h6 : memcpy (zeroed g.rsrvSizeofLargeBufTCP) old.bytes c.send.stk with
      | error f => simp [casExpandSendBuffer, h1, h2, h3, h5, h6] at hres
      | ok new =>
        simp [casExpandSendBuffer, h1, h2, h3, h5, h6] at hres
        exact ⟨old, new, g1, rfl, rfl, h6, hres.1.symm, hres.2.symm, h1.2.1, h1.2.2⟩

/-- A successful `freeListCalloc` on the large pool changes that pool and the
trace and nothing else. -/
theorem freeListCalloc_large {g g1 : rsrvGlobals} {grow : Bool}
    (h : freeListCalloc g .rsrvLargeBufFreeListTCP grow = some g1) :
    g1 = { g with
      rsrvLargeBufFreeListTCP := g1.rsrvLargeBufFreeListTCP
      trace := g.trace ++ [.freeListCalloc .rsrvLargeBufFreeListTCP] }
    ∧ g1.rsrvLargeBufFreeListTCP.outstanding = g.rsrvLargeBufFreeListTCP.outstanding + 1
    ∧ (0 < g.rsrvLargeBufFreeListTCP.avail ∨ grow = true) := by
  unfold freeListCalloc at h
  simp only [rsrvGlobals.pool] at h
  split at h
  · rename_i hpos
    simp only [Option.some.injEq] at h
    subst h
    exact ⟨rfl, rfl, Or.inl hpos⟩
  · split at h
    · rename_i hg
      simp only [Option.some.injEq] at h
      subst h
      exact ⟨rfl, rfl, Or.inr hg⟩
    · cases h

/-! ## C1, C2: what a promotion preserves -/

/-- C1: whenever `casExpandRecvBuffer` promotes the receive slot of a client
(the type changes from small to large), the first `cnt` bytes of the new
buffer are the bytes `[stk .. cnt)` of the old buffer, the new `stk` is 0 and
the new `cnt` is the old `cnt - stk`. This holds for every client, so in
particular for those whose receive slot satisfies `stk ≤ cnt ≤ capacity`. -/
theorem casExpandRecvBuffer_keeps_unconsumed_window (cfg : Config) (o : expandOracle)
    (g g' : rsrvGlobals) (c c' : client) (size : Nat)
    (hres : casExpandRecvBuffer cfg o g c size = .ok (g', c'))
    (hsmall : c.recv.type = mbtSmallTCP) (hlarge : c'.recv.type = mbtLargeTCP) :
    ∃ old new, c.recv.buf = some old ∧ c'.recv.buf = some new
      ∧ new.bytes.take c'.recv.cnt
          = (old.bytes.drop c.recv.stk).take (c.recv.cnt - c.recv.stk)
      ∧ (new.bytes.take c'.recv.cnt).length = c'.recv.cnt
      ∧ c.recv.stk ≤ c.recv.cnt
      ∧ c'.recv.stk = 0
      ∧ c'.recv.cnt = c.recv.cnt - c.recv.stk := by
  obtain ⟨old, new, g1, hold, _, hle, hm, _, hc', _, _⟩ :=
    casExpandRecvBuffer_promoted cfg o g g' c c' size hres hsmall hlarge
  subst hc'
  refine ⟨old, ⟨.pool .rsrvLargeBufFreeListTCP, new⟩, hold, rfl, ?_, ?_, hle, rfl, rfl⟩
  · exact memcpy_take hm
  · have h := memcpy_ok hm
    have hl := memcpy_length hm
    simp only [List.length_take]
    omega

/-- C1 at `demoClient`: the unconsumed bytes 11, 12 move to the front. -/
theorem casExpandRecvBuffer_keeps_unconsumed_window_witness :
    casExpandRecvBuffer demoConfig demoPlenty demoGlobals demoClient 5
        = .ok (demoGlobalsPromoted ⟨.pool .rsrvSmallBufFreeListTCP, [10, 11, 12, 13]⟩,
            demoClientRecvPromoted)
      ∧ demoClient.recv.type = mbtSmallTCP
      ∧ demoClientRecvPromoted.recv.type = mbtLargeTCP
      ∧ ∃ old new, demoClient.recv.buf = some old ∧ demoClientRecvPromoted.recv.buf = some new
          ∧ new.bytes.take demoClientRecvPromoted.recv.cnt
              = (old.bytes.drop demoClient.recv.stk).take
                  (demoClient.recv.cnt - demoClient.recv.stk)
          ∧ (new.bytes.take demoClientRecvPromoted.recv.cnt).length
              = demoClientRecvPromoted.recv.cnt
          ∧ demoClient.recv.stk ≤ demoClient.recv.cnt
          ∧ demoClientRecvPromoted.recv.stk = 0
          ∧ demoClientRecvPromoted.recv.cnt = demoClient.recv.cnt - demoClient.recv.stk :=
  ⟨by rfl, by rfl, by rfl,
    casExpandRecvBuffer_keeps_unconsumed_window demoConfig demoPlenty demoGlobals _ demoClient
      demoClientRecvPromoted 5 (by rfl) (by rfl) (by rfl)⟩


/-- C2: whenever `casExpandSendBuffer` promotes the send slot of a client (the
type changes from small to large), the capacity is `rsrvSizeofLargeBufTCP`,
which is also the size of the new buffer, `stk` is unchanged, the first `stk`
bytes of the new buffer are the first `stk` bytes of the old one, and the old
slab has been released to the small-TCP pool and to no other pool: the call
adds to the trace one allocation from the large pool and one release of the
old slab to the small pool, the small pool has one more free item and one
less outstanding, the large pool has one more outstanding, and the other four
pools are as they were. -/
theorem casExpandSendBuffer_promotion_effect (cfg : Config) (o : expandOracle)
    (g g' : rsrvGlobals) (c c' : client) (size : Nat)
    (hres : casExpandSendBuffer cfg o g c size = .ok (g', c'))
    (hsmall : c.send.type = mbtSmallTCP) (hlarge : c'.send.type = mbtLargeTCP) :
    c'.send.maxstk = g.rsrvSizeofLargeBufTCP
      ∧ c'.send.stk = c.send.stk
      ∧ (∃ old new, c.send.buf = some old ∧ c'.send.buf = some new
          ∧ new.origin = .pool .rsrvLargeBufFreeListTCP
          ∧ new.bytes.length = g.rsrvSizeofLargeBufTCP
          ∧ new.bytes.take c.send.stk = old.bytes.take c.send.stk
          ∧ (old.bytes.take c.send.stk).length = c.send.stk
          ∧ g'.trace = g.trace ++ [.freeListCalloc .rsrvLargeBufFreeListTCP,
              .freeListFreeBuf .rsrvSmallBufFreeListTCP old])
      ∧ g'.rsrvSmallBufFreeListTCP
          = ⟨g.rsrvSmallBufFreeListTCP.avail + 1, g.rsrvSmallBufFreeListTCP.outstanding - 1⟩
      ∧ g'.rsrvLargeBufFreeListTCP.outstanding = g.rsrvLargeBufFreeListTCP.outstanding + 1
      ∧ g'.rsrvClientFreeList = g.rsrvClientFreeList
      ∧ g'.rsrvChanFreeList = g.rsrvChanFreeList
      ∧ g'.rsrvEventFreeList = g.rsrvEventFreeList
      ∧ g'.rsrvPutNotifyFreeList = g.rsrvPutNotifyFreeList := by
  obtain ⟨old, new, g1, hold, hg1, hm, hg', hc', _, _⟩ :=
    casExpandSendBuffer_promoted cfg o g g' c c' size hres hsmall hlarge
  obtain ⟨hg1eq, hout, _⟩ := freeListCalloc_large hg1
  subst hc' hg'
  rw [hg1eq]
  refine ⟨rfl, rfl, ⟨old, ⟨.pool .rsrvLargeBufFreeListTCP, new⟩, hold, rfl, rfl, ?_, ?_, ?_,
    ?_⟩, rfl, hout, rfl, rfl, rfl, rfl⟩
  · have := memcpy_length hm
    simpa [zeroed] using this
  · exact memcpy_take hm
  · have h := memcpy_ok hm
    simp only [List.length_take]
    omega
  · simp [rsrvGlobals.log, freeListFree, rsrvGlobals.setPool, rsrvGlobals.pool]

/-- C2 in the scenario of the spec: `rsrvSizeofLargeBufTCP = 2 * MAX_TCP`, a
request for `MAX_TCP + 1` bytes, a large slab obtainable. -/
theorem casExpandSendBuffer_promotion_effect_witness :
    demoGlobals.rsrvSizeofLargeBufTCP = 2 * demoConfig.MAX_TCP
      ∧ casExpandSendBuffer demoConfig demoPlenty demoGlobals demoClient
          (demoConfig.MAX_TCP + 1)
        = .ok (demoGlobalsPromoted ⟨.pool .rsrvSmallBufFreeListTCP, [1, 2, 3, 4]⟩,
            demoClientSendPromoted)
      ∧ demoClient.send.type = mbtSmallTCP
      ∧ demoClientSendPromoted.send.type = mbtLargeTCP
      ∧ demoClientSendPromoted.send.maxstk = demoGlobals.rsrvSizeofLargeBufTCP
      ∧ demoClientSendPromoted.send.stk = demoClient.send.stk :=
  have h := casExpandSendBuffer_promotion_effect demoConfig demoPlenty demoGlobals
    (demoGlobalsPromoted ⟨.pool .rsrvSmallBufFreeListTCP, [1, 2, 3, 4]⟩) demoClient
    demoClientSendPromoted (demoConfig.MAX_TCP + 1) (by rfl) (by rfl) (by rfl)
  ⟨by rfl, by rfl, by rfl, by rfl, h.1, h.2.1⟩


/-! ## C3, C4: when a promotion happens -/

theorem wellFormed_buf {cfg : Config} {m : message_buffer} (h : m.wellFormed cfg) :
    ∃ b, m.buf = some b ∧ b.bytes.length = m.maxstk := by
  have hb := h.2.1
  unfold message_buffer.backed at hb
  cases hbuf : m.buf with
  | none => rw [hbuf] at hb; cases hb
  | some b =>
    rw [hbuf] at hb
    simp only [Option.map_some', Option.some.injEq] at hb
    exact ⟨b, rfl, hb⟩

theorem freeListCalloc_isSome (g : rsrvGlobals) (p : poolId) (grow : Bool)
    (h : 0 < freeListItemsAvail g p ∨ grow = true) :
    ∃ g1, freeListCalloc g p grow = some g1 := by
  unfold freeListCalloc
  unfold freeListItemsAvail at h
  by_cases h0 : 0 < (g.pool p).avail
  · simp [h0]
  · have hg : grow = true := h.resolve_left h0
    simp [h0, hg]

theorem freeListCalloc_eq_none (g : rsrvGlobals) (p : poolId) (grow : Bool)
    (h0 : freeListItemsAvail g p = 0) (hg : grow = false) :
    freeListCalloc g p grow = none := by
  unfold freeListCalloc
  unfold freeListItemsAvail at h0
  simp [h0, hg]

/-- The successful path of `casExpandSendBuffer`. -/
theorem casExpandSendBuffer_eq_promote (cfg : Config) (o : expandOracle) (g g1 : rsrvGlobals)
    (c : client) (size : Nat) (old : slab) (new : List Nat)
    (h1 : c.send.type = mbtSmallTCP) (hbig : g.rsrvSizeofLargeBufTCP > cfg.MAX_TCP)
    (hsize : size ≤ g.rsrvSizeofLargeBufTCP)
    (h2 : o.osiSufficentSpaceInPool g.rsrvSizeofLargeBufTCP = true
      ∨ 0 < freeListItemsAvail g .rsrvLargeBufFreeListTCP)
    (h3 : freeListCalloc g .rsrvLargeBufFreeListTCP o.grow = some g1)
    (h5 : c.send.buf = some old)
    (h6 : memcpy (zeroed g.rsrvSizeofLargeBufTCP) old.bytes c.send.stk = .ok new) :
    casExpandSendBuffer cfg o g c size
      = .ok ((freeListFree g1 .rsrvSmallBufFreeListTCP).log
            (.freeListFreeBuf .rsrvSmallBufFreeListTCP old),
          { c with send := { c.send with
              buf := some ⟨.pool .rsrvLargeBufFreeListTCP, new⟩,
              maxstk := g.rsrvSizeofLargeBufTCP, type := mbtLargeTCP } }) := by
  simp [casExpandSendBuffer, h1, hbig, hsize, h2, h3, h5, h6]

/-- The successful path of `casExpandRecvBuffer`. -/
theorem casExpandRecvBuffer_eq_promote (cfg : Config) (o : expandOracle) (g g1 : rsrvGlobals)
    (c : client) (size : Nat) (old : slab) (new : List Nat)
    (h1 : c.recv.type = mbtSmallTCP) (hbig : g.rsrvSizeofLargeBufTCP > cfg.MAX_TCP)
    (hsize : size ≤ g.rsrvSizeofLargeBufTCP)
    (h2 : o.osiSufficentSpaceInPool g.rsrvSizeofLargeBufTCP = true
      ∨ 0 < freeListItemsAvail g .rsrvLargeBufFreeListTCP)
    (h3 : freeListCalloc g .rsrvLargeBufFreeListTCP o.grow = some g1)
    (h4 : c.recv.stk ≤ c.recv.cnt)
    (h5 : c.recv.buf = some old)
    (h6 : memcpy (zeroed g.rsrvSizeofLargeBufTCP) (old.bytes.drop c.recv.stk)
      (c.recv.cnt - c.recv.stk) = .ok new) :
    casExpandRecvBuffer cfg o g c size
      = .ok ((freeListFree g1 .rsrvSmallBufFreeListTCP).log
            (.freeListFreeBuf .rsrvSmallBufFreeListTCP old),
          { c with recv := { c.recv with
              buf := some ⟨.pool .rsrvLargeBufFreeListTCP, new⟩,
              cnt := c.recv.cnt - c.recv.stk, stk := 0,
              maxstk := g.rsrvSizeofLargeBufTCP, type := mbtLargeTCP } }) := by
  simp [casExpandRecvBuffer, h1, hbig, hsize, h2, h3, h4, h5, h6]

/-- The paths of `casExpandSendBuffer` that skip the guarded block. -/
theorem casExpandSendBuffer_eq_unchanged (cfg : Config) (o : expandOracle) (g : rsrvGlobals)
    (c : client) (size : Nat)
    (h : c.send.type ≠ mbtSmallTCP ∨ ¬ g.rsrvSizeofLargeBufTCP > cfg.MAX_TCP
      ∨ size > g.rsrvSizeofLargeBufTCP
      ∨ (freeListItemsAvail g .rsrvLargeBufFreeListTCP = 0
          ∧ o.osiSufficentSpaceInPool g.rsrvSizeofLargeBufTCP = false)
      ∨ freeListCalloc g .rsrvLargeBufFreeListTCP o.grow = none) :
    casExpandSendBuffer cfg o g c size = .ok (g, c) := by
  unfold casExpandSendBuffer
  rcases h with h | h | h | h | h
  · simp [h]
  · simp [h]
  · have : ¬ size ≤ g.rsrvSizeofLargeBufTCP := by omega
    simp [this]
  · simp [h.1, h.2]
  · simp [h]

/-- The paths of `casExpandRecvBuffer` that skip the guarded block. -/
theorem casExpandRecvBuffer_eq_unchanged (cfg : Config) (o : expandOracle) (g : rsrvGlobals)
    (c : client) (size : Nat)
    (h : c.recv.type ≠ mbtSmallTCP ∨ ¬ g.rsrvSizeofLargeBufTCP > cfg.MAX_TCP
      ∨ size > g.rsrvSizeofLargeBufTCP
      ∨ (freeListItemsAvail g .rsrvLargeBufFreeListTCP = 0
          ∧ o.osiSufficentSpaceInPool g.rsrvSizeofLargeBufTCP = false)
      ∨ freeListCalloc g .rsrvLargeBufFreeListTCP o.grow = none) :
    casExpandRecvBuffer cfg o g c size = .ok (g, c) := by
  unfold casExpandRecvBuffer
  rcases h with h | h | h | h | h
  · simp [h]
  · simp [h]
  · have : ¬ size ≤ g.rsrvSizeofLargeBufTCP := by omega
    simp [this]
  · simp [h.1, h.2]
  · simp [h]


/-- C3, refuted as stated: a small slot, a size that fits in a large buffer
and a large pool with a free slab (or a memory oracle that reports sufficient
space) do not suffice for a promotion. With `rsrvSizeofLargeBufTCP` at its
floor `MAX_TCP` the guard `rsrvSizeofLargeBufTCP > MAX_TCP` keeps both slots
small, and with an empty large free list and a heap that refuses the request
`freeListCalloc` returns null and both slots stay small although the memory
oracle reported sufficient space. -/
theorem expand_not_always_promoting :
    (demoClient.send.type = mbtSmallTCP ∧ demoClient.recv.type = mbtSmallTCP
      ∧ 4 ≤ demoGlobalsFloor.rsrvSizeofLargeBufTCP
      ∧ 0 < freeListItemsAvail demoGlobalsFloor .rsrvLargeBufFreeListTCP
      ∧ demoPlenty.osiSufficentSpaceInPool demoGlobalsFloor.rsrvSizeofLargeBufTCP = true
      ∧ casExpandSendBuffer demoConfig demoPlenty demoGlobalsFloor demoClient 4
          = .ok (demoGlobalsFloor, demoClient)
      ∧ casExpandRecvBuffer demoConfig demoPlenty demoGlobalsFloor demoClient 4
          = .ok (demoGlobalsFloor, demoClient)
      ∧ demoClient.send.type ≠ mbtLargeTCP ∧ demoClient.recv.type ≠ mbtLargeTCP)
    ∧ (5 ≤ demoGlobals.rsrvSizeofLargeBufTCP
      ∧ demoRefused.osiSufficentSpaceInPool demoGlobals.rsrvSizeofLargeBufTCP = true
      ∧ casExpandSendBuffer demoConfig demoRefused demoGlobals demoClient 5
          = .ok (demoGlobals, demoClient)
      ∧ casExpandRecvBuffer demoConfig demoRefused demoGlobals demoClient 5
          = .ok (demoGlobals, demoClient)) :=
  ⟨⟨by rfl, by rfl, by decide, by decide, by rfl, by rfl, by rfl, by decide, by decide⟩,
    ⟨by decide, by rfl, by rfl, by rfl⟩⟩

/-- C3, amended: for every size and every client, if
`rsrvSizeofLargeBufTCP > MAX_TCP`, the size fits in a large buffer, and either
the large pool has a free slab or the memory oracle reports sufficient space
and the heap supplies a fresh slab, then `casExpandSendBuffer` on a small send
slot whose buffer is present with its `MAX_TCP` bytes and whose `stk` is at
most `MAX_TCP` (whatever `cnt` is) returns with the slot's type large, and
`casExpandRecvBuffer` on a small well-formed receive slot
(`stk ≤ cnt ≤ capacity = MAX_TCP`, the buffer present with that many bytes)
returns with the slot's type large. -/
theorem expand_promotes_when_possible (cfg : Config) (o : expandOracle) (g : rsrvGlobals)
    (c : client) (size : Nat)
    (hbig : g.rsrvSizeofLargeBufTCP > cfg.MAX_TCP)
    (hsize : size ≤ g.rsrvSizeofLargeBufTCP)
    (hspace : 0 < freeListItemsAvail g .rsrvLargeBufFreeListTCP
      ∨ (o.osiSufficentSpaceInPool g.rsrvSizeofLargeBufTCP = true ∧ o.grow = true)) :
    (c.send.type = mbtSmallTCP → c.send.backed → c.send.maxstk = cfg.MAX_TCP →
        c.send.stk ≤ cfg.MAX_TCP →
        ∃ g' c', casExpandSendBuffer cfg o g c size = .ok (g', c')
          ∧ c'.send.type = mbtLargeTCP)
      ∧ (c.recv.type = mbtSmallTCP → c.recv.wellFormed cfg →
        ∃ g' c', casExpandRecvBuffer cfg o g c size = .ok (g', c')
          ∧ c'.recv.type = mbtLargeTCP) := by
  have h2 : o.osiSufficentSpaceInPool g.rsrvSizeofLargeBufTCP = true
      ∨ 0 < freeListItemsAvail g .rsrvLargeBufFreeListTCP := by
    rcases hspace with h | h
    · exact Or.inr h
    · exact Or.inl h.1
  obtain ⟨g1, h3⟩ := freeListCalloc_isSome g .rsrvLargeBufFreeListTCP o.grow
    (hspace.imp id (fun h => h.2))
  constructor
  · intro hsmall hback hcap hstk
    unfold message_buffer.backed at hback
    cases hold : c.send.buf with
    | none =>
      rw [hold] at hback
      cases hback
    | some old =>
      rw [hold] at hback
      simp only [Option.map_some', Option.some.injEq] at hback
      have h6 := @memcpy_eq_ok (zeroed g.rsrvSizeofLargeBufTCP) old.bytes c.send.stk
        (by omega) (by simp [zeroed]; omega)
      exact ⟨_, _, casExpandSendBuffer_eq_promote cfg o g g1 c size old _ hsmall hbig hsize h2 h3
        hold h6, rfl⟩
  · intro hsmall hwf
    obtain ⟨old, hold, hlen⟩ := wellFormed_buf hwf
    have hcap := hwf.2.2 hsmall
    have hinv := hwf.1
    unfold message_buffer.inv at hinv
    have h6 := @memcpy_eq_ok (zeroed g.rsrvSizeofLargeBufTCP) (old.bytes.drop c.recv.stk)
      (c.recv.cnt - c.recv.stk) (by simp [List.length_drop]; omega) (by simp [zeroed]; omega)
    exact ⟨_, _, casExpandRecvBuffer_eq_promote cfg o g g1 c size old _ hsmall hbig hsize h2 h3
      hinv.1 hold h6, rfl⟩

/-- C3, amended, at `demoClientPending`, whose send slot has three bytes
pending and `cnt = 0`: both slots are promoted. -/
theorem expand_promotes_when_possible_witness :
    (demoGlobals.rsrvSizeofLargeBufTCP > demoConfig.MAX_TCP
      ∧ 5 ≤ demoGlobals.rsrvSizeofLargeBufTCP
      ∧ demoClientPending.send.type = mbtSmallTCP ∧ demoClientPending.send.backed
      ∧ demoClientPending.send.maxstk = demoConfig.MAX_TCP
      ∧ demoClientPending.send.stk = 3 ∧ demoClientPending.send.cnt = 0
      ∧ demoClientPending.recv.type = mbtSmallTCP
      ∧ demoClientPending.recv.wellFormed demoConfig)
    ∧ (∃ g' c', casExpandSendBuffer demoConfig demoPlenty demoGlobals demoClientPending 5
          = .ok (g', c')
          ∧ c'.send.type = mbtLargeTCP)
    ∧ (∃ g' c', casExpandRecvBuffer demoConfig demoPlenty demoGlobals demoClientPending 5
          = .ok (g', c')
          ∧ c'.recv.type = mbtLargeTCP) :=
  have hr : demoClientPending.recv.wellFormed demoConfig :=
    ⟨⟨by decide, by decide⟩, by rfl, fun _ => by rfl⟩
  have h := expand_promotes_when_possible demoConfig demoPlenty demoGlobals demoClientPending 5
    (by decide) (by decide) (Or.inr ⟨by rfl, by rfl⟩)
  ⟨⟨by decide, by decide, by rfl, by rfl, by rfl, by rfl, by rfl, by rfl, hr⟩,
    h.1 (by rfl) (by rfl) (by rfl) (by decide), h.2 (by rfl) hr⟩


/-- A returning call of `casExpandSendBuffer` either changes nothing or is a
promotion of a small send slot; the receive slot is never touched. -/
theorem casExpandSendBuffer_cases (cfg : Config) (o : expandOracle) (g g' : rsrvGlobals)
    (c c' : client) (size : Nat)
    (hres : casExpandSendBuffer cfg o g c size = .ok (g', c')) :
    (g' = g ∧ c' = c)
      ∨ (c.send.type = mbtSmallTCP ∧ c'.send.type = mbtLargeTCP ∧ c'.recv = c.recv) := by
  by_cases h1 : c.send.type = mbtSmallTCP ∧ g.rsrvSizeofLargeBufTCP > cfg.MAX_TCP
      ∧ size ≤ g.rsrvSizeofLargeBufTCP
  swap
  · simp only [casExpandSendBuffer, if_neg h1, Except.ok.injEq, Prod.mk.injEq] at hres
    exact Or.inl ⟨hres.1.symm, hres.2.symm⟩
  by_cases h2 : o.osiSufficentSpaceInPool g.rsrvSizeofLargeBufTCP = true
      ∨ 0 < freeListItemsAvail g .rsrvLargeBufFreeListTCP
  swap
  · simp [casExpandSendBuffer, h1, h2] at hres
    exact Or.inl ⟨hres.1.symm, hres.2.symm⟩
  cases h3 : freeListCalloc g .rsrvLargeBufFreeListTCP o.grow with
  | none =>
    simp [casExpandSendBuffer, h1, h2, h3] at hres
    exact Or.inl ⟨hres.1.symm, hres.2.symm⟩
  | some g1 =>
    cases h5 : c.send.buf with
    | none => simp [casExpandSendBuffer, h1, h2, h3, h5] at hres
    | some old =>
      cases h6 : memcpy (zeroed g.rsrvSizeofLargeBufTCP) old.bytes c.send.stk with
      | error f => simp [casExpandSendBuffer, h1, h2, h3, h5, h6] at hres
      | ok new =>
        simp [casExpandSendBuffer, h1, h2, h3, h5, h6] at hres
        refine Or.inr ⟨h1.1, ?_, ?_⟩
        · rw [← hres.2]
        · rw [← hres.2]

/-- A returning call of `casExpandRecvBuffer` either changes nothing or is a
promotion of a small receive slot; the send slot is never touched. -/
theorem casExpandRecvBuffer_cases (cfg : Config) (o : expandOracle) (g g' : rsrvGlobals)
    (c c' : client) (size : Nat)
    (hres : casExpandRecvBuffer cfg o g c size = .ok (g', c')) :
    (g' = g ∧ c' = c)
      ∨ (c.recv.type = mbtSmallTCP ∧ c'.recv.type = mbtLargeTCP ∧ c'.send = c.send) := by
  by_cases h1 : c.recv.type = mbtSmallTCP ∧ g.rsrvSizeofLargeBufTCP > cfg.MAX_TCP
      ∧ size ≤ g.rsrvSizeofLargeBufTCP
  swap
  · simp only [casExpandRecvBuffer, if_neg h1, Except.ok.injEq, Prod.mk.injEq] at hres
    exact Or.inl ⟨hres.1.symm, hres.2.symm⟩
  by_cases h2 : o.osiSufficentSpaceInPool g.rsrvSizeofLargeBufTCP = true
      ∨ 0 < freeListItemsAvail g .rsrvLargeBufFreeListTCP
  swap
  · simp [casExpandRecvBuffer, h1, h2] at hres
    exact Or.inl ⟨hres.1.symm, hres.2.symm⟩
  cases h3 : freeListCalloc g .rsrvLargeBufFreeListTCP o.grow with
  | none =>
    simp [casExpandRecvBuffer, h1, h2, h3] at hres
    exact Or.inl ⟨hres.1.symm, hres.2.symm⟩
  | some g1 =>
    by_cases h4 : c.recv.cnt ≥ c.recv.stk
    swap
    · simp [casExpandRecvBuffer, h1, h2, h3, h4] at hres
    cases h5 : c.recv.buf with
    | none => simp [casExpandRecvBuffer, h1, h2, h3, h4, h5] at hres
    | some old =>
      cases h6 : memcpy (zeroed g.rsrvSizeofLargeBufTCP) (old.bytes.drop c.recv.stk)
          (c.recv.cnt - c.recv.stk) with
      | error f => simp [casExpandRecvBuffer, h1, h2, h3, h4, h5, h6] at hres
      | ok new =>
        simp [casExpandRecvBuffer, h1, h2, h3, h4, h5, h6] at hres
        refine Or.inr ⟨h1.1, ?_, ?_⟩
        · rw [← hres.2]
        · rw [← hres.2]

/-- One promotion request leaves a slot alone that is not tagged small. -/
theorem expandCall_run_frame (cfg : Config) (call : expandCall) (s s' : rsrvGlobals × client)
    (hres : call.run cfg s = .ok s') :
    (s.2.send.type ≠ mbtSmallTCP → s'.2.send = s.2.send)
      ∧ (s.2.recv.type ≠ mbtSmallTCP → s'.2.recv = s.2.recv) := by
  obtain ⟨g, c⟩ := s
  obtain ⟨g', c'⟩ := s'
  cases call with
  | send o size =>
    rcases casExpandSendBuffer_cases cfg o g g' c c' size hres with h | h
    · simp [h.2]
    · exact ⟨fun hn => absurd h.1 hn, fun _ => h.2.2⟩
  | recv o size =>
    rcases casExpandRecvBuffer_cases cfg o g g' c c' size hres with h | h
    · simp [h.2]
    · exact ⟨fun _ => h.2.2, fun hn => absurd h.1 hn⟩

/-- A sequence of promotion requests leaves a slot alone that is tagged
large. -/
theorem runExpand_frame (cfg : Config) (calls : List expandCall) :
    ∀ s s' : rsrvGlobals × client, runExpand cfg calls s = .ok s' →
      (s.2.send.type = mbtLargeTCP → s'.2.send = s.2.send)
        ∧ (s.2.recv.type = mbtLargeTCP → s'.2.recv = s.2.recv) := by
  induction calls with
  | nil =>
    intro s s' h
    simp only [runExpand, Except.ok.injEq] at h
    subst h
    exact ⟨fun _ => rfl, fun _ => rfl⟩
  | cons call rest ih =>
    intro s s' h
    cases h1 : call.run cfg s with
    | error f => simp [runExpand, h1] at h
    | ok s1 =>
      simp only [runExpand, h1] at h
      have hf := expandCall_run_frame cfg call s s1 h1
      have hi := ih s1 s' h
      constructor
      · intro hl
        have e : s1.2.send = s.2.send := hf.1 (by rw [hl]; decide)
        rw [← e]
        exact hi.1 (by rw [e]; exact hl)
      · intro hl
        have e : s1.2.recv = s.2.recv := hf.2 (by rw [hl]; decide)
        rw [← e]
        exact hi.2 (by rw [e]; exact hl)

/-- C4: a call of `casExpandSendBuffer` or `casExpandRecvBuffer` on a slot
whose type is not small, or with a size above `rsrvSizeofLargeBufTCP`, or
while the large pool has no free slab and the memory oracle reports
insufficient space, returns with the client record and the globals (every
pool, and the trace of effects) unchanged. Consequently, over any sequence of
such calls, a slot that is large keeps its type, buffer and capacity (the
whole slot is unchanged). -/
theorem expand_leaves_unchanged (cfg : Config) :
    (∀ (o : expandOracle) (g : rsrvGlobals) (c : client) (size : Nat),
        (c.send.type ≠ mbtSmallTCP ∨ size > g.rsrvSizeofLargeBufTCP
          ∨ (freeListItemsAvail g .rsrvLargeBufFreeListTCP = 0
              ∧ o.osiSufficentSpaceInPool g.rsrvSizeofLargeBufTCP = false)) →
        casExpandSendBuffer cfg o g c size = .ok (g, c))
    ∧ (∀ (o : expandOracle) (g : rsrvGlobals) (c : client) (size : Nat),
        (c.recv.type ≠ mbtSmallTCP ∨ size > g.rsrvSizeofLargeBufTCP
          ∨ (freeListItemsAvail g .rsrvLargeBufFreeListTCP = 0
              ∧ o.osiSufficentSpaceInPool g.rsrvSizeofLargeBufTCP = false)) →
        casExpandRecvBuffer cfg o g c size = .ok (g, c))
    ∧ (∀ (calls : List expandCall) (s s' : rsrvGlobals × client),
        runExpand cfg calls s = .ok s' →
          (s.2.send.type = mbtLargeTCP → s'.2.send = s.2.send)
            ∧ (s.2.recv.type = mbtLargeTCP → s'.2.recv = s.2.recv)) := by
  refine ⟨?_, ?_, runExpand_frame cfg⟩
  · intro o g c size h
    apply casExpandSendBuffer_eq_unchanged
    rcases h with h | h | h
    · exact Or.inl h
    · exact Or.inr (Or.inr (Or.inl h))
    · exact Or.inr (Or.inr (Or.inr (Or.inl h)))
  · intro o g c size h
    apply casExpandRecvBuffer_eq_unchanged
    rcases h with h | h | h
    · exact Or.inl h
    · exact Or.inr (Or.inr (Or.inl h))
    · exact Or.inr (Or.inr (Or.inr (Or.inl h)))

/-- C4 at a client whose send slot was promoted: a further request on the send
slot changes nothing, an oversized request on the small receive slot changes
nothing, and a sequence of three requests that promotes the receive slot
leaves the send slot as it was. -/
theorem expand_leaves_unchanged_witness :
    casExpandSendBuffer demoConfig demoPlenty demoGlobals demoClientSendPromoted 8
        = .ok (demoGlobals, demoClientSendPromoted)
      ∧ casExpandRecvBuffer demoConfig demoPlenty demoGlobals demoClientSendPromoted 9
        = .ok (demoGlobals, demoClientSendPromoted)
      ∧ (runExpand demoConfig [.send demoPlenty 8, .recv demoPlenty 5, .send demoPlenty 3]
            (demoGlobals, demoClientSendPromoted)
          = .ok (demoGlobalsPromoted ⟨.pool .rsrvSmallBufFreeListTCP, [10, 11, 12, 13]⟩,
              { demoClientSendPromoted with recv := demoClientRecvPromoted.recv }))
      ∧ ({ demoClientSendPromoted with recv := demoClientRecvPromoted.recv } : client).send
          = demoClientSendPromoted.send :=
  have h := expand_leaves_unchanged demoConfig
  ⟨h.1 demoPlenty demoGlobals demoClientSendPromoted 8 (Or.inl (by decide)),
    h.2.1 demoPlenty demoGlobals demoClientSendPromoted 9 (Or.inr (Or.inl (by decide))),
    by rfl,
    (h.2.2 [.send demoPlenty 8, .recv demoPlenty 5, .send demoPlenty 3]
      (demoGlobals, demoClientSendPromoted) _ (by rfl)).1 (by rfl)⟩


/-! ## C5: the slot invariant -/

/-- On a well-formed send slot `casExpandSendBuffer` returns, and the slot is
well-formed afterwards. -/
theorem casExpandSendBuffer_wellFormed (cfg : Config) (o : expandOracle) (g : rsrvGlobals)
    (c : client) (size : Nat) (hwf : c.send.wellFormed cfg) :
    ∃ g' c', casExpandSendBuffer cfg o g c size = .ok (g', c')
      ∧ c'.send.wellFormed cfg ∧ c'.recv = c.recv := by
  by_cases hgo : (c.send.type = mbtSmallTCP ∧ g.rsrvSizeofLargeBufTCP > cfg.MAX_TCP
      ∧ size ≤ g.rsrvSizeofLargeBufTCP)
      ∧ (o.osiSufficentSpaceInPool g.rsrvSizeofLargeBufTCP = true
        ∨ 0 < freeListItemsAvail g .rsrvLargeBufFreeListTCP)
      ∧ (freeListCalloc g .rsrvLargeBufFreeListTCP o.grow).isSome = true
  · obtain ⟨⟨hsmall, hbig, hsize⟩, h2, h3⟩ := hgo
    obtain ⟨g1, h3⟩ := Option.isSome_iff_exists.mp h3
    obtain ⟨old, hold, hlen⟩ := wellFormed_buf hwf
    have hcap := hwf.2.2 hsmall
    have hinv := hwf.1
    unfold message_buffer.inv at hinv
    have h6 := @memcpy_eq_ok (zeroed g.rsrvSizeofLargeBufTCP) old.bytes c.send.stk
      (by omega) (by simp [zeroed]; omega)
    refine ⟨_, _, casExpandSendBuffer_eq_promote cfg o g g1 c size old _ hsmall hbig hsize h2 h3
      hold h6, ?_, rfl⟩
    refine ⟨⟨hinv.1, ?_⟩, ?_, ?_⟩
    · show c.send.cnt ≤ g.rsrvSizeofLargeBufTCP
      omega
    · have hl := memcpy_length h6
      simp only [message_buffer.backed, Option.map_some', Option.some.injEq]
      simpa [zeroed] using hl
    · intro h
      have h' : mbtLargeTCP = mbtSmallTCP := h
      exact absurd h' (by decide)
  · refine ⟨g, c, casExpandSendBuffer_eq_unchanged cfg o g c size ?_, hwf, rfl⟩
    by_contra hcon
    apply hgo
    simp only [not_or, not_not, not_and, gt_iff_lt, not_lt, ne_eq] at hcon
    obtain ⟨h1, h2, h3, h4, h5⟩ := hcon
    refine ⟨⟨h1, by omega, by omega⟩, ?_, ?_⟩
    · by_cases ha : 0 < freeListItemsAvail g .rsrvLargeBufFreeListTCP
      · exact Or.inr ha
      · left
        have := h4 (by omega)
        simpa using this
    · cases hc : freeListCalloc g .rsrvLargeBufFreeListTCP o.grow with
      | none => exact absurd hc h5
      | some _ => rfl

/-- On a well-formed receive slot `casExpandRecvBuffer` returns, and the slot
is well-formed afterwards. -/
theorem casExpandRecvBuffer_wellFormed (cfg : Config) (o : expandOracle) (g : rsrvGlobals)
    (c : client) (size : Nat) (hwf : c.recv.wellFormed cfg) :
    ∃ g' c', casExpandRecvBuffer cfg o g c size = .ok (g', c')
      ∧ c'.recv.wellFormed cfg ∧ c'.send = c.send := by
  by_cases hgo : (c.recv.type = mbtSmallTCP ∧ g.rsrvSizeofLargeBufTCP > cfg.MAX_TCP
      ∧ size ≤ g.rsrvSizeofLargeBufTCP)
      ∧ (o.osiSufficentSpaceInPool g.rsrvSizeofLargeBufTCP = true
        ∨ 0 < freeListItemsAvail g .rsrvLargeBufFreeListTCP)
      ∧ (freeListCalloc g .rsrvLargeBufFreeListTCP o.grow).isSome = true
  · obtain ⟨⟨hsmall, hbig, hsize⟩, h2, h3⟩ := hgo
    obtain ⟨g1, h3⟩ := Option.isSome_iff_exists.mp h3
    obtain ⟨old, hold, hlen⟩ := wellFormed_buf hwf
    have hcap := hwf.2.2 hsmall
    have hinv := hwf.1
    unfold message_buffer.inv at hinv
    have h6 := @memcpy_eq_ok (zeroed g.rsrvSizeofLargeBufTCP) (old.bytes.drop c.recv.stk)
      (c.recv.cnt - c.recv.stk) (by simp [List.length_drop]; omega) (by simp [zeroed]; omega)
    refine ⟨_, _, casExpandRecvBuffer_eq_promote cfg o g g1 c size old _ hsmall hbig hsize h2 h3
      hinv.1 hold h6, ?_, rfl⟩
    refine ⟨⟨Nat.zero_le _, ?_⟩, ?_, ?_⟩
    · show c.recv.cnt - c.recv.stk ≤ g.rsrvSizeofLargeBufTCP
      omega
    · have hl := memcpy_length h6
      simp only [message_buffer.backed, Option.map_some', Option.some.injEq]
      simpa [zeroed] using hl
    · intro h
      have h' : mbtLargeTCP = mbtSmallTCP := h
      exact absurd h' (by decide)
  · refine ⟨g, c, casExpandRecvBuffer_eq_unchanged cfg o g c size ?_, hwf, rfl⟩
    by_contra hcon
    apply hgo
    simp only [not_or, not_not, not_and, gt_iff_lt, not_lt, ne_eq] at hcon
    obtain ⟨h1, h2, h3, h4, h5⟩ := hcon
    refine ⟨⟨h1, by omega, by omega⟩, ?_, ?_⟩
    · by_cases ha : 0 < freeListItemsAvail g .rsrvLargeBufFreeListTCP
      · exact Or.inr ha
      · left
        have := h4 (by omega)
        simpa using this
    · cases hc : freeListCalloc g .rsrvLargeBufFreeListTCP o.grow with
      | none => exact absurd hc h5
      | some _ => rfl


/-- A successful `freeListCalloc` moves one item of the pool to the
outstanding ones and logs the allocation; nothing else changes. -/
theorem freeListCalloc_some {g g1 : rsrvGlobals} {p : poolId} {grow : Bool}
    (h : freeListCalloc g p grow = some g1) :
    ∃ a, g1 = (g.setPool p ⟨a, (g.pool p).outstanding + 1⟩).log (.freeListCalloc p) := by
  unfold freeListCalloc at h
  by_cases h0 : 0 < (g.pool p).avail
  · simp only [h0, if_true, Option.some.injEq] at h
    exact ⟨_, h.symm⟩
  · cases grow with
    | true =>
      simp only [h0, if_false, if_true, Option.some.injEq] at h
      exact ⟨_, h.symm⟩
    | false => simp [h0] at h

/-- The stages a successful `create_client` went through. -/
theorem create_client_some (cfg : Config) (o : createOracle) (g g1 : rsrvGlobals)
    (sock : SOCKET) (proto : Int) (c : client)
    (h : create_client cfg o g sock proto = (g1, some c)) :
    ∃ ga s1 s2, spaceForClient cfg o g = true
      ∧ freeListCalloc g .rsrvClientFreeList o.growClient = some ga
      ∧ createSync o ga (freshClient sock proto) = s1
      ∧ syncMissing s1.2 = false
      ∧ allocBuffers cfg o s1.1 proto (initLists s1.2) = s2
      ∧ bufMissing s2.2 = false
      ∧ g1 = s2.1
      ∧ c = initRest cfg o s2.2 := by
  unfold create_client at h
  cases ha : spaceForClient cfg o g with
  | false => simp [ha] at h
  | true =>
    cases hc : freeListCalloc g .rsrvClientFreeList o.growClient with
    | none => simp [ha, hc] at h
    | some ga =>
      simp only [ha, hc, Bool.true_eq_false, if_false] at h
      cases hs : syncMissing (createSync o ga (freshClient sock proto)).2
        with
      | true => simp [hs] at h
      | false =>
        simp only [hs, Bool.false_eq_true, if_false] at h
        cases hb : bufMissing (allocBuffers cfg o
          (createSync o ga (freshClient sock proto)).1 proto
          (initLists (createSync o ga (freshClient sock proto)).2)).2 with
        | true => simp [hb] at h
        | false =>
          simp only [hb, Bool.true_eq_false, Bool.false_eq_true, if_false, Prod.mk.injEq,
            Option.some.injEq] at h
          exact ⟨ga, _, _, rfl, rfl, rfl, hs, rfl, hb, h.1.symm, h.2.symm⟩

/-- When no synchronisation object is missing, all five were created, with
consecutive fresh handles. -/
theorem createSync_complete (o : createOracle) (g : rsrvGlobals) (c : client)
    (h : syncMissing (createSync o g c).2 = false) :
    createSync o g c =
      ({ g with
          nextHandle := g.nextHandle + 1 + 1 + 1 + 1 + 1
          trace := g.trace ++ [.epicsEventCreate g.nextHandle]
            ++ [.epicsMutexCreate (g.nextHandle + 1)]
            ++ [.epicsMutexCreate (g.nextHandle + 1 + 1)]
            ++ [.epicsMutexCreate (g.nextHandle + 1 + 1 + 1)]
            ++ [.epicsMutexCreate (g.nextHandle + 1 + 1 + 1 + 1)] },
        { c with
          blockSem := some g.nextHandle
          lock := some (g.nextHandle + 1)
          putNotifyLock := some (g.nextHandle + 1 + 1)
          chanListLock := some (g.nextHandle + 1 + 1 + 1)
          eventqLock := some (g.nextHandle + 1 + 1 + 1 + 1) }) := by
  obtain ⟨osi, growClient, b1, b2, b3, b4, b5, hs, hr, garbage, t1, t2⟩ := o
  cases b1 <;> cases b2 <;> cases b3 <;> cases b4 <;> cases b5 <;>
    simp [createSync, newHandle, syncMissing] at h
  simp [createSync, newHandle, rsrvGlobals.log]


/-- When no buffer is missing after the TCP branch of `allocBuffers`, both
small slabs were obtained. -/
theorem allocBuffers_tcp_complete (cfg : Config) (o : createOracle) (g : rsrvGlobals)
    (c : client) (h : bufMissing (allocBuffers cfg o g IPPROTO_TCP c).2 = false) :
    ∃ a, allocBuffers cfg o g IPPROTO_TCP c =
      ({ g with
          rsrvSmallBufFreeListTCP := ⟨a, g.rsrvSmallBufFreeListTCP.outstanding + 1 + 1⟩
          trace := g.trace ++ [.freeListCalloc .rsrvSmallBufFreeListTCP]
            ++ [.freeListCalloc .rsrvSmallBufFreeListTCP] },
        { c with
          send := { c.send with
            buf := some ⟨.pool .rsrvSmallBufFreeListTCP, zeroed cfg.MAX_TCP⟩
            maxstk := cfg.MAX_TCP, type := mbtSmallTCP }
          recv := { c.recv with
            buf := some ⟨.pool .rsrvSmallBufFreeListTCP, zeroed cfg.MAX_TCP⟩
            maxstk := cfg.MAX_TCP, type := mbtSmallTCP } }) := by
  cases h1 : freeListCalloc g .rsrvSmallBufFreeListTCP o.heapSend with
  | none => simp [allocBuffers, callocSmallBuf, bufMissing, h1] at h
  | some g1 =>
    cases h2 : freeListCalloc g1 .rsrvSmallBufFreeListTCP o.heapRecv with
    | none => simp [allocBuffers, callocSmallBuf, bufMissing, h1, h2] at h
    | some g2 =>
      obtain ⟨a1, e1⟩ := freeListCalloc_some h1
      obtain ⟨a2, e2⟩ := freeListCalloc_some h2
      subst e1
      subst e2
      refine ⟨a2, ?_⟩
      simp only [allocBuffers, callocSmallBuf, if_true, h1, h2]
      simp [rsrvGlobals.log, rsrvGlobals.setPool, rsrvGlobals.pool]

/-- When no buffer is missing after the UDP branch of `allocBuffers`, both
heap buffers were obtained. -/
theorem allocBuffers_udp_complete (cfg : Config) (o : createOracle) (g : rsrvGlobals)
    (c : client) (h : bufMissing (allocBuffers cfg o g IPPROTO_UDP c).2 = false) :
    allocBuffers cfg o g IPPROTO_UDP c =
      ({ g with
          trace := g.trace ++ [.malloc cfg.MAX_UDP_SEND] ++ [.malloc cfg.MAX_UDP_RECV] },
        { c with
          send := { c.send with
            buf := some ⟨.heap, (List.range cfg.MAX_UDP_SEND).map o.garbage⟩
            maxstk := cfg.MAX_UDP_SEND, type := mbtUDP }
          recv := { c.recv with
            buf := some ⟨.heap, (List.range cfg.MAX_UDP_RECV).map o.garbage⟩
            maxstk := cfg.MAX_UDP_RECV, type := mbtUDP } }) := by
  obtain ⟨osi, growClient, b1, b2, b3, b4, b5, hs, hr, garbage, t1, t2⟩ := o
  cases hs <;> cases hr <;> simp [allocBuffers, malloc, bufMissing] at h
  simp [allocBuffers, malloc, rsrvGlobals.log]

/-- With a protocol other than TCP and UDP `allocBuffers` allocates nothing,
so a buffer is missing whenever the send buffer was null before. -/
theorem allocBuffers_other (cfg : Config) (o : createOracle) (g : rsrvGlobals) (proto : Int)
    (c : client) (h1 : proto ≠ IPPROTO_TCP) (h2 : proto ≠ IPPROTO_UDP) :
    allocBuffers cfg o g proto c = (g, c) := by
  simp [allocBuffers, h1, h2]

/-- What `create_client` returns with a client: the protocol is TCP or UDP,
and the record and the globals are the following. -/
theorem create_client_result (cfg : Config) (o : createOracle) (g g1 : rsrvGlobals)
    (sock : SOCKET) (proto : Int) (c : client)
    (h : create_client cfg o g sock proto = (g1, some c)) :
    ∃ aC s1, createSync o ((g.setPool .rsrvClientFreeList
          ⟨aC, g.rsrvClientFreeList.outstanding + 1⟩).log (.freeListCalloc .rsrvClientFreeList))
          (freshClient sock proto) = s1
      ∧ syncMissing s1.2 = false
      ∧ ((proto = IPPROTO_TCP ∧ bufMissing (allocBuffers cfg o s1.1 IPPROTO_TCP
              (initLists s1.2)).2 = false
            ∧ g1 = (allocBuffers cfg o s1.1 IPPROTO_TCP (initLists s1.2)).1
            ∧ c = initRest cfg o (allocBuffers cfg o s1.1 IPPROTO_TCP (initLists s1.2)).2)
          ∨ (proto = IPPROTO_UDP ∧ bufMissing (allocBuffers cfg o s1.1 IPPROTO_UDP
              (initLists s1.2)).2 = false
            ∧ g1 = (allocBuffers cfg o s1.1 IPPROTO_UDP (initLists s1.2)).1
            ∧ c = initRest cfg o (allocBuffers cfg o s1.1 IPPROTO_UDP (initLists s1.2)).2)) := by
  obtain ⟨ga, s1, s2, _, hc, hs1, hsync, hs2, hbuf, hg1, hcc⟩ :=
    create_client_some cfg o g g1 sock proto c h
  obtain ⟨aC, hga⟩ := freeListCalloc_some hc
  subst hga
  refine ⟨aC, s1, hs1, hsync, ?_⟩
  subst hs2
  by_cases ht : proto = IPPROTO_TCP
  · subst ht
    exact Or.inl ⟨rfl, hbuf, hg1, hcc⟩
  · by_cases hu : proto = IPPROTO_UDP
    · subst hu
      exact Or.inr ⟨rfl, hbuf, hg1, hcc⟩
    · exfalso
      rw [allocBuffers_other cfg o s1.1 proto _ ht hu] at hbuf
      have hsc := createSync_complete o _ (freshClient sock proto) (by rw [hs1]; exact hsync)
      rw [hs1] at hsc
      rw [hsc] at hbuf
      simp [bufMissing, initLists, freshClient, zeroClient] at hbuf


/-- The two slots of a client that `create_client` returns. -/
theorem create_client_slots (cfg : Config) (o : createOracle) (g g1 : rsrvGlobals)
    (sock : SOCKET) (proto : Int) (c : client)
    (h : create_client cfg o g sock proto = (g1, some c)) :
    (proto = IPPROTO_TCP
        ∧ c.send = ⟨some ⟨.pool .rsrvSmallBufFreeListTCP, zeroed cfg.MAX_TCP⟩, 0, cfg.MAX_TCP, 0,
            mbtSmallTCP⟩
        ∧ c.recv = ⟨some ⟨.pool .rsrvSmallBufFreeListTCP, zeroed cfg.MAX_TCP⟩, 0, cfg.MAX_TCP, 0,
            mbtSmallTCP⟩)
      ∨ (proto = IPPROTO_UDP
        ∧ c.send = ⟨some ⟨.heap, (List.range cfg.MAX_UDP_SEND).map o.garbage⟩, 0,
            cfg.MAX_UDP_SEND, 0, mbtUDP⟩
        ∧ c.recv = ⟨some ⟨.heap, (List.range cfg.MAX_UDP_RECV).map o.garbage⟩, 0,
            cfg.MAX_UDP_RECV, 0, mbtUDP⟩) := by
  obtain ⟨aC, s1, _, _, hcase⟩ := create_client_result cfg o g g1 sock proto c h
  rcases hcase with ⟨hp, hb, _, hc⟩ | ⟨hp, hb, _, hc⟩
  · left
    obtain ⟨a, ha⟩ := allocBuffers_tcp_complete cfg o s1.1 (initLists s1.2) hb
    rw [ha] at hc
    subst hc
    exact ⟨hp, rfl, rfl⟩
  · right
    have ha := allocBuffers_udp_complete cfg o s1.1 (initLists s1.2) hb
    rw [ha] at hc
    subst hc
    exact ⟨hp, rfl, rfl⟩

/-- C5: the slot invariant `stk ≤ cnt ≤ maxstk` holds for both slots of every
client that `create_client` returns, with `stk = cnt = 0` and capacity
`MAX_TCP` for a TCP client and `MAX_UDP_SEND`, `MAX_UDP_RECV` for a UDP client
(no other protocol yields a client); and every call of `casExpandSendBuffer`
and of `casExpandRecvBuffer`, with any size and any answers of the
environment, on a client whose slots are well-formed (the invariant holds, the
buffer is present with `maxstk` bytes, and a small slot has the capacity
`MAX_TCP` that `create_client` gave it) returns with both slots well-formed,
so with the invariant holding. -/
theorem slot_invariant_holds (cfg : Config) :
    (∀ (o : createOracle) (g g1 : rsrvGlobals) (sock : SOCKET) (proto : Int) (c : client),
        create_client cfg o g sock proto = (g1, some c) →
          c.send.stk = 0 ∧ c.send.cnt = 0 ∧ c.recv.stk = 0 ∧ c.recv.cnt = 0
            ∧ ((proto = IPPROTO_TCP ∧ c.send.maxstk = cfg.MAX_TCP
                  ∧ c.recv.maxstk = cfg.MAX_TCP)
              ∨ (proto = IPPROTO_UDP ∧ c.send.maxstk = cfg.MAX_UDP_SEND
                  ∧ c.recv.maxstk = cfg.MAX_UDP_RECV))
            ∧ c.send.inv ∧ c.recv.inv
            ∧ c.send.wellFormed cfg ∧ c.recv.wellFormed cfg)
    ∧ (∀ (o : expandOracle) (g : rsrvGlobals) (c : client) (size : Nat),
        c.send.wellFormed cfg → c.recv.wellFormed cfg →
          (∃ g' c', casExpandSendBuffer cfg o g c size = .ok (g', c')
              ∧ c'.send.inv ∧ c'.recv.inv
              ∧ c'.send.wellFormed cfg ∧ c'.recv.wellFormed cfg)
            ∧ (∃ g' c', casExpandRecvBuffer cfg o g c size = .ok (g', c')
              ∧ c'.send.inv ∧ c'.recv.inv
              ∧ c'.send.wellFormed cfg ∧ c'.recv.wellFormed cfg)) := by
  constructor
  · intro o g g1 sock proto c h
    rcases create_client_slots cfg o g g1 sock proto c h with ⟨hp, hs, hr⟩ | ⟨hp, hs, hr⟩
    · rw [hs, hr]
      refine ⟨rfl, rfl, rfl, rfl, Or.inl ⟨hp, rfl, rfl⟩, ?_, ?_, ?_, ?_⟩ <;>
        simp [message_buffer.inv, message_buffer.wellFormed, message_buffer.backed, zeroed]
    · rw [hs, hr]
      refine ⟨rfl, rfl, rfl, rfl, Or.inr ⟨hp, rfl, rfl⟩, ?_, ?_, ?_, ?_⟩ <;>
        simp [message_buffer.inv, message_buffer.wellFormed, message_buffer.backed]
  · intro o g c size hs hr
    constructor
    · obtain ⟨g', c', hres, hs', hr'⟩ := casExpandSendBuffer_wellFormed cfg o g c size hs
      refine ⟨g', c', hres, hs'.1, ?_, hs', ?_⟩
      · rw [hr']; exact hr.1
      · rw [hr']; exact hr
    · obtain ⟨g', c', hres, hr', hs'⟩ := casExpandRecvBuffer_wellFormed cfg o g c size hr
      refine ⟨g', c', hres, ?_, hr'.1, ?_, hr'⟩
      · rw [hs']; exact hs.1
      · rw [hs']; exact hs


/-- C5 at the demo states: `create_client` yields a client with the invariant,
and both promotions of `demoClient` keep it. -/
theorem slot_invariant_holds_witness :
    create_client demoConfig demoCreate demoGlobals 5 IPPROTO_TCP
        = (demoGlobalsCreated, some demoClientCreated)
      ∧ (demoClientCreated.send.inv ∧ demoClientCreated.recv.inv)
      ∧ (demoClient.send.wellFormed demoConfig ∧ demoClient.recv.wellFormed demoConfig)
      ∧ (∃ g' c', casExpandSendBuffer demoConfig demoPlenty demoGlobals demoClient 5
            = .ok (g', c')
          ∧ c'.send.inv ∧ c'.recv.inv
          ∧ c'.send.wellFormed demoConfig ∧ c'.recv.wellFormed demoConfig)
      ∧ (∃ g' c', casExpandRecvBuffer demoConfig demoPlenty demoGlobals demoClient 5
            = .ok (g', c')
          ∧ c'.send.inv ∧ c'.recv.inv
          ∧ c'.send.wellFormed demoConfig ∧ c'.recv.wellFormed demoConfig) :=
  have hs : demoClient.send.wellFormed demoConfig :=
    ⟨⟨by decide, by decide⟩, by rfl, fun _ => by rfl⟩
  have hr : demoClient.recv.wellFormed demoConfig :=
    ⟨⟨by decide, by decide⟩, by rfl, fun _ => by rfl⟩
  have h := slot_invariant_holds demoConfig
  have hc := h.1 demoCreate demoGlobals demoGlobalsCreated 5 IPPROTO_TCP demoClientCreated
    (by rfl)
  have he := h.2 demoPlenty demoGlobals demoClient 5 hs hr
  ⟨by rfl, ⟨hc.2.2.2.2.2.1, hc.2.2.2.2.2.2.1⟩, ⟨hs, hr⟩, he.1, he.2⟩


/-! ## Lemmas on replayed effects and on `destroy_client` -/

theorem replay_nil (g : rsrvGlobals) : replay g [] = g := rfl

theorem replay_cons (g : rsrvGlobals) (e : Event) (tr : List Event) :
    replay g (e :: tr) = replay (replayEvent g e) tr := rfl

theorem replay_append (g : rsrvGlobals) (a b : List Event) :
    replay g (a ++ b) = replay (replay g a) b := by
  simp [replay, List.foldl_append]

theorem replayEvent_trace (g : rsrvGlobals) (e : Event) :
    (replayEvent g e).trace = g.trace ++ [e] := by
  unfold replayEvent
  cases e.frees with
  | none => rfl
  | some p => cases p <;> rfl

theorem replay_trace (tr : List Event) : ∀ g : rsrvGlobals, (replay g tr).trace = g.trace ++ tr := by
  induction tr with
  | nil => intro g; simp [replay]
  | cons e rest ih =>
    intro g
    rw [replay_cons, ih, replayEvent_trace]
    simp

theorem freesTo_single (p : poolId) (e : Event) :
    freesTo p [e] = if e.frees = some p then 1 else 0 := by
  by_cases h : e.frees = some p <;> simp [freesTo, h]

theorem replayEvent_pool (g : rsrvGlobals) (e : Event) (p : poolId) :
    (replayEvent g e).pool p
      = ⟨(g.pool p).avail + freesTo p [e], (g.pool p).outstanding - freesTo p [e]⟩ := by
  rw [freesTo_single]
  unfold replayEvent
  cases he : e.frees with
  | none =>
    simp only [reduceCtorEq, if_false, add_zero, Nat.cast_zero, sub_zero]
    cases p <;> rfl
  | some q =>
    cases q <;> cases p <;>
      simp [rsrvGlobals.log, rsrvGlobals.pool, freeListFree, rsrvGlobals.setPool]

theorem freesTo_cons (p : poolId) (e : Event) (tr : List Event) :
    freesTo p (e :: tr) = freesTo p [e] + freesTo p tr := by
  unfold freesTo
  by_cases h : e.frees = some p <;> simp [List.filter_cons, h]
  omega

theorem freesTo_append (p : poolId) (a b : List Event) :
    freesTo p (a ++ b) = freesTo p a + freesTo p b := by
  simp [freesTo, List.filter_append]

theorem replay_pool (tr : List Event) (p : poolId) : ∀ g : rsrvGlobals,
    (replay g tr).pool p
      = ⟨(g.pool p).avail + freesTo p tr, (g.pool p).outstanding - freesTo p tr⟩ := by
  induction tr with
  | nil => intro g; simp [replay, freesTo]
  | cons e rest ih =>
    intro g
    rw [replay_cons, ih, replayEvent_pool, freesTo_cons p e rest]
    simp only [freeList.mk.injEq]
    constructor
    · omega
    · push_cast; ring

theorem replayEvent_rest (g : rsrvGlobals) (e : Event) :
    (replayEvent g e).rsrvSizeofLargeBufTCP = g.rsrvSizeofLargeBufTCP
      ∧ (replayEvent g e).pCaBucket = g.pCaBucket
      ∧ (replayEvent g e).rsrvChannelCount = g.rsrvChannelCount
      ∧ (replayEvent g e).nextHandle = g.nextHandle := by
  unfold replayEvent
  cases e.frees with
  | none => exact ⟨rfl, rfl, rfl, rfl⟩
  | some p => cases p <;> exact ⟨rfl, rfl, rfl, rfl⟩

theorem replay_rest (tr : List Event) : ∀ g : rsrvGlobals,
    (replay g tr).rsrvSizeofLargeBufTCP = g.rsrvSizeofLargeBufTCP
      ∧ (replay g tr).pCaBucket = g.pCaBucket
      ∧ (replay g tr).rsrvChannelCount = g.rsrvChannelCount
      ∧ (replay g tr).nextHandle = g.nextHandle := by
  induction tr with
  | nil => intro g; exact ⟨rfl, rfl, rfl, rfl⟩
  | cons e rest ih =>
    intro g
    rw [replay_cons]
    obtain ⟨h1, h2, h3, h4⟩ := ih (replayEvent g e)
    obtain ⟨k1, k2, k3, k4⟩ := replayEvent_rest g e
    exact ⟨h1.trans k1, h2.trans k2, h3.trans k3, h4.trans k4⟩

theorem destroyIfSet_replay (g : rsrvGlobals) (h : Option Nat) (ev : Nat → Event)
    (hev : ∀ x, (ev x).frees = none) :
    destroyIfSet g h ev = replay g (h.map ev).toList := by
  cases h with
  | none => rfl
  | some x => simp [destroyIfSet, replay, replayEvent, hev x]

theorem destroyTcpBuf_replay (g : rsrvGlobals) (slot : message_buffer) (corrupt : logMsg) :
    destroyTcpBuf g slot corrupt = replay g (tcpBufTrace slot corrupt) := by
  unfold destroyTcpBuf tcpBufTrace
  cases slot.buf with
  | none => rfl
  | some b =>
    by_cases h1 : slot.type = mbtSmallTCP
    · simp [h1, replay, replayEvent, Event.frees]
    · by_cases h2 : slot.type = mbtLargeTCP
      · simp [h1, h2, replay, replayEvent, Event.frees]
      · simp [h1, h2, replay, replayEvent, Event.frees]

theorem destroyUdpBuf_replay (g : rsrvGlobals) (slot : message_buffer) :
    destroyUdpBuf g slot = replay g (udpBufTrace slot) := by
  unfold destroyUdpBuf udpBufTrace
  cases slot.buf with
  | none => rfl
  | some b => simp [replay, replayEvent, Event.frees]

/-- The C function `destroy_client` performs the effects `destroyTrace`. -/
theorem destroy_client_replay (g : rsrvGlobals) (c : client) :
    destroy_client g (some c) = replay g (destroyTrace c) := by
  have e1 : (if c.tid ≠ 0 then g.log (.taskwdRemove c.tid) else g)
      = replay g (if c.tid ≠ 0 then [.taskwdRemove c.tid] else []) := by
    by_cases h : c.tid ≠ 0 <;> simp [h, replay, replayEvent, Event.frees]
  have e2 : ∀ g : rsrvGlobals,
      (if c.sock ≠ INVALID_SOCKET then g.log (.epicsSocketDestroy c.sock) else g)
      = replay g (if c.sock ≠ INVALID_SOCKET then [.epicsSocketDestroy c.sock] else []) := by
    intro g
    by_cases h : c.sock ≠ INVALID_SOCKET <;> simp [h, replay, replayEvent, Event.frees]
  have e3 : ∀ g : rsrvGlobals,
      (if c.proto = IPPROTO_TCP then
        destroyTcpBuf (destroyTcpBuf g c.send (.corruptSendType c.send.type))
          c.recv (.corruptRecvType c.send.type)
      else if c.proto = IPPROTO_UDP then
        destroyUdpBuf (destroyUdpBuf g c.send) c.recv
      else g)
      = replay g (if c.proto = IPPROTO_TCP then
          tcpBufTrace c.send (.corruptSendType c.send.type)
            ++ tcpBufTrace c.recv (.corruptRecvType c.send.type)
        else if c.proto = IPPROTO_UDP then udpBufTrace c.send ++ udpBufTrace c.recv
        else []) := by
    intro g
    by_cases h1 : c.proto = IPPROTO_TCP
    · simp only [h1, if_true, destroyTcpBuf_replay, replay_append]
    · by_cases h2 : c.proto = IPPROTO_UDP
      · have hne : ¬ (IPPROTO_UDP = IPPROTO_TCP) := by decide
        simp only [h2, hne, if_true, if_false, destroyUdpBuf_replay, replay_append]
      · simp only [h1, h2, if_false, replay_nil]
  unfold destroy_client destroyTrace
  simp only [e1, e2, e3]
  rw [destroyIfSet_replay _ c.eventqLock Event.epicsMutexDestroy (fun _ => rfl),
    destroyIfSet_replay _ c.chanListLock Event.epicsMutexDestroy (fun _ => rfl),
    destroyIfSet_replay _ c.putNotifyLock Event.epicsMutexDestroy (fun _ => rfl),
    destroyIfSet_replay _ c.lock Event.epicsMutexDestroy (fun _ => rfl),
    destroyIfSet_replay _ c.blockSem Event.epicsEventDestroy (fun _ => rfl),
    destroyIfSet_replay _ c.pUserName Event.freeString (fun _ => rfl),
    destroyIfSet_replay _ c.pHostName Event.freeString (fun _ => rfl)]
  simp only [replay_append]
  rfl


theorem filterMap_optList {α : Type} (f : Event → Option α) (h : Option Nat)
    (ev : Nat → Event) :
    List.filterMap f ((h.map ev).toList) = (h.bind (fun x => f (ev x))).toList := by
  cases h with
  | none => rfl
  | some x =>
    show List.filterMap f [ev x] = (f (ev x)).toList
    cases hf : f (ev x) <;> simp [List.filterMap, hf]

theorem filterMap_single {α : Type} (f : Event → Option α) (e : Event) :
    List.filterMap f [e] = (f e).toList := by
  cases hf : f e <;> simp [List.filterMap, hf]

theorem bind_const_none {α β : Type} (h : Option α) :
    (h.bind fun _ => (none : Option β)) = none := by
  cases h <;> rfl

theorem filterMap_tcpBufTrace {α : Type} (f : Event → Option α) (slot : message_buffer)
    (corrupt : logMsg) :
    List.filterMap f (tcpBufTrace slot corrupt)
      = match slot.buf with
        | some b =>
          if slot.type = mbtSmallTCP then (f (.freeListFreeBuf .rsrvSmallBufFreeListTCP b)).toList
          else if slot.type = mbtLargeTCP then
            (f (.freeListFreeBuf .rsrvLargeBufFreeListTCP b)).toList
          else (f (.print corrupt)).toList
        | none => [] := by
  unfold tcpBufTrace
  cases slot.buf with
  | none => rfl
  | some b =>
    simp only [apply_ite (List.filterMap f), filterMap_single]

theorem filterMap_udpBufTrace {α : Type} (f : Event → Option α) (slot : message_buffer) :
    List.filterMap f (udpBufTrace slot)
      = match slot.buf with
        | some b => (f (.free b)).toList
        | none => [] := by
  unfold udpBufTrace
  cases slot.buf with
  | none => rfl
  | some b => simp only [filterMap_single]

/-- Any reading of the effects of `destroy_client` that keeps some effects and
drops the others, piece by piece. -/
theorem filterMap_destroyTrace {α : Type} (f : Event → Option α) (c : client) :
    List.filterMap f (destroyTrace c)
      = (if c.tid ≠ 0 then (f (.taskwdRemove c.tid)).toList else [])
        ++ (if c.sock ≠ INVALID_SOCKET then (f (.epicsSocketDestroy c.sock)).toList else [])
        ++ (if c.proto = IPPROTO_TCP then
              List.filterMap f (tcpBufTrace c.send (.corruptSendType c.send.type))
                ++ List.filterMap f (tcpBufTrace c.recv (.corruptRecvType c.send.type))
            else if c.proto = IPPROTO_UDP then
              List.filterMap f (udpBufTrace c.send) ++ List.filterMap f (udpBufTrace c.recv)
            else [])
        ++ (c.eventqLock.bind fun h => f (.epicsMutexDestroy h)).toList
        ++ (c.chanListLock.bind fun h => f (.epicsMutexDestroy h)).toList
        ++ (c.putNotifyLock.bind fun h => f (.epicsMutexDestroy h)).toList
        ++ (c.lock.bind fun h => f (.epicsMutexDestroy h)).toList
        ++ (c.blockSem.bind fun h => f (.epicsEventDestroy h)).toList
        ++ (c.pUserName.bind fun h => f (.freeString h)).toList
        ++ (c.pHostName.bind fun h => f (.freeString h)).toList
        ++ (f .freeListFreeClient).toList := by
  unfold destroyTrace
  simp only [List.filterMap_append, filterMap_optList, filterMap_single,
    apply_ite (List.filterMap f), List.filterMap_nil]

theorem match_slab_nil {α : Type} (o : Option slab) :
    (match o with | some _ => ([] : List α) | none => []) = [] := by
  cases o <;> rfl

theorem mutexDestroyed_destroyTrace (c : client) :
    mutexDestroyed (destroyTrace c)
      = [c.eventqLock, c.chanListLock, c.putNotifyLock, c.lock].reduceOption := by
  unfold mutexDestroyed
  rw [filterMap_destroyTrace]
  simp only [filterMap_tcpBufTrace, filterMap_udpBufTrace, Option.toList, ite_self,
    match_slab_nil, List.append_nil, List.nil_append, bind_const_none]
  cases c.eventqLock <;> cases c.chanListLock <;> cases c.putNotifyLock <;> cases c.lock <;> rfl

theorem semDestroyed_destroyTrace (c : client) :
    semDestroyed (destroyTrace c) = c.blockSem.toList := by
  unfold semDestroyed
  rw [filterMap_destroyTrace]
  simp only [filterMap_tcpBufTrace, filterMap_udpBufTrace, Option.toList, ite_self,
    match_slab_nil, List.append_nil, List.nil_append, bind_const_none]
  cases c.blockSem <;> rfl

theorem mutexCreated_destroyTrace (c : client) : mutexCreated (destroyTrace c) = [] := by
  unfold mutexCreated
  rw [filterMap_destroyTrace]
  simp only [filterMap_tcpBufTrace, filterMap_udpBufTrace, Option.toList, ite_self,
    match_slab_nil, List.append_nil, List.nil_append, bind_const_none]

theorem semCreated_destroyTrace (c : client) : semCreated (destroyTrace c) = [] := by
  unfold semCreated
  rw [filterMap_destroyTrace]
  simp only [filterMap_tcpBufTrace, filterMap_udpBufTrace, Option.toList, ite_self,
    match_slab_nil, List.append_nil, List.nil_append, bind_const_none]

theorem sessionsOpened_destroyTrace (c : client) : sessionsOpened (destroyTrace c) = [] := by
  unfold sessionsOpened
  rw [filterMap_destroyTrace]
  simp only [filterMap_tcpBufTrace, filterMap_udpBufTrace, Option.toList, ite_self,
    match_slab_nil, List.append_nil, List.nil_append, bind_const_none]

theorem sessionsClosed_destroyTrace (c : client) : sessionsClosed (destroyTrace c) = [] := by
  unfold sessionsClosed
  rw [filterMap_destroyTrace]
  simp only [filterMap_tcpBufTrace, filterMap_udpBufTrace, Option.toList, ite_self,
    match_slab_nil, List.append_nil, List.nil_append, bind_const_none]

theorem bufReleases_destroyTrace (c : client) (htcp : c.proto = IPPROTO_TCP) :
    bufReleases (destroyTrace c) = releaseByTag c.send ++ releaseByTag c.recv := by
  unfold bufReleases
  rw [filterMap_destroyTrace]
  simp only [htcp, if_true, filterMap_tcpBufTrace, Option.toList, ite_self,
    List.append_nil, List.nil_append, bind_const_none, releaseByTag]


theorem freesTo_eq_filterMap (p : poolId) (tr : List Event) :
    freesTo p tr
      = (tr.filterMap (fun e => if e.frees = some p then some e else none)).length := by
  unfold freesTo
  induction tr with
  | nil => rfl
  | cons e rest ih =>
    by_cases h : e.frees = some p
    · simp [List.filter_cons, List.filterMap_cons, h, ih]
    · simp [List.filter_cons, List.filterMap_cons, h, ih]

theorem releasesTo_append (p : poolId) (a b : List (poolId × slab)) :
    releasesTo p (a ++ b) = releasesTo p a + releasesTo p b := by
  simp [releasesTo, List.filter_append]

/-- The releases of `destroy_client` on a TCP client, pool by pool. -/
theorem freesTo_destroyTrace (c : client) (htcp : c.proto = IPPROTO_TCP) (p : poolId) :
    freesTo p (destroyTrace c)
      = releasesTo p (releaseByTag c.send ++ releaseByTag c.recv)
        + (if p = .rsrvClientFreeList then 1 else 0) := by
  rw [freesTo_eq_filterMap, filterMap_destroyTrace, releasesTo_append]
  simp only [htcp, if_true, filterMap_tcpBufTrace, Event.frees, reduceCtorEq, if_false,
    Option.toList, ite_self, List.append_nil, List.nil_append, bind_const_none,
    List.length_append, releasesTo, releaseByTag]
  cases c.send.buf <;> cases c.recv.buf <;> cases p <;>
    simp <;> split_ifs <;> simp


/-! ## C8: `destroy_client` releases buffers by tag -/

/-- C8: for every TCP client, the effects `destroy_client` adds to the trace
release each non-null send and receive buffer to the small-TCP pool when the
slot's tag is small and to the large-TCP pool when it is large, and to no pool
when the tag has any other value; whatever the tags are, the effects also
destroy each non-null mutex once (`eventqLock`, `chanListLock`,
`putNotifyLock`, `lock`, in this order) and the block semaphore once if it is
non-null, and end with the return of the record to the client pool. Every
pool gets back exactly the items so released: the client pool one item, the
small and the large pool the buffers tagged for them, the other pools
nothing. -/
theorem destroy_client_releases_by_tag (g : rsrvGlobals) (c : client)
    (htcp : c.proto = IPPROTO_TCP) :
    ∃ tr, (destroy_client g (some c)).trace = g.trace ++ tr
      ∧ bufReleases tr = releaseByTag c.send ++ releaseByTag c.recv
      ∧ mutexDestroyed tr
          = [c.eventqLock, c.chanListLock, c.putNotifyLock, c.lock].reduceOption
      ∧ semDestroyed tr = c.blockSem.toList
      ∧ tr.getLast? = some .freeListFreeClient
      ∧ freesTo .rsrvClientFreeList tr = 1
      ∧ ∀ p, (destroy_client g (some c)).pool p
          = ⟨(g.pool p).avail + (releasesTo p (releaseByTag c.send ++ releaseByTag c.recv)
                + (if p = .rsrvClientFreeList then 1 else 0)),
             (g.pool p).outstanding
                - ((releasesTo p (releaseByTag c.send ++ releaseByTag c.recv)
                    + (if p = .rsrvClientFreeList then 1 else 0) : Nat) : Int)⟩ := by
  refine ⟨destroyTrace c, ?_, bufReleases_destroyTrace c htcp, mutexDestroyed_destroyTrace c,
    semDestroyed_destroyTrace c, ?_, ?_, ?_⟩
  · rw [destroy_client_replay, replay_trace]
  · unfold destroyTrace
    rw [List.getLast?_append]
    rfl
  · rw [freesTo_destroyTrace c htcp, releasesTo_append]
    simp only [releasesTo, releaseByTag]
    cases c.send.buf <;> cases c.recv.buf <;> simp <;> split_ifs <;> simp
  · intro p
    rw [destroy_client_replay, replay_pool, freesTo_destroyTrace c htcp]

/-- C8 at a client whose send slot is large and whose receive slot has the tag
9: only the send buffer is released, to the large pool, and the four mutexes,
the semaphore and the record are released all the same. -/
theorem destroy_client_releases_by_tag_witness :
    demoClientCorrupt.proto = IPPROTO_TCP
      ∧ releaseByTag demoClientCorrupt.send ++ releaseByTag demoClientCorrupt.recv
          = [(.rsrvLargeBufFreeListTCP, ⟨.pool .rsrvLargeBufFreeListTCP, [1, 2, 0, 0, 0, 0, 0, 0]⟩)]
      ∧ (destroy_client demoGlobals (some demoClientCorrupt)).trace
          = [.epicsSocketDestroy 5,
              .freeListFreeBuf .rsrvLargeBufFreeListTCP
                ⟨.pool .rsrvLargeBufFreeListTCP, [1, 2, 0, 0, 0, 0, 0, 0]⟩,
              .print (.corruptRecvType 2),
              .epicsMutexDestroy 4, .epicsMutexDestroy 3, .epicsMutexDestroy 2,
              .epicsMutexDestroy 1, .epicsEventDestroy 0, .freeListFreeClient]
      ∧ ∃ tr, (destroy_client demoGlobals (some demoClientCorrupt)).trace
            = demoGlobals.trace ++ tr
          ∧ bufReleases tr
              = releaseByTag demoClientCorrupt.send ++ releaseByTag demoClientCorrupt.recv
          ∧ mutexDestroyed tr = [4, 3, 2, 1]
          ∧ semDestroyed tr = [0] :=
  have h := destroy_client_releases_by_tag demoGlobals demoClientCorrupt (by rfl)
  ⟨by rfl, by rfl, by rfl,
    h.elim fun tr ht => ⟨tr, ht.1, ht.2.1, ht.2.2.1, ht.2.2.2.1⟩⟩


/-! ## Lemmas on the failure paths of `create_client` -/

theorem allocsFrom_eq_filterMap (p : poolId) (tr : List Event) :
    allocsFrom p tr
      = (tr.filterMap (fun e => match e with
          | .freeListCalloc q => if q = p then some q else none
          | _ => none)).length := by
  unfold allocsFrom
  induction tr with
  | nil => rfl
  | cons e rest ih =>
    cases e <;> simp [List.count_cons, List.filterMap_cons, ih]
    split_ifs <;> simp_all

theorem socketDestroys_destroyTrace (sock : SOCKET) (c : client) :
    socketDestroys sock (destroyTrace c)
      = if c.sock ≠ INVALID_SOCKET ∧ c.sock = sock then 1 else 0 := by
  unfold socketDestroys
  rw [filterMap_destroyTrace]
  simp only [filterMap_tcpBufTrace, filterMap_udpBufTrace, Option.toList, ite_self,
    match_slab_nil, List.append_nil, List.nil_append, bind_const_none]
  by_cases h1 : c.sock = INVALID_SOCKET
  · simp [h1]
  · by_cases h2 : c.sock = sock
    · subst h2
      simp [h1]
    · simp [h1, h2]

theorem allocsFrom_destroyTrace (p : poolId) (c : client) :
    allocsFrom p (destroyTrace c) = 0 := by
  rw [allocsFrom_eq_filterMap, filterMap_destroyTrace]
  simp only [filterMap_tcpBufTrace, filterMap_udpBufTrace, Option.toList, ite_self,
    match_slab_nil, List.append_nil, List.nil_append, bind_const_none, List.length_nil]

theorem mallocs_destroyTrace (c : client) : mallocs (destroyTrace c) = 0 := by
  unfold mallocs
  rw [filterMap_destroyTrace]
  simp only [filterMap_tcpBufTrace, filterMap_udpBufTrace, Option.toList, ite_self,
    match_slab_nil, List.append_nil, List.nil_append, bind_const_none, List.length_nil]


theorem released_refused (sock : SOCKET) (g : rsrvGlobals) (m : logMsg) :
    released sock g ((g.log (.epicsSocketDestroy sock)).log (.print m)) := by
  refine ⟨[.epicsSocketDestroy sock, .print m], ?_, ?_, ?_, ?_, ?_, ?_, ?_, ?_, ?_, ?_, ?_⟩
  · simp [rsrvGlobals.log]
  · simp [socketDestroys]
  · rfl
  · simp [mutexCreated]
  · rfl
  · simp [semCreated]
  · rfl
  · simp [sessionsOpened]
  · intro p
    simp [freesTo, allocsFrom, Event.frees]
  · rfl
  · intro p
    cases p <;> rfl


theorem socketDestroys_append (sock : SOCKET) (a b : List Event) :
    socketDestroys sock (a ++ b) = socketDestroys sock a + socketDestroys sock b := by
  simp [socketDestroys, List.filterMap_append]

theorem allocsFrom_append (p : poolId) (a b : List Event) :
    allocsFrom p (a ++ b) = allocsFrom p a + allocsFrom p b := by
  simp [allocsFrom, List.count_append]

theorem heapFrees_append (a b : List Event) :
    heapFrees (a ++ b) = heapFrees a + heapFrees b := by
  simp [heapFrees, List.filterMap_append]

theorem mallocs_append (a b : List Event) : mallocs (a ++ b) = mallocs a + mallocs b := by
  simp [mallocs, List.filterMap_append]

/-- A call whose effects so far are `trC`, in which nothing was released yet,
and which ends in `destroy_client` on a record that holds exactly what `trC`
acquired, has released everything. -/
theorem released_of_destroy (sock : SOCKET) (g g1 : rsrvGlobals) (c : client)
    (trC : List Event)
    (htr : g1.trace = g.trace ++ trC)
    (hsock : c.sock = sock) (hvalid : sock ≠ INVALID_SOCKET)
    (hs0 : socketDestroys sock trC = 0)
    (hm0 : mutexDestroyed trC = [])
    (hm : [c.eventqLock, c.chanListLock, c.putNotifyLock, c.lock].reduceOption
      = (mutexCreated trC).reverse)
    (hmn : (mutexCreated trC).Nodup)
    (hsem0 : semDestroyed trC = [])
    (hsem : c.blockSem.toList = (semCreated trC).reverse)
    (hsemn : (semCreated trC).Nodup)
    (hses : sessionsClosed trC = (sessionsOpened trC).reverse)
    (hsesn : (sessionsOpened trC).Nodup)
    (hfree0 : ∀ p, freesTo p trC = 0)
    (halloc : ∀ p, freesTo p (destroyTrace c) = allocsFrom p trC)
    (hheap0 : heapFrees trC = 0)
    (hheap : heapFrees (destroyTrace c) = mallocs trC)
    (hpool : ∀ p, (g1.pool p).outstanding = (g.pool p).outstanding + allocsFrom p trC) :
    released sock g (destroy_client g1 (some c)) := by
  refine ⟨trC ++ destroyTrace c, ?_, ?_, ?_, ?_, ?_, ?_, ?_, ?_, ?_, ?_, ?_⟩
  · rw [destroy_client_replay, replay_trace, htr, List.append_assoc]
  · rw [socketDestroys_append, hs0, socketDestroys_destroyTrace, hsock]
    simp [hvalid]
  · have h1 : mutexDestroyed (trC ++ destroyTrace c)
        = mutexDestroyed trC ++ mutexDestroyed (destroyTrace c) := by
      simp [mutexDestroyed, List.filterMap_append]
    have h2 : mutexCreated (trC ++ destroyTrace c)
        = mutexCreated trC ++ mutexCreated (destroyTrace c) := by
      simp [mutexCreated, List.filterMap_append]
    rw [h1, h2, hm0, mutexDestroyed_destroyTrace, mutexCreated_destroyTrace, hm]
    simp
  · have h2 : mutexCreated (trC ++ destroyTrace c)
        = mutexCreated trC ++ mutexCreated (destroyTrace c) := by
      simp [mutexCreated, List.filterMap_append]
    rw [h2, mutexCreated_destroyTrace, List.append_nil]
    exact hmn
  · have h1 : semDestroyed (trC ++ destroyTrace c)
        = semDestroyed trC ++ semDestroyed (destroyTrace c) := by
      simp [semDestroyed, List.filterMap_append]
    have h2 : semCreated (trC ++ destroyTrace c)
        = semCreated trC ++ semCreated (destroyTrace c) := by
      simp [semCreated, List.filterMap_append]
    rw [h1, h2, hsem0, semDestroyed_destroyTrace, semCreated_destroyTrace, hsem]
    simp
  · have h2 : semCreated (trC ++ destroyTrace c)
        = semCreated trC ++ semCreated (destroyTrace c) := by
      simp [semCreated, List.filterMap_append]
    rw [h2, semCreated_destroyTrace, List.append_nil]
    exact hsemn
  · have h1 : sessionsClosed (trC ++ destroyTrace c)
        = sessionsClosed trC ++ sessionsClosed (destroyTrace c) := by
      simp [sessionsClosed, List.filterMap_append]
    have h2 : sessionsOpened (trC ++ destroyTrace c)
        = sessionsOpened trC ++ sessionsOpened (destroyTrace c) := by
      simp [sessionsOpened, List.filterMap_append]
    rw [h1, h2, sessionsClosed_destroyTrace, sessionsOpened_destroyTrace, hses]
    simp
  · have h2 : sessionsOpened (trC ++ destroyTrace c)
        = sessionsOpened trC ++ sessionsOpened (destroyTrace c) := by
      simp [sessionsOpened, List.filterMap_append]
    rw [h2, sessionsOpened_destroyTrace, List.append_nil]
    exact hsesn
  · intro p
    rw [freesTo_append, allocsFrom_append, hfree0, halloc, allocsFrom_destroyTrace]
    omega
  · rw [heapFrees_append, mallocs_append, hheap0, hheap, mallocs_destroyTrace]
    omega
  · intro p
    rw [destroy_client_replay, replay_pool]
    show (g1.pool p).outstanding - (freesTo p (destroyTrace c) : Int) = (g.pool p).outstanding
    rw [hpool p, halloc p]
    omega


theorem freesTo_destroyTrace_any (c : client) (p : poolId) :
    freesTo p (destroyTrace c)
      = (if c.proto = IPPROTO_TCP then
          releasesTo p (releaseByTag c.send ++ releaseByTag c.recv) else 0)
        + (if p = .rsrvClientFreeList then 1 else 0) := by
  by_cases htcp : c.proto = IPPROTO_TCP
  · rw [freesTo_destroyTrace c htcp, if_pos htcp]
  · rw [freesTo_eq_filterMap, filterMap_destroyTrace]
    simp only [htcp, if_false, filterMap_udpBufTrace, Event.frees, reduceCtorEq,
      Option.toList, ite_self, match_slab_nil, List.append_nil, List.nil_append,
      bind_const_none, List.length_append]
    cases p <;> simp

theorem heapFrees_destroyTrace (c : client) :
    heapFrees (destroyTrace c)
      = if c.proto = IPPROTO_TCP then 0
        else if c.proto = IPPROTO_UDP then
          c.send.buf.toList.length + c.recv.buf.toList.length
        else 0 := by
  unfold heapFrees
  rw [filterMap_destroyTrace]
  simp only [filterMap_tcpBufTrace, filterMap_udpBufTrace, Option.toList, ite_self,
    match_slab_nil, List.append_nil, List.nil_append, bind_const_none]
  by_cases h1 : c.proto = IPPROTO_TCP
  · simp [h1]
  · by_cases h2 : c.proto = IPPROTO_UDP
    · simp only [h1, h2, if_true, if_false]
      cases c.send.buf <;> cases c.recv.buf <;> rfl
    · simp [h1, h2]

/-- The lemma `released_of_destroy` with the effects so far read off the
trace. -/
theorem released_of_destroy_drop (sock : SOCKET) (g g1 : rsrvGlobals) (c : client)
    (htr : g1.trace = g.trace ++ g1.trace.drop g.trace.length)
    (hsock : c.sock = sock) (hvalid : sock ≠ INVALID_SOCKET)
    (hs0 : socketDestroys sock (g1.trace.drop g.trace.length) = 0)
    (hm0 : mutexDestroyed (g1.trace.drop g.trace.length) = [])
    (hm : [c.eventqLock, c.chanListLock, c.putNotifyLock, c.lock].reduceOption
      = (mutexCreated (g1.trace.drop g.trace.length)).reverse)
    (hmn : (mutexCreated (g1.trace.drop g.trace.length)).Nodup)
    (hsem0 : semDestroyed (g1.trace.drop g.trace.length) = [])
    (hsem : c.blockSem.toList = (semCreated (g1.trace.drop g.trace.length)).reverse)
    (hsemn : (semCreated (g1.trace.drop g.trace.length)).Nodup)
    (hses : sessionsClosed (g1.trace.drop g.trace.length)
      = (sessionsOpened (g1.trace.drop g.trace.length)).reverse)
    (hsesn : (sessionsOpened (g1.trace.drop g.trace.length)).Nodup)
    (hfree0 : ∀ p, freesTo p (g1.trace.drop g.trace.length) = 0)
    (halloc : ∀ p, freesTo p (destroyTrace c) = allocsFrom p (g1.trace.drop g.trace.length))
    (hheap0 : heapFrees (g1.trace.drop g.trace.length) = 0)
    (hheap : heapFrees (destroyTrace c) = mallocs (g1.trace.drop g.trace.length))
    (hpool : ∀ p, (g1.pool p).outstanding
      = (g.pool p).outstanding + allocsFrom p (g1.trace.drop g.trace.length)) :
    released sock g (destroy_client g1 (some c)) :=
  released_of_destroy sock g g1 c _ htr hsock hvalid hs0 hm0 hm hmn hsem0 hsem hsemn hses hsesn
    hfree0 halloc hheap0 hheap hpool

/-- The result of `createSync` in closed form. -/
theorem createSync_eq (o : createOracle) (g : rsrvGlobals) (c : client) :
    createSync o g c =
      ({ g with
          nextHandle := g.nextHandle + o.blockSem.toNat + o.lock.toNat + o.putNotifyLock.toNat
            + o.chanListLock.toNat + o.eventqLock.toNat
          trace := g.trace ++ syncTrace o g.nextHandle },
        { c with
          blockSem := semHandle o g.nextHandle
          lock := lockHandle o g.nextHandle
          putNotifyLock := putNotifyHandle o g.nextHandle
          chanListLock := chanListHandle o g.nextHandle
          eventqLock := eventqHandle o g.nextHandle }) := by
  obtain ⟨osi, growClient, b1, b2, b3, b4, b5, hs, hr, garbage, t1, t2⟩ := o
  cases b1 <;> cases b2 <;> cases b3 <;> cases b4 <;> cases b5 <;>
    simp [createSync, newHandle, rsrvGlobals.log, syncTrace, semHandle, lockHandle,
      putNotifyHandle, chanListHandle, eventqHandle, handleIf]


theorem bind_some_id (h : Option Nat) : (h.bind fun x => some x) = h := by
  cases h <;> rfl

theorem optList_none {α : Type} : (none : Option α).toList = [] := rfl

theorem mutexCreated_syncTrace (o : createOracle) (n : Nat) :
    mutexCreated (syncTrace o n)
      = (lockHandle o n).toList ++ (putNotifyHandle o n).toList
        ++ (chanListHandle o n).toList ++ (eventqHandle o n).toList := by
  simp only [mutexCreated, syncTrace, List.filterMap_append, filterMap_optList,
    bind_const_none, bind_some_id, optList_none, List.nil_append, List.append_nil]

theorem semCreated_syncTrace (o : createOracle) (n : Nat) :
    semCreated (syncTrace o n) = (semHandle o n).toList := by
  simp only [semCreated, syncTrace, List.filterMap_append, filterMap_optList,
    bind_const_none, bind_some_id, optList_none, List.nil_append, List.append_nil]

theorem mutexDestroyed_syncTrace (o : createOracle) (n : Nat) :
    mutexDestroyed (syncTrace o n) = [] := by
  simp only [mutexDestroyed, syncTrace, List.filterMap_append, filterMap_optList,
    bind_const_none, optList_none, List.append_nil]

theorem semDestroyed_syncTrace (o : createOracle) (n : Nat) :
    semDestroyed (syncTrace o n) = [] := by
  simp only [semDestroyed, syncTrace, List.filterMap_append, filterMap_optList,
    bind_const_none, optList_none, List.append_nil]

theorem sessionsOpened_syncTrace (o : createOracle) (n : Nat) :
    sessionsOpened (syncTrace o n) = [] := by
  simp only [sessionsOpened, syncTrace, List.filterMap_append, filterMap_optList,
    bind_const_none, optList_none, List.append_nil]

theorem sessionsClosed_syncTrace (o : createOracle) (n : Nat) :
    sessionsClosed (syncTrace o n) = [] := by
  simp only [sessionsClosed, syncTrace, List.filterMap_append, filterMap_optList,
    bind_const_none, optList_none, List.append_nil]

theorem socketDestroys_syncTrace (sock : SOCKET) (o : createOracle) (n : Nat) :
    socketDestroys sock (syncTrace o n) = 0 := by
  simp only [socketDestroys, syncTrace, List.filterMap_append, filterMap_optList,
    bind_const_none, optList_none, List.append_nil, List.length_nil]

theorem freesTo_syncTrace (p : poolId) (o : createOracle) (n : Nat) :
    freesTo p (syncTrace o n) = 0 := by
  rw [freesTo_eq_filterMap]
  simp only [syncTrace, List.filterMap_append, filterMap_optList, Event.frees, reduceCtorEq,
    if_false, bind_const_none, optList_none, List.append_nil, List.length_nil]

theorem allocsFrom_syncTrace (p : poolId) (o : createOracle) (n : Nat) :
    allocsFrom p (syncTrace o n) = 0 := by
  rw [allocsFrom_eq_filterMap]
  simp only [syncTrace, List.filterMap_append, filterMap_optList,
    bind_const_none, optList_none, List.append_nil, List.length_nil]

theorem heapFrees_syncTrace (o : createOracle) (n : Nat) : heapFrees (syncTrace o n) = 0 := by
  simp only [heapFrees, syncTrace, List.filterMap_append, filterMap_optList,
    bind_const_none, optList_none, List.append_nil, List.length_nil]

theorem mallocs_syncTrace (o : createOracle) (n : Nat) : mallocs (syncTrace o n) = 0 := by
  simp only [mallocs, syncTrace, List.filterMap_append, filterMap_optList,
    bind_const_none, optList_none, List.append_nil, List.length_nil]

/-- The mutexes `destroy_client` finds in a record after `createSync` are the
mutexes `createSync` created, in reverse order, and these are distinct. -/
theorem syncTrace_mutexes (o : createOracle) (n : Nat) :
    [eventqHandle o n, chanListHandle o n, putNotifyHandle o n, lockHandle o n].reduceOption
        = (mutexCreated (syncTrace o n)).reverse
      ∧ (mutexCreated (syncTrace o n)).Nodup := by
  rw [mutexCreated_syncTrace]
  obtain ⟨osi, growClient, b1, b2, b3, b4, b5, hs, hr, garbage, t1, t2⟩ := o
  cases b1 <;> cases b2 <;> cases b3 <;> cases b4 <;> cases b5 <;>
    simp [lockHandle, putNotifyHandle, chanListHandle, eventqHandle, handleIf,
      List.reduceOption] <;> omega

theorem syncTrace_sem (o : createOracle) (n : Nat) :
    (semHandle o n).toList = (semCreated (syncTrace o n)).reverse
      ∧ (semCreated (syncTrace o n)).Nodup := by
  rw [semCreated_syncTrace]
  cases h : semHandle o n <;> simp


/-- The effects of a call of `create_client` up to and including `createSync`,
when the client record was obtained. -/
theorem sync_prefix_facts (sock : SOCKET) (o : createOracle) (n : Nat) :
    socketDestroys sock (.freeListCalloc .rsrvClientFreeList :: syncTrace o n) = 0
      ∧ mutexDestroyed (.freeListCalloc .rsrvClientFreeList :: syncTrace o n) = []
      ∧ mutexCreated (.freeListCalloc .rsrvClientFreeList :: syncTrace o n)
          = mutexCreated (syncTrace o n)
      ∧ semDestroyed (.freeListCalloc .rsrvClientFreeList :: syncTrace o n) = []
      ∧ semCreated (.freeListCalloc .rsrvClientFreeList :: syncTrace o n)
          = semCreated (syncTrace o n)
      ∧ sessionsClosed (.freeListCalloc .rsrvClientFreeList :: syncTrace o n) = []
      ∧ sessionsOpened (.freeListCalloc .rsrvClientFreeList :: syncTrace o n) = []
      ∧ (∀ p, freesTo p (.freeListCalloc .rsrvClientFreeList :: syncTrace o n) = 0)
      ∧ (∀ p, allocsFrom p (.freeListCalloc .rsrvClientFreeList :: syncTrace o n)
          = if p = .rsrvClientFreeList then 1 else 0)
      ∧ heapFrees (.freeListCalloc .rsrvClientFreeList :: syncTrace o n) = 0
      ∧ mallocs (.freeListCalloc .rsrvClientFreeList :: syncTrace o n) = 0 := by
  refine ⟨?_, ?_, ?_, ?_, ?_, ?_, ?_, ?_, ?_, ?_, ?_⟩
  · have := socketDestroys_syncTrace sock o n
    simpa [socketDestroys] using this
  · have := mutexDestroyed_syncTrace o n
    simpa [mutexDestroyed] using this
  · simp [mutexCreated]
  · have := semDestroyed_syncTrace o n
    simpa [semDestroyed] using this
  · simp [semCreated]
  · have := sessionsClosed_syncTrace o n
    simpa [sessionsClosed] using this
  · have := sessionsOpened_syncTrace o n
    simpa [sessionsOpened] using this
  · intro p
    rw [freesTo_cons, freesTo_syncTrace, freesTo_single]
    simp [Event.frees]
  · intro p
    have h := allocsFrom_syncTrace p o n
    unfold allocsFrom at h ⊢
    rw [List.count_cons, h]
    cases p <;> simp
  · have := heapFrees_syncTrace o n
    simpa [heapFrees] using this
  · have := mallocs_syncTrace o n
    simpa [mallocs] using this

/-- The exit of `create_client` taken when a synchronisation object is
missing releases everything. -/
theorem released_sync_missing (o : createOracle) (g : rsrvGlobals) (sock : SOCKET) (proto : Int)
    (hvalid : sock ≠ INVALID_SOCKET) (aC : Nat) :
    released sock g (destroy_client
      (createSync o ((g.setPool .rsrvClientFreeList
        ⟨aC, g.rsrvClientFreeList.outstanding + 1⟩).log (.freeListCalloc .rsrvClientFreeList))
        (freshClient sock proto)).1
      (some (createSync o ((g.setPool .rsrvClientFreeList
        ⟨aC, g.rsrvClientFreeList.outstanding + 1⟩).log (.freeListCalloc .rsrvClientFreeList))
        (freshClient sock proto)).2)) := by
  rw [createSync_eq]
  obtain ⟨h1, h2, h3, h4, h5, h6, h7, h8, h9, h10, h11⟩ := sync_prefix_facts sock o g.nextHandle
  have hm := syncTrace_mutexes o g.nextHandle
  have hs := syncTrace_sem o g.nextHandle
  refine released_of_destroy sock g _ _
    (.freeListCalloc .rsrvClientFreeList :: syncTrace o g.nextHandle)
    ?_ rfl hvalid h1 h2 ?_ ?_ h4 ?_ ?_ ?_ ?_ h8 ?_ h10 ?_ ?_
  · simp [rsrvGlobals.log, rsrvGlobals.setPool]
  · rw [h3]; exact hm.1
  · rw [h3]; exact hm.2
  · rw [h5]; exact hs.1
  · rw [h5]; exact hs.2
  · rw [h6, h7]; rfl
  · rw [h7]; exact List.nodup_nil
  · intro p
    rw [freesTo_destroyTrace_any, h9]
    simp [freshClient, zeroClient, releasesTo, releaseByTag]
  · rw [heapFrees_destroyTrace, h11]
    simp [freshClient, zeroClient]
  · intro p
    rw [h9]
    cases p <;> simp [rsrvGlobals.log, rsrvGlobals.setPool, rsrvGlobals.pool]


theorem filterMap_neutral {α : Type} (f : Event → Option α) (extra : List Event)
    (hf : ∀ e : Event, e.neutral = true → f e = none)
    (hextra : ∀ e ∈ extra, e.neutral = true) : List.filterMap f extra = [] := by
  rw [List.filterMap_eq_nil_iff]
  intro e he
  exact hf e (hextra e he)

theorem neutral_facts (sock : SOCKET) (extra : List Event)
    (hextra : ∀ e ∈ extra, e.neutral = true) :
    socketDestroys sock extra = 0
      ∧ mutexDestroyed extra = [] ∧ mutexCreated extra = []
      ∧ semDestroyed extra = [] ∧ semCreated extra = []
      ∧ (∀ p, freesTo p extra = 0)
      ∧ (∀ p, p ≠ .rsrvSmallBufFreeListTCP → allocsFrom p extra = 0)
      ∧ heapFrees extra = 0 := by
  refine ⟨?_, ?_, ?_, ?_, ?_, ?_, ?_, ?_⟩
  · unfold socketDestroys
    rw [filterMap_neutral _ extra _ hextra]; rfl
    intro e he
    cases e <;> first | rfl | simp [Event.neutral] at he
  · unfold mutexDestroyed
    rw [filterMap_neutral _ extra _ hextra]
    intro e he
    cases e <;> first | rfl | simp [Event.neutral] at he
  · unfold mutexCreated
    rw [filterMap_neutral _ extra _ hextra]
    intro e he
    cases e <;> first | rfl | simp [Event.neutral] at he
  · unfold semDestroyed
    rw [filterMap_neutral _ extra _ hextra]
    intro e he
    cases e <;> first | rfl | simp [Event.neutral] at he
  · unfold semCreated
    rw [filterMap_neutral _ extra _ hextra]
    intro e he
    cases e <;> first | rfl | simp [Event.neutral] at he
  · intro p
    rw [freesTo_eq_filterMap, filterMap_neutral _ extra _ hextra]; rfl
    intro e he
    cases e with
    | rsrvFreePutNotify sid pn => simp [Event.neutral] at he
    | _ => first | rfl | simp [Event.neutral] at he
  · intro p hp
    rw [allocsFrom_eq_filterMap, filterMap_neutral _ extra _ hextra]; rfl
    intro e he
    cases e with
    | freeListCalloc q =>
      cases q <;> first
        | (simp [Event.neutral] at he; done)
        | (have hq : ¬ (poolId.rsrvSmallBufFreeListTCP = p) := fun h => hp h.symm
           simp [hq])
    | _ => rfl
  · unfold heapFrees
    rw [filterMap_neutral _ extra _ hextra]; rfl
    intro e he
    cases e <;> first | rfl | simp [Event.neutral] at he


theorem freesTo_client_destroyTrace (c : client) :
    freesTo .rsrvClientFreeList (destroyTrace c) = 1 := by
  rw [freesTo_destroyTrace_any, releasesTo_append]
  simp only [releasesTo, releaseByTag]
  cases c.send.buf <;> cases c.recv.buf <;> simp <;> split_ifs <;> simp

/-- A call of `create_client` or `create_tcp_client` that obtained the client
record, went through `createSync`, performed further neutral effects `extra`
and ends in `destroy_client` on a record that holds the handles of
`createSync` and the buffers allocated in `extra`, has released everything. -/
theorem released_after (sock : SOCKET) (g g1 : rsrvGlobals) (c : client) (o : createOracle)
    (n : Nat) (extra : List Event)
    (htr : g1.trace
      = g.trace ++ ((.freeListCalloc .rsrvClientFreeList :: syncTrace o n) ++ extra))
    (hextra : ∀ e ∈ extra, e.neutral = true)
    (hses : sessionsClosed extra = (sessionsOpened extra).reverse)
    (hsesn : (sessionsOpened extra).Nodup)
    (hsock : c.sock = sock) (hvalid : sock ≠ INVALID_SOCKET)
    (hl1 : c.eventqLock = eventqHandle o n) (hl2 : c.chanListLock = chanListHandle o n)
    (hl3 : c.putNotifyLock = putNotifyHandle o n) (hl4 : c.lock = lockHandle o n)
    (hl5 : c.blockSem = semHandle o n)
    (hsmall : freesTo .rsrvSmallBufFreeListTCP (destroyTrace c)
      = allocsFrom .rsrvSmallBufFreeListTCP extra)
    (hother : ∀ p, p ≠ .rsrvSmallBufFreeListTCP → p ≠ .rsrvClientFreeList →
      freesTo p (destroyTrace c) = 0)
    (hheap : heapFrees (destroyTrace c) = mallocs extra)
    (hpool : ∀ p, (g1.pool p).outstanding
      = (g.pool p).outstanding + ((if p = .rsrvClientFreeList then 1 else 0 : Nat) : Int)
        + ((if p = .rsrvSmallBufFreeListTCP then allocsFrom .rsrvSmallBufFreeListTCP extra
            else 0 : Nat) : Int)) :
    released sock g (destroy_client g1 (some c)) := by
  obtain ⟨h1, h2, h3, h4, h5, h6, h7, h8, h9, h10, h11⟩ := sync_prefix_facts sock o n
  obtain ⟨k1, k2, k3, k4, k5, k6, k7, k8⟩ := neutral_facts sock extra hextra
  have hm := syncTrace_mutexes o n
  have hs := syncTrace_sem o n
  have a1 : ∀ a b : List Event, mutexDestroyed (a ++ b) = mutexDestroyed a ++ mutexDestroyed b :=
    fun a b => by simp [mutexDestroyed, List.filterMap_append]
  have a2 : ∀ a b : List Event, mutexCreated (a ++ b) = mutexCreated a ++ mutexCreated b :=
    fun a b => by simp [mutexCreated, List.filterMap_append]
  have a3 : ∀ a b : List Event, semDestroyed (a ++ b) = semDestroyed a ++ semDestroyed b :=
    fun a b => by simp [semDestroyed, List.filterMap_append]
  have a4 : ∀ a b : List Event, semCreated (a ++ b) = semCreated a ++ semCreated b :=
    fun a b => by simp [semCreated, List.filterMap_append]
  have a5 : ∀ a b : List Event,
      sessionsClosed (a ++ b) = sessionsClosed a ++ sessionsClosed b :=
    fun a b => by simp [sessionsClosed, List.filterMap_append]
  have a6 : ∀ a b : List Event,
      sessionsOpened (a ++ b) = sessionsOpened a ++ sessionsOpened b :=
    fun a b => by simp [sessionsOpened, List.filterMap_append]
  have hallocs : ∀ p, allocsFrom p
      ((.freeListCalloc .rsrvClientFreeList :: syncTrace o n) ++ extra)
      = (if p = .rsrvClientFreeList then 1 else 0)
        + (if p = .rsrvSmallBufFreeListTCP then allocsFrom .rsrvSmallBufFreeListTCP extra
            else 0) := by
    intro p
    rw [allocsFrom_append, h9]
    by_cases hp : p = .rsrvSmallBufFreeListTCP
    · subst hp; simp
    · rw [k7 p hp]; simp [hp]
  refine released_of_destroy sock g g1 c _ htr hsock hvalid ?_ ?_ ?_ ?_ ?_ ?_ ?_ ?_ ?_ ?_ ?_
    ?_ ?_ ?_
  · rw [socketDestroys_append, h1, k1]
  · rw [a1, h2, k2]; rfl
  · rw [a2, h3, k3, List.append_nil, hl1, hl2, hl3, hl4]; exact hm.1
  · rw [a2, h3, k3, List.append_nil]; exact hm.2
  · rw [a3, h4, k4]; rfl
  · rw [a4, h5, k5, List.append_nil, hl5]; exact hs.1
  · rw [a4, h5, k5, List.append_nil]; exact hs.2
  · rw [a5, a6, h6, h7, List.nil_append, List.nil_append]; exact hses
  · rw [a6, h7, List.nil_append]; exact hsesn
  · intro p
    rw [freesTo_append, h8, k6]
  · intro p
    rw [hallocs]
    by_cases hc : p = .rsrvClientFreeList
    · subst hc
      rw [freesTo_client_destroyTrace]; simp
    · by_cases hp : p = .rsrvSmallBufFreeListTCP
      · subst hp
        rw [hsmall]; simp
      · rw [hother p hp hc]; simp [hc, hp]
  · rw [heapFrees_append, h10, k8]
  · rw [mallocs_append, h11, hheap]; simp
  · intro p
    rw [hpool p, hallocs p]
    push_cast
    ring


/-- The result of the TCP branch of `allocBuffers` in closed form: `sb` and
`rb` tell whether the send and the receive buffer were obtained. -/
theorem allocBuffers_tcp_eq (cfg : Config) (o : createOracle) (g : rsrvGlobals) (c : client) :
    ∃ (sb rb : Bool) (a : Nat), allocBuffers cfg o g IPPROTO_TCP c =
      ({ g with
          rsrvSmallBufFreeListTCP :=
            ⟨a, g.rsrvSmallBufFreeListTCP.outstanding + sb.toNat + rb.toNat⟩
          trace := g.trace
            ++ List.replicate (sb.toNat + rb.toNat) (.freeListCalloc .rsrvSmallBufFreeListTCP) },
        { c with
          send := { c.send with
            buf := if sb then some ⟨.pool .rsrvSmallBufFreeListTCP, zeroed cfg.MAX_TCP⟩ else none
            maxstk := cfg.MAX_TCP, type := mbtSmallTCP }
          recv := { c.recv with
            buf := if rb then some ⟨.pool .rsrvSmallBufFreeListTCP, zeroed cfg.MAX_TCP⟩ else none
            maxstk := cfg.MAX_TCP, type := mbtSmallTCP } }) := by
  cases h1 : freeListCalloc g .rsrvSmallBufFreeListTCP o.heapSend with
  | none =>
    cases h2 : freeListCalloc g .rsrvSmallBufFreeListTCP o.heapRecv with
    | none =>
      refine ⟨false, false, g.rsrvSmallBufFreeListTCP.avail, ?_⟩
      simp only [allocBuffers, callocSmallBuf, if_true, h1, h2]
      simp
    | some g2 =>
      obtain ⟨a2, e2⟩ := freeListCalloc_some h2
      subst e2
      refine ⟨false, true, a2, ?_⟩
      simp only [allocBuffers, callocSmallBuf, if_true, h1, h2]
      simp [rsrvGlobals.log, rsrvGlobals.setPool, rsrvGlobals.pool]
  | some g1 =>
    obtain ⟨a1, e1⟩ := freeListCalloc_some h1
    cases h2 : freeListCalloc g1 .rsrvSmallBufFreeListTCP o.heapRecv with
    | none =>
      subst e1
      refine ⟨true, false, a1, ?_⟩
      simp only [allocBuffers, callocSmallBuf, if_true, h1, h2]
      simp [rsrvGlobals.log, rsrvGlobals.setPool, rsrvGlobals.pool]
    | some g2 =>
      obtain ⟨a2, e2⟩ := freeListCalloc_some h2
      subst e1
      subst e2
      refine ⟨true, true, a2, ?_⟩
      simp only [allocBuffers, callocSmallBuf, if_true, h1, h2]
      simp [rsrvGlobals.log, rsrvGlobals.setPool, rsrvGlobals.pool, List.replicate]

/-- The result of the UDP branch of `allocBuffers` in closed form. -/
theorem allocBuffers_udp_eq (cfg : Config) (o : createOracle) (g : rsrvGlobals) (c : client) :
    allocBuffers cfg o g IPPROTO_UDP c =
      ({ g with
          trace := g.trace ++ ((if o.heapSend then [.malloc cfg.MAX_UDP_SEND] else [])
            ++ (if o.heapRecv then [.malloc cfg.MAX_UDP_RECV] else [])) },
        { c with
          send := { c.send with
            buf := if o.heapSend then some ⟨.heap, (List.range cfg.MAX_UDP_SEND).map o.garbage⟩
              else none
            maxstk := cfg.MAX_UDP_SEND, type := mbtUDP }
          recv := { c.recv with
            buf := if o.heapRecv then some ⟨.heap, (List.range cfg.MAX_UDP_RECV).map o.garbage⟩
              else none
            maxstk := cfg.MAX_UDP_RECV, type := mbtUDP } }) := by
  obtain ⟨osi, growClient, b1, b2, b3, b4, b5, hs, hr, garbage, t1, t2⟩ := o
  cases hs <;> cases hr <;> simp [allocBuffers, malloc, rsrvGlobals.log]


/-- Whatever `allocBuffers` obtained, `destroy_client` right after it releases
everything the call of `create_client` acquired. -/
theorem released_after_allocBuffers (cfg : Config) (o : createOracle) (g : rsrvGlobals)
    (sock : SOCKET) (proto : Int) (hvalid : sock ≠ INVALID_SOCKET) (aC : Nat) :
    released sock g (destroy_client
      (allocBuffers cfg o (createSync o ((g.setPool .rsrvClientFreeList
        ⟨aC, g.rsrvClientFreeList.outstanding + 1⟩).log (.freeListCalloc .rsrvClientFreeList))
        (freshClient sock proto)).1 proto
        (initLists (createSync o ((g.setPool .rsrvClientFreeList
          ⟨aC, g.rsrvClientFreeList.outstanding + 1⟩).log (.freeListCalloc .rsrvClientFreeList))
          (freshClient sock proto)).2)).1
      (some (allocBuffers cfg o (createSync o ((g.setPool .rsrvClientFreeList
        ⟨aC, g.rsrvClientFreeList.outstanding + 1⟩).log (.freeListCalloc .rsrvClientFreeList))
        (freshClient sock proto)).1 proto
        (initLists (createSync o ((g.setPool .rsrvClientFreeList
          ⟨aC, g.rsrvClientFreeList.outstanding + 1⟩).log (.freeListCalloc .rsrvClientFreeList))
          (freshClient sock proto)).2)).2)) := by
  rw [createSync_eq]
  by_cases ht : proto = IPPROTO_TCP
  · subst ht
    obtain ⟨sb, rb, a, he⟩ := allocBuffers_tcp_eq cfg o
      ({ (g.setPool .rsrvClientFreeList
            ⟨aC, g.rsrvClientFreeList.outstanding + 1⟩).log (.freeListCalloc .rsrvClientFreeList)
          with
          nextHandle := g.nextHandle + o.blockSem.toNat + o.lock.toNat + o.putNotifyLock.toNat
            + o.chanListLock.toNat + o.eventqLock.toNat
          trace := (g.trace ++ [.freeListCalloc .rsrvClientFreeList])
            ++ syncTrace o g.nextHandle } : rsrvGlobals)
      (initLists { freshClient sock IPPROTO_TCP with
          blockSem := semHandle o g.nextHandle
          lock := lockHandle o g.nextHandle
          putNotifyLock := putNotifyHandle o g.nextHandle
          chanListLock := chanListHandle o g.nextHandle
          eventqLock := eventqHandle o g.nextHandle })
    simp only [rsrvGlobals.log, rsrvGlobals.setPool] at he ⊢
    rw [he]
    clear he
    refine released_after sock g _ _ o g.nextHandle
      (List.replicate (sb.toNat + rb.toNat) (.freeListCalloc .rsrvSmallBufFreeListTCP))
      ?_ ?_ ?_ ?_ rfl hvalid rfl rfl rfl rfl rfl ?_ ?_ ?_ ?_
    · simp
    · intro e he
      rw [List.eq_of_mem_replicate he]
      rfl
    · cases sb <;> cases rb <;> rfl
    · cases sb <;> cases rb <;> exact List.nodup_nil
    · rw [freesTo_destroyTrace_any]
      cases sb <;> cases rb <;>
        simp [initLists, freshClient, releasesTo, releaseByTag, allocsFrom, List.replicate]
    · intro p hp hc
      rw [freesTo_destroyTrace_any]
      cases sb <;> cases rb <;> cases p <;>
        simp_all [initLists, freshClient, releasesTo, releaseByTag]
    · rw [heapFrees_destroyTrace]
      cases sb <;> cases rb <;> simp [initLists, freshClient, mallocs, List.replicate]
    · intro p
      cases sb <;> cases rb <;> cases p <;>
        simp [rsrvGlobals.pool, allocsFrom, List.replicate]
      ring
  · by_cases hu : proto = IPPROTO_UDP
    · subst hu
      rw [allocBuffers_udp_eq]
      simp only [rsrvGlobals.log, rsrvGlobals.setPool]
      refine released_after sock g _ _ o g.nextHandle
        ((if o.heapSend then [.malloc cfg.MAX_UDP_SEND] else [])
          ++ (if o.heapRecv then [.malloc cfg.MAX_UDP_RECV] else []))
        ?_ ?_ ?_ ?_ rfl hvalid rfl rfl rfl rfl rfl ?_ ?_ ?_ ?_
      · simp
      · intro e he
        cases h1 : o.heapSend <;> cases h2 : o.heapRecv <;> simp [h1, h2] at he
        · rw [he]; rfl
        · rw [he]; rfl
        · rcases he with he | he <;> rw [he] <;> rfl
      · cases o.heapSend <;> cases o.heapRecv <;> rfl
      · cases o.heapSend <;> cases o.heapRecv <;> exact List.nodup_nil
      · rw [freesTo_destroyTrace_any]
        have hne : ¬ (IPPROTO_UDP = IPPROTO_TCP) := by decide
        cases o.heapSend <;> cases o.heapRecv <;>
          simp [initLists, freshClient, hne, allocsFrom]
      · intro p hp hc
        rw [freesTo_destroyTrace_any]
        have hne : ¬ (IPPROTO_UDP = IPPROTO_TCP) := by decide
        simp [initLists, freshClient, hne, hc]
      · rw [heapFrees_destroyTrace]
        have hne : ¬ (IPPROTO_UDP = IPPROTO_TCP) := by decide
        cases o.heapSend <;> cases o.heapRecv <;>
          simp [initLists, freshClient, hne, mallocs]
      · intro p
        cases h1 : o.heapSend <;> cases h2 : o.heapRecv <;> cases p <;>
          simp [rsrvGlobals.pool, allocsFrom]
    · rw [allocBuffers_other cfg o _ proto _ ht hu]
      simp only [rsrvGlobals.log, rsrvGlobals.setPool]
      refine released_after sock g _ _ o g.nextHandle [] ?_ ?_ rfl List.nodup_nil rfl hvalid
        rfl rfl rfl rfl rfl ?_ ?_ ?_ ?_
      · simp
      · intro e he
        cases he
      · rw [freesTo_destroyTrace_any]
        simp [initLists, freshClient, zeroClient, ht, allocsFrom]
      · intro p hp hc
        rw [freesTo_destroyTrace_any]
        simp [initLists, freshClient, ht, hc]
      · rw [heapFrees_destroyTrace]
        simp [initLists, freshClient, zeroClient, ht, hu, mallocs]
      · intro p
        cases p <;> simp [rsrvGlobals.pool, allocsFrom]


/-- Every null return of `create_client` (given a valid socket) has released
everything. -/
theorem create_client_none_released (cfg : Config) (o : createOracle) (g g1 : rsrvGlobals)
    (sock : SOCKET) (proto : Int) (hvalid : sock ≠ INVALID_SOCKET)
    (h : create_client cfg o g sock proto = (g1, none)) : released sock g g1 := by
  unfold create_client at h
  cases ha : spaceForClient cfg o g with
  | false =>
    simp only [ha, if_true, Prod.mk.injEq, and_true] at h
    rw [← h]
    exact released_refused sock g _
  | true =>
    cases hc : freeListCalloc g .rsrvClientFreeList o.growClient with
    | none =>
      simp only [ha, hc, Bool.true_eq_false, if_false, Prod.mk.injEq, and_true] at h
      rw [← h]
      exact released_refused sock g _
    | some ga =>
      obtain ⟨aC, hga⟩ := freeListCalloc_some hc
      subst hga
      simp only [ha, hc, Bool.true_eq_false, if_false] at h
      cases hs : syncMissing (createSync o ((g.setPool .rsrvClientFreeList
          ⟨aC, (g.pool .rsrvClientFreeList).outstanding + 1⟩).log
          (.freeListCalloc .rsrvClientFreeList)) (freshClient sock proto)).2 with
      | true =>
        simp only [hs, if_true, Prod.mk.injEq, and_true] at h
        rw [← h]
        exact released_sync_missing o g sock proto hvalid aC
      | false =>
        simp only [hs, Bool.false_eq_true, if_false] at h
        cases hb : bufMissing (allocBuffers cfg o (createSync o ((g.setPool .rsrvClientFreeList
            ⟨aC, (g.pool .rsrvClientFreeList).outstanding + 1⟩).log
            (.freeListCalloc .rsrvClientFreeList)) (freshClient sock proto)).1 proto
            (initLists (createSync o ((g.setPool .rsrvClientFreeList
              ⟨aC, (g.pool .rsrvClientFreeList).outstanding + 1⟩).log
              (.freeListCalloc .rsrvClientFreeList)) (freshClient sock proto)).2)).2 with
        | true =>
          simp only [hb, if_true, Prod.mk.injEq, and_true] at h
          rw [← h]
          exact released_after_allocBuffers cfg o g sock proto hvalid aC
        | false =>
          simp [hb] at h


/-- What `create_client` returns with a TCP client, in closed form. -/
theorem create_client_tcp_eq (cfg : Config) (o : createOracle) (g g1 : rsrvGlobals)
    (sock : SOCKET) (c : client)
    (h : create_client cfg o g sock IPPROTO_TCP = (g1, some c)) :
    ∃ aC aS,
      g1 = { g with
        rsrvClientFreeList := ⟨aC, g.rsrvClientFreeList.outstanding + 1⟩
        rsrvSmallBufFreeListTCP := ⟨aS, g.rsrvSmallBufFreeListTCP.outstanding + 1 + 1⟩
        nextHandle := g.nextHandle + o.blockSem.toNat + o.lock.toNat + o.putNotifyLock.toNat
          + o.chanListLock.toNat + o.eventqLock.toNat
        trace := g.trace ++ ((.freeListCalloc .rsrvClientFreeList :: syncTrace o g.nextHandle)
          ++ [.freeListCalloc .rsrvSmallBufFreeListTCP,
              .freeListCalloc .rsrvSmallBufFreeListTCP]) }
      ∧ c = { zeroClient with
        send := ⟨some ⟨.pool .rsrvSmallBufFreeListTCP, zeroed cfg.MAX_TCP⟩, 0, cfg.MAX_TCP, 0,
          mbtSmallTCP⟩
        recv := ⟨some ⟨.pool .rsrvSmallBufFreeListTCP, zeroed cfg.MAX_TCP⟩, 0, cfg.MAX_TCP, 0,
          mbtSmallTCP⟩
        blockSem := semHandle o g.nextHandle
        lock := lockHandle o g.nextHandle
        putNotifyLock := putNotifyHandle o g.nextHandle
        chanListLock := chanListHandle o g.nextHandle
        eventqLock := eventqHandle o g.nextHandle
        sock := sock
        proto := IPPROTO_TCP
        priority := cfg.CA_PROTO_PRIORITY_MIN
        time_at_last_send := o.timeSend
        time_at_last_recv := o.timeRecv
        minor_version_number := cfg.CA_UKN_MINOR_VERSION }
      ∧ (∃ h1 h2 h3 h4 h5, semHandle o g.nextHandle = some h1
          ∧ lockHandle o g.nextHandle = some h2 ∧ putNotifyHandle o g.nextHandle = some h3
          ∧ chanListHandle o g.nextHandle = some h4
          ∧ eventqHandle o g.nextHandle = some h5) := by
  obtain ⟨aC, s1, hs1, hsync, hcase⟩ := create_client_result cfg o g g1 sock IPPROTO_TCP c h
  rcases hcase with ⟨_, hb, hg1, hc⟩ | ⟨hp, _⟩
  swap
  · exact absurd hp (by decide)
  obtain ⟨aS, ha⟩ := allocBuffers_tcp_complete cfg o s1.1 (initLists s1.2) hb
  rw [ha] at hg1 hc
  rw [createSync_eq] at hs1
  simp only [rsrvGlobals.log, rsrvGlobals.setPool] at hs1
  subst hs1
  refine ⟨aC, aS, ?_, ?_, ?_⟩
  · rw [hg1]
    simp [rsrvGlobals.log, rsrvGlobals.setPool]
  · rw [hc]
    simp [initRest, initLists, freshClient, zeroClient]
  · simp only [syncMissing, Bool.or_eq_false_iff, decide_eq_false_iff_not] at hsync
    obtain ⟨⟨⟨⟨k1, k2⟩, k3⟩, k4⟩, k5⟩ := hsync
    exact ⟨_, _, _, _, _, (Option.ne_none_iff_exists'.mp k1).choose_spec,
      (Option.ne_none_iff_exists'.mp k2).choose_spec,
      (Option.ne_none_iff_exists'.mp k3).choose_spec,
      (Option.ne_none_iff_exists'.mp k4).choose_spec,
      (Option.ne_none_iff_exists'.mp k5).choose_spec⟩

/-- The C function `destroy_tcp_client` on a client without channels. -/
theorem destroy_tcp_client_no_channels (o : teardownOracle) (g : rsrvGlobals) (c : client)
    (h1 : c.chanList = []) (h2 : c.chanPendingUpdateARList = []) :
    destroy_tcp_client o g c =
      match c.evuser with
      | none => .ok (destroy_client g (some c), c)
      | some ev =>
        if o.db_add_extra_labor_event = 0 then
          .ok (destroy_client ((((g.log (.db_add_extra_labor_event ev false)).log
            (.db_flush_extra_labor_event ev))).log (.db_close_events ev)) (some c), c)
        else .error .assertFailed := by
  have hd : ∀ (g : rsrvGlobals) (c' : client), destroyAllChannels o g c' [] = (g, []) := by
    intro g c'
    unfold destroyAllChannels
    split <;> rfl
  cases c
  simp only at h1 h2
  subst h1 h2
  unfold destroy_tcp_client
  rename_i evuser
  cases evuser with
  | none =>
    simp only [hd, destroyIfSet]
  | some ev =>
    by_cases h0 : o.db_add_extra_labor_event = 0
    · simp only [h0, if_true, hd, destroyIfSet]
    · simp only [h0, if_false]


/-- The failure exit `failTcp` on a client without channels and without an
event-facility session. -/
theorem failTcp_no_session (o : teardownOracle) (g : rsrvGlobals) (c : client)
    (h1 : c.chanList = []) (h2 : c.chanPendingUpdateARList = []) (h3 : c.evuser = none) :
    failTcp o g c = .ok (destroy_client g (some c), none) := by
  unfold failTcp
  rw [destroy_tcp_client_no_channels o g c h1 h2, h3]

/-- The failure exit `failTcp` on a client without channels and with the
event-facility session `ev`, when it returns. -/
theorem failTcp_session (o : teardownOracle) (g g1 : rsrvGlobals) (c : client) (ev : Nat)
    (h1 : c.chanList = []) (h2 : c.chanPendingUpdateARList = []) (h3 : c.evuser = some ev)
    (h : failTcp o g c = .ok (g1, none)) :
    g1 = destroy_client ((((g.log (.db_add_extra_labor_event ev false)).log
            (.db_flush_extra_labor_event ev))).log (.db_close_events ev)) (some c) := by
  unfold failTcp at h
  rw [destroy_tcp_client_no_channels o g c h1 h2, h3] at h
  by_cases h0 : o.db_add_extra_labor_event = 0
  · simp only [h0, if_true, Except.ok.injEq, Prod.mk.injEq, and_true] at h
    exact h.symm
  · simp [h0] at h


/-- The common tail of the failure exits of `create_tcp_client`: the client
was fully created, further neutral effects `ex` without allocations and with
every opened session closed were performed, and the record is destroyed. -/
theorem released_tcp_tail (cfg : Config) (o : createOracle) (g g2 : rsrvGlobals)
    (sock : SOCKET) (hvalid : sock ≠ INVALID_SOCKET) (ex : List Event) (c : client)
    (htr : g2.trace = g.trace ++ ((.freeListCalloc .rsrvClientFreeList
        :: syncTrace o g.nextHandle)
      ++ ([.freeListCalloc .rsrvSmallBufFreeListTCP, .freeListCalloc .rsrvSmallBufFreeListTCP]
          ++ ex)))
    (hpool : ∀ p, (g2.pool p).outstanding
      = (g.pool p).outstanding + ((if p = .rsrvClientFreeList then 1 else 0 : Nat) : Int)
        + ((if p = .rsrvSmallBufFreeListTCP then 2 else 0 : Nat) : Int))
    (hex : ∀ e ∈ ex, e.neutral = true)
    (hex0 : allocsFrom .rsrvSmallBufFreeListTCP ex = 0)
    (hexm : mallocs ex = 0)
    (hses : sessionsClosed ex = (sessionsOpened ex).reverse)
    (hsesn : (sessionsOpened ex).Nodup)
    (hsock : c.sock = sock) (hproto : c.proto = IPPROTO_TCP)
    (hsend : c.send = ⟨some ⟨.pool .rsrvSmallBufFreeListTCP, zeroed cfg.MAX_TCP⟩, 0,
      cfg.MAX_TCP, 0, mbtSmallTCP⟩)
    (hrecv : c.recv = ⟨some ⟨.pool .rsrvSmallBufFreeListTCP, zeroed cfg.MAX_TCP⟩, 0,
      cfg.MAX_TCP, 0, mbtSmallTCP⟩)
    (hl1 : c.eventqLock = eventqHandle o g.nextHandle)
    (hl2 : c.chanListLock = chanListHandle o g.nextHandle)
    (hl3 : c.putNotifyLock = putNotifyHandle o g.nextHandle)
    (hl4 : c.lock = lockHandle o g.nextHandle)
    (hl5 : c.blockSem = semHandle o g.nextHandle) :
    released sock g (destroy_client g2 (some c)) := by
  have hall : allocsFrom .rsrvSmallBufFreeListTCP
      ([.freeListCalloc .rsrvSmallBufFreeListTCP, .freeListCalloc .rsrvSmallBufFreeListTCP]
        ++ ex) = 2 := by
    rw [allocsFrom_append, hex0]
    rfl
  have a5 : ∀ a b : List Event,
      sessionsClosed (a ++ b) = sessionsClosed a ++ sessionsClosed b :=
    fun a b => by simp [sessionsClosed, List.filterMap_append]
  have a6 : ∀ a b : List Event,
      sessionsOpened (a ++ b) = sessionsOpened a ++ sessionsOpened b :=
    fun a b => by simp [sessionsOpened, List.filterMap_append]
  refine released_after sock g g2 c o g.nextHandle _ htr ?_ ?_ ?_ hsock hvalid hl1 hl2 hl3 hl4
    hl5 ?_ ?_ ?_ ?_
  · intro e he
    rcases List.mem_append.mp he with h | h
    · simp only [List.mem_cons, List.mem_singleton, List.not_mem_nil, or_false, or_self] at h
      rw [h]; rfl
    · exact hex e h
  · rw [a5, a6]
    exact hses
  · rw [a6]
    exact hsesn
  · rw [freesTo_destroyTrace_any, hall, hproto, hsend, hrecv]
    simp [releasesTo, releaseByTag]
  · intro p hp hc
    rw [freesTo_destroyTrace_any, hproto, hsend, hrecv]
    simp [releasesTo, releaseByTag, hc]
    exact fun h => hp h.symm
  · rw [heapFrees_destroyTrace, hproto, mallocs_append, hexm]
    rfl
  · intro p
    rw [hpool p, hall]


theorem pool_log (g : rsrvGlobals) (e : Event) (p : poolId) : (g.log e).pool p = g.pool p := by
  cases p <;> rfl

theorem pool_nextHandle (g : rsrvGlobals) (n : Nat) (p : poolId) :
    ({ g with nextHandle := n } : rsrvGlobals).pool p = g.pool p := by
  cases p <;> rfl

/-- Every null return of `create_tcp_client` (given a valid socket) has
released everything. -/
theorem create_tcp_client_none_released (cfg : Config) (o : tcpOracle) (g g1 : rsrvGlobals)
    (sock : SOCKET) (hvalid : sock ≠ INVALID_SOCKET)
    (h : create_tcp_client cfg o g sock = .ok (g1, none)) : released sock g g1 := by
  unfold create_tcp_client at h
  cases hc : create_client cfg o.create g sock IPPROTO_TCP with
  | mk gc oc =>
    cases oc with
    | none =>
      simp only [hc, Except.ok.injEq, Prod.mk.injEq, and_true] at h
      subst h
      exact create_client_none_released cfg o.create g gc sock IPPROTO_TCP hvalid hc
    | some c =>
      obtain ⟨aC, aS, hgc, hcc, _⟩ := create_client_tcp_eq cfg o.create g gc sock c hc
      have hpoolgc : ∀ p : poolId, (gc.pool p).outstanding
            = (g.pool p).outstanding + ((if p = .rsrvClientFreeList then 1 else 0 : Nat) : Int)
              + ((if p = .rsrvSmallBufFreeListTCP then 2 else 0 : Nat) : Int) := by
        intro p
        rw [hgc]
        cases p <;> simp [rsrvGlobals.pool]
        ring
      simp only [hc] at h
      by_cases hnd : o.setsockoptNoDelay < 0
      · simp only [hnd, if_true, Except.ok.injEq, Prod.mk.injEq, and_true] at h
        subst h
        refine released_tcp_tail cfg o.create g _ sock hvalid
          [.setsockopt sock 0, .print .tcpNoDelayFailed] c ?_ ?_ ?_ rfl rfl rfl
          List.nodup_nil ?_ ?_ ?_ ?_ ?_ ?_ ?_ ?_ ?_
        · rw [hgc]; simp [rsrvGlobals.log]
        · intro p
          simp only [pool_log]
          exact hpoolgc p
        · intro e he
          simp only [List.mem_cons, List.mem_singleton, List.not_mem_nil, or_false] at he
          rcases he with he | he <;> rw [he] <;> rfl
        all_goals rw [hcc]
      · simp only [hnd, if_false] at h
        by_cases hka : o.setsockoptKeepAlive < 0
        · simp only [hka, if_true, Except.ok.injEq, Prod.mk.injEq, and_true] at h
          subst h
          refine released_tcp_tail cfg o.create g _ sock hvalid
            [.setsockopt sock 0, .setsockopt sock 1, .print .keepAliveFailed] c ?_ ?_ ?_
            rfl rfl rfl List.nodup_nil ?_ ?_ ?_ ?_ ?_ ?_ ?_ ?_ ?_
          · rw [hgc]; simp [rsrvGlobals.log]
          · intro p
            simp only [pool_log]
            exact hpoolgc p
          · intro e he
            simp only [List.mem_cons, List.mem_singleton, List.not_mem_nil, or_false] at he
            rcases he with he | he | he <;> rw [he] <;> rfl
          all_goals rw [hcc]
        · simp only [hka, if_false] at h
          by_cases hgp : o.getpeername < 0
          · simp only [hgp, if_true] at h
            rw [failTcp_no_session _ _ _ (by subst hcc; rfl) (by subst hcc; rfl)
              (by subst hcc; rfl)] at h
            simp only [Except.ok.injEq, Prod.mk.injEq, and_true] at h
            subst h
            refine released_tcp_tail cfg o.create g _ sock hvalid
              [.setsockopt sock 0, .setsockopt sock 1, .getpeername sock,
                .print .peerAddressFailed] _ ?_ ?_ ?_
              rfl rfl rfl List.nodup_nil ?_ ?_ ?_ ?_ ?_ ?_ ?_ ?_ ?_
            · rw [hgc]; simp [rsrvGlobals.log]
            · intro p
              simp only [pool_log]
              exact hpoolgc p
            · intro e he
              simp only [List.mem_cons, List.mem_singleton, List.not_mem_nil, or_false] at he
              rcases he with he | he | he | he <;> rw [he] <;> rfl
            all_goals rw [hcc]
          · simp only [hgp, if_false] at h
            cases hdi : o.db_init_events with
            | false =>
              simp only [hdi, newHandle, Bool.false_eq_true, if_false] at h
              rw [failTcp_no_session _ _ _ (by subst hcc; rfl) (by subst hcc; rfl)
                (by subst hcc; rfl)] at h
              simp only [Except.ok.injEq, Prod.mk.injEq, and_true] at h
              subst h
              refine released_tcp_tail cfg o.create g _ sock hvalid
                [.setsockopt sock 0, .setsockopt sock 1, .getpeername sock,
                  .print .eventInitFailed] _ ?_ ?_ ?_
                rfl rfl rfl List.nodup_nil ?_ ?_ ?_ ?_ ?_ ?_ ?_ ?_ ?_
              · rw [hgc]; simp [rsrvGlobals.log]
              · intro p
                simp only [pool_log]
                exact hpoolgc p
              · intro e he
                simp only [List.mem_cons, List.mem_singleton, List.not_mem_nil, or_false] at he
                rcases he with he | he | he | he <;> rw [he] <;> rfl
              all_goals rw [hcc]
            | true =>
              simp only [hdi, newHandle, if_true] at h
              by_cases hae : o.db_add_extra_labor_event ≠ 0
              · simp only [hae, if_true, ne_eq, not_false_eq_true] at h
                have h' := failTcp_session o.teardown _ g1 _ gc.nextHandle
                  (by subst hcc; rfl) (by subst hcc; rfl) (by rfl) h
                subst h'
                refine released_tcp_tail cfg o.create g _ sock hvalid
                  [.setsockopt sock 0, .setsockopt sock 1, .getpeername sock,
                    .db_init_events gc.nextHandle,
                    .db_add_extra_labor_event gc.nextHandle true, .print .eventSetupFailed,
                    .db_add_extra_labor_event gc.nextHandle false,
                    .db_flush_extra_labor_event gc.nextHandle,
                    .db_close_events gc.nextHandle] _ ?_ ?_ ?_
                  ?_ ?_ ?_ ?_ ?_ ?_ ?_ ?_ ?_ ?_ ?_ ?_ ?_
                · rw [hgc]; simp [rsrvGlobals.log]
                · intro p
                  simp only [pool_log, pool_nextHandle]
                  exact hpoolgc p
                · intro e he
                  simp only [List.mem_cons, List.mem_singleton, List.not_mem_nil, or_false]
                    at he
                  rcases he with he | he | he | he | he | he | he | he | he <;> rw [he] <;> rfl
                · simp [allocsFrom]
                · simp [mallocs]
                · simp [sessionsClosed, sessionsOpened]
                · simp [sessionsOpened]
                all_goals rw [hcc]
              · simp only [hae, if_false, ne_eq] at h
                generalize o.epicsThreadHighestPriorityLevelBelow.getD
                  o.epicsThreadPriorityCAServerLow = prio at h
                by_cases hst : o.db_start_events ≠ 0
                · simp only [hst, if_true, ne_eq, not_false_eq_true] at h
                  have h' := failTcp_session o.teardown _ g1 _ gc.nextHandle
                    (by subst hcc; rfl) (by subst hcc; rfl) (by rfl) h
                  subst h'
                  refine released_tcp_tail cfg o.create g _ sock hvalid
                    [.setsockopt sock 0, .setsockopt sock 1, .getpeername sock,
                      .db_init_events gc.nextHandle,
                      .db_add_extra_labor_event gc.nextHandle true,
                      .db_start_events gc.nextHandle prio,
                      .print .eventStartFailed,
                      .db_add_extra_labor_event gc.nextHandle false,
                      .db_flush_extra_labor_event gc.nextHandle,
                      .db_close_events gc.nextHandle] _ ?_ ?_ ?_
                    ?_ ?_ ?_ ?_ ?_ ?_ ?_ ?_ ?_ ?_ ?_ ?_ ?_
                  · rw [hgc]; simp [rsrvGlobals.log]
                  · intro p
                    simp only [pool_log, pool_nextHandle]
                    exact hpoolgc p
                  · intro e he
                    simp only [List.mem_cons, List.mem_singleton, List.not_mem_nil, or_false]
                      at he
                    rcases he with he | he | he | he | he | he | he | he | he | he <;>
                      rw [he] <;> rfl
                  · simp [allocsFrom]
                  · simp [mallocs]
                  · simp [sessionsClosed, sessionsOpened]
                  · simp [sessionsOpened]
                  all_goals rw [hcc]
                · simp [hst] at h

/-! ## C7: failure paths of construction -/

/-- C7: for every valid socket, every null return of `create_client`
(admission refused, no client record, a mutex or the semaphore not created, a
buffer not allocated, for any protocol) and every null return of
`create_tcp_client` (a null return of `create_client`, a failing `setsockopt`,
`getpeername`, `db_init_events`, `db_add_extra_labor_event` or
`db_start_events`) has destroyed the socket exactly once and released all it
acquired: the mutexes, semaphores and event-facility sessions destroyed are
those created, every pool received as many items as were allocated from it,
and every pool, so also the client and the small-TCP pool, has as many items
outstanding as before the call. -/
theorem creation_failure_releases_everything (cfg : Config) (sock : SOCKET)
    (hvalid : sock ≠ INVALID_SOCKET) :
    (∀ (o : createOracle) (g g1 : rsrvGlobals) (proto : Int),
        create_client cfg o g sock proto = (g1, none) → released sock g g1)
      ∧ (∀ (o : tcpOracle) (g g1 : rsrvGlobals),
        create_tcp_client cfg o g sock = .ok (g1, none) → released sock g g1) :=
  ⟨fun o g g1 proto h => create_client_none_released cfg o g g1 sock proto hvalid h,
    fun o g g1 h => create_tcp_client_none_released cfg o g g1 sock hvalid h⟩

/-- C7 at two failures out of `demoGlobals`: `create_client` without a receive
buffer, and `create_tcp_client` with a failing `db_start_events`. -/
theorem creation_failure_releases_everything_witness :
    (5 : SOCKET) ≠ INVALID_SOCKET
      ∧ create_client demoConfig demoCreateNoRecv demoGlobals 5 IPPROTO_TCP
          = (demoGlobalsNoRecv, none)
      ∧ released 5 demoGlobals demoGlobalsNoRecv
      ∧ create_tcp_client demoConfig demoTcpStartFails demoGlobals 5
          = .ok (demoGlobalsStartFailed, none)
      ∧ released 5 demoGlobals demoGlobalsStartFailed :=
  have h := creation_failure_releases_everything demoConfig 5 (by decide)
  ⟨by decide, by rfl, h.1 demoCreateNoRecv demoGlobals demoGlobalsNoRecv IPPROTO_TCP (by rfl),
    by rfl, h.2 demoTcpStartFails demoGlobals demoGlobalsStartFailed (by rfl)⟩


/-! ## C6: the admission test -/

theorem allocBuffers_trace (cfg : Config) (o : createOracle) (g : rsrvGlobals) (proto : Int)
    (c : client) : ∃ t, (allocBuffers cfg o g proto c).1.trace = g.trace ++ t := by
  by_cases ht : proto = IPPROTO_TCP
  · subst ht
    obtain ⟨sb, rb, a, he⟩ := allocBuffers_tcp_eq cfg o g c
    rw [he]
    exact ⟨_, rfl⟩
  · by_cases hu : proto = IPPROTO_UDP
    · subst hu
      rw [allocBuffers_udp_eq]
      exact ⟨_, rfl⟩
    · rw [allocBuffers_other cfg o g proto c ht hu]
      exact ⟨[], by simp⟩

/-- Once the client record was obtained, the effects of `create_client` begin
with its allocation. -/
theorem create_client_admitted_trace (cfg : Config) (o : createOracle) (g ga : rsrvGlobals)
    (sock : SOCKET) (proto : Int) (ha : spaceForClient cfg o g = true)
    (hc : freeListCalloc g .rsrvClientFreeList o.growClient = some ga) :
    ∃ t, (create_client cfg o g sock proto).1.trace
      = g.trace ++ (.freeListCalloc .rsrvClientFreeList :: t) := by
  obtain ⟨aC, hga⟩ := freeListCalloc_some hc
  have hgat : ga.trace = g.trace ++ [.freeListCalloc .rsrvClientFreeList] := by
    rw [hga]; cases h : g.pool .rsrvClientFreeList; rfl
  have hs1 : (createSync o ga (freshClient sock proto)).1.trace
      = g.trace ++ (.freeListCalloc .rsrvClientFreeList :: syncTrace o ga.nextHandle) := by
    rw [createSync_eq]
    simp [hgat]
  obtain ⟨t2, ht2⟩ := allocBuffers_trace cfg o (createSync o ga (freshClient sock proto)).1 proto
    (initLists (createSync o ga (freshClient sock proto)).2)
  unfold create_client
  simp only [ha, hc, Bool.true_eq_false, if_false]
  cases hs : syncMissing (createSync o ga (freshClient sock proto)).2 with
  | true =>
    simp only [if_true]
    rw [destroy_client_replay, replay_trace, hs1]
    simp only [List.append_assoc, List.cons_append]
    exact ⟨_, rfl⟩
  | false =>
    simp only [Bool.false_eq_true, if_false]
    cases hb : bufMissing (allocBuffers cfg o (createSync o ga (freshClient sock proto)).1 proto
        (initLists (createSync o ga (freshClient sock proto)).2)).2 with
    | true =>
      simp only [if_true]
      rw [destroy_client_replay, replay_trace, ht2, hs1]
      simp only [List.append_assoc, List.cons_append]
      exact ⟨_, rfl⟩
    | false =>
      simp only [Bool.false_eq_true, if_false]
      rw [ht2, hs1]
      simp only [List.append_assoc, List.cons_append]
      exact ⟨_, rfl⟩

/-- C6, refuted as stated: with a free record in the client pool, no free
buffer in the small-TCP pool and a memory oracle below its threshold,
`create_client` refuses admission (it destroys the socket, prints the message
of the admission test and returns null, leaving every pool as it was),
although the free-client pool is not empty. -/
theorem admission_refused_with_free_client_record :
    0 < freeListItemsAvail demoGlobalsFreeClient .rsrvClientFreeList
      ∧ freeListItemsAvail demoGlobalsFreeClient .rsrvSmallBufFreeListTCP = 0
      ∧ demoCreateLow.osiSufficentSpaceInPool (demoConfig.sizeofClient + demoConfig.MAX_TCP)
          = false
      ∧ create_client demoConfig demoCreateLow demoGlobalsFreeClient 5 IPPROTO_TCP
          = ((demoGlobalsFreeClient.log (.epicsSocketDestroy 5)).log
              (.print .noSpaceBelowThresh), none)
      ∧ ¬ (freeListItemsAvail demoGlobalsFreeClient .rsrvClientFreeList = 0
            ∧ demoCreateLow.osiSufficentSpaceInPool
                (demoConfig.sizeofClient + demoConfig.MAX_TCP) = false) :=
  ⟨by decide, by rfl, by rfl, by rfl, by decide⟩

/-- C6, amended: for every pool state and memory-oracle answer, `create_client`
refuses admission (destroys the socket, prints the message of the admission
test and returns null, with no other effect and every pool as it was) exactly
when the memory oracle reports that the process is below its threshold for a
client record plus `MAX_TCP` bytes and the free-client pool or the small-TCP
buffer pool has no available item. -/
theorem admission_refused_iff (cfg : Config) (o : createOracle) (g : rsrvGlobals)
    (sock : SOCKET) (proto : Int) :
    create_client cfg o g sock proto
        = ((g.log (.epicsSocketDestroy sock)).log (.print .noSpaceBelowThresh), none)
      ↔ (o.osiSufficentSpaceInPool (cfg.sizeofClient + cfg.MAX_TCP) = false
          ∧ (freeListItemsAvail g .rsrvClientFreeList = 0
              ∨ freeListItemsAvail g .rsrvSmallBufFreeListTCP = 0)) := by
  have hsp : spaceForClient cfg o g = false
      ↔ (o.osiSufficentSpaceInPool (cfg.sizeofClient + cfg.MAX_TCP) = false
          ∧ (freeListItemsAvail g .rsrvClientFreeList = 0
              ∨ freeListItemsAvail g .rsrvSmallBufFreeListTCP = 0)) := by
    unfold spaceForClient
    cases ho : o.osiSufficentSpaceInPool (cfg.sizeofClient + cfg.MAX_TCP) <;> simp [ho]
    omega
  rw [← hsp]
  constructor
  · intro h
    cases ha : spaceForClient cfg o g with
    | false => rfl
    | true =>
      exfalso
      cases hc : freeListCalloc g .rsrvClientFreeList o.growClient with
      | none =>
        simp only [create_client, ha, hc, Bool.true_eq_false, if_false, Prod.mk.injEq,
          and_true] at h
        have ht := congrArg rsrvGlobals.trace h
        simp [rsrvGlobals.log] at ht
      | some ga =>
        obtain ⟨t, ht⟩ := create_client_admitted_trace cfg o g ga sock proto ha hc
        rw [h] at ht
        simp [rsrvGlobals.log] at ht
  · intro ha
    simp only [create_client, ha, if_true]


/-! ## C9: tags name the pool of origin -/

theorem pool_setPool (g : rsrvGlobals) (p q : poolId) (fl : freeList) :
    (g.setPool p fl).pool q = if q = p then fl else g.pool q := by
  cases p <;> cases q <;> rfl

theorem pool_freeListFree (g : rsrvGlobals) (p q : poolId) :
    (freeListFree g p).pool q
      = if q = p then ⟨(g.pool p).avail + 1, (g.pool p).outstanding - 1⟩ else g.pool q := by
  unfold freeListFree
  exact pool_setPool g p q _

theorem casExpandSendBuffer_inv (cfg : Config) (o : expandOracle) (g0 g : rsrvGlobals)
    (c : client) (size : Nat) (hI : tcpClientInv cfg g0 (g, c)) :
    ∃ s', casExpandSendBuffer cfg o g c size = .ok s' ∧ tcpClientInv cfg g0 s' := by
  obtain ⟨htcp, hws, hwr, hts, htr, hacc⟩ := hI
  obtain ⟨g', c', hok, hws', hrecv⟩ := casExpandSendBuffer_wellFormed cfg o g c size hws
  refine ⟨(g', c'), hok, ?_⟩
  rcases casExpandSendBuffer_cases cfg o g g' c c' size hok with ⟨hg, hc⟩ | ⟨hs, hl, hr⟩
  · subst hg hc
    exact ⟨htcp, hws, hwr, hts, htr, hacc⟩
  · obtain ⟨old, new, g1, hbuf, hcal, hmem, hg', hc', _, _⟩ :=
      casExpandSendBuffer_promoted cfg o g g' c c' size hok hs hl
    obtain ⟨a, hg1⟩ := freeListCalloc_some hcal
    have htcp' : c'.proto = IPPROTO_TCP := by rw [hc']; exact htcp
    refine ⟨htcp', hws', by rw [hrecv]; exact hwr, ?_, by rw [hrecv]; exact htr, ?_⟩
    · intro b hb
      rw [hc'] at hb
      simp only [Option.some.injEq] at hb
      right
      exact ⟨hl, by rw [← hb]⟩
    · intro p
      have h := hacc p
      simp only at h ⊢
      rw [freesTo_destroyTrace c htcp] at h
      rw [freesTo_destroyTrace c' htcp', hrecv, hg', hg1]
      simp only [pool_log, pool_freeListFree, pool_setPool, releasesTo_append] at h ⊢
      have e1 : releaseByTag c.send = [(.rsrvSmallBufFreeListTCP, old)] := by
        simp [releaseByTag, hbuf, hs]
      have e2 : releaseByTag c'.send
          = [(.rsrvLargeBufFreeListTCP, ⟨.pool .rsrvLargeBufFreeListTCP, new⟩)] := by
        rw [hc']; simp [releaseByTag]
      rw [e1] at h
      rw [e2]
      cases p <;> simp [releasesTo] at h ⊢ <;> omega

theorem casExpandRecvBuffer_inv (cfg : Config) (o : expandOracle) (g0 g : rsrvGlobals)
    (c : client) (size : Nat) (hI : tcpClientInv cfg g0 (g, c)) :
    ∃ s', casExpandRecvBuffer cfg o g c size = .ok s' ∧ tcpClientInv cfg g0 s' := by
  obtain ⟨htcp, hws, hwr, hts, htr, hacc⟩ := hI
  obtain ⟨g', c', hok, hwr', hsend⟩ := casExpandRecvBuffer_wellFormed cfg o g c size hwr
  refine ⟨(g', c'), hok, ?_⟩
  rcases casExpandRecvBuffer_cases cfg o g g' c c' size hok with ⟨hg, hc⟩ | ⟨hs, hl, hr⟩
  · subst hg hc
    exact ⟨htcp, hws, hwr, hts, htr, hacc⟩
  · obtain ⟨old, new, g1, hbuf, hcal, _, hmem, hg', hc', _, _⟩ :=
      casExpandRecvBuffer_promoted cfg o g g' c c' size hok hs hl
    obtain ⟨a, hg1⟩ := freeListCalloc_some hcal
    have htcp' : c'.proto = IPPROTO_TCP := by rw [hc']; exact htcp
    refine ⟨htcp', by rw [hsend]; exact hws, hwr', by rw [hsend]; exact hts, ?_, ?_⟩
    · intro b hb
      rw [hc'] at hb
      simp only [Option.some.injEq] at hb
      right
      exact ⟨hl, by rw [← hb]⟩
    · intro p
      have h := hacc p
      simp only at h ⊢
      rw [freesTo_destroyTrace c htcp] at h
      rw [freesTo_destroyTrace c' htcp', hsend, hg', hg1]
      simp only [pool_log, pool_freeListFree, pool_setPool, releasesTo_append] at h ⊢
      have e1 : releaseByTag c.recv = [(.rsrvSmallBufFreeListTCP, old)] := by
        simp [releaseByTag, hbuf, hs]
      have e2 : releaseByTag c'.recv
          = [(.rsrvLargeBufFreeListTCP, ⟨.pool .rsrvLargeBufFreeListTCP, new⟩)] := by
        rw [hc']; simp [releaseByTag]
      rw [e1] at h
      rw [e2]
      cases p <;> simp [releasesTo] at h ⊢ <;> omega

/-- Every finite sequence of promotion requests on a client in the state
`tcpClientInv` runs to its end without a fault and keeps that state. -/
theorem runExpand_inv (cfg : Config) (g0 : rsrvGlobals) (calls : List expandCall) :
    ∀ s, tcpClientInv cfg g0 s → ∃ s', runExpand cfg calls s = .ok s' ∧ tcpClientInv cfg g0 s' := by
  induction calls with
  | nil => intro s hI; exact ⟨s, rfl, hI⟩
  | cons call rest ih =>
    intro s hI
    have hstep : ∃ s1, call.run cfg s = .ok s1 ∧ tcpClientInv cfg g0 s1 := by
      cases call with
      | send o size => exact casExpandSendBuffer_inv cfg o g0 s.1 s.2 size hI
      | recv o size => exact casExpandRecvBuffer_inv cfg o g0 s.1 s.2 size hI
    obtain ⟨s1, h1, hI1⟩ := hstep
    obtain ⟨s', h', hI'⟩ := ih s1 hI1
    exact ⟨s', by simp only [runExpand, h1]; exact h', hI'⟩

/-- A TCP client that `create_client` returned is in the state `tcpClientInv`
relative to the globals from before the call. -/
theorem create_client_inv (cfg : Config) (o : createOracle) (g g1 : rsrvGlobals)
    (sock : SOCKET) (c : client)
    (h : create_client cfg o g sock IPPROTO_TCP = (g1, some c)) :
    tcpClientInv cfg g (g1, c) := by
  obtain ⟨aC, aS, hg1, hc, _⟩ := create_client_tcp_eq cfg o g g1 sock c h
  have htcp : c.proto = IPPROTO_TCP := by rw [hc]
  have hs : c.send = ⟨some ⟨.pool .rsrvSmallBufFreeListTCP, zeroed cfg.MAX_TCP⟩, 0, cfg.MAX_TCP,
      0, mbtSmallTCP⟩ := by rw [hc]
  have hr : c.recv = ⟨some ⟨.pool .rsrvSmallBufFreeListTCP, zeroed cfg.MAX_TCP⟩, 0, cfg.MAX_TCP,
      0, mbtSmallTCP⟩ := by rw [hc]
  have hwf : (⟨some ⟨.pool .rsrvSmallBufFreeListTCP, zeroed cfg.MAX_TCP⟩, 0, cfg.MAX_TCP,
      0, mbtSmallTCP⟩ : message_buffer).wellFormed cfg := by
    simp [message_buffer.wellFormed, message_buffer.inv, message_buffer.backed, zeroed]
  have htag : (⟨some ⟨.pool .rsrvSmallBufFreeListTCP, zeroed cfg.MAX_TCP⟩, 0, cfg.MAX_TCP,
      0, mbtSmallTCP⟩ : message_buffer).tagNamesPool := by
    intro b hb
    simp only [Option.some.injEq] at hb
    left
    exact ⟨rfl, by rw [← hb]⟩
  refine ⟨htcp, by rw [hs]; exact hwf, by rw [hr]; exact hwf, by rw [hs]; exact htag,
    by rw [hr]; exact htag, ?_⟩
  intro p
  simp only
  rw [freesTo_destroyTrace c htcp, hs, hr, hg1]
  cases p <;> simp [releasesTo, releaseByTag, rsrvGlobals.pool]
  omega

/-- C9: for every TCP client that `create_client` returned and every finite
sequence of `casExpandSendBuffer` / `casExpandRecvBuffer` calls on it, the
sequence runs to its end without a fault and afterwards (so after every prefix
as well) both slots hold a buffer, the tag of each slot names the pool that
buffer was allocated from, a following `destroy_client` releases exactly these
two buffers, each to its pool of origin, and leaves in every pool (the client,
small-TCP and large-TCP pools among them) as many items outstanding as before
`create_client`. -/
theorem tcp_tags_name_pool_of_origin (cfg : Config) (o : createOracle) (g g1 : rsrvGlobals)
    (sock : SOCKET) (c : client) (calls : List expandCall)
    (hc : create_client cfg o g sock IPPROTO_TCP = (g1, some c)) :
    ∃ g2 c2, runExpand cfg calls (g1, c) = .ok (g2, c2)
      ∧ c2.send.tagNamesPool ∧ c2.recv.tagNamesPool
      ∧ (∃ ps pr bs br tr, c2.send.buf = some bs ∧ c2.recv.buf = some br
          ∧ (destroy_client g2 (some c2)).trace = g2.trace ++ tr
          ∧ bufReleases tr = [(ps, bs), (pr, br)]
          ∧ bs.origin = .pool ps ∧ br.origin = .pool pr)
      ∧ ∀ p, ((destroy_client g2 (some c2)).pool p).outstanding = (g.pool p).outstanding := by
  obtain ⟨⟨g2, c2⟩, hrun, htcp, hws, hwr, hts, htr, hacc⟩ :=
    runExpand_inv cfg g calls (g1, c) (create_client_inv cfg o g g1 sock c hc)
  obtain ⟨bs, hbs, _⟩ := wellFormed_buf hws
  obtain ⟨br, hbr, _⟩ := wellFormed_buf hwr
  refine ⟨g2, c2, hrun, hts, htr, ?_, ?_⟩
  · have hrel : ∀ (m : message_buffer) (b : slab), m.buf = some b → m.tagNamesPool →
        ∃ p, releaseByTag m = [(p, b)] ∧ b.origin = .pool p := by
      intro m b hb ht
      rcases ht b hb with ⟨h1, h2⟩ | ⟨h1, h2⟩
      · exact ⟨_, by simp [releaseByTag, hb, h1], h2⟩
      · exact ⟨_, by simp [releaseByTag, hb, h1], h2⟩
    obtain ⟨ps, hps, hos⟩ := hrel c2.send bs hbs hts
    obtain ⟨pr, hpr, hor⟩ := hrel c2.recv br hbr htr
    refine ⟨ps, pr, bs, br, destroyTrace c2, hbs, hbr, ?_, ?_, hos, hor⟩
    · rw [destroy_client_replay, replay_trace]
    · rw [bufReleases_destroyTrace c2 htcp, hps, hpr]
      rfl
  · intro p
    rw [destroy_client_replay, replay_pool]
    have h := hacc p
    simp only at h ⊢
    omega

theorem tcp_tags_name_pool_of_origin_witness :
    create_client demoConfig demoCreate demoGlobals 5 IPPROTO_TCP
        = (demoGlobalsCreated, some demoClientCreated)
      ∧ ∃ g2 c2, runExpand demoConfig [.recv demoPlenty 6, .send demoRefused 6]
            (demoGlobalsCreated, demoClientCreated) = .ok (g2, c2)
          ∧ c2.send.tagNamesPool ∧ c2.recv.tagNamesPool
          ∧ (∃ ps pr bs br tr, c2.send.buf = some bs ∧ c2.recv.buf = some br
              ∧ (destroy_client g2 (some c2)).trace = g2.trace ++ tr
              ∧ bufReleases tr = [(ps, bs), (pr, br)]
              ∧ bs.origin = .pool ps ∧ br.origin = .pool pr)
          ∧ ∀ p, ((destroy_client g2 (some c2)).pool p).outstanding
              = (demoGlobals.pool p).outstanding :=
  ⟨by rfl, tcp_tags_name_pool_of_origin demoConfig demoCreate demoGlobals demoGlobalsCreated 5
    demoClientCreated [.recv demoPlenty 6, .send demoRefused 6] (by rfl)⟩


/-! ## C10: teardown of the channels -/

theorem freeListFree_rest (g : rsrvGlobals) (p : poolId) :
    (freeListFree g p).pCaBucket = g.pCaBucket
      ∧ (freeListFree g p).rsrvChannelCount = g.rsrvChannelCount
      ∧ (freeListFree g p).trace = g.trace := by
  cases p <;> exact ⟨rfl, rfl, rfl⟩

theorem destroyIfSet_rest (g : rsrvGlobals) (h : Option Nat) (ev : Nat → Event) :
    (destroyIfSet g h ev).pCaBucket = g.pCaBucket
      ∧ (destroyIfSet g h ev).rsrvChannelCount = g.rsrvChannelCount
      ∧ (destroyIfSet g h ev).trace = g.trace ++ (h.map ev).toList := by
  cases h with
  | none => exact ⟨rfl, rfl, by simp [destroyIfSet]⟩
  | some x => exact ⟨rfl, rfl, rfl⟩

theorem drainEventq_rest (sid : Nat) (evs : List event_ext) : ∀ g : rsrvGlobals,
    (drainEventq g sid evs).pCaBucket = g.pCaBucket
      ∧ (drainEventq g sid evs).rsrvChannelCount = g.rsrvChannelCount
      ∧ (drainEventq g sid evs).trace = g.trace ++ eventqTrace sid evs := by
  induction evs with
  | nil => intro g; exact ⟨rfl, rfl, by simp [drainEventq, eventqTrace]⟩
  | cons ev rest ih =>
    intro g
    obtain ⟨h1, h2, h3⟩ := ih ((freeListFree (destroyIfSet g ev.pdbev (.db_cancel_event sid))
      .rsrvEventFreeList).log (.freeListFreeEvent sid ev))
    obtain ⟨d1, d2, d3⟩ := destroyIfSet_rest g ev.pdbev (.db_cancel_event sid)
    obtain ⟨f1, f2, f3⟩ := freeListFree_rest (destroyIfSet g ev.pdbev (.db_cancel_event sid))
      .rsrvEventFreeList
    simp only [drainEventq, eventqTrace]
    refine ⟨?_, ?_, ?_⟩
    · rw [h1]; show (freeListFree _ _).pCaBucket = _; rw [f1, d1]
    · rw [h2]; show (freeListFree _ _).rsrvChannelCount = _; rw [f2, d2]
    · rw [h3]
      show (freeListFree _ _).trace ++ [_] ++ _ = _
      rw [f3, d3]
      simp only [List.append_assoc]

theorem rsrvFreePutNotify_rest (g : rsrvGlobals) (sid : Nat) (pNotify : Option Nat) :
    (rsrvFreePutNotify g sid pNotify).pCaBucket = g.pCaBucket
      ∧ (rsrvFreePutNotify g sid pNotify).rsrvChannelCount = g.rsrvChannelCount
      ∧ (rsrvFreePutNotify g sid pNotify).trace = g.trace ++ [.rsrvFreePutNotify sid pNotify] := by
  cases pNotify with
  | none => exact ⟨rfl, rfl, rfl⟩
  | some x => exact ⟨rfl, rfl, rfl⟩

/-- What one pass of the outer loop of `destroyAllChannels` does to the
counter, the identifier table and the trace. -/
theorem destroyChannel_rest (o : teardownOracle) (g : rsrvGlobals) (pciu : channel_in_use) :
    (destroyChannel o g pciu).rsrvChannelCount = decrChannelCount g.rsrvChannelCount
      ∧ (destroyChannel o g pciu).pCaBucket = g.pCaBucket.erase pciu.sid
      ∧ (destroyChannel o g pciu).trace = g.trace ++ channelTrace o g.pCaBucket pciu := by
  obtain ⟨d1, d2, d3⟩ := drainEventq_rest pciu.sid pciu.eventq (g.log (.ellGetChan pciu.sid))
  obtain ⟨p1, p2, p3⟩ := rsrvFreePutNotify_rest
    (drainEventq (g.log (.ellGetChan pciu.sid)) pciu.sid pciu.eventq) pciu.sid pciu.pPutNotify
  have hb : (rsrvFreePutNotify (drainEventq (g.log (.ellGetChan pciu.sid)) pciu.sid pciu.eventq)
      pciu.sid pciu.pPutNotify).pCaBucket = g.pCaBucket := by rw [p1, d1]; rfl
  have hn : (rsrvFreePutNotify (drainEventq (g.log (.ellGetChan pciu.sid)) pciu.sid pciu.eventq)
      pciu.sid pciu.pPutNotify).rsrvChannelCount = g.rsrvChannelCount := by rw [p2, d2]; rfl
  have ht : (rsrvFreePutNotify (drainEventq (g.log (.ellGetChan pciu.sid)) pciu.sid pciu.eventq)
      pciu.sid pciu.pPutNotify).trace = g.trace ++ [.ellGetChan pciu.sid]
        ++ eventqTrace pciu.sid pciu.eventq ++ [.rsrvFreePutNotify pciu.sid pciu.pPutNotify] := by
    rw [p3, d3]; rfl
  unfold destroyChannel
  simp only []
  generalize rsrvFreePutNotify (drainEventq (g.log (.ellGetChan pciu.sid)) pciu.sid pciu.eventq)
    pciu.sid pciu.pPutNotify = gp at hb hn ht ⊢
  clear d1 d2 d3 p1 p2 p3
  by_cases hin : pciu.sid ∈ g.pCaBucket
  · by_cases hst : o.asRemoveClient pciu.sid ≠ 0
        ∧ o.asRemoveClient pciu.sid ≠ o.S_asLib_asNotActive
    · simp [bucketRemoveItemUnsignedId, hin, hst, channelTrace, rsrvGlobals.log,
        (freeListFree_rest _ _).1, (freeListFree_rest _ _).2.1, (freeListFree_rest _ _).2.2,
        hb, hn, ht]
    · simp [bucketRemoveItemUnsignedId, hin, hst, channelTrace, rsrvGlobals.log,
        (freeListFree_rest _ _).1, (freeListFree_rest _ _).2.1, (freeListFree_rest _ _).2.2,
        hb, hn, ht]
  · by_cases hst : o.asRemoveClient pciu.sid ≠ 0
        ∧ o.asRemoveClient pciu.sid ≠ o.S_asLib_asNotActive
    · simp [bucketRemoveItemUnsignedId, hin, hst, channelTrace, rsrvGlobals.log,
        (freeListFree_rest _ _).1, (freeListFree_rest _ _).2.1, (freeListFree_rest _ _).2.2,
        hb, hn, ht]
    · simp [bucketRemoveItemUnsignedId, hin, hst, channelTrace, rsrvGlobals.log,
        (freeListFree_rest _ _).1, (freeListFree_rest _ _).2.1, (freeListFree_rest _ _).2.2,
        hb, hn, ht]

theorem destroyChannels_append (o : teardownOracle) (l1 l2 : List channel_in_use) :
    ∀ g, destroyChannels o g (l1 ++ l2) = destroyChannels o (destroyChannels o g l1) l2 := by
  induction l1 with
  | nil => intro g; rfl
  | cons ch rest ih => intro g; exact ih (destroyChannel o g ch)

theorem destroyChannels_trace (o : teardownOracle) (l : List channel_in_use) :
    ∀ g, (destroyChannels o g l).trace = g.trace ++ channelsTrace o g.pCaBucket l := by
  induction l with
  | nil => intro g; simp [destroyChannels, channelsTrace]
  | cons ch rest ih =>
    intro g
    obtain ⟨_, hb, ht⟩ := destroyChannel_rest o g ch
    simp only [destroyChannels, channelsTrace]
    rw [ih, hb, ht, List.append_assoc]

theorem destroyChannels_bucket (o : teardownOracle) (l : List channel_in_use) :
    ∀ (g : rsrvGlobals) (x : Nat),
      x ∈ (destroyChannels o g l).pCaBucket ↔ x ∈ g.pCaBucket ∧ ∀ ch ∈ l, ch.sid ≠ x := by
  induction l with
  | nil => intro g x; simp [destroyChannels]
  | cons ch rest ih =>
    intro g x
    obtain ⟨_, hb, _⟩ := destroyChannel_rest o g ch
    simp only [destroyChannels]
    rw [ih, hb, Finset.mem_erase]
    simp only [List.mem_cons, forall_eq_or_imp]
    constructor
    · rintro ⟨⟨h1, h2⟩, h3⟩
      exact ⟨h2, fun h => h1 h.symm, h3⟩
    · rintro ⟨h1, h2, h3⟩
      exact ⟨⟨fun h => h2 h.symm, h1⟩, h3⟩

theorem destroyChannels_count (o : teardownOracle) (l : List channel_in_use) :
    ∀ g : rsrvGlobals,
      ((destroyChannels o g l).rsrvChannelCount + l.length) % 2 ^ 32 = g.rsrvChannelCount % 2 ^ 32
        ∧ (g.rsrvChannelCount < 2 ^ 32 → (destroyChannels o g l).rsrvChannelCount < 2 ^ 32) := by
  induction l with
  | nil => intro g; simp [destroyChannels]
  | cons ch rest ih =>
    intro g
    obtain ⟨hn, _, _⟩ := destroyChannel_rest o g ch
    obtain ⟨h1, h2⟩ := ih (destroyChannel o g ch)
    simp only [destroyChannels, List.length_cons]
    rw [hn] at h1 h2
    unfold decrChannelCount at h1 h2
    norm_num at h1 h2 ⊢
    refine ⟨by omega, fun _ => h2 (by omega)⟩

theorem chansFreed_eventqTrace (sid : Nat) (evs : List event_ext) :
    chansFreed (eventqTrace sid evs) = [] := by
  induction evs with
  | nil => rfl
  | cons ev rest ih =>
    unfold chansFreed at ih ⊢
    simp only [eventqTrace, List.filterMap_append, ih, filterMap_optList, filterMap_single,
      bind_const_none]
    rfl

theorem eventsFreed_eventqTrace (sid : Nat) (evs : List event_ext) :
    eventsFreed (eventqTrace sid evs) = evs.map (fun ev => (sid, ev)) := by
  induction evs with
  | nil => rfl
  | cons ev rest ih =>
    unfold eventsFreed at ih ⊢
    simp only [eventqTrace, List.filterMap_append, ih, filterMap_optList, filterMap_single,
      bind_const_none, List.map_cons]
    rfl

theorem chansFreed_append (a b : List Event) :
    chansFreed (a ++ b) = chansFreed a ++ chansFreed b := by
  simp [chansFreed, List.filterMap_append]

theorem eventsFreed_append (a b : List Event) :
    eventsFreed (a ++ b) = eventsFreed a ++ eventsFreed b := by
  simp [eventsFreed, List.filterMap_append]

theorem chansFreed_channelTrace (o : teardownOracle) (t : Finset Nat) (ch : channel_in_use) :
    chansFreed (channelTrace o t ch) = [{ ch with eventq := [] }] := by
  unfold channelTrace
  simp only [chansFreed_append, chansFreed_eventqTrace]
  by_cases hin : ch.sid ∈ t <;>
    by_cases hst : o.asRemoveClient ch.sid ≠ 0 ∧ o.asRemoveClient ch.sid ≠ o.S_asLib_asNotActive <;>
    simp [hin, hst, chansFreed]

theorem eventsFreed_channelTrace (o : teardownOracle) (t : Finset Nat) (ch : channel_in_use) :
    eventsFreed (channelTrace o t ch) = ch.eventq.map (fun ev => (ch.sid, ev)) := by
  unfold channelTrace
  simp only [eventsFreed_append, eventsFreed_eventqTrace]
  by_cases hin : ch.sid ∈ t <;>
    by_cases hst : o.asRemoveClient ch.sid ≠ 0 ∧ o.asRemoveClient ch.sid ≠ o.S_asLib_asNotActive <;>
    simp [hin, hst, eventsFreed]

theorem chansFreed_channelsTrace (o : teardownOracle) (l : List channel_in_use) :
    ∀ t, chansFreed (channelsTrace o t l) = l.map (fun ch => { ch with eventq := [] }) := by
  induction l with
  | nil => intro t; rfl
  | cons ch rest ih =>
    intro t
    simp only [channelsTrace, chansFreed_append, chansFreed_channelTrace, ih, List.map_cons,
      List.singleton_append]

theorem eventsFreed_channelsTrace (o : teardownOracle) (l : List channel_in_use) :
    ∀ t, eventsFreed (channelsTrace o t l) = subscriptions l := by
  induction l with
  | nil => intro t; rfl
  | cons ch rest ih =>
    intro t
    simp only [channelsTrace, eventsFreed_append, eventsFreed_channelTrace, ih, subscriptions]

theorem chansFreed_destroyTrace (c : client) : chansFreed (destroyTrace c) = [] := by
  unfold chansFreed
  rw [filterMap_destroyTrace]
  simp only [filterMap_tcpBufTrace, filterMap_udpBufTrace, Option.toList, ite_self,
    match_slab_nil, List.append_nil, List.nil_append, bind_const_none]

theorem eventsFreed_destroyTrace (c : client) : eventsFreed (destroyTrace c) = [] := by
  unfold eventsFreed
  rw [filterMap_destroyTrace]
  simp only [filterMap_tcpBufTrace, filterMap_udpBufTrace, Option.toList, ite_self,
    match_slab_nil, List.append_nil, List.nil_append, bind_const_none]

/-- The result of `destroy_tcp_client` on a client with both channel locks
whose deregistration succeeds. -/
theorem destroy_tcp_client_eq (o : teardownOracle) (g : rsrvGlobals) (c : client)
    (h1 : c.chanListLock ≠ none) (h2 : c.eventqLock ≠ none)
    (hst : c.evuser ≠ none → o.db_add_extra_labor_event = 0) :
    destroy_tcp_client o g c
      = .ok (destroy_client (destroyIfSet (destroyChannels o (replay g (quiesceTrace c.evuser))
            (c.chanList ++ c.chanPendingUpdateARList)) c.evuser .db_close_events)
          (some { c with chanList := [], chanPendingUpdateARList := [] }),
        { c with chanList := [], chanPendingUpdateARList := [] }) := by
  unfold destroy_tcp_client
  cases hev : c.evuser with
  | none =>
    simp [destroyAllChannels, h1, h2, hev, destroyChannels_append, quiesceTrace, replay]
  | some ev =>
    have h0 : o.db_add_extra_labor_event = 0 := hst (by rw [hev]; exact Option.some_ne_none ev)
    simp [destroyAllChannels, h1, h2, hev, h0, destroyChannels_append, quiesceTrace, replay,
      replayEvent, Event.frees]

/-- Every record `create_client` returns has its `chanListLock` and its
`eventqLock`, two empty channel lists and no event-facility session. -/
theorem create_client_channel_locks (cfg : Config) (o : createOracle) (g g1 : rsrvGlobals)
    (sock : SOCKET) (proto : Int) (c : client)
    (h : create_client cfg o g sock proto = (g1, some c)) :
    c.chanListLock ≠ none ∧ c.eventqLock ≠ none ∧ c.chanList = []
      ∧ c.chanPendingUpdateARList = [] ∧ c.evuser = none := by
  obtain ⟨ga, s1, s2, _, _, hs1, hsync, hs2, _, _, hc⟩ :=
    create_client_some cfg o g g1 sock proto c h
  have hl : s2.2.chanListLock = s1.2.chanListLock ∧ s2.2.eventqLock = s1.2.eventqLock
      ∧ s2.2.chanList = [] ∧ s2.2.chanPendingUpdateARList = [] := by
    rw [← hs2]
    unfold allocBuffers
    by_cases ht : proto = IPPROTO_TCP
    · simp only [ht, if_true]
      exact ⟨rfl, rfl, rfl, rfl⟩
    · by_cases hu : proto = IPPROTO_UDP
      · simp only [ht, hu, if_true, if_false]
        exact ⟨rfl, rfl, rfl, rfl⟩
      · simp only [ht, hu, if_false]
        exact ⟨rfl, rfl, rfl, rfl⟩
  unfold syncMissing at hsync
  simp only [Bool.or_eq_false_iff, decide_eq_false_iff_not] at hsync
  obtain ⟨⟨⟨⟨_, _⟩, _⟩, k4⟩, k5⟩ := hsync
  rw [hc]
  refine ⟨?_, ?_, ?_, ?_, rfl⟩
  · show s2.2.chanListLock ≠ none
    rw [hl.1]
    exact k4
  · show s2.2.eventqLock ≠ none
    rw [hl.2.1]
    exact k5
  · exact hl.2.2.1
  · exact hl.2.2.2

/-- The guard of `destroyAllChannels` on a record that `create_client` never
returns: a record whose `chanListLock` is null and which holds two channels
(one in each list) goes through `destroy_tcp_client` with `rsrvChannelCount`
unchanged, both channels still in its lists, no channel returned to the
channel pool and both ids still in the identifier table. -/
theorem destroy_tcp_client_null_lock_keeps_channels :
    demoClientNoLock.chanList.length + demoClientNoLock.chanPendingUpdateARList.length = 2
      ∧ ∃ g1 c1, destroy_tcp_client demoTeardown demoGlobalsChannels demoClientNoLock
            = .ok (g1, c1)
          ∧ g1.rsrvChannelCount = demoGlobalsChannels.rsrvChannelCount
          ∧ c1.chanList = [demoChannelA] ∧ c1.chanPendingUpdateARList = [demoChannelB]
          ∧ chansFreed g1.trace = []
          ∧ 7 ∈ g1.pCaBucket ∧ 9 ∈ g1.pCaBucket :=
  ⟨by rfl, _, _, rfl, by rfl, by rfl, by rfl, by rfl, by decide, by decide⟩

/-- C10: for every client the code can hold, that is one whose `chanListLock`
and `eventqLock` are both non-null (`create_client` returns no other), and
whose deregistration of the extra-labor callback reports success (what the
code asserts), holding n channels in total across `chanList` and
`chanPendingUpdateARList`, `destroy_tcp_client` returns, has decreased
`rsrvChannelCount` by exactly n in the counter's unsigned 32-bit arithmetic
(so by n as a number whenever the counter was at least n), leaves both channel
lists empty, has returned exactly these n channels to the channel pool, each
with its event queue empty, and exactly their subscriptions to the event
pool, and afterwards none of the n channel ids is in the identifier table. -/
theorem destroy_tcp_client_destroys_channels (o : teardownOracle) (g : rsrvGlobals) (c : client)
    (h1 : c.chanListLock ≠ none) (h2 : c.eventqLock ≠ none)
    (hst : c.evuser ≠ none → o.db_add_extra_labor_event = 0) :
    ∃ g1 c1 tr, destroy_tcp_client o g c = .ok (g1, c1)
      ∧ (g1.rsrvChannelCount + (c.chanList.length + c.chanPendingUpdateARList.length)) % 2 ^ 32
          = g.rsrvChannelCount % 2 ^ 32
      ∧ (c.chanList.length + c.chanPendingUpdateARList.length ≤ g.rsrvChannelCount →
          g.rsrvChannelCount < 2 ^ 32 →
            g1.rsrvChannelCount + (c.chanList.length + c.chanPendingUpdateARList.length)
              = g.rsrvChannelCount)
      ∧ c1.chanList = [] ∧ c1.chanPendingUpdateARList = []
      ∧ g1.trace = g.trace ++ tr
      ∧ chansFreed tr
          = (c.chanList ++ c.chanPendingUpdateARList).map (fun ch => { ch with eventq := [] })
      ∧ eventsFreed tr = subscriptions (c.chanList ++ c.chanPendingUpdateARList)
      ∧ ∀ ch ∈ c.chanList ++ c.chanPendingUpdateARList, ch.sid ∉ g1.pCaBucket := by
  obtain ⟨_, q2, q3, _⟩ := replay_rest (quiesceTrace c.evuser) g
  have q4 := replay_trace (quiesceTrace c.evuser) g
  obtain ⟨n1, n2⟩ := destroyChannels_count o (c.chanList ++ c.chanPendingUpdateARList)
    (replay g (quiesceTrace c.evuser))
  have b1 := destroyChannels_bucket o (c.chanList ++ c.chanPendingUpdateARList)
    (replay g (quiesceTrace c.evuser))
  have t1 := destroyChannels_trace o (c.chanList ++ c.chanPendingUpdateARList)
    (replay g (quiesceTrace c.evuser))
  obtain ⟨i1, i2, i3⟩ := destroyIfSet_rest (destroyChannels o (replay g (quiesceTrace c.evuser))
    (c.chanList ++ c.chanPendingUpdateARList)) c.evuser .db_close_events
  obtain ⟨_, f2, f3, _⟩ := replay_rest
    (destroyTrace { c with chanList := [], chanPendingUpdateARList := [] })
    (destroyIfSet (destroyChannels o (replay g (quiesceTrace c.evuser))
      (c.chanList ++ c.chanPendingUpdateARList)) c.evuser .db_close_events)
  have f4 := replay_trace (destroyTrace { c with chanList := [], chanPendingUpdateARList := [] })
    (destroyIfSet (destroyChannels o (replay g (quiesceTrace c.evuser))
      (c.chanList ++ c.chanPendingUpdateARList)) c.evuser .db_close_events)
  have hq : chansFreed (quiesceTrace c.evuser) = [] ∧ eventsFreed (quiesceTrace c.evuser) = [] := by
    cases c.evuser <;> exact ⟨rfl, rfl⟩
  have hcl : chansFreed (c.evuser.map Event.db_close_events).toList = []
      ∧ eventsFreed (c.evuser.map Event.db_close_events).toList = [] := by
    cases c.evuser <;> exact ⟨rfl, rfl⟩
  rw [q3, List.length_append] at n1
  rw [q3] at n2
  refine ⟨_, _, quiesceTrace c.evuser
      ++ channelsTrace o g.pCaBucket (c.chanList ++ c.chanPendingUpdateARList)
      ++ (c.evuser.map Event.db_close_events).toList
      ++ destroyTrace { c with chanList := [], chanPendingUpdateARList := [] },
    destroy_tcp_client_eq o g c h1 h2 hst, ?_, ?_, rfl, rfl, ?_, ?_, ?_, ?_⟩
  · rw [destroy_client_replay, f3, i2]
    exact n1
  · intro hle hlt
    rw [destroy_client_replay, f3, i2]
    have hlt1 := n2 hlt
    norm_num at n1 hlt1 hlt
    omega
  · rw [destroy_client_replay, f4, i3, t1, q4, q2]
    simp only [List.append_assoc]
  · simp only [chansFreed_append, hq.1, hcl.1, chansFreed_channelsTrace, chansFreed_destroyTrace,
      List.nil_append, List.append_nil]
  · simp only [eventsFreed_append, hq.2, hcl.2, eventsFreed_channelsTrace,
      eventsFreed_destroyTrace, List.nil_append, List.append_nil]
  · intro ch hch hin
    rw [destroy_client_replay, f2, i1] at hin
    exact ((b1 ch.sid).1 hin).2 ch hch rfl

theorem destroy_tcp_client_destroys_channels_witness :
    demoClientChannels.chanListLock ≠ none ∧ demoClientChannels.eventqLock ≠ none
      ∧ (demoClientChannels.evuser ≠ none → demoTeardown.db_add_extra_labor_event = 0)
      ∧ ∃ g1 c1 tr, destroy_tcp_client demoTeardown demoGlobalsChannels demoClientChannels
            = .ok (g1, c1)
          ∧ (g1.rsrvChannelCount + (demoClientChannels.chanList.length
                + demoClientChannels.chanPendingUpdateARList.length)) % 2 ^ 32
              = demoGlobalsChannels.rsrvChannelCount % 2 ^ 32
          ∧ (demoClientChannels.chanList.length
                + demoClientChannels.chanPendingUpdateARList.length
                  ≤ demoGlobalsChannels.rsrvChannelCount →
              demoGlobalsChannels.rsrvChannelCount < 2 ^ 32 →
                g1.rsrvChannelCount + (demoClientChannels.chanList.length
                    + demoClientChannels.chanPendingUpdateARList.length)
                  = demoGlobalsChannels.rsrvChannelCount)
          ∧ c1.chanList = [] ∧ c1.chanPendingUpdateARList = []
          ∧ g1.trace = demoGlobalsChannels.trace ++ tr
          ∧ chansFreed tr
              = (demoClientChannels.chanList ++ demoClientChannels.chanPendingUpdateARList).map
                  (fun ch => { ch with eventq := [] })
          ∧ eventsFreed tr
              = subscriptions
                  (demoClientChannels.chanList ++ demoClientChannels.chanPendingUpdateARList)
          ∧ ∀ ch ∈ demoClientChannels.chanList ++ demoClientChannels.chanPendingUpdateARList,
              ch.sid ∉ g1.pCaBucket :=
  ⟨by decide, by decide, fun _ => rfl,
    destroy_tcp_client_destroys_channels demoTeardown demoGlobalsChannels demoClientChannels
      (by decide) (by decide) (fun _ => rfl)⟩



/-! ## The effects of `destroy_tcp_client` in general -/

/-- The result of `destroy_tcp_client` on any client whose deregistration
succeeds. -/
theorem destroy_tcp_client_eq_taken (o : teardownOracle) (g : rsrvGlobals) (c : client)
    (hst : c.evuser ≠ none → o.db_add_extra_labor_event = 0) :
    destroy_tcp_client o g c
      = .ok (destroy_client (destroyIfSet (destroyChannels o (replay g (quiesceTrace c.evuser))
            (takenChannels c)) c.evuser .db_close_events) (some (afterChannels c)),
          afterChannels c) := by
  by_cases hg : c.chanListLock = none ∨ c.eventqLock = none
  · cases c
    rename_i evuser
    simp only at hg hst
    unfold destroy_tcp_client
    cases evuser with
    | none =>
      simp [destroyAllChannels, hg, takenChannels, afterChannels, quiesceTrace, replay,
        destroyChannels]
    | some ev =>
      have h0 : o.db_add_extra_labor_event = 0 := hst (Option.some_ne_none ev)
      simp [destroyAllChannels, hg, h0, takenChannels, afterChannels, quiesceTrace, replay,
        replayEvent, Event.frees, destroyChannels]
  · have h1 : c.chanListLock ≠ none := fun h => hg (Or.inl h)
    have h2 : c.eventqLock ≠ none := fun h => hg (Or.inr h)
    rw [destroy_tcp_client_eq o g c h1 h2 hst]
    simp only [takenChannels, afterChannels, hg, if_false]

/-- What `destroy_tcp_client` leaves in the counter, the identifier table and
the trace. -/
theorem destroy_tcp_client_rest (o : teardownOracle) (g : rsrvGlobals) (c : client)
    (hst : c.evuser ≠ none → o.db_add_extra_labor_event = 0) :
    ∃ g1, destroy_tcp_client o g c = .ok (g1, afterChannels c)
      ∧ g1.rsrvChannelCount = (destroyChannels o g (takenChannels c)).rsrvChannelCount
      ∧ g1.pCaBucket = (destroyChannels o g (takenChannels c)).pCaBucket
      ∧ g1.trace = g.trace ++ teardownTrace o g.pCaBucket c := by
  obtain ⟨_, q2, q3, _⟩ := replay_rest (quiesceTrace c.evuser) g
  have q4 := replay_trace (quiesceTrace c.evuser) g
  have hcount : ∀ (l : List channel_in_use) (ga gb : rsrvGlobals),
      ga.rsrvChannelCount = gb.rsrvChannelCount → ga.pCaBucket = gb.pCaBucket →
        (destroyChannels o ga l).rsrvChannelCount = (destroyChannels o gb l).rsrvChannelCount
          ∧ (destroyChannels o ga l).pCaBucket = (destroyChannels o gb l).pCaBucket := by
    intro l
    induction l with
    | nil => intro ga gb h1 h2; exact ⟨h1, h2⟩
    | cons ch rest ih =>
      intro ga gb h1 h2
      obtain ⟨a1, a2, _⟩ := destroyChannel_rest o ga ch
      obtain ⟨b1, b2, _⟩ := destroyChannel_rest o gb ch
      exact ih _ _ (by rw [a1, b1, h1]) (by rw [a2, b2, h2])
  obtain ⟨c1, c2⟩ := hcount (takenChannels c) _ _ q3 q2
  have t1 := destroyChannels_trace o (takenChannels c) (replay g (quiesceTrace c.evuser))
  obtain ⟨i1, i2, i3⟩ := destroyIfSet_rest (destroyChannels o (replay g (quiesceTrace c.evuser))
    (takenChannels c)) c.evuser .db_close_events
  obtain ⟨_, f2, f3, _⟩ := replay_rest (destroyTrace (afterChannels c))
    (destroyIfSet (destroyChannels o (replay g (quiesceTrace c.evuser))
      (takenChannels c)) c.evuser .db_close_events)
  have f4 := replay_trace (destroyTrace (afterChannels c))
    (destroyIfSet (destroyChannels o (replay g (quiesceTrace c.evuser))
      (takenChannels c)) c.evuser .db_close_events)
  refine ⟨_, destroy_tcp_client_eq_taken o g c hst, ?_, ?_, ?_⟩
  · rw [destroy_client_replay, f3, i2, c1]
  · rw [destroy_client_replay, f2, i1, c2]
  · rw [destroy_client_replay, f4, i3, t1, q4, q2]
    simp only [teardownTrace, List.append_assoc]

/-! ## C11: the counter and the size of the identifier table -/

theorem destroyChannels_card (o : teardownOracle) (l : List channel_in_use) :
    ∀ g : rsrvGlobals, (l.map (fun ch => ch.sid)).Nodup → (∀ ch ∈ l, ch.sid ∈ g.pCaBucket) →
      (destroyChannels o g l).pCaBucket.card + l.length = g.pCaBucket.card := by
  induction l with
  | nil => intro g _ _; rfl
  | cons ch rest ih =>
    intro g hnd hin
    obtain ⟨_, hb, _⟩ := destroyChannel_rest o g ch
    rw [List.map_cons, List.nodup_cons] at hnd
    have hch : ch.sid ∈ g.pCaBucket := hin ch (List.mem_cons_self _ _)
    have hrest : ∀ x ∈ rest, x.sid ∈ (destroyChannel o g ch).pCaBucket := by
      intro x hx
      rw [hb, Finset.mem_erase]
      refine ⟨?_, hin x (List.mem_cons_of_mem _ hx)⟩
      intro he
      exact hnd.1 (by rw [← he]; exact List.mem_map_of_mem _ hx)
    have h := ih (destroyChannel o g ch) hnd.2 hrest
    rw [hb, Finset.card_erase_of_mem hch] at h
    have hpos : 0 < g.pCaBucket.card := Finset.card_pos.mpr ⟨_, hch⟩
    simp only [destroyChannels, List.length_cons]
    omega

theorem removals_append (a b : List Event) : removals (a ++ b) = removals a ++ removals b := by
  simp [removals, List.filterMap_append]

theorem removals_eventqTrace (sid : Nat) (evs : List event_ext) :
    removals (eventqTrace sid evs) = [] := by
  induction evs with
  | nil => rfl
  | cons ev rest ih =>
    unfold removals at ih ⊢
    simp only [eventqTrace, List.filterMap_append, ih, filterMap_optList, filterMap_single,
      bind_const_none]
    rfl

theorem removals_channelTrace (o : teardownOracle) (t : Finset Nat) (ch : channel_in_use) :
    removals (channelTrace o t ch) = [(ch.sid, decide (ch.sid ∈ t))] := by
  unfold channelTrace
  simp only [removals_append, removals_eventqTrace]
  by_cases hin : ch.sid ∈ t <;>
    by_cases hst : o.asRemoveClient ch.sid ≠ 0 ∧ o.asRemoveClient ch.sid ≠ o.S_asLib_asNotActive <;>
    simp [hin, hst, removals]

theorem removals_channelsTrace (o : teardownOracle) (l : List channel_in_use) :
    ∀ t : Finset Nat, (l.map (fun ch => ch.sid)).Nodup → (∀ ch ∈ l, ch.sid ∈ t) →
      removals (channelsTrace o t l) = l.map (fun ch => (ch.sid, true)) := by
  induction l with
  | nil => intro t _ _; rfl
  | cons ch rest ih =>
    intro t hnd hin
    rw [List.map_cons, List.nodup_cons] at hnd
    have hch : ch.sid ∈ t := hin ch (List.mem_cons_self _ _)
    have hrest : ∀ x ∈ rest, x.sid ∈ t.erase ch.sid := by
      intro x hx
      rw [Finset.mem_erase]
      refine ⟨?_, hin x (List.mem_cons_of_mem _ hx)⟩
      intro he
      exact hnd.1 (by rw [← he]; exact List.mem_map_of_mem _ hx)
    simp only [channelsTrace, removals_append, removals_channelTrace, ih _ hnd.2 hrest, hch,
      decide_True, List.map_cons, List.singleton_append]

theorem removals_destroyTrace (c : client) : removals (destroyTrace c) = [] := by
  unfold removals
  rw [filterMap_destroyTrace]
  simp only [filterMap_tcpBufTrace, filterMap_udpBufTrace, Option.toList, ite_self,
    match_slab_nil, List.append_nil, List.nil_append, bind_const_none]

theorem removals_teardownTrace (o : teardownOracle) (t : Finset Nat) (c : client)
    (hnd : ((takenChannels c).map (fun ch => ch.sid)).Nodup)
    (hin : ∀ ch ∈ takenChannels c, ch.sid ∈ t) :
    removals (teardownTrace o t c) = (takenChannels c).map (fun ch => (ch.sid, true)) := by
  have hq : removals (quiesceTrace c.evuser) = [] := by cases c.evuser <;> rfl
  have hcl : removals (c.evuser.map Event.db_close_events).toList = [] := by
    cases c.evuser <;> rfl
  simp only [teardownTrace, removals_append, hq, hcl, removals_destroyTrace,
    removals_channelsTrace o _ t hnd hin, List.nil_append, List.append_nil]

/-- C11, refuted as stated: with the counter equal to the size of the
identifier table on entry (both 2), a client holding one channel whose id 7 is
not in the table goes through `destroy_tcp_client`: the removal reports
not-found, the table keeps its two entries, and the counter is decremented all
the same, to 1. -/
theorem destroy_tcp_client_not_found_breaks_count :
    demoGlobalsAbsent.rsrvChannelCount = demoGlobalsAbsent.pCaBucket.card
      ∧ ∃ g1 c1, destroy_tcp_client demoTeardown demoGlobalsAbsent demoClientOneChannel
            = .ok (g1, c1)
          ∧ Event.bucketRemoveItemUnsignedId 7 false ∈ g1.trace
          ∧ g1.rsrvChannelCount = 1 ∧ g1.pCaBucket.card = 2
          ∧ g1.rsrvChannelCount ≠ g1.pCaBucket.card :=
  ⟨by decide, _, _, rfl, by decide, by rfl, by decide, by decide⟩

/-- C11, amended: for every client whose deregistration of the extra-labor
callback reports success and every table state in which `rsrvChannelCount`
(an unsigned 32-bit counter) equals the number of entries of the identifier
table on entry, `destroy_tcp_client` returns and the equality holds on return,
provided that the ids of the channels it takes off the client's lists are
pairwise distinct and all in the table, so that every removal finds its id. -/
theorem destroy_tcp_client_keeps_count (o : teardownOracle) (g : rsrvGlobals) (c : client)
    (hst : c.evuser ≠ none → o.db_add_extra_labor_event = 0)
    (hinv : g.rsrvChannelCount = g.pCaBucket.card) (hlt : g.rsrvChannelCount < 2 ^ 32)
    (hnd : ((takenChannels c).map (fun ch => ch.sid)).Nodup)
    (hin : ∀ ch ∈ takenChannels c, ch.sid ∈ g.pCaBucket) :
    ∃ g1 c1, destroy_tcp_client o g c = .ok (g1, c1)
      ∧ g1.rsrvChannelCount = g1.pCaBucket.card
      ∧ removals (teardownTrace o g.pCaBucket c)
          = (takenChannels c).map (fun ch => (ch.sid, true))
      ∧ g1.pCaBucket.card + (takenChannels c).length = g.pCaBucket.card := by
  obtain ⟨g1, hok, hn, hb, _⟩ := destroy_tcp_client_rest o g c hst
  obtain ⟨n1, n2⟩ := destroyChannels_count o (takenChannels c) g
  have hcard := destroyChannels_card o (takenChannels c) g hnd hin
  have hlt1 := n2 hlt
  refine ⟨g1, _, hok, ?_, ?_, by rw [hb]; exact hcard⟩
  · rw [hn, hb]
    norm_num at n1 hlt1 hlt
    omega
  · exact removals_teardownTrace o g.pCaBucket c hnd hin


theorem destroy_tcp_client_keeps_count_witness :
    (demoClientChannels.evuser ≠ none → demoTeardown.db_add_extra_labor_event = 0)
      ∧ demoGlobalsChannels.rsrvChannelCount = demoGlobalsChannels.pCaBucket.card
      ∧ demoGlobalsChannels.rsrvChannelCount < 2 ^ 32
      ∧ ((takenChannels demoClientChannels).map (fun ch => ch.sid)).Nodup
      ∧ (∀ ch ∈ takenChannels demoClientChannels, ch.sid ∈ demoGlobalsChannels.pCaBucket)
      ∧ ∃ g1 c1, destroy_tcp_client demoTeardown demoGlobalsChannels demoClientChannels
            = .ok (g1, c1)
          ∧ g1.rsrvChannelCount = g1.pCaBucket.card
          ∧ removals (teardownTrace demoTeardown demoGlobalsChannels.pCaBucket demoClientChannels)
              = (takenChannels demoClientChannels).map (fun ch => (ch.sid, true))
          ∧ g1.pCaBucket.card + (takenChannels demoClientChannels).length
              = demoGlobalsChannels.pCaBucket.card :=
  ⟨fun _ => rfl, by decide, by decide, by decide, by decide,
    destroy_tcp_client_keeps_count demoTeardown demoGlobalsChannels demoClientChannels
      (fun _ => rfl) (by decide) (by decide) (by decide) (by decide)⟩


/-! ## Lemmas on the order of effects -/

theorem precedes_cons_hit {p q : Event → Prop} {x : Event} (l : List Event) (hp : p x)
    (hq : ¬ q x) : precedes p q (x :: l) := by
  intro pre e post h hqe
  cases pre with
  | nil =>
    simp only [List.nil_append, List.cons.injEq] at h
    exact absurd (h.1 ▸ hqe) hq
  | cons y ys =>
    simp only [List.cons_append, List.cons.injEq] at h
    exact ⟨y, List.mem_cons_self _ _, h.1 ▸ hp⟩

theorem precedes_cons_skip {p q : Event → Prop} {x : Event} {l : List Event} (hq : ¬ q x)
    (hl : precedes p q l) : precedes p q (x :: l) := by
  intro pre e post h hqe
  cases pre with
  | nil =>
    simp only [List.nil_append, List.cons.injEq] at h
    exact absurd (h.1 ▸ hqe) hq
  | cons y ys =>
    simp only [List.cons_append, List.cons.injEq] at h
    obtain ⟨z, hz, hpz⟩ := hl ys e post h.2 hqe
    exact ⟨z, List.mem_cons_of_mem _ hz, hpz⟩

theorem precedesSince_of_no_q {p q r : Event → Prop} {tr : List Event}
    (h : ∀ e ∈ tr, ¬ q e) : precedesSince p q r tr := by
  intro pre e post he hq
  exact absurd hq (h e (by rw [he]; simp))

theorem precedesSince_append {p q r : Event → Prop} {A B : List Event}
    (hA : precedesSince p q r A) (hB : precedesSince p q r B) :
    precedesSince p q r (A ++ B) := by
  intro pre e post h hq
  rcases List.append_eq_append_iff.1 h with ⟨a', hpre, hB'⟩ | ⟨c', hA', hc⟩
  · obtain ⟨a, x, b, hab, hp, hr⟩ := hB a' e post hB' hq
    exact ⟨A ++ a, x, b, by rw [hpre, hab, List.append_assoc], hp, hr⟩
  · cases c' with
    | nil =>
      simp only [List.nil_append] at hc
      obtain ⟨a, x, b, hab, _, _⟩ := hB [] e post (by rw [← hc]; rfl) hq
      simp at hab
    | cons y ys =>
      simp only [List.cons_append, List.cons.injEq] at hc
      rw [← hc.1] at hA'
      exact hA pre e ys hA' hq

theorem precedesSince_block {p q r : Event → Prop} (a : List Event) (x : Event) (b : List Event)
    (hp : p x) (hqa : ∀ y ∈ a, ¬ q y) (hqx : ¬ q x) (hrb : ∀ y ∈ b, ¬ r y) :
    precedesSince p q r (a ++ x :: b) := by
  intro pre e post h hq
  rcases List.append_eq_append_iff.1 h with ⟨a', hpre, hB'⟩ | ⟨c', hA', hc⟩
  · cases a' with
    | nil =>
      simp only [List.nil_append, List.cons.injEq] at hB'
      exact absurd (hB'.1 ▸ hq) hqx
    | cons y ys =>
      simp only [List.cons_append, List.cons.injEq] at hB'
      refine ⟨a, x, ys, by rw [hpre, hB'.1], hp, ?_⟩
      intro z hz
      exact hrb z (by rw [hB'.2]; simp [hz])
  · cases c' with
    | nil =>
      simp only [List.nil_append, List.cons.injEq] at hc
      exact absurd (hc.1 ▸ hq) hqx
    | cons y ys =>
      simp only [List.cons_append, List.cons.injEq] at hc
      exact absurd hq (hqa e (by rw [hA', hc.1]; simp))

theorem neverBefore_append {p q : Event → Prop} {A B : List Event}
    (hA : ∀ x ∈ A, ¬ p x) (hB : ∀ e ∈ B, ¬ q e) : neverBefore p q (A ++ B) := by
  intro pre e post h hq x hx
  rcases List.append_eq_append_iff.1 h with ⟨a', _, hB'⟩ | ⟨c', hA', _⟩
  · exact absurd hq (hB e (by rw [hB']; simp))
  · exact hA x (by rw [hA']; simp [hx])

theorem notSince_of_no_q {p q r : Event → Prop} {tr : List Event}
    (h : ∀ e ∈ tr, ¬ q e) : notSince p q r tr := by
  intro pre e post he hq
  exact absurd hq (h e (by rw [he]; simp))

theorem notSince_of_neverBefore {p q r : Event → Prop} {tr : List Event}
    (h : neverBefore p q tr) : notSince p q r tr := by
  intro pre e post he hq a x b hab hp
  exact absurd hp (h pre e post he hq x (by rw [hab]; simp))

/-- A block in which no `p` comes before a `q`, followed by a trace that is
empty or opens with an `r`. -/
theorem notSince_block_append {p q r : Event → Prop} {B R : List Event}
    (hB : neverBefore p q B) (hR : notSince p q r R)
    (hhead : R = [] ∨ ∃ z R', R = z :: R' ∧ r z ∧ ¬ q z) :
    notSince p q r (B ++ R) := by
  intro pre e post h hq a x b hab hp
  rcases List.append_eq_append_iff.1 h with ⟨a', hpre, hR'⟩ | ⟨c', hB', hc⟩
  · -- the `q` lies in `R`
    rcases hhead with hnil | ⟨z, R', hz, hrz, hqz⟩
    · rw [hnil] at hR'
      simp at hR'
    · cases a' with
      | nil =>
        rw [hz] at hR'
        simp only [List.nil_append, List.cons.injEq] at hR'
        exact absurd (hR'.1 ▸ hq) hqz
      | cons y ys =>
        rw [hz] at hR'
        simp only [List.cons_append, List.cons.injEq] at hR'
        -- `pre = B ++ z :: ys`
        rw [hpre, ← hR'.1] at hab
        rcases List.append_eq_append_iff.1 hab with ⟨a2, ha, hzy⟩ | ⟨c2, hBc, hxb⟩
        · cases a2 with
          | nil =>
            simp only [List.nil_append, List.cons.injEq] at hzy
            have hb : b = ys := hzy.2.symm
            have := hR (z :: ys) e post (by rw [hz, hR'.2]; rfl) hq [] x b
              (by rw [hb, hzy.1]; rfl) hp
            exact this
          | cons w ws =>
            simp only [List.cons_append, List.cons.injEq] at hzy
            exact hR (z :: ys) e post (by rw [hz, hR'.2]; rfl) hq (z :: ws) x b
              (by rw [hzy.2]; rfl) hp
        · cases c2 with
          | nil =>
            simp only [List.nil_append, List.cons.injEq] at hxb
            have := hR (z :: ys) e post (by rw [hz, hR'.2]; rfl) hq [] x b
              (by rw [← hxb.2, hxb.1]; rfl) hp
            exact this
          | cons w ws =>
            simp only [List.cons_append, List.cons.injEq] at hxb
            exact ⟨z, by rw [hxb.2]; simp, hrz⟩
  · cases c' with
    | nil =>
      simp only [List.nil_append] at hc
      rcases hhead with hnil | ⟨z, R', hz, hrz, hqz⟩
      · rw [hnil] at hc
        simp at hc
      · rw [hz] at hc
        simp only [List.cons.injEq] at hc
        exact absurd (hc.1 ▸ hq) hqz
    | cons y ys =>
      simp only [List.cons_append, List.cons.injEq] at hc
      rw [← hc.1] at hB'
      exact absurd hp (hB pre e ys hB' hq x (by rw [hab]; simp))


theorem precedesSince_mono {p q q' r : Event → Prop} {tr : List Event}
    (hq : ∀ e, q' e → q e) (h : precedesSince p q r tr) : precedesSince p q' r tr :=
  fun pre e post he hqe => h pre e post he (hq e hqe)

theorem notSince_append_right {p q r : Event → Prop} {A B : List Event}
    (hA : notSince p q r A) (hB : ∀ e ∈ B, ¬ q e) : notSince p q r (A ++ B) := by
  intro pre e post h hq a x b hab hp
  rcases List.append_eq_append_iff.1 h with ⟨a', _, hB'⟩ | ⟨c', hA', hc⟩
  · exact absurd hq (hB e (by rw [hB']; simp))
  · cases c' with
    | nil =>
      simp only [List.nil_append] at hc
      exact absurd hq (hB e (by rw [← hc]; simp))
    | cons y ys =>
      simp only [List.cons_append, List.cons.injEq] at hc
      rw [← hc.1] at hA'
      exact hA pre e ys hA' hq a x b hab hp

theorem notSince_append_left {p q r : Event → Prop} {A R : List Event}
    (hA : ∀ x ∈ A, ¬ p x) (hR : notSince p q r R) : notSince p q r (A ++ R) := by
  intro pre e post h hq a x b hab hp
  rcases List.append_eq_append_iff.1 h with ⟨a', hpre, hR'⟩ | ⟨c', hA', _⟩
  · rw [hpre] at hab
    rcases List.append_eq_append_iff.1 hab with ⟨a2, _, ha'⟩ | ⟨c2, hAc, hxb⟩
    · exact hR a' e post hR' hq a2 x b ha' hp
    · cases c2 with
      | nil =>
        simp only [List.nil_append] at hxb
        exact hR a' e post hR' hq [] x b hxb.symm hp
      | cons w ws =>
        simp only [List.cons_append, List.cons.injEq] at hxb
        exact absurd hp (hA x (by rw [hAc, hxb.1]; simp))
  · exact absurd hp (hA x (by rw [hA', hab]; simp))

theorem mem_eventqTrace (sid : Nat) (evs : List event_ext) :
    ∀ e ∈ eventqTrace sid evs,
      (∃ d, e = .db_cancel_event sid d) ∨ (∃ ev, e = .freeListFreeEvent sid ev) := by
  induction evs with
  | nil => intro e he; simp [eventqTrace] at he
  | cons ev rest ih =>
    intro e he
    simp only [eventqTrace, List.mem_append, List.mem_singleton] at he
    rcases he with (he | he) | he
    · cases hd : ev.pdbev with
      | none => rw [hd] at he; simp at he
      | some d => rw [hd] at he; simp at he; exact Or.inl ⟨d, he⟩
    · exact Or.inr ⟨ev, he⟩
    · exact ih e he

/-- The effects of destroying one channel: the channel is taken, its
subscriptions and its put-notify slot are freed, its id is removed, and then
come the effects `tail`. -/
theorem channelTrace_form (o : teardownOracle) (t : Finset Nat) (ch : channel_in_use) :
    ∃ tail, channelTrace o t ch
        = (.ellGetChan ch.sid
            :: (eventqTrace ch.sid ch.eventq ++ [.rsrvFreePutNotify ch.sid ch.pPutNotify]))
          ++ .bucketRemoveItemUnsignedId ch.sid (decide (ch.sid ∈ t)) :: tail
      ∧ ∀ y ∈ tail, (∃ m, y = .print m) ∨ y = .asRemoveClient ch.sid
          ∨ y = .dbChannelDelete ch.sid ch.dbch ∨ y = .freeListFreeChan { ch with eventq := [] } := by
  refine ⟨(if ch.sid ∈ t then [] else [.print (.badIdAtClose ch.sid)])
    ++ [.asRemoveClient ch.sid]
    ++ (if o.asRemoveClient ch.sid ≠ 0 ∧ o.asRemoveClient ch.sid ≠ o.S_asLib_asNotActive
        then [.print (.badAsRemoveClient (o.asRemoveClient ch.sid))] else [])
    ++ [.dbChannelDelete ch.sid ch.dbch, .freeListFreeChan { ch with eventq := [] }], ?_, ?_⟩
  · simp [channelTrace]
  · intro y hy
    simp only [List.mem_append, List.mem_singleton, List.mem_cons, List.mem_nil_iff,
      or_false] at hy
    rcases hy with ((hy | hy) | hy) | hy | hy
    · split at hy
      · simp at hy
      · simp at hy; exact Or.inl ⟨_, hy⟩
    · exact Or.inr (Or.inl hy)
    · split at hy
      · simp at hy; exact Or.inl ⟨_, hy⟩
      · simp at hy
    · exact Or.inr (Or.inr (Or.inl hy))
    · exact Or.inr (Or.inr (Or.inr hy))

theorem channelTrace_ofChannel (o : teardownOracle) (t : Finset Nat) (ch : channel_in_use) :
    ∀ e ∈ channelTrace o t ch, e.ofChannel = true := by
  obtain ⟨tail, hform, htail⟩ := channelTrace_form o t ch
  intro e he
  rw [hform] at he
  simp only [List.mem_append, List.mem_cons, List.mem_singleton, List.mem_nil_iff,
    or_false] at he
  rcases he with (he | he | he) | he | he
  · rw [he]; rfl
  · rcases mem_eventqTrace _ _ e he with ⟨d, hd⟩ | ⟨ev, hev⟩
    · rw [hd]; rfl
    · rw [hev]; rfl
  · rw [he]; rfl
  · rw [he]; rfl
  · rcases htail e he with ⟨m, hm⟩ | hm | hm | hm <;> rw [hm] <;> rfl

theorem channelsTrace_ofChannel (o : teardownOracle) (l : List channel_in_use) :
    ∀ t, ∀ e ∈ channelsTrace o t l, e.ofChannel = true := by
  induction l with
  | nil => intro t e he; simp [channelsTrace] at he
  | cons ch rest ih =>
    intro t e he
    simp only [channelsTrace, List.mem_append] at he
    rcases he with he | he
    · exact channelTrace_ofChannel o t ch e he
    · exact ih _ e he

theorem destroyTrace_eq_init (c : client) :
    destroyTrace c = destroyTraceInit c ++ [.freeListFreeClient] := rfl

theorem mem_optList {h : Option Nat} {ev : Nat → Event} {e : Event}
    (he : e ∈ (h.map ev).toList) : ∃ x, e = ev x := by
  cases h with
  | none => simp at he
  | some x => simp at he; exact ⟨x, he⟩

theorem mem_tcpBufTrace {slot : message_buffer} {corrupt : logMsg} {e : Event}
    (he : e ∈ tcpBufTrace slot corrupt) : (∃ p b, e = .freeListFreeBuf p b) ∨ ∃ m, e = .print m := by
  unfold tcpBufTrace at he
  cases hb : slot.buf with
  | none => rw [hb] at he; simp at he
  | some b =>
    rw [hb] at he
    simp only at he
    split_ifs at he <;> simp at he
    · exact Or.inl ⟨_, _, he⟩
    · exact Or.inl ⟨_, _, he⟩
    · exact Or.inr ⟨_, he⟩

theorem mem_udpBufTrace {slot : message_buffer} {e : Event}
    (he : e ∈ udpBufTrace slot) : ∃ b, e = .free b := by
  unfold udpBufTrace at he
  cases hb : slot.buf with
  | none => rw [hb] at he; simp at he
  | some b => rw [hb] at he; simp at he; exact ⟨b, he⟩

theorem destroyTraceInit_facts (c : client) :
    ∀ e ∈ destroyTraceInit c, e.ofRecord = true ∧ e ≠ .freeListFreeClient := by
  intro e he
  unfold destroyTraceInit at he
  simp only [List.mem_append] at he
  rcases he with (((((((((he | he) | he) | he) | he) | he) | he) | he) | he) | he)
  · split_ifs at he <;> simp at he
    rw [he]; exact ⟨rfl, by simp⟩
  · split_ifs at he <;> simp at he
    rw [he]; exact ⟨rfl, by simp⟩
  · split_ifs at he
    · simp only [List.mem_append] at he
      rcases he with he | he <;>
        rcases mem_tcpBufTrace he with ⟨p, b, h⟩ | ⟨m, h⟩ <;> rw [h] <;> exact ⟨rfl, by simp⟩
    · simp only [List.mem_append] at he
      rcases he with he | he <;>
        obtain ⟨b, h⟩ := mem_udpBufTrace he <;> rw [h] <;> exact ⟨rfl, by simp⟩
    · simp at he
  all_goals
    obtain ⟨x, h⟩ := mem_optList he
    rw [h]
    exact ⟨rfl, by simp⟩


theorem channelTrace_removal_order (o : teardownOracle) (t : Finset Nat) (ch : channel_in_use)
    (sid : Nat) :
    precedesSince (Event.removesId sid) (Event.freesAfterRemoval sid) Event.takesChannel
      (channelTrace o t ch) := by
  obtain ⟨tail, hform, htail⟩ := channelTrace_form o t ch
  rw [hform]
  by_cases hs : ch.sid = sid
  · apply precedesSince_block
    · exact hs
    · intro y hy
      simp only [List.mem_cons, List.mem_append, List.mem_singleton, List.mem_nil_iff,
      or_false] at hy
      rcases hy with hy | hy | hy
      · rw [hy]; simp [Event.freesAfterRemoval]
      · rcases mem_eventqTrace _ _ y hy with ⟨d, hd⟩ | ⟨ev, hev⟩
        · rw [hd]; simp [Event.freesAfterRemoval]
        · rw [hev]; simp [Event.freesAfterRemoval]
      · rw [hy]; simp [Event.freesAfterRemoval]
    · simp [Event.freesAfterRemoval]
    · intro y hy
      rcases htail y hy with ⟨m, hm⟩ | hm | hm | hm <;> rw [hm] <;> simp [Event.takesChannel]
  · apply precedesSince_of_no_q
    intro y hy
    simp only [List.mem_cons, List.mem_append, List.mem_singleton, List.mem_nil_iff,
      or_false] at hy
    rcases hy with (hy | hy | hy) | hy | hy
    · rw [hy]; simp [Event.freesAfterRemoval]
    · rcases mem_eventqTrace _ _ y hy with ⟨d, hd⟩ | ⟨ev, hev⟩
      · rw [hd]; simp [Event.freesAfterRemoval]
      · rw [hev]; simp [Event.freesAfterRemoval]
    · rw [hy]; simp [Event.freesAfterRemoval]
    · rw [hy]; simp [Event.freesAfterRemoval]
    · rcases htail y hy with ⟨m, hm⟩ | hm | hm | hm <;> rw [hm] <;>
        simp [Event.freesAfterRemoval, hs]

theorem channelsTrace_removal_order (o : teardownOracle) (l : List channel_in_use) (sid : Nat) :
    ∀ t, precedesSince (Event.removesId sid) (Event.freesAfterRemoval sid) Event.takesChannel
      (channelsTrace o t l) := by
  induction l with
  | nil =>
    intro t
    exact precedesSince_of_no_q (by simp [channelsTrace])
  | cons ch rest ih =>
    intro t
    exact precedesSince_append (channelTrace_removal_order o t ch sid) (ih _)

theorem channelTrace_neverBefore (o : teardownOracle) (t : Finset Nat) (ch : channel_in_use)
    (sid : Nat) :
    neverBefore (Event.removesId sid) (Event.freesBeforeRemoval sid) (channelTrace o t ch) := by
  obtain ⟨tail, hform, htail⟩ := channelTrace_form o t ch
  rw [hform]
  apply neverBefore_append
  · intro y hy
    simp only [List.mem_cons, List.mem_append, List.mem_singleton, List.mem_nil_iff,
      or_false] at hy
    rcases hy with hy | hy | hy
    · rw [hy]; simp [Event.removesId]
    · rcases mem_eventqTrace _ _ y hy with ⟨d, hd⟩ | ⟨ev, hev⟩
      · rw [hd]; simp [Event.removesId]
      · rw [hev]; simp [Event.removesId]
    · rw [hy]; simp [Event.removesId]
  · intro y hy
    simp only [List.mem_cons] at hy
    rcases hy with hy | hy
    · rw [hy]; simp [Event.freesBeforeRemoval]
    · rcases htail y hy with ⟨m, hm⟩ | hm | hm | hm <;> rw [hm] <;>
        simp [Event.freesBeforeRemoval]

theorem channelsTrace_head (o : teardownOracle) (t : Finset Nat) (l : List channel_in_use)
    (sid : Nat) :
    channelsTrace o t l = [] ∨ ∃ z R, channelsTrace o t l = z :: R ∧ z.takesChannel
      ∧ ¬ z.freesBeforeRemoval sid := by
  cases l with
  | nil => exact Or.inl rfl
  | cons ch rest =>
    refine Or.inr ⟨.ellGetChan ch.sid, (channelsTrace o t (ch :: rest)).tail, ?_, trivial,
      by simp [Event.freesBeforeRemoval]⟩
    simp [channelsTrace, channelTrace]

theorem channelsTrace_notSince (o : teardownOracle) (l : List channel_in_use) (sid : Nat) :
    ∀ t, notSince (Event.removesId sid) (Event.freesBeforeRemoval sid) Event.takesChannel
      (channelsTrace o t l) := by
  induction l with
  | nil =>
    intro t
    exact notSince_of_no_q (by simp [channelsTrace])
  | cons ch rest ih =>
    intro t
    exact notSince_block_append (channelTrace_neverBefore o t ch sid) (ih _)
      (channelsTrace_head o _ rest sid)

theorem mem_quiesceTrace {evuser : Option Nat} {e : Event} (he : e ∈ quiesceTrace evuser) :
    ∃ ev, e = .db_add_extra_labor_event ev false ∨ e = .db_flush_extra_labor_event ev := by
  cases evuser with
  | none => simp [quiesceTrace] at he
  | some ev =>
    simp [quiesceTrace] at he
    exact ⟨ev, he⟩

/-- Per channel, in the effects of `destroy_tcp_client`: the database channel
and the channel itself are freed after the id was removed, and no subscription
or put-notify slot is freed after it. -/
theorem teardownTrace_removal_order (o : teardownOracle) (t : Finset Nat) (c : client)
    (sid : Nat) :
    precedesSince (Event.removesId sid) (Event.freesAfterRemoval sid) Event.takesChannel
        (teardownTrace o t c)
      ∧ notSince (Event.removesId sid) (Event.freesBeforeRemoval sid) Event.takesChannel
        (teardownTrace o t c) := by
  have hq1 : ∀ e ∈ quiesceTrace c.evuser, ¬ e.freesAfterRemoval sid ∧ ¬ e.removesId sid
      ∧ ¬ e.freesBeforeRemoval sid := by
    intro e he
    obtain ⟨ev, h | h⟩ := mem_quiesceTrace he <;> rw [h] <;>
      simp [Event.freesAfterRemoval, Event.removesId, Event.freesBeforeRemoval]
  have hcl : ∀ e ∈ (c.evuser.map Event.db_close_events).toList, ¬ e.freesAfterRemoval sid
      ∧ ¬ e.freesBeforeRemoval sid := by
    intro e he
    obtain ⟨x, h⟩ := mem_optList he
    rw [h]
    simp [Event.freesAfterRemoval, Event.freesBeforeRemoval]
  have hd : ∀ e ∈ destroyTrace (afterChannels c), ¬ e.freesAfterRemoval sid
      ∧ ¬ e.freesBeforeRemoval sid := by
    intro e he
    rw [destroyTrace_eq_init, List.mem_append, List.mem_singleton] at he
    rcases he with he | he
    · have h := (destroyTraceInit_facts _ e he).1
      cases e <;> simp [Event.ofRecord] at h <;>
        simp [Event.freesAfterRemoval, Event.freesBeforeRemoval]
    · rw [he]
      simp [Event.freesAfterRemoval, Event.freesBeforeRemoval]
  unfold teardownTrace
  constructor
  · exact precedesSince_append (precedesSince_append (precedesSince_append
      (precedesSince_of_no_q fun e he => (hq1 e he).1)
      (channelsTrace_removal_order o _ sid t))
      (precedesSince_of_no_q fun e he => (hcl e he).1))
      (precedesSince_of_no_q fun e he => (hd e he).1)
  · rw [List.append_assoc, List.append_assoc]
    apply notSince_append_left (fun e he => (hq1 e he).2.1)
    rw [← List.append_assoc]
    apply notSince_append_right
    · exact notSince_append_right (channelsTrace_notSince o _ sid t) (fun e he => (hcl e he).2)
    · exact fun e he => (hd e he).2

/-- In the effects of `destroy_tcp_client` no buffer is released before a
resource of a channel is freed, the record does not go back to its pool
before a buffer is released, and the record goes back last. -/
theorem teardownTrace_phase_order (o : teardownOracle) (t : Finset Nat) (c : client) :
    neverBefore Event.releasesBuffer Event.freesChannelResource (teardownTrace o t c)
      ∧ neverBefore (fun e => e = .freeListFreeClient) Event.releasesBuffer
          (teardownTrace o t c)
      ∧ (teardownTrace o t c).getLast? = some .freeListFreeClient := by
  have hq : ∀ e ∈ quiesceTrace c.evuser, ¬ e.releasesBuffer ∧ e ≠ .freeListFreeClient := by
    intro e he
    obtain ⟨ev, h | h⟩ := mem_quiesceTrace he <;> rw [h] <;> simp [Event.releasesBuffer]
  have hch : ∀ e ∈ channelsTrace o t (takenChannels c),
      ¬ e.releasesBuffer ∧ e ≠ .freeListFreeClient := by
    intro e he
    have h := channelsTrace_ofChannel o _ t e he
    cases e <;> simp [Event.ofChannel] at h <;> simp [Event.releasesBuffer]
  have hcl : ∀ e ∈ (c.evuser.map Event.db_close_events).toList,
      ¬ e.releasesBuffer ∧ e ≠ .freeListFreeClient := by
    intro e he
    obtain ⟨x, h⟩ := mem_optList he
    rw [h]
    simp [Event.releasesBuffer]
  have hd : ∀ e ∈ destroyTrace (afterChannels c), ¬ e.freesChannelResource := by
    intro e he
    rintro ⟨sid, hs⟩
    rw [destroyTrace_eq_init, List.mem_append, List.mem_singleton] at he
    rcases he with he | he
    · have h := (destroyTraceInit_facts _ e he).1
      cases e <;> simp [Event.ofRecord] at h <;> simp [Event.freesResourceOf] at hs
    · rw [he] at hs
      simp [Event.freesResourceOf] at hs
  have hpre : ∀ e ∈ quiesceTrace c.evuser ++ channelsTrace o t (takenChannels c)
      ++ (c.evuser.map Event.db_close_events).toList,
      ¬ e.releasesBuffer ∧ e ≠ .freeListFreeClient := by
    intro e he
    simp only [List.mem_append] at he
    rcases he with (he | he) | he
    · exact hq e he
    · exact hch e he
    · exact hcl e he
  unfold teardownTrace
  refine ⟨neverBefore_append (fun e he => (hpre e he).1) hd, ?_, ?_⟩
  · rw [destroyTrace_eq_init, ← List.append_assoc]
    apply neverBefore_append
    · intro e he
      rw [List.mem_append] at he
      rcases he with he | he
      · exact (hpre e he).2
      · exact (destroyTraceInit_facts _ e he).2
    · intro e he
      simp only [List.mem_singleton] at he
      rw [he]
      simp [Event.releasesBuffer]
  · rw [destroyTrace_eq_init, ← List.append_assoc]
    simp


/-! ## C12: the order of the collaborator calls of `destroy_tcp_client` -/

/-- C12: for every client with an event-facility session `ev`,
`destroy_tcp_client` either stops at its assertion (the deregistration, the
only call made so far, reported a failure) or returns, and then in the
sequence `tr` of its calls: the extra-labor deregistration and the extra-labor
flush both occur before any channel is taken from a channel list; every return
of a channel to the channel pool has the removal of that channel's id from the
identifier table before it, in the same pass of the loop (no other channel is
taken in between); and `db_close_events` occurs after every channel was
returned (`pre` holds all channel frees) and before the effects of
`destroy_client`, which are the rest of the sequence. -/
theorem destroy_tcp_client_call_order (o : teardownOracle) (g : rsrvGlobals) (c : client)
    (ev : Nat) (hev : c.evuser = some ev) :
    (o.db_add_extra_labor_event ≠ 0 ∧ destroy_tcp_client o g c = .error .assertFailed)
      ∨ (o.db_add_extra_labor_event = 0
        ∧ ∃ g0 g1 c1 tr pre, destroy_tcp_client o g c = .ok (g1, c1)
          ∧ g1.trace = g.trace ++ tr
          ∧ precedes (fun e => e = .db_add_extra_labor_event ev false) Event.takesChannel tr
          ∧ precedes (fun e => e = .db_flush_extra_labor_event ev) Event.takesChannel tr
          ∧ (∀ sid, precedesSince (Event.removesId sid) (Event.freesChannel sid)
                Event.takesChannel tr)
          ∧ tr = pre ++ .db_close_events ev :: destroyTrace c1
          ∧ chansFreed pre = (takenChannels c).map (fun ch => { ch with eventq := [] })
          ∧ (∀ e ∈ destroyTrace c1, ¬ e.takesChannel ∧ ∀ sid, ¬ e.freesChannel sid)
          ∧ g0.trace = g.trace ++ pre ++ [.db_close_events ev]
          ∧ g1 = destroy_client g0 (some c1)) := by
  by_cases h0 : o.db_add_extra_labor_event = 0
  · right
    have hst : c.evuser ≠ none → o.db_add_extra_labor_event = 0 := fun _ => h0
    obtain ⟨g1, hok, _, _, htr⟩ := destroy_tcp_client_rest o g c hst
    have heq := destroy_tcp_client_eq_taken o g c hst
    rw [hok] at heq
    simp only [Except.ok.injEq, Prod.mk.injEq, and_true] at heq
    have hform : teardownTrace o g.pCaBucket c
        = .db_add_extra_labor_event ev false :: .db_flush_extra_labor_event ev
          :: (channelsTrace o g.pCaBucket (takenChannels c)
            ++ .db_close_events ev :: destroyTrace (afterChannels c)) := by
      simp [teardownTrace, hev, quiesceTrace]
    refine ⟨h0, _, g1, _, teardownTrace o g.pCaBucket c,
      quiesceTrace c.evuser ++ channelsTrace o g.pCaBucket (takenChannels c),
      hok, htr, ?_, ?_, ?_, ?_, ?_, ?_, ?_, heq⟩
    · rw [hform]
      exact precedes_cons_hit _ rfl (by simp [Event.takesChannel])
    · rw [hform]
      exact precedes_cons_skip (by simp [Event.takesChannel])
        (precedes_cons_hit _ rfl (by simp [Event.takesChannel]))
    · intro sid
      refine precedesSince_mono ?_ (teardownTrace_removal_order o g.pCaBucket c sid).1
      intro e he
      cases e <;> simp [Event.freesChannel] at he
      simp [Event.freesAfterRemoval, he]
    · simp [teardownTrace, hev]
    · have hq : chansFreed (quiesceTrace c.evuser) = [] := by cases c.evuser <;> rfl
      rw [chansFreed_append, hq, chansFreed_channelsTrace, List.nil_append]
    · intro e he
      rw [destroyTrace_eq_init, List.mem_append, List.mem_singleton] at he
      rcases he with he | he
      · have h := (destroyTraceInit_facts _ e he).1
        cases e <;> simp [Event.ofRecord] at h <;> simp [Event.takesChannel, Event.freesChannel]
      · rw [he]
        simp [Event.takesChannel, Event.freesChannel]
    · obtain ⟨_, q2, _, _⟩ := replay_rest (quiesceTrace c.evuser) g
      rw [(destroyIfSet_rest _ _ _).2.2, destroyChannels_trace, replay_trace, q2, hev]
      simp
  · left
    refine ⟨h0, ?_⟩
    unfold destroy_tcp_client
    simp [hev, h0]

theorem destroy_tcp_client_call_order_witness :
    demoClientSession.evuser = some 20
      ∧ ((demoTeardown.db_add_extra_labor_event ≠ 0
          ∧ destroy_tcp_client demoTeardown demoGlobalsChannels demoClientSession
            = .error .assertFailed)
        ∨ (demoTeardown.db_add_extra_labor_event = 0
          ∧ ∃ g0 g1 c1 tr pre,
            destroy_tcp_client demoTeardown demoGlobalsChannels demoClientSession = .ok (g1, c1)
            ∧ g1.trace = demoGlobalsChannels.trace ++ tr
            ∧ precedes (fun e => e = .db_add_extra_labor_event 20 false) Event.takesChannel tr
            ∧ precedes (fun e => e = .db_flush_extra_labor_event 20) Event.takesChannel tr
            ∧ (∀ sid, precedesSince (Event.removesId sid) (Event.freesChannel sid)
                  Event.takesChannel tr)
            ∧ tr = pre ++ .db_close_events 20 :: destroyTrace c1
            ∧ chansFreed pre
                = (takenChannels demoClientSession).map (fun ch => { ch with eventq := [] })
            ∧ (∀ e ∈ destroyTrace c1, ¬ e.takesChannel ∧ ∀ sid, ¬ e.freesChannel sid)
            ∧ g0.trace = demoGlobalsChannels.trace ++ pre ++ [.db_close_events 20]
            ∧ g1 = destroy_client g0 (some c1))) :=
  ⟨rfl, destroy_tcp_client_call_order demoTeardown demoGlobalsChannels demoClientSession 20 rfl⟩

/-! ## C13: the order in which resources are freed -/

/-- C13, refuted as stated: in the effects of `destroy_tcp_client` on a client
holding the channel with id 7, which has a monitor subscription, that
subscription is cancelled and returned to the event pool although the id 7
has not been removed from the identifier table yet; the removal comes
later. -/
theorem destroy_tcp_client_frees_events_before_removal :
    ∃ g1 c1 pre post, destroy_tcp_client demoTeardown demoGlobalsChannels demoClientChannels
        = .ok (g1, c1)
      ∧ g1.trace = pre ++ .freeListFreeEvent 7 ⟨some 70⟩ :: post
      ∧ (Event.freeListFreeEvent 7 ⟨some 70⟩).freesResourceOf 7
      ∧ (∀ x ∈ pre, ¬ x.removesId 7)
      ∧ Event.bucketRemoveItemUnsignedId 7 true ∈ post
      ∧ ¬ precedes (Event.removesId 7) (Event.freesResourceOf 7) g1.trace := by
  have hpre : ∀ x ∈ demoGlobalsCreated.trace ++ [.ellGetChan 7, .db_cancel_event 7 70],
      ¬ x.removesId 7 := by
    intro x hx
    simp [demoGlobalsCreated] at hx
    rcases hx with h | h | h | h | h | h | h | h | h <;> rw [h] <;> simp [Event.removesId]
  refine ⟨_, _, demoGlobalsCreated.trace ++ [.ellGetChan 7, .db_cancel_event 7 70], _, rfl,
    by rfl, rfl, hpre, by decide, ?_⟩
  intro h
  obtain ⟨x, hx, hp⟩ := h (demoGlobalsCreated.trace ++ [.ellGetChan 7, .db_cancel_event 7 70])
    (.freeListFreeEvent 7 ⟨some 70⟩) _ (by rfl) rfl
  exact hpre x hx hp

/-- C13, amended: for every client whose deregistration of the extra-labor
callback reports success, `destroy_tcp_client` returns, and in the sequence
`tr` of its effects, for every channel: the database channel handle is deleted
and the channel slab is freed after the removal of the channel's id from the
identifier table, in the same pass of the loop; the channel's monitor events
are cancelled and returned to the event pool and its put-notify slot is freed
before that removal (after a removal of the id, none of them occurs until
another channel is taken); no send or receive buffer is released before a
resource of a channel is freed; the client record is not returned to its pool
before a buffer is released, and its return is the last effect. -/
theorem destroy_tcp_client_free_order (o : teardownOracle) (g : rsrvGlobals) (c : client)
    (hst : c.evuser ≠ none → o.db_add_extra_labor_event = 0) :
    ∃ g1 c1 tr, destroy_tcp_client o g c = .ok (g1, c1)
      ∧ g1.trace = g.trace ++ tr
      ∧ (∀ sid, precedesSince (Event.removesId sid) (Event.freesAfterRemoval sid)
            Event.takesChannel tr)
      ∧ (∀ sid, notSince (Event.removesId sid) (Event.freesBeforeRemoval sid)
            Event.takesChannel tr)
      ∧ neverBefore Event.releasesBuffer Event.freesChannelResource tr
      ∧ neverBefore (fun e => e = .freeListFreeClient) Event.releasesBuffer tr
      ∧ tr.getLast? = some .freeListFreeClient := by
  obtain ⟨g1, hok, _, _, htr⟩ := destroy_tcp_client_rest o g c hst
  obtain ⟨p1, p2, p3⟩ := teardownTrace_phase_order o g.pCaBucket c
  exact ⟨g1, _, _, hok, htr, fun sid => (teardownTrace_removal_order o g.pCaBucket c sid).1,
    fun sid => (teardownTrace_removal_order o g.pCaBucket c sid).2, p1, p2, p3⟩

theorem destroy_tcp_client_free_order_witness :
    (demoClientChannels.evuser ≠ none → demoTeardown.db_add_extra_labor_event = 0)
      ∧ ∃ g1 c1 tr, destroy_tcp_client demoTeardown demoGlobalsChannels demoClientChannels
            = .ok (g1, c1)
          ∧ g1.trace = demoGlobalsChannels.trace ++ tr
          ∧ (∀ sid, precedesSince (Event.removesId sid) (Event.freesAfterRemoval sid)
                Event.takesChannel tr)
          ∧ (∀ sid, notSince (Event.removesId sid) (Event.freesBeforeRemoval sid)
                Event.takesChannel tr)
          ∧ neverBefore Event.releasesBuffer Event.freesChannelResource tr
          ∧ neverBefore (fun e => e = .freeListFreeClient) Event.releasesBuffer tr
          ∧ tr.getLast? = some .freeListFreeClient :=
  ⟨fun _ => rfl,
    destroy_tcp_client_free_order demoTeardown demoGlobalsChannels demoClientChannels
      (fun _ => rfl)⟩


/-! ## Lemmas on `rsrv_grap_tcp` -/

/-- What a pass of the `for` loop that reaches the end of the list has done. -/
theorem bindLoop_ok (cur : List osiSockAddr) :
    ∀ (i : Nat) (st : grapState) (answers : List bindAnswer) (st' : grapState)
      (rest : List bindAnswer), bindLoop i cur st answers = .left true st' rest →
      st'.casIntfAddrList = st.casIntfAddrList
        ∧ st'.nextSock = st.nextSock + cur.length
        ∧ st'.socks.length = st.socks.length
        ∧ (∀ k, st'.socks[k]? = if i ≤ k ∧ k < i + cur.length then
              (if k < st.socks.length then some (((st.nextSock + (k - i) : Nat) : Int)) else none)
            else st.socks[k]?)
        ∧ (st.sin_port ≠ 0 → st'.sin_port = st.sin_port)
        ∧ (cur ≠ [] → st'.sin_port ≠ 0)
        ∧ (cur = [] → st' = st)
        ∧ ∃ new, st'.log = st.log ++ new
            ∧ (∀ e ∈ new, ∀ s, e ≠ .epicsSocketDestroy s)
            ∧ ∀ j (hj : j < cur.length),
                .epicsSocketCreate ((st.nextSock + j : Nat) : Int) ∈ new
                  ∧ boundTo new ((st.nextSock + j : Nat) : Int) (cur[j]).sin_addr st'.sin_port := by
  induction cur with
  | nil =>
    intro i st answers st' rest h
    simp only [bindLoop, loopResult.left.injEq, true_and] at h
    obtain ⟨rfl, _⟩ := h
    refine ⟨rfl, rfl, rfl, ?_, fun _ => rfl, fun h => absurd rfl h, fun _ => rfl, [], by simp,
      by simp, ?_⟩
    · intro k
      have : ¬ (i ≤ k ∧ k < i + ([] : List osiSockAddr).length) := by simp
      rw [if_neg this]
    · intro j hj
      simp at hj
  | cons ifaceAddr tl ih =>
    intro i st answers st' rest h
    cases answers with
    | nil => simp [bindLoop] at h
    | cons a answers =>
      cases a with
      | noSocket => simp [bindLoop] at h
      | failed errno => cases errno <;> simp [bindLoop] at h
      | bound gsn =>
        simp only [bindLoop] at h
        by_cases hp : st.sin_port = 0
        · -- the port is picked by the first bind
          simp only [hp, if_true] at h
          by_cases hi : i = 0
          · subst hi
            simp only [if_true] at h
            cases gsn with
            | none => simp at h
            | some p =>
              simp only at h
              by_cases hp0 : p = 0
              · simp [hp0] at h
              · simp only [ne_eq, hp0, not_false_eq_true, if_true] at h
                obtain ⟨h1, h2, h3, h4, h5, h6, h7, new, h8, h9, h10⟩ := ih _ _ _ _ _ h
                simp only at h1 h2 h3 h4 h5 h6 h7 h8 h10
                have hport : st'.sin_port = p := h5 hp0
                refine ⟨h1, by rw [h2, List.length_cons]; omega, by rw [h3, List.length_set],
                  ?_, fun hne => absurd hp hne, fun _ => by rw [hport]; exact hp0,
                  fun hc => by simp at hc, ?_⟩
                · intro k
                  rw [h4 k, List.length_set, List.length_cons]
                  by_cases hk0 : k = 0
                  · subst hk0
                    simp [List.getElem?_set]
                  · have e1 : (0 + 1 ≤ k ∧ k < 0 + 1 + tl.length)
                        ↔ (0 ≤ k ∧ k < 0 + (tl.length + 1)) := by omega
                    simp only [e1]
                    split
                    · split
                      · have : st.nextSock + 1 + (k - (0 + 1)) = st.nextSock + (k - 0) := by omega
                        rw [this]
                      · rfl
                    · rw [List.getElem?_set]
                      simp [Ne.symm hk0]
                · refine ⟨[.epicsSocketCreate (st.nextSock : Int),
                    .epicsSocketEnableAddressReuseDuringTimeWaitState (st.nextSock : Int),
                    .bind (st.nextSock : Int) ifaceAddr.sin_addr 0 true,
                    .getsockname (st.nextSock : Int) (some p)] ++ new, ?_, ?_, ?_⟩
                  · rw [h8]
                    simp
                  · intro e he s
                    simp only [List.mem_append, List.mem_cons, List.mem_singleton,
                      List.mem_nil_iff, or_false] at he
                    rcases he with (he | he | he | he) | he
                    · rw [he]; simp
                    · rw [he]; simp
                    · rw [he]; simp
                    · rw [he]; simp
                    · exact h9 e he s
                  · intro j hj
                    cases j with
                    | zero =>
                      refine ⟨by simp, Or.inr ⟨by simp, by simp [hport]⟩⟩
                    | succ j =>
                      simp only [List.length_cons, Nat.add_lt_add_iff_right] at hj
                      obtain ⟨c1, c2⟩ := h10 j hj
                      have e : st.nextSock + 1 + j = st.nextSock + (j + 1) := by omega
                      rw [e] at c1 c2
                      refine ⟨List.mem_append_right _ c1, ?_⟩
                      rcases c2 with c2 | ⟨c2, c3⟩
                      · exact Or.inl (List.mem_append_right _ (by simpa using c2))
                      · exact Or.inr ⟨List.mem_append_right _ (by simpa using c2),
                          List.mem_append_right _ c3⟩
          · simp [hi] at h
        · simp only [hp, if_false] at h
          obtain ⟨h1, h2, h3, h4, h5, h6, h7, new, h8, h9, h10⟩ := ih _ _ _ _ _ h
          simp only at h1 h2 h3 h4 h5 h6 h7 h8 h10
          have hport : st'.sin_port = st.sin_port := h5 hp
          refine ⟨h1, by rw [h2, List.length_cons]; omega, by rw [h3, List.length_set],
            ?_, fun _ => hport, fun _ => by rw [hport]; exact hp,
            fun hc => by simp at hc, ?_⟩
          · intro k
            rw [h4 k, List.length_set, List.length_cons]
            by_cases hk0 : k = i
            · subst hk0
              simp [List.getElem?_set]
            · by_cases hlt : i + 1 ≤ k ∧ k < i + 1 + tl.length
              · have hlt2 : i ≤ k ∧ k < i + (tl.length + 1) := by omega
                rw [if_pos hlt, if_pos hlt2]
                split
                · have : st.nextSock + 1 + (k - (i + 1)) = st.nextSock + (k - i) := by omega
                  rw [this]
                · rfl
              · have hlt2 : ¬ (i ≤ k ∧ k < i + (tl.length + 1)) := by omega
                rw [if_neg hlt, if_neg hlt2, List.getElem?_set]
                simp [Ne.symm hk0]
          · refine ⟨[.epicsSocketCreate (st.nextSock : Int),
              .epicsSocketEnableAddressReuseDuringTimeWaitState (st.nextSock : Int),
              .bind (st.nextSock : Int) ifaceAddr.sin_addr st.sin_port true] ++ new, ?_, ?_, ?_⟩
            · rw [h8]
              simp
            · intro e he s
              simp only [List.mem_append, List.mem_cons, List.mem_singleton,
                List.mem_nil_iff, or_false] at he
              rcases he with (he | he | he) | he
              · rw [he]; simp
              · rw [he]; simp
              · rw [he]; simp
              · exact h9 e he s
            · intro j hj
              cases j with
              | zero =>
                refine ⟨by simp, Or.inl (by simp [hport])⟩
              | succ j =>
                simp only [List.length_cons, Nat.add_lt_add_iff_right] at hj
                obtain ⟨c1, c2⟩ := h10 j hj
                have e : st.nextSock + 1 + j = st.nextSock + (j + 1) := by omega
                rw [e] at c1 c2
                refine ⟨List.mem_append_right _ c1, ?_⟩
                rcases c2 with c2 | ⟨c2, c3⟩
                · exact Or.inl (List.mem_append_right _ (by simpa using c2))
                · exact Or.inr ⟨List.mem_append_right _ (by simpa using c2),
                    List.mem_append_right _ c3⟩


/-- What any pass of the `for` loop leaves as it was or changes only within
bounds. -/
theorem bindLoop_frame (cur : List osiSockAddr) :
    ∀ (i : Nat) (st : grapState) (answers : List bindAnswer) (ok : Bool) (st' : grapState)
      (rest : List bindAnswer), bindLoop i cur st answers = .left ok st' rest →
      st'.socks.length = st.socks.length
        ∧ st'.casIntfAddrList.Sublist st.casIntfAddrList
        ∧ st.nextSock ≤ st'.nextSock
        ∧ (∀ s ∈ st'.socks, s ∈ st.socks ∨ ((st.nextSock : Int) ≤ s ∧ s < (st'.nextSock : Int)))
        ∧ (∀ s, .epicsSocketDestroy s ∈ st'.log → .epicsSocketDestroy s ∈ st.log) := by
  have hset : ∀ (st : grapState) (i : Nat) (s : SOCKET),
      s ∈ st.socks.set i (st.nextSock : Int) →
        s ∈ st.socks ∨ ((st.nextSock : Int) ≤ s ∧ s < ((st.nextSock + 1 : Nat) : Int)) := by
    intro st i s hs
    rcases List.mem_or_eq_of_mem_set hs with h | h
    · exact Or.inl h
    · right
      rw [h]
      exact ⟨le_refl _, by exact_mod_cast Nat.lt_succ_self _⟩
  induction cur with
  | nil =>
    intro i st answers ok st' rest h
    simp only [bindLoop, loopResult.left.injEq] at h
    obtain ⟨_, rfl, _⟩ := h
    exact ⟨rfl, List.Sublist.refl _, le_refl _, fun s hs => Or.inl hs, fun s hs => hs⟩
  | cons ifaceAddr tl ih =>
    intro i st answers ok st' rest h
    cases answers with
    | nil => simp [bindLoop] at h
    | cons a answers =>
      cases a with
      | noSocket => simp [bindLoop] at h
      | failed errno =>
        cases errno with
        | SOCK_EADDRINUSE =>
          simp only [bindLoop, loopResult.left.injEq] at h
          obtain ⟨_, rfl, _⟩ := h
          refine ⟨by simp, List.Sublist.refl _, by simp, fun s hs => ?_, fun s hs => ?_⟩
          · exact hset st i s hs
          · simpa using hs
        | SOCK_EADDRNOTAVAIL =>
          simp only [bindLoop, loopResult.left.injEq] at h
          obtain ⟨_, rfl, _⟩ := h
          refine ⟨by simp, List.eraseIdx_sublist _ _, by simp, fun s hs => ?_, fun s hs => ?_⟩
          · exact hset st i s hs
          · simpa using hs
        | other code =>
          simp only [bindLoop, loopResult.left.injEq] at h
          obtain ⟨_, rfl, _⟩ := h
          refine ⟨by simp, List.Sublist.refl _, by simp, fun s hs => ?_, fun s hs => ?_⟩
          · exact hset st i s hs
          · simpa using hs
      | bound gsn =>
        simp only [bindLoop] at h
        have hstep : ∀ (st1 : grapState), st1.socks = st.socks.set i (st.nextSock : Int) →
            st1.casIntfAddrList = st.casIntfAddrList → st1.nextSock = st.nextSock + 1 →
            (∀ s, .epicsSocketDestroy s ∈ st1.log → .epicsSocketDestroy s ∈ st.log) →
            bindLoop (i + 1) tl st1 answers = .left ok st' rest →
            st'.socks.length = st.socks.length
              ∧ st'.casIntfAddrList.Sublist st.casIntfAddrList
              ∧ st.nextSock ≤ st'.nextSock
              ∧ (∀ s ∈ st'.socks,
                  s ∈ st.socks ∨ ((st.nextSock : Int) ≤ s ∧ s < (st'.nextSock : Int)))
              ∧ (∀ s, .epicsSocketDestroy s ∈ st'.log → .epicsSocketDestroy s ∈ st.log) := by
          intro st1 e1 e2 e3 e4 hl
          obtain ⟨a1, a2, a3, a4, a5⟩ := ih _ _ _ _ _ _ hl
          refine ⟨by rw [a1, e1, List.length_set], by rw [← e2]; exact a2, by omega, ?_,
            fun s hs => e4 s (a5 s hs)⟩
          intro s hs
          rcases a4 s hs with h1 | ⟨h1, h2⟩
          · rw [e1] at h1
            rcases hset st i s h1 with h3 | ⟨h3, h4⟩
            · exact Or.inl h3
            · right
              refine ⟨h3, ?_⟩
              have : ((st.nextSock + 1 : Nat) : Int) ≤ (st'.nextSock : Int) := by
                rw [← e3]; exact_mod_cast a3
              push_cast at this h4
              exact lt_of_lt_of_le h4 this
          · right
            rw [e3] at h1
            push_cast at h1
            exact ⟨le_trans (le_of_lt (lt_add_one _)) h1, h2⟩
        by_cases hp : st.sin_port = 0
        · simp only [hp, if_true] at h
          by_cases hi : i = 0
          · subst hi
            simp only [if_true] at h
            cases gsn with
            | none =>
              simp only [loopResult.left.injEq] at h
              obtain ⟨_, rfl, _⟩ := h
              refine ⟨by simp, List.Sublist.refl _, by simp, fun s hs => ?_, fun s hs => ?_⟩
              · exact hset st 0 s hs
              · simpa using hs
            | some p =>
              simp only at h
              by_cases hp0 : p = 0
              · simp [hp0] at h
              · simp only [ne_eq, hp0, not_false_eq_true, if_true] at h
                exact hstep _ (by rfl) (by rfl) (by rfl) (fun s hs => by simpa using hs) h
          · simp [hi] at h
        · simp only [hp, if_false] at h
          exact hstep _ (by rfl) (by rfl) (by rfl) (fun s hs => by simpa using hs) h


theorem initSocks_fold (n : Nat) : ∀ socks : List SOCKET,
    ((List.range n).foldl (fun socks i => socks.set i INVALID_SOCKET) socks).length = socks.length
      ∧ (∀ k, ((List.range n).foldl (fun socks i => socks.set i INVALID_SOCKET) socks)[k]?
          = if k < n then (if k < socks.length then some INVALID_SOCKET else none) else socks[k]?)
      ∧ ∀ s ∈ (List.range n).foldl (fun socks i => socks.set i INVALID_SOCKET) socks,
          s = INVALID_SOCKET ∨ s ∈ socks := by
  induction n with
  | zero =>
    intro socks
    simp only [List.range_zero, List.foldl_nil, Nat.not_lt_zero, if_false, true_and,
      implies_true]
    exact fun s hs => Or.inr hs
  | succ n ih =>
    intro socks
    obtain ⟨h1, h2, h3⟩ := ih socks
    rw [List.range_succ, List.foldl_append]
    simp only [List.foldl_cons, List.foldl_nil]
    refine ⟨by rw [List.length_set, h1], ?_, ?_⟩
    · intro k
      rw [List.getElem?_set, h1, h2 k]
      by_cases hk : n = k
      · subst hk
        simp
      · simp only [hk, if_false]
        by_cases hlt : k < n
        · have : k < n + 1 := by omega
          simp [hlt, this]
        · have : ¬ k < n + 1 := by omega
          simp [hlt, this]
    · intro s hs
      rcases List.mem_or_eq_of_mem_set hs with h | h
      · exact h3 s h
      · exact Or.inl h

theorem initSocks_facts (st : grapState) :
    (initSocks st).casIntfAddrList = st.casIntfAddrList
      ∧ (initSocks st).nextSock = st.nextSock ∧ (initSocks st).sin_port = st.sin_port
      ∧ (initSocks st).log = st.log
      ∧ (initSocks st).socks.length = st.socks.length
      ∧ (∀ k, k < st.casIntfAddrList.length → k < st.socks.length →
          (initSocks st).socks[k]? = some INVALID_SOCKET)
      ∧ ∀ s ∈ (initSocks st).socks, s = INVALID_SOCKET ∨ s ∈ st.socks := by
  obtain ⟨h1, h2, h3⟩ := initSocks_fold st.casIntfAddrList.length st.socks
  refine ⟨rfl, rfl, rfl, rfl, h1, ?_, h3⟩
  intro k hk hk2
  show ((List.range st.casIntfAddrList.length).foldl _ st.socks)[k]? = _
  rw [h2 k]
  simp [hk, hk2]

theorem cleanupStep_facts (st : grapState) (i : Nat) :
    (cleanupStep st i).casIntfAddrList = st.casIntfAddrList
      ∧ (cleanupStep st i).nextSock = st.nextSock
      ∧ (cleanupStep st i).sin_port = st.sin_port
      ∧ (cleanupStep st i).socks.length = st.socks.length
      ∧ (∀ s ∈ (cleanupStep st i).socks, s = INVALID_SOCKET ∨ s ∈ st.socks)
      ∧ (∀ s, .epicsSocketDestroy s ∈ (cleanupStep st i).log →
          .epicsSocketDestroy s ∈ st.log ∨ s ∈ st.socks) := by
  unfold cleanupStep
  by_cases h : st.socks.getD i INVALID_SOCKET ≠ INVALID_SOCKET
  · rw [if_pos h]
    refine ⟨rfl, rfl, rfl, by simp, ?_, ?_⟩
    · intro s hs
      rcases List.mem_or_eq_of_mem_set hs with h1 | h1
      · exact Or.inr h1
      · exact Or.inl h1
    · intro s hs
      simp only [List.mem_append, List.mem_singleton, srvEvent.epicsSocketDestroy.injEq] at hs
      rcases hs with hs | hs
      · exact Or.inl hs
      · right
        rw [hs]
        by_cases hi : i < st.socks.length
        · rw [List.getD_eq_getElem _ _ hi]
          exact List.getElem_mem _
        · exfalso
          apply h
          rw [List.getD_eq_default _ _ (by omega)]
  · rw [if_neg h]
    exact ⟨rfl, rfl, rfl, rfl, fun s hs => Or.inr hs, fun s hs => Or.inl hs⟩

theorem cleanup_fold (l : List Nat) : ∀ st : grapState,
    (l.foldl cleanupStep st).casIntfAddrList = st.casIntfAddrList
      ∧ (l.foldl cleanupStep st).nextSock = st.nextSock
      ∧ (l.foldl cleanupStep st).sin_port = st.sin_port
      ∧ (l.foldl cleanupStep st).socks.length = st.socks.length
      ∧ (∀ s ∈ (l.foldl cleanupStep st).socks, s = INVALID_SOCKET ∨ s ∈ st.socks)
      ∧ (∀ s, .epicsSocketDestroy s ∈ (l.foldl cleanupStep st).log →
          .epicsSocketDestroy s ∈ st.log ∨ (s ∈ st.socks ∧ s ≠ INVALID_SOCKET)
            ∨ s = INVALID_SOCKET) := by
  induction l with
  | nil =>
    intro st
    exact ⟨rfl, rfl, rfl, rfl, fun s hs => Or.inr hs, fun s hs => Or.inl hs⟩
  | cons i tl ih =>
    intro st
    obtain ⟨a1, a2, a3, a4, a5, a6⟩ := ih (cleanupStep st i)
    obtain ⟨b1, b2, b3, b4, b5, b6⟩ := cleanupStep_facts st i
    simp only [List.foldl_cons]
    refine ⟨by rw [a1, b1], by rw [a2, b2], by rw [a3, b3], by rw [a4, b4], ?_, ?_⟩
    · intro s hs
      rcases a5 s hs with h | h
      · exact Or.inl h
      · exact b5 s h
    · intro s hs
      by_cases hinv : s = INVALID_SOCKET
      · exact Or.inr (Or.inr hinv)
      · rcases a6 s hs with h | ⟨h, _⟩ | h
        · rcases b6 s h with h' | h'
          · exact Or.inl h'
          · exact Or.inr (Or.inl ⟨h', hinv⟩)
        · rcases b5 s h with h' | h'
          · exact absurd h' hinv
          · exact Or.inr (Or.inl ⟨h', hinv⟩)
        · exact absurd h hinv

/-- The loop invariant survives a failed pass and its cleanup. -/
theorem grapInv_next (st st1 : grapState) (answers rest : List bindAnswer)
    (hinv : grapInv st)
    (h : bindLoop 0 (initSocks st).casIntfAddrList (initSocks st) answers = .left false st1 rest) :
    grapInv { cleanupSocks st1 with sin_port := 0 }
      ∧ (cleanupSocks st1).casIntfAddrList.Sublist st.casIntfAddrList := by
  obtain ⟨i1, i2, i3, i4, i5, i6, i7⟩ := initSocks_facts st
  obtain ⟨f1, f2, f3, f4, f5⟩ := bindLoop_frame _ _ _ _ _ _ _ h
  obtain ⟨c1, c2, c3, c4, c5, c6⟩ := cleanup_fold (List.range st1.casIntfAddrList.length) st1
  obtain ⟨v1, v2, v3⟩ := hinv
  have hsock : ∀ s ∈ st1.socks, s = INVALID_SOCKET ∨ s < (st1.nextSock : Int) := by
    intro s hs
    rcases f4 s hs with h1 | ⟨_, h1⟩
    · rcases i7 s h1 with h2 | h2
      · exact Or.inl h2
      · rcases v1 s h2 with h3 | h3
        · exact Or.inl h3
        · right
          rw [i2] at f3
          exact lt_of_lt_of_le h3 (by exact_mod_cast f3)
    · exact Or.inr h1
  refine ⟨⟨?_, ?_, ?_⟩, ?_⟩
  · intro s hs
    show s = INVALID_SOCKET ∨ s < ((cleanupSocks st1).nextSock : Int)
    have hs' : s ∈ (cleanupSocks st1).socks := hs
    unfold cleanupSocks at hs' ⊢
    rw [c2]
    rcases c5 s hs' with h1 | h1
    · exact Or.inl h1
    · exact hsock s h1
  · intro s hs
    show s < ((cleanupSocks st1).nextSock : Int)
    have hs' : srvEvent.epicsSocketDestroy s ∈ (cleanupSocks st1).log := hs
    unfold cleanupSocks at hs' ⊢
    rw [c2]
    rcases c6 s hs' with h1 | ⟨h1, h2⟩ | h1
    · have := v2 s (by rw [← i4]; exact f5 s h1)
      rw [i2] at f3
      exact lt_of_lt_of_le this (by exact_mod_cast f3)
    · rcases hsock s h1 with h3 | h3
      · exact absurd h3 h2
      · exact h3
    · rw [h1]
      exact lt_of_lt_of_le (by decide : (INVALID_SOCKET : Int) < 0) (by positivity)
  · show (cleanupSocks st1).casIntfAddrList.length ≤ (cleanupSocks st1).socks.length
    unfold cleanupSocks
    rw [c1, c4, f1, i5]
    have := f2.length_le
    rw [i1] at this
    omega
  · unfold cleanupSocks
    rw [c1, ← i1]
    exact f2


/-- What the array holds when the `while(1)` loop returns. -/
theorem grapLoop_returned (passes : Nat) :
    ∀ (st : grapState) (answers : List bindAnswer) (st' : grapState) (port : Nat)
      (rest : List bindAnswer), grapInv st →
      grapLoop passes st answers = .returned st' port rest →
      port = st'.sin_port ∧ port ≠ 0
        ∧ st'.casIntfAddrList.Sublist st.casIntfAddrList
        ∧ st'.casIntfAddrList.length ≤ st'.socks.length
        ∧ ∃ base : Nat, ∀ j (hj : j < st'.casIntfAddrList.length),
            st'.socks[j]? = some ((base + j : Nat) : Int)
              ∧ isOpen st'.log ((base + j : Nat) : Int)
              ∧ boundTo st'.log ((base + j : Nat) : Int) (st'.casIntfAddrList[j]).sin_addr
                  port := by
  induction passes with
  | zero => intro st answers st' port rest _ h; simp [grapLoop] at h
  | succ passes ih =>
    intro st answers st' port rest hinv h
    simp only [grapLoop] at h
    cases hb : bindLoop 0 (initSocks st).casIntfAddrList (initSocks st) answers with
    | fault f => rw [hb] at h; simp at h
    | pending => rw [hb] at h; simp at h
    | left ok st1 rest1 =>
      rw [hb] at h
      cases ok with
      | false =>
        simp only at h
        obtain ⟨hinv', hsub⟩ := grapInv_next st st1 answers rest1 hinv hb
        obtain ⟨r1, r2, r3, r4, r5⟩ := ih _ _ _ _ _ hinv' h
        exact ⟨r1, r2, r3.trans hsub, r4, r5⟩
      | true =>
        simp only at h
        by_cases hp : st1.sin_port = 0
        · simp [hp] at h
        · simp only [ne_eq, hp, not_false_eq_true, if_true, grapResult.returned.injEq] at h
          obtain ⟨rfl, rfl, rfl⟩ := h
          obtain ⟨i1, i2, i3, i4, i5, i6, i7⟩ := initSocks_facts st
          obtain ⟨a1, a2, a3, a4, a5, a6, a7, new, a8, a9, a10⟩ := bindLoop_ok _ _ _ _ _ _ hb
          obtain ⟨v1, v2, v3⟩ := hinv
          rw [i1] at a1
          refine ⟨rfl, hp, by rw [a1], by rw [a1, a3, i5]; exact v3, st.nextSock, ?_⟩
          intro j hj
          have hj' : j < st.casIntfAddrList.length := by rw [a1] at hj; exact hj
          have hj2 : j < (initSocks st).casIntfAddrList.length := by rw [i1]; exact hj'
          obtain ⟨c1, c2⟩ := a10 j hj2
          rw [i2] at c1 c2
          refine ⟨?_, ⟨?_, ?_⟩, ?_⟩
          · rw [a4 j, i1, i5, i2]
            have : 0 ≤ j ∧ j < 0 + st.casIntfAddrList.length := by omega
            rw [if_pos this, if_pos (by omega)]
            simp
          · rw [a8]
            exact List.mem_append_right _ c1
          · rw [a8, i4]
            intro hmem
            rcases List.mem_append.1 hmem with h1 | h1
            · have h2 : ((st.nextSock + j : Nat) : Int) < (st.nextSock : Int) := v2 _ h1
              have h3 : st.nextSock + j < st.nextSock := by exact_mod_cast h2
              omega
            · exact a9 _ h1 _ rfl
          · have e : (st1.casIntfAddrList[j]) = ((initSocks st).casIntfAddrList[j]) := by
              simp [a1, i1]
            rw [e, a8]
            rcases c2 with c2 | ⟨c2, c3⟩
            · exact Or.inl (List.mem_append_right _ c2)
            · exact Or.inr ⟨List.mem_append_right _ c2, List.mem_append_right _ c3⟩

/-! ## C14: what `rsrv_grap_tcp` returns -/

/-- C14: for every preferred port, interface list and sequence of answers of
the operating system for which `rsrv_grap_tcp` returns, with `st` the state on
return and `port1` the value written through `port`: the interfaces remaining
in `casIntfAddrList` are some of the initial ones in their order, the array has
an entry for each of them, the entries are distinct socket handles (`base`,
`base + 1`, ...), the `j`-th of them open (created and not destroyed) and bound
to the address of the `j`-th remaining interface and to the port `port1`, which
is not 0 and is the port in `scratch` on return. -/
theorem rsrv_grap_tcp_returns_bound_sockets (casIntfAddrList : List osiSockAddr)
    (nextSock port : Nat) (answers : List bindAnswer) (st : grapState) (port1 : Nat)
    (rest : List bindAnswer)
    (h : rsrv_grap_tcp casIntfAddrList nextSock port answers = .returned st port1 rest) :
    st.casIntfAddrList.Sublist casIntfAddrList
      ∧ st.casIntfAddrList.length ≤ st.socks.length
      ∧ port1 = st.sin_port ∧ port1 ≠ 0
      ∧ ∃ base : Nat, ∀ j (hj : j < st.casIntfAddrList.length),
          st.socks[j]? = some ((base + j : Nat) : Int)
            ∧ isOpen st.log ((base + j : Nat) : Int)
            ∧ boundTo st.log ((base + j : Nat) : Int) (st.casIntfAddrList[j]).sin_addr port1 := by
  have hinv : grapInv (⟨casIntfAddrList,
      List.replicate casIntfAddrList.length INVALID_SOCKET, port, nextSock, []⟩ : grapState) := by
    refine ⟨?_, ?_, ?_⟩
    · intro s hs
      exact Or.inl (List.eq_of_mem_replicate hs)
    · intro s hs
      simp at hs
    · simp
  obtain ⟨r1, r2, r3, r4, r5⟩ := grapLoop_returned _ _ _ _ _ _ hinv h
  exact ⟨r3, r4, r1, r2, r5⟩


theorem rsrv_grap_tcp_returns_bound_sockets_witness :
    rsrv_grap_tcp demoIfaces 3 5064 [.bound none, .bound none] = .returned demoGrapBoth 5064 []
      ∧ demoGrapBoth.casIntfAddrList.Sublist demoIfaces
      ∧ demoGrapBoth.casIntfAddrList.length ≤ demoGrapBoth.socks.length
      ∧ 5064 = demoGrapBoth.sin_port ∧ 5064 ≠ 0
      ∧ ∃ base : Nat, ∀ j (hj : j < demoGrapBoth.casIntfAddrList.length),
          demoGrapBoth.socks[j]? = some ((base + j : Nat) : Int)
            ∧ isOpen demoGrapBoth.log ((base + j : Nat) : Int)
            ∧ boundTo demoGrapBoth.log ((base + j : Nat) : Int)
                (demoGrapBoth.casIntfAddrList[j]).sin_addr 5064 :=
  ⟨by rfl, rsrv_grap_tcp_returns_bound_sockets demoIfaces 3 5064 [.bound none, .bound none]
    demoGrapBoth 5064 [] (by rfl)⟩

/-! ## C15: a bind that fails with `SOCK_EADDRNOTAVAIL` -/

/-- C15, refuted as stated: with the interfaces 192.0.2.10 and 192.0.2.11, the
preferred port 5064 and only 192.0.2.11 unavailable, `rsrv_grap_tcp` returns
one socket, bound to 192.0.2.10 and to the port the kernel assigned (49152
here), not to 5064: the second pass bound it with port 0. -/
theorem rsrv_grap_tcp_unavailable_interface_loses_port :
    rsrv_grap_tcp demoIfaces 3 5064
        [.bound none, .failed .SOCK_EADDRNOTAVAIL, .bound (some 49152)]
        = .returned demoGrapSecondUnavailable 49152 []
      ∧ demoGrapSecondUnavailable.casIntfAddrList = [⟨3221225994, 5064⟩]
      ∧ demoGrapSecondUnavailable.socks[0]? = some 5
      ∧ isOpen demoGrapSecondUnavailable.log 5
      ∧ boundTo demoGrapSecondUnavailable.log 5 3221225994 49152
      ∧ ¬ boundTo demoGrapSecondUnavailable.log 5 3221225994 5064
      ∧ srvEvent.bind 5 3221225994 0 true ∈ demoGrapSecondUnavailable.log := by
  refine ⟨by rfl, rfl, rfl, ⟨by decide, by decide⟩, Or.inr ⟨by decide, by decide⟩, ?_, by decide⟩
  rintro (h | ⟨_, h⟩) <;> revert h <;> decide


/-- A pass of the `for` loop that uses up the answers `pre` and then meets
`SOCK_EADDRNOTAVAIL`. -/
theorem bindLoop_notavail (pre : List bindAnswer) :
    ∀ (i : Nat) (cur : List osiSockAddr) (st : grapState) (rest : List bindAnswer)
      (st1 : grapState),
      bindLoop i cur st (pre ++ .failed .SOCK_EADDRNOTAVAIL :: rest) = .left false st1 rest →
      pre.length < cur.length
        ∧ st1.casIntfAddrList = st.casIntfAddrList.eraseIdx (i + pre.length)
        ∧ st1.nextSock = st.nextSock + pre.length + 1
        ∧ st1.socks.length = st.socks.length
        ∧ (∀ m, m < i → st1.socks[m]? = st.socks[m]?)
        ∧ (∀ j, j < pre.length → i + j < st.socks.length →
            st1.socks[i + j]? = some ((st.nextSock + j : Nat) : Int))
        ∧ (∀ e ∈ st.log, e ∈ st1.log)
        ∧ (∀ j (hj : j < pre.length) (hc : j < cur.length), ∃ port,
            .bind ((st.nextSock + j : Nat) : Int) (cur[j]).sin_addr port true ∈ st1.log)
        ∧ ∃ addr port, .bind ((st.nextSock + pre.length : Nat) : Int) addr port false
            ∈ st1.log := by
  induction pre with
  | nil =>
    intro i cur st rest st1 h
    cases cur with
    | nil => simp [bindLoop] at h
    | cons ifaceAddr tl =>
      simp only [List.nil_append, bindLoop, loopResult.left.injEq, true_and] at h
      obtain ⟨rfl, _⟩ := h
      refine ⟨by simp, by simp, by simp, by simp, ?_, by simp, ?_, by simp, ?_⟩
      · intro m hm
        simp only
        rw [List.getElem?_set]
        have : ¬ i = m := by omega
        simp [this]
      · intro e he
        simp [he]
      · exact ⟨ifaceAddr.sin_addr, st.sin_port, by simp⟩
  | cons a pre ih =>
    intro i cur st rest st1 h
    have hlen : ∀ (l : List bindAnswer),
        l = pre ++ bindAnswer.failed .SOCK_EADDRNOTAVAIL :: rest → l ≠ rest := by
      intro l hl hc
      have := congrArg List.length hl
      rw [hc] at this
      simp at this
      omega
    cases cur with
    | nil => simp [bindLoop] at h
    | cons ifaceAddr tl =>
      simp only [List.cons_append] at h
      have hstep : ∀ (st0 : grapState), st0.socks = st.socks.set i (st.nextSock : Int) →
          st0.casIntfAddrList = st.casIntfAddrList → st0.nextSock = st.nextSock + 1 →
          (∀ e ∈ st.log, e ∈ st0.log) →
          (∃ port, .bind (st.nextSock : Int) ifaceAddr.sin_addr port true ∈ st0.log) →
          bindLoop (i + 1) tl st0 (pre ++ .failed .SOCK_EADDRNOTAVAIL :: rest)
            = .left false st1 rest →
          (a :: pre).length < (ifaceAddr :: tl).length
            ∧ st1.casIntfAddrList = st.casIntfAddrList.eraseIdx (i + (a :: pre).length)
            ∧ st1.nextSock = st.nextSock + (a :: pre).length + 1
            ∧ st1.socks.length = st.socks.length
            ∧ (∀ m, m < i → st1.socks[m]? = st.socks[m]?)
            ∧ (∀ j, j < (a :: pre).length → i + j < st.socks.length →
                st1.socks[i + j]? = some ((st.nextSock + j : Nat) : Int))
            ∧ (∀ e ∈ st.log, e ∈ st1.log)
            ∧ (∀ j (hj : j < (a :: pre).length) (hc : j < (ifaceAddr :: tl).length), ∃ port,
                .bind ((st.nextSock + j : Nat) : Int) ((ifaceAddr :: tl)[j]).sin_addr port true
                  ∈ st1.log)
            ∧ ∃ addr port, .bind ((st.nextSock + (a :: pre).length : Nat) : Int) addr port false
                ∈ st1.log := by
        intro st0 e1 e2 e3 e4 e5 hl
        obtain ⟨a1, a2, a3, a4, a5, a6, a7, a8, a9⟩ := ih _ _ _ _ _ hl
        refine ⟨by simp only [List.length_cons]; omega, ?_, ?_, ?_, ?_, ?_, ?_, ?_, ?_⟩
        · rw [a2, e2, List.length_cons]
          congr 1
          omega
        · rw [a3, e3, List.length_cons]
          omega
        · rw [a4, e1, List.length_set]
        · intro m hm
          rw [a5 m (by omega), e1, List.getElem?_set]
          have : ¬ i = m := by omega
          simp [this]
        · intro j hj hjs
          cases j with
          | zero =>
            rw [Nat.add_zero, a5 i (by omega), e1, List.getElem?_set]
            simp only [if_true]
            rw [if_pos (by simpa using hjs)]
            simp
          | succ j =>
            simp only [List.length_cons, Nat.add_lt_add_iff_right] at hj
            have := a6 j hj (by rw [e1, List.length_set]; omega)
            rw [e3] at this
            have e : i + 1 + j = i + (j + 1) := by omega
            have e' : st.nextSock + 1 + j = st.nextSock + (j + 1) := by omega
            rw [e, e'] at this
            exact this
        · intro e he
          exact a7 e (e4 e he)
        · intro j hj hc
          cases j with
          | zero =>
            obtain ⟨port, hp⟩ := e5
            exact ⟨port, a7 _ (by simpa using hp)⟩
          | succ j =>
            simp only [List.length_cons, Nat.add_lt_add_iff_right] at hj hc
            obtain ⟨port, hp⟩ := a8 j hj hc
            rw [e3] at hp
            have e' : st.nextSock + 1 + j = st.nextSock + (j + 1) := by omega
            rw [e'] at hp
            exact ⟨port, by simpa using hp⟩
        · obtain ⟨addr, port, hp⟩ := a9
          rw [e3] at hp
          have e' : st.nextSock + 1 + pre.length = st.nextSock + (a :: pre).length := by
            simp only [List.length_cons]; omega
          rw [e'] at hp
          exact ⟨addr, port, hp⟩
      cases a with
      | noSocket => simp [bindLoop] at h
      | failed errno =>
        cases errno <;> simp only [bindLoop, loopResult.left.injEq, true_and] at h <;>
          exact absurd h.2 (hlen _ rfl)
      | bound gsn =>
        simp only [bindLoop] at h
        by_cases hp : st.sin_port = 0
        · simp only [hp, if_true] at h
          by_cases hi : i = 0
          · subst hi
            simp only [if_true] at h
            cases gsn with
            | none =>
              simp only [loopResult.left.injEq, true_and] at h
              exact absurd h.2 (hlen _ rfl)
            | some p =>
              simp only at h
              by_cases hp0 : p = 0
              · simp [hp0] at h
              · simp only [ne_eq, hp0, not_false_eq_true, if_true] at h
                exact hstep _ (by rfl) (by rfl) (by rfl) (fun e he => by simp [he])
                  ⟨0, by simp⟩ h
          · simp [hi] at h
        · simp only [hp, if_false] at h
          exact hstep _ (by rfl) (by rfl) (by rfl) (fun e he => by simp [he])
            ⟨st.sin_port, by simp⟩ h

theorem cleanup_fold_log (l : List Nat) : ∀ (st : grapState),
    (∀ e ∈ st.log, e ∈ (l.foldl cleanupStep st).log)
      ∧ ∀ (m : Nat) (s : SOCKET), m ∈ l → st.socks[m]? = some s → s ≠ INVALID_SOCKET →
          .epicsSocketDestroy s ∈ (l.foldl cleanupStep st).log := by
  induction l with
  | nil => intro st; exact ⟨fun e he => he, fun m s hm => by simp at hm⟩
  | cons i tl ih =>
    intro st
    obtain ⟨a1, a2⟩ := ih (cleanupStep st i)
    have hmono : ∀ e ∈ st.log, e ∈ (cleanupStep st i).log := by
      intro e he
      unfold cleanupStep
      split
      · simp [he]
      · exact he
    simp only [List.foldl_cons]
    refine ⟨fun e he => a1 e (hmono e he), ?_⟩
    intro m s hm hs hne
    by_cases him : i = m
    · subst him
      apply a1
      have hi : i < st.socks.length := by
        by_contra hc
        rw [List.getElem?_eq_none (by omega)] at hs
        simp at hs
      have hget : st.socks.getD i INVALID_SOCKET = s := by
        rw [List.getD_eq_getElem _ _ hi]
        rw [List.getElem?_eq_getElem hi] at hs
        simpa using hs
      unfold cleanupStep
      rw [hget, if_pos hne]
      simp
    · have hm' : m ∈ tl := by
        rcases List.mem_cons.1 hm with h | h
        · exact absurd h.symm him
        · exact h
      refine a2 m s hm' ?_ hne
      unfold cleanupStep
      split
      · simp only
        rw [List.getElem?_set]
        simp [him, hs]
      · exact hs

/-- C15, amended: when in a pass of `rsrv_grap_tcp` the binds for the first
interfaces succeed (the answers `pre`) and the bind on the next interface fails
with `SOCK_EADDRNOTAVAIL`, that interface is removed from the interface list,
every socket bound so far in the pass is closed by the cleanup, and the next
pass, over the remaining interfaces, starts with port 0, so that the kernel
assigns the port with the bind of the first remaining interface. -/
theorem rsrv_grap_tcp_pass_addr_not_avail (st st1 : grapState)
    (answers pre rest : List bindAnswer)
    (hroom : st.casIntfAddrList.length ≤ st.socks.length)
    (hans : answers = pre ++ .failed .SOCK_EADDRNOTAVAIL :: rest)
    (hpass : bindLoop 0 (initSocks st).casIntfAddrList (initSocks st) answers
      = .left false st1 rest) :
    pre.length < st.casIntfAddrList.length
      ∧ st1.casIntfAddrList = st.casIntfAddrList.eraseIdx pre.length
      ∧ (∃ addr port, .bind ((st.nextSock + pre.length : Nat) : Int) addr port false ∈ st1.log)
      ∧ (∀ j (hj : j < pre.length) (hc : j < st.casIntfAddrList.length),
          (∃ port, .bind ((st.nextSock + j : Nat) : Int) (st.casIntfAddrList[j]).sin_addr port
              true ∈ st1.log)
            ∧ .epicsSocketDestroy ((st.nextSock + j : Nat) : Int) ∈ (cleanupSocks st1).log)
      ∧ (cleanupSocks st1).casIntfAddrList = st.casIntfAddrList.eraseIdx pre.length
      ∧ ∀ passes, grapLoop (passes + 1) st answers
          = grapLoop passes { cleanupSocks st1 with sin_port := 0 } rest := by
  obtain ⟨i1, i2, i3, i4, i5, i6, i7⟩ := initSocks_facts st
  rw [hans] at hpass
  obtain ⟨a1, a2, a3, a4, a5, a6, a7, a8, a9⟩ := bindLoop_notavail _ _ _ _ _ _ hpass
  obtain ⟨c1, _, _, _, _, _⟩ := cleanup_fold (List.range st1.casIntfAddrList.length) st1
  obtain ⟨l1, l2⟩ := cleanup_fold_log (List.range st1.casIntfAddrList.length) st1
  rw [i1] at a1 a2
  rw [i2] at a9
  simp only [Nat.zero_add] at a2
  refine ⟨a1, a2, a9, ?_, by unfold cleanupSocks; rw [c1, a2], ?_⟩
  · intro j hj hc
    have hc' : j < (initSocks st).casIntfAddrList.length := by rw [i1]; exact hc
    have hb := a8 j hj hc'
    rw [i2] at hb
    have e : (initSocks st).casIntfAddrList[j] = st.casIntfAddrList[j] := by simp [i1]
    rw [e] at hb
    refine ⟨hb, ?_⟩
    unfold cleanupSocks
    have hs := a6 j hj (by rw [i5]; omega)
    rw [Nat.zero_add, i2] at hs
    refine l2 j _ ?_ hs ?_
    · rw [List.mem_range, a2, List.length_eraseIdx]
      split <;> omega
    · intro hc2
      have : ((st.nextSock + j : Nat) : Int) = -1 := hc2
      omega
  · intro passes
    simp only [grapLoop, hans, hpass]


theorem rsrv_grap_tcp_pass_addr_not_avail_witness :
    demoGrapStart.casIntfAddrList.length ≤ demoGrapStart.socks.length
      ∧ [bindAnswer.bound none, .failed .SOCK_EADDRNOTAVAIL, .bound (some 49152)]
          = [bindAnswer.bound none] ++ .failed .SOCK_EADDRNOTAVAIL :: [.bound (some 49152)]
      ∧ bindLoop 0 (initSocks demoGrapStart).casIntfAddrList (initSocks demoGrapStart)
          [.bound none, .failed .SOCK_EADDRNOTAVAIL, .bound (some 49152)]
          = .left false demoGrapBroken [.bound (some 49152)]
      ∧ [bindAnswer.bound none].length < demoGrapStart.casIntfAddrList.length
      ∧ demoGrapBroken.casIntfAddrList
          = demoGrapStart.casIntfAddrList.eraseIdx [bindAnswer.bound none].length
      ∧ (∃ addr port, .bind ((demoGrapStart.nextSock + [bindAnswer.bound none].length : Nat) : Int)
            addr port false ∈ demoGrapBroken.log)
      ∧ (∀ j (hj : j < [bindAnswer.bound none].length)
            (hc : j < demoGrapStart.casIntfAddrList.length),
          (∃ port, .bind ((demoGrapStart.nextSock + j : Nat) : Int)
              (demoGrapStart.casIntfAddrList[j]).sin_addr port true ∈ demoGrapBroken.log)
            ∧ .epicsSocketDestroy ((demoGrapStart.nextSock + j : Nat) : Int)
                ∈ (cleanupSocks demoGrapBroken).log)
      ∧ (cleanupSocks demoGrapBroken).casIntfAddrList
          = demoGrapStart.casIntfAddrList.eraseIdx [bindAnswer.bound none].length
      ∧ ∀ passes, grapLoop (passes + 1) demoGrapStart
            [.bound none, .failed .SOCK_EADDRNOTAVAIL, .bound (some 49152)]
          = grapLoop passes { cleanupSocks demoGrapBroken with sin_port := 0 }
              [.bound (some 49152)] :=
  ⟨by decide, rfl, by rfl,
    rsrv_grap_tcp_pass_addr_not_avail demoGrapStart demoGrapBroken
      [.bound none, .failed .SOCK_EADDRNOTAVAIL, .bound (some 49152)] [.bound none]
      [.bound (some 49152)] (by decide) rfl (by rfl)⟩


/-! ## C17: `rsrv_run` and `rsrv_pause` -/

/-- C17: from every server state, whatever the three control flags are,
`rsrv_run` returns `RSRV_OK` and the state in which `castcp_ctl`, `casudp_ctl`
and `beacon_ctl` are `ctlRun` and everything else is as before; `rsrv_pause`
returns `RSRV_OK` and the state in which the three are `ctlPause` and
everything else is as before; and calling either a second time changes
nothing. -/
theorem rsrv_run_pause_set_flags (s : serverState) :
    rsrv_run s = ({ s with castcp_ctl := .ctlRun, casudp_ctl := .ctlRun, beacon_ctl := .ctlRun },
        RSRV_OK)
      ∧ rsrv_pause s
        = ({ s with castcp_ctl := .ctlPause, casudp_ctl := .ctlPause, beacon_ctl := .ctlPause },
          RSRV_OK)
      ∧ ((rsrv_run s).1.castcp_ctl = .ctlRun ∧ (rsrv_run s).1.casudp_ctl = .ctlRun
          ∧ (rsrv_run s).1.beacon_ctl = .ctlRun)
      ∧ ((rsrv_pause s).1.castcp_ctl = .ctlPause ∧ (rsrv_pause s).1.casudp_ctl = .ctlPause
          ∧ (rsrv_pause s).1.beacon_ctl = .ctlPause)
      ∧ ((rsrv_run s).1.g = s.g ∧ (rsrv_run s).1.clientQ = s.clientQ
          ∧ (rsrv_run s).1.ca_server_port = s.ca_server_port
          ∧ (rsrv_run s).1.casIntfAddrList = s.casIntfAddrList
          ∧ (rsrv_run s).1.beaconAddrList = s.beaconAddrList
          ∧ (rsrv_run s).1.servers = s.servers ∧ (rsrv_run s).1.threadPrios = s.threadPrios
          ∧ (rsrv_run s).1.nextSock = s.nextSock ∧ (rsrv_run s).1.log = s.log)
      ∧ ((rsrv_pause s).1.g = s.g ∧ (rsrv_pause s).1.clientQ = s.clientQ
          ∧ (rsrv_pause s).1.ca_server_port = s.ca_server_port
          ∧ (rsrv_pause s).1.casIntfAddrList = s.casIntfAddrList
          ∧ (rsrv_pause s).1.beaconAddrList = s.beaconAddrList
          ∧ (rsrv_pause s).1.servers = s.servers ∧ (rsrv_pause s).1.threadPrios = s.threadPrios
          ∧ (rsrv_pause s).1.nextSock = s.nextSock ∧ (rsrv_pause s).1.log = s.log)
      ∧ rsrv_run (rsrv_run s).1 = rsrv_run s
      ∧ rsrv_pause (rsrv_pause s).1 = rsrv_pause s :=
  ⟨rfl, rfl, ⟨rfl, rfl, rfl⟩, ⟨rfl, rfl, rfl⟩, ⟨rfl, rfl, rfl, rfl, rfl, rfl, rfl, rfl, rfl⟩,
    ⟨rfl, rfl, rfl, rfl, rfl, rfl, rfl, rfl, rfl⟩, rfl, rfl⟩

/-! ## C19: `casStatsFetch` -/

theorem applyQueueOps_rest (s : serverState) (ops : List queueOp) :
    (applyQueueOps s ops).g = s.g := rfl

/-- C19: for every server state, `casStatsFetch` writes as circuit count the
number of clients in the client queue, clamped at 0 from below, and as channel
count `rsrvChannelCount`, and leaves the state, so the client queue and
`rsrvChannelCount`, as it was; hence after any sequence of `ellAdd` and
`ellDelete` on the client queue the circuit count reported is the length of
the queue. -/
theorem casStatsFetch_reports_counts (s : serverState) :
    (casStatsFetch s).2.circuitCount = (max 0 (ellCount s.clientQ)).toNat
      ∧ (casStatsFetch s).2.circuitCount = s.clientQ.length
      ∧ (casStatsFetch s).2.chanCount = s.g.rsrvChannelCount
      ∧ (casStatsFetch s).1 = s
      ∧ ∀ ops : List queueOp,
          (casStatsFetch (applyQueueOps s ops)).2.circuitCount
              = (applyQueueOps s ops).clientQ.length
            ∧ (casStatsFetch (applyQueueOps s ops)).2.chanCount = s.g.rsrvChannelCount := by
  have h : ∀ t : serverState, (casStatsFetch t).2.circuitCount = t.clientQ.length := by
    intro t
    simp [casStatsFetch, ellCount]
  refine ⟨?_, h s, rfl, rfl, fun ops => ⟨h _, rfl⟩⟩
  rw [h s]
  simp [ellCount]


/-! ## Lemmas on `rsrv_init` -/

theorem keepsGlobals_refl (s : serverState) : keepsGlobals s s := ⟨rfl, rfl, rfl, rfl, rfl⟩

theorem keepsGlobals_trans {s s1 s2 : serverState} (h1 : keepsGlobals s s1)
    (h2 : keepsGlobals s1 s2) : keepsGlobals s s2 := by
  obtain ⟨a1, a2, a3, a4, a5⟩ := h1
  obtain ⟨b1, b2, b3, b4, b5⟩ := h2
  exact ⟨b1.trans a1, b2.trans a2, b3.trans a3, b4.trans a4, b5.trans a5⟩

theorem keepsGlobals_logs (s : serverState) (es : List srvEvent) : keepsGlobals s (s.logs es) :=
  ⟨rfl, rfl, rfl, rfl, rfl⟩

theorem keepsGlobals_tryBind (s : serverState) (sock : SOCKET) (addr : osiSockAddr)
    (name : Nat) (a : tryBindAnswer) : keepsGlobals s (tryBind s sock addr name a).1 := by
  cases a <;> exact ⟨rfl, rfl, rfl, rfl, rfl⟩

theorem keepsGlobals_ite (s s1 : serverState) (p : Prop) [Decidable p] (es : List srvEvent)
    (h : keepsGlobals s s1) : keepsGlobals s (if p then s1.logs es else s1) := by
  by_cases hp : p
  · rw [if_pos hp]
    exact keepsGlobals_trans h (keepsGlobals_logs _ _)
  · rw [if_neg hp]
    exact h

theorem keepsGlobals_ifaceCleanup (c : ifaceCtx) : keepsGlobals c.s (ifaceCleanup c) := by
  unfold ifaceCleanup
  exact keepsGlobals_trans (keepsGlobals_ite _ _ _ _ (keepsGlobals_ite _ _ _ _
    (keepsGlobals_ite _ _ _ _ (keepsGlobals_logs _ _)))) (keepsGlobals_logs _ _)

theorem keeps_andThen {s : serverState} {r : ifaceStep} {f : ifaceCtx → ifaceStep}
    (hr : r.keeps s) (hf : ∀ c, (f c).keeps c.s) : (r.andThen f).keeps s := by
  cases r with
  | next c =>
    have h := hf c
    simp only [ifaceStep.andThen]
    cases hfc : f c with
    | next c1 => rw [hfc] at h; exact keepsGlobals_trans hr h
    | finished s1 => rw [hfc] at h; exact keepsGlobals_trans hr h
    | fault e => trivial
  | finished s1 => exact hr
  | fault e => trivial

theorem keeps_stBeaconSocket (a : ifaceOracle) (s : serverState) (cur : osiSockAddr)
    (tcp : SOCKET) : (stBeaconSocket a s cur tcp).keeps s := by
  unfold stBeaconSocket
  simp only
  split
  · trivial
  · exact ⟨rfl, rfl, rfl, rfl, rfl⟩

theorem keeps_stBeaconBind (a : ifaceOracle) (c : ifaceCtx) : (stBeaconBind a c).keeps c.s := by
  unfold stBeaconBind
  simp only
  have h := keepsGlobals_tryBind c.s c.conf.udpbeacon c.conf.udpbeaconRx 0 a.beaconBind
  split
  · exact keepsGlobals_trans h (keepsGlobals_ifaceCleanup ⟨_, c.conf⟩)
  · refine keepsGlobals_trans h ?_
    split <;> exact ⟨rfl, rfl, rfl, rfl, rfl⟩

theorem keeps_stBroadcast (a : ifaceOracle) (beacon_port : Nat) (c : ifaceCtx) :
    (stBroadcast a beacon_port c).keeps c.s := by
  unfold stBroadcast
  simp only
  split
  · trivial
  · show keepsGlobals _ _
    split <;> exact ⟨rfl, rfl, rfl, rfl, rfl⟩

theorem keeps_stBeaconConnect (a : ifaceOracle) (c : ifaceCtx) :
    (stBeaconConnect a c).keeps c.s := by
  unfold stBeaconConnect
  simp only
  split
  · trivial
  · exact ⟨rfl, rfl, rfl, rfl, rfl⟩

theorem keeps_stUdp (a : ifaceOracle) (udp_port : Nat) (c : ifaceCtx) :
    (stUdp a udp_port c).keeps c.s := by
  unfold stUdp
  simp only
  split
  · trivial
  · have h := keepsGlobals_tryBind
      (({ c.s with nextSock := c.s.nextSock + 1,
                   log := c.s.log ++ [.epicsSocketCreate (c.s.nextSock : Int)] } : serverState).logs
        [.epicsSocketEnableAddressUseForDatagramFanout (c.s.nextSock : Int)])
      (c.s.nextSock : Int) { c.conf.tcpAddr with sin_port := udp_port } 1 a.udpBind
    have h0 : keepsGlobals c.s
        (({ c.s with nextSock := c.s.nextSock + 1,
                     log := c.s.log ++ [.epicsSocketCreate (c.s.nextSock : Int)] }
            : serverState).logs
          [.epicsSocketEnableAddressUseForDatagramFanout (c.s.nextSock : Int)]) :=
      ⟨rfl, rfl, rfl, rfl, rfl⟩
    split
    · exact keepsGlobals_trans (keepsGlobals_trans h0 h) (keepsGlobals_ifaceCleanup ⟨_, _⟩)
    · exact keepsGlobals_trans h0 h

theorem keeps_stBcast (a : ifaceOracle) (win32 : Bool) (c : ifaceCtx) :
    (stBcast a win32 c).keeps c.s := by
  unfold stBcast
  split
  · exact keepsGlobals_refl _
  · simp only
    apply keeps_andThen
    · split
      · split
        · trivial
        · have h := keepsGlobals_tryBind
            (({ c.s with nextSock := c.s.nextSock + 1,
                         log := c.s.log ++ [.epicsSocketCreate (c.s.nextSock : Int)] }
                : serverState).logs
              [.epicsSocketEnableAddressUseForDatagramFanout (c.s.nextSock : Int)])
            (c.s.nextSock : Int)
            { c.conf.udpAddr with sin_addr := c.conf.udpbeaconTx.sin_addr } 2 a.bcastBind
          have h0 : keepsGlobals c.s
              (({ c.s with nextSock := c.s.nextSock + 1,
                           log := c.s.log ++ [.epicsSocketCreate (c.s.nextSock : Int)] }
                  : serverState).logs
                [.epicsSocketEnableAddressUseForDatagramFanout (c.s.nextSock : Int)]) :=
            ⟨rfl, rfl, rfl, rfl, rfl⟩
          split
          · exact keepsGlobals_trans (keepsGlobals_trans h0 h)
              (keepsGlobals_ifaceCleanup ⟨_, _⟩)
          · exact keepsGlobals_trans h0 h
      · exact keepsGlobals_refl _
    · intro c1
      exact ⟨rfl, rfl, rfl, rfl, rfl⟩

theorem keeps_stThreads (win32 : Bool) (c : ifaceCtx) : (stThreads win32 c).keeps c.s := by
  unfold stThreads
  simp only
  show keepsGlobals _ _
  split <;> exact ⟨rfl, rfl, rfl, rfl, rfl⟩

theorem keeps_ifaceBody (o : initOracle) (udp_port beacon_port i : Nat) (cur : osiSockAddr)
    (tcp : SOCKET) (s : serverState) :
    (ifaceBody o udp_port beacon_port i cur tcp s).keeps s := by
  unfold ifaceBody
  exact keeps_andThen (keeps_andThen (keeps_andThen (keeps_andThen (keeps_andThen
    (keeps_andThen (keeps_stBeaconSocket _ _ _ _) (keeps_stBeaconBind _))
    (keeps_stBroadcast _ _)) (keeps_stBeaconConnect _)) (keeps_stUdp _ _))
    (keeps_stBcast _ _)) (keeps_stThreads _)

theorem keeps_ifaceLoop (o : initOracle) (udp_port beacon_port : Nat) (socks : List SOCKET)
    (cur : List osiSockAddr) :
    ∀ (i : Nat) (s s1 : serverState),
      ifaceLoop o udp_port beacon_port socks i cur s = .ok s1 → keepsGlobals s s1 := by
  induction cur with
  | nil =>
    intro i s s1 h
    simp only [ifaceLoop, Except.ok.injEq] at h
    rw [← h]
    exact keepsGlobals_refl _
  | cons a rest ih =>
    intro i s s1 h
    have hb := keeps_ifaceBody o udp_port beacon_port i a (socks.getD i INVALID_SOCKET) s
    simp only [ifaceLoop] at h
    cases hr : ifaceBody o udp_port beacon_port i a (socks.getD i INVALID_SOCKET) s with
    | next c =>
      rw [hr] at h hb
      exact keepsGlobals_trans hb (ih _ _ _ h)
    | finished s2 =>
      rw [hr] at h hb
      exact keepsGlobals_trans hb (ih _ _ _ h)
    | fault e =>
      rw [hr] at h
      simp at h

/-- What a returning `rsrv_init` leaves in the globals of the client code, in
the client queue and in the control flags: `rsrvSizeofLargeBufTCP` is the value
computed from `EPICS_CA_MAX_ARRAY_BYTES`, `castcp_ctl` is `ctlPause`, and
`casudp_ctl` and `beacon_ctl` are what they were on entry. -/
theorem rsrv_init_globals (cfg : Config) (sizeofCaHdr : Nat) (o : initOracle)
    (s s1 : serverState) (h : rsrv_init cfg sizeofCaHdr o s = .returned s1) :
    s1.g.rsrvSizeofLargeBufTCP
        = (largeBufSize cfg sizeofCaHdr o.maxArrayStatus o.maxBytesAsALong).1
      ∧ s1.castcp_ctl = .ctlPause ∧ s1.casudp_ctl = s.casudp_ctl
      ∧ s1.beacon_ctl = s.beacon_ctl ∧ s1.clientQ = [] := by
  unfold rsrv_init at h
  cases hg : initGlobals cfg sizeofCaHdr o s with
  | error f => rw [hg] at h; simp at h
  | ok r =>
    obtain ⟨s0, udp_port, beacon_port⟩ := r
    rw [hg] at h
    simp only at h
    have h0 : s0.g.rsrvSizeofLargeBufTCP
          = (largeBufSize cfg sizeofCaHdr o.maxArrayStatus o.maxBytesAsALong).1
        ∧ s0.castcp_ctl = .ctlPause ∧ s0.casudp_ctl = s.casudp_ctl
        ∧ s0.beacon_ctl = s.beacon_ctl ∧ s0.clientQ = [] := by
      unfold initGlobals at hg
      simp only at hg
      cases hb : initBuffers cfg sizeofCaHdr o
          { initPools s with ca_server_port := configuredServerPort o } with
      | error f => rw [hb] at hg; simp at hg
      | ok sb =>
        rw [hb] at hg
        simp only [Except.ok.injEq, Prod.mk.injEq] at hg
        obtain ⟨rfl, _, _⟩ := hg
        unfold initBuffers at hb
        simp only at hb
        split at hb
        · simp at hb
        · simp only [Except.ok.injEq] at hb
          rw [← hb]
          unfold initInterfaces
          by_cases hc : ellCount (List.map (fun a => (⟨a, configuredServerPort o⟩ : osiSockAddr))
              o.EPICS_CAS_INTF_ADDR_LIST) = 0
          · simp [hc, serverState.logs, initPools]
          · simp [hc, serverState.logs, initPools]
    cases hgr : rsrv_grap_tcp s0.casIntfAddrList s0.nextSock s0.ca_server_port o.binds with
    | fault f => rw [hgr] at h; simp at h
    | pending => rw [hgr] at h; simp at h
    | returned gst sport rest =>
      rw [hgr] at h
      simp only at h
      split at h
      · simp at h
      · rename_i s2 hl
        simp only [initResult.returned.injEq] at h
        have hk := keeps_ifaceLoop _ _ _ _ _ _ _ _ hl
        have hk2 : keepsGlobals s0 s2 := by
          refine keepsGlobals_trans ?_ hk
          by_cases hs : sport ≠ s0.ca_server_port
          · rw [if_pos hs]
            exact ⟨rfl, rfl, rfl, rfl, rfl⟩
          · rw [if_neg hs]
            exact ⟨rfl, rfl, rfl, rfl, rfl⟩
        obtain ⟨k1, k2, k3, k4, k5⟩ := hk2
        obtain ⟨a1, a2, a3, a4, a5⟩ := h0
        rw [← h]
        exact ⟨by show s2.g.rsrvSizeofLargeBufTCP = _; rw [k1, a1],
          by show s2.castcp_ctl = _; rw [k3, a2], by show s2.casudp_ctl = _; rw [k4, a3],
          by show s2.beacon_ctl = _; rw [k5, a4], by show s2.clientQ = _; rw [k2, a5]⟩


/-! ## C16: the size of the large buffers -/

/-- Whatever `EPICS_CA_MAX_ARRAY_BYTES` reads as, the size computed for the
large buffers is at least `MAX_TCP`. -/
theorem largeBufSize_floor (cfg : Config) (sizeofCaHdr : Nat) (status m : Int) :
    cfg.MAX_TCP ≤ (largeBufSize cfg sizeofCaHdr status m).1 := by
  unfold largeBufSize
  simp only
  split_ifs <;> simp_all

/-- When the read fails or the value is negative, the size is `MAX_TCP`. -/
theorem largeBufSize_failed (cfg : Config) (sizeofCaHdr : Nat) (status m : Int)
    (h : status ≠ 0 ∨ m < 0) : (largeBufSize cfg sizeofCaHdr status m).1 = cfg.MAX_TCP := by
  unfold largeBufSize
  rw [if_pos h]

/-- For a value that an `unsigned` holds, the code computes the size the
specification gives. -/
theorem largeBufSize_in_range (cfg : Config) (sizeofCaHdr : Nat) (m : Int)
    (h0 : 0 ≤ m) (h1 : m < 2 ^ 32) (hh : sizeofCaHdr + 2 * 4 < 2 ^ 32) :
    (largeBufSize cfg sizeofCaHdr 0 m).1 = largeBufSizeSpec cfg (sizeofCaHdr + 2 * 4) m := by
  unfold largeBufSize largeBufSizeSpec
  have hm : (m % 2 ^ 32).toNat = m.toNat := by
    rw [Int.emod_eq_of_lt h0 h1]
  have hn : m.toNat < 2 ^ 32 := by omega
  have hneg : ¬ ((0 : Int) ≠ 0 ∨ m < 0) := by omega
  rw [if_neg hneg]
  simp only [hm, Nat.mod_eq_of_lt hh]
  by_cases hc : m.toNat < 0xffffffff - (sizeofCaHdr + 2 * 4)
  · rw [if_pos hc]
    have hs : m.toNat + (sizeofCaHdr + 2 * 4) < 2 ^ 32 := by omega
    rw [Nat.mod_eq_of_lt hs]
    have hmin : min (m.toNat + (sizeofCaHdr + 2 * 4)) 0xffffffff
        = m.toNat + (sizeofCaHdr + 2 * 4) := by omega
    rw [hmin]
    split_ifs with h2
    · simp only
      omega
    · simp only
      omega
  · rw [if_neg hc]
    have hmin : min (m.toNat + (sizeofCaHdr + 2 * 4)) 0xffffffff = 0xffffffff := by omega
    rw [hmin]
    split_ifs with h2
    · simp only
      omega
    · simp only
      omega

/-- C16, the code at the failing input: `rsrv_init` does not give `rsrvSizeofLargeBufTCP` the value
`max(MAX_TCP, min(m + headerSize, 0xffffffff))` for every non-negative `long`
value `m` of `EPICS_CA_MAX_ARRAY_BYTES`. With `MAX_TCP = 16384`, a header of
16 + 2 * 4 bytes and `m = 4294967296`, the read succeeds, `rsrv_init` returns,
and `rsrvSizeofLargeBufTCP` is 16384, where the formula gives 0xffffffff: the
conversion `( unsigned ) maxBytesAsALong` keeps the low 32 bits of `m`, here 0,
before the saturating addition. -/
theorem rsrv_init_max_array_bytes_truncated :
    demoInitOracleHuge.maxArrayStatus = 0 ∧ demoInitOracleHuge.maxBytesAsALong = 4294967296
      ∧ (∃ s1, rsrv_init demoConfigWide 16 demoInitOracleHuge demoServer = .returned s1
          ∧ s1.g.rsrvSizeofLargeBufTCP = 16384)
      ∧ largeBufSizeSpec demoConfigWide (16 + 2 * 4) 4294967296 = 0xffffffff := by
  refine ⟨rfl, rfl, ⟨_, rfl, ?_⟩, by decide⟩
  rfl


/-! ## C18: the control flags after `rsrv_init` -/

/-- C18, the code at the failing input: `rsrv_init` does not set all three control flags to pause. It assigns
`ctlPause` to `castcp_ctl` only; with `casudp_ctl` and `beacon_ctl` at `ctlRun`
on entry, `rsrv_init` returns, having started the TCP, UDP and beacon threads,
with `castcp_ctl = ctlPause` and with `casudp_ctl` and `beacon_ctl` still at
`ctlRun`. -/
theorem rsrv_init_leaves_udp_and_beacon_flags :
    demoServer.casudp_ctl = .ctlRun ∧ demoServer.beacon_ctl = .ctlRun
      ∧ ∃ s1, rsrv_init demoConfigWide 16 demoInitOracle demoServer = .returned s1
          ∧ s1.castcp_ctl = .ctlPause ∧ s1.casudp_ctl = .ctlRun ∧ s1.beacon_ctl = .ctlRun
          ∧ .epicsThreadMustCreate 0 18 ∈ s1.log ∧ .epicsThreadMustCreate 1 16 ∈ s1.log
          ∧ .epicsThreadMustCreate 3 17 ∈ s1.log := by
  refine ⟨rfl, rfl, _, rfl, rfl, rfl, rfl, ?_, ?_, ?_⟩ <;> decide

/-! ## C20: the broadcast address of an interface -/

/-- The statements of the loop body before the discovery of the broadcast
addresses print no warning about broadcast addresses and leave in
`udpbeaconRx` the address of the interface. -/
theorem stBeaconBind_next (a : ifaceOracle) (s : serverState) (cur : osiSockAddr) (tcp : SOCKET)
    (h1 : a.beaconSocket = true) (h2 : a.beaconBind = .ok) :
    ∃ c, (stBeaconSocket a s cur tcp).andThen (stBeaconBind a) = .next c
      ∧ c.conf.udpbeaconRx.sin_addr = cur.sin_addr
      ∧ c.conf.tcpAddr.sin_addr = cur.sin_addr
      ∧ ∃ new, c.s.log = s.log ++ new ∧ new.all (fun e => !e.warnsBroadcast) = true := by
  unfold stBeaconSocket stBeaconBind
  cases hs : a.setsockopt
  · simp only [h1, h2, tryBind, ifaceStep.andThen, serverState.logs, Bool.true_eq_false,
      if_false, if_true, Bool.false_eq_true, List.append_assoc]
    exact ⟨_, rfl, rfl, rfl, _, rfl, by rfl⟩
  · simp only [h1, h2, tryBind, ifaceStep.andThen, serverState.logs, Bool.true_eq_false,
      if_false, if_true, Bool.false_eq_true, List.append_assoc]
    exact ⟨_, rfl, rfl, rfl, _, rfl, by rfl⟩

/-- The block that finds the broadcast address, when at least one address is
discovered. -/
theorem stBroadcast_cons (a : ifaceOracle) (beacon_port : Nat) (c : ifaceCtx) (first : Nat)
    (rest : List Nat) (hb : a.bcastList = first :: rest) :
    stBroadcast a beacon_port c
      = .next ⟨if 1 < a.bcastList.length ∧ c.conf.udpbeaconRx.sin_addr ≠ INADDR_ANY then
            (c.s.logs [.osiSockDiscoverBroadcastAddresses c.conf.udpbeacon a.bcastList]).logs
              [.print (.moreThanOneBroadcastAddress c.conf.tcpAddr.sin_addr)]
          else c.s.logs [.osiSockDiscoverBroadcastAddresses c.conf.udpbeacon a.bcastList],
        { c.conf with udpbeaconTx := ⟨first, beacon_port⟩ }⟩ := by
  have hlen : (ellCount a.bcastList > 1) ↔ 1 < a.bcastList.length := by
    unfold ellCount
    exact_mod_cast Iff.rfl
  unfold stBroadcast
  simp only [hlen]
  rw [hb]

/-- C20, refuted as stated: with the single interface `INADDR_ANY` and two
broadcast addresses discovered, `rsrv_init` returns without having printed the
warning; with the single interface 192.0.2.10, which is not `INADDR_ANY`, and
the same two addresses, it prints the warning. -/
theorem rsrv_init_any_interface_no_broadcast_warning :
    (demoInitOracle.iface 0).bcastList.length = 2
      ∧ (∃ s1, rsrv_init demoConfigWide 16 demoInitOracle demoServer = .returned s1
          ∧ s1.casIntfAddrList = [⟨INADDR_ANY, 5064⟩]
          ∧ s1.log.any srvEvent.warnsBroadcast = false)
      ∧ (∃ s1, rsrv_init demoConfigWide 16 demoInitOracleOne demoServer = .returned s1
          ∧ s1.casIntfAddrList = [⟨3221225994, 5064⟩]
          ∧ s1.log.any srvEvent.warnsBroadcast = true) := by
  refine ⟨rfl, ⟨_, rfl, ?_, ?_⟩, ⟨_, rfl, ?_, ?_⟩⟩ <;> rfl

/-- C20, amended: when the beacon socket of the interface `cur` has been
created and bound and at least one broadcast address is discovered, the block
that finds the broadcast address goes on to the next statement with the beacon
destination `udpbeaconTx` equal to (first discovered address, `beacon_port`),
and it prints the warning exactly when more than one address was discovered
and the address of the interface is not `INADDR_ANY`. -/
theorem rsrv_init_broadcast_destination_and_warning (a : ifaceOracle) (beacon_port : Nat)
    (s : serverState) (cur : osiSockAddr) (tcp : SOCKET) (first : Nat) (rest : List Nat)
    (h1 : a.beaconSocket = true) (h2 : a.beaconBind = .ok) (hb : a.bcastList = first :: rest) :
    ∃ c c1 new, (stBeaconSocket a s cur tcp).andThen (stBeaconBind a) = .next c
      ∧ stBroadcast a beacon_port c = .next c1
      ∧ c1.conf.udpbeaconTx = ⟨first, beacon_port⟩
      ∧ c1.s.log = c.s.log
          ++ .osiSockDiscoverBroadcastAddresses c.conf.udpbeacon a.bcastList :: new
      ∧ (new.any srvEvent.warnsBroadcast = true
          ↔ (1 < a.bcastList.length ∧ cur.sin_addr ≠ INADDR_ANY))
      ∧ (new = [] ∨ new = [.print (.moreThanOneBroadcastAddress cur.sin_addr)]) := by
  obtain ⟨c, hc, hrx, htcp, _⟩ := stBeaconBind_next a s cur tcp h1 h2
  have hst := stBroadcast_cons a beacon_port c first rest hb
  rw [hrx, htcp] at hst
  by_cases hw : 1 < a.bcastList.length ∧ cur.sin_addr ≠ INADDR_ANY
  · rw [if_pos hw] at hst
    exact ⟨c, _, [.print (.moreThanOneBroadcastAddress cur.sin_addr)], hc, hst, rfl,
      by simp [serverState.logs], ⟨fun _ => hw, fun _ => rfl⟩, Or.inr rfl⟩
  · rw [if_neg hw] at hst
    exact ⟨c, _, [], hc, hst, rfl, rfl,
      ⟨fun h => by simp at h, fun h => absurd h hw⟩, Or.inl rfl⟩

theorem rsrv_init_broadcast_destination_and_warning_witness :
    demoIfaceOracle.beaconSocket = true ∧ demoIfaceOracle.beaconBind = .ok
      ∧ demoIfaceOracle.bcastList = 3221226239 :: [3221226495]
      ∧ ∃ c c1 new, (stBeaconSocket demoIfaceOracle demoServer ⟨3221225994, 5064⟩ 3).andThen
            (stBeaconBind demoIfaceOracle) = .next c
          ∧ stBroadcast demoIfaceOracle 5065 c = .next c1
          ∧ c1.conf.udpbeaconTx = ⟨3221226239, 5065⟩
          ∧ c1.s.log = c.s.log
              ++ .osiSockDiscoverBroadcastAddresses c.conf.udpbeacon demoIfaceOracle.bcastList
                :: new
          ∧ (new.any srvEvent.warnsBroadcast = true
              ↔ (1 < demoIfaceOracle.bcastList.length
                  ∧ (⟨3221225994, 5064⟩ : osiSockAddr).sin_addr ≠ INADDR_ANY))
          ∧ (new = [] ∨ new = [.print (.moreThanOneBroadcastAddress
              (⟨3221225994, 5064⟩ : osiSockAddr).sin_addr)]) :=
  ⟨rfl, rfl, rfl,
    rsrv_init_broadcast_destination_and_warning demoIfaceOracle 5065 demoServer
      ⟨3221225994, 5064⟩ 3 3221226239 [3221226495] rfl rfl rfl⟩


/-! ## C21: the assertions of `rsrv_grap_tcp` -/

/-- Neither assertion inside the `for` loop fails when the kernel never
reports the port 0 for a socket it has bound: a bind with port 0 happens only
at index 0, since from index 1 on the port in `scratch` is not 0. -/
theorem bindLoop_no_assert (cur : List osiSockAddr) :
    ∀ (i : Nat) (st : grapState) (answers : List bindAnswer),
      (∀ a ∈ answers, a ≠ .bound (some 0)) → (i = 0 ∨ st.sin_port ≠ 0) →
      bindLoop i cur st answers ≠ .fault .assertFailed := by
  induction cur with
  | nil =>
    intro i st answers _ _
    simp [bindLoop]
  | cons ifaceAddr rest ih =>
    intro i st answers hk hi
    cases answers with
    | nil => simp [bindLoop]
    | cons a answers =>
      have hk' : ∀ b ∈ answers, b ≠ .bound (some 0) :=
        fun b hb => hk b (List.mem_cons_of_mem _ hb)
      cases a with
      | noSocket => simp [bindLoop]
      | bound gsn =>
        by_cases hp : st.sin_port = 0
        · have hi0 : i = 0 := by
            rcases hi with h | h
            · exact h
            · exact absurd hp h
          cases gsn with
          | none => simp [bindLoop, hp, hi0]
          | some p =>
            have hpn : p ≠ 0 := by
              intro h0
              exact hk (.bound (some p)) (List.mem_cons_self _ _) (by rw [h0])
            simp only [bindLoop, hp, hi0, if_true, ne_eq, hpn, not_false_eq_true]
            exact ih _ _ _ hk' (Or.inr hpn)
        · simp only [bindLoop, hp, if_false]
          exact ih _ _ _ hk' (Or.inr hp)
      | failed errno =>
        cases errno <;> simp [bindLoop]

/-- A pass of the `for` loop uses up a prefix of the answers, and it shortens
the interface list only by using up a `SOCK_EADDRNOTAVAIL` answer. -/
theorem bindLoop_consumes (cur : List osiSockAddr) :
    ∀ (i : Nat) (st : grapState) (answers : List bindAnswer) (ok : Bool) (st' : grapState)
      (rest : List bindAnswer), bindLoop i cur st answers = .left ok st' rest →
      i + cur.length ≤ st.casIntfAddrList.length →
      (∃ pre, answers = pre ++ rest)
        ∧ st.casIntfAddrList.length + rest.count (.failed .SOCK_EADDRNOTAVAIL)
            ≤ st'.casIntfAddrList.length + answers.count (.failed .SOCK_EADDRNOTAVAIL) := by
  induction cur with
  | nil =>
    intro i st answers ok st' rest h _
    simp only [bindLoop, loopResult.left.injEq] at h
    obtain ⟨_, rfl, rfl⟩ := h
    exact ⟨⟨[], rfl⟩, le_refl _⟩
  | cons ifaceAddr tl ih =>
    intro i st answers ok st' rest h hlen
    simp only [List.length_cons] at hlen
    cases answers with
    | nil => simp [bindLoop] at h
    | cons a answers =>
      cases a with
      | noSocket => simp [bindLoop] at h
      | bound gsn =>
        have hstep : ∀ (st1 : grapState), st1.casIntfAddrList = st.casIntfAddrList →
            bindLoop (i + 1) tl st1 answers = .left ok st' rest →
            (∃ pre, bindAnswer.bound gsn :: answers = pre ++ rest)
              ∧ st.casIntfAddrList.length + rest.count (.failed .SOCK_EADDRNOTAVAIL)
                ≤ st'.casIntfAddrList.length
                  + (bindAnswer.bound gsn :: answers).count (.failed .SOCK_EADDRNOTAVAIL) := by
          intro st1 h1 h2
          obtain ⟨⟨pre, hpre⟩, hc⟩ := ih (i + 1) st1 answers ok st' rest h2 (by rw [h1]; omega)
          refine ⟨⟨.bound gsn :: pre, by rw [hpre]; rfl⟩, ?_⟩
          rw [h1] at hc
          rw [List.count_cons_of_ne (by simp)]
          exact hc
        by_cases hp : st.sin_port = 0
        · by_cases hi0 : i = 0
          · cases gsn with
            | none =>
              simp only [bindLoop, hp, hi0, if_true, loopResult.left.injEq] at h
              obtain ⟨_, rfl, rfl⟩ := h
              refine ⟨⟨[.bound none], rfl⟩, ?_⟩
              rw [List.count_cons_of_ne (by simp)]
            | some p =>
              by_cases hpn : p = 0
              · simp [bindLoop, hp, hi0, hpn] at h
              · simp only [bindLoop, hp, hi0, if_true, ne_eq, hpn, not_false_eq_true] at h
                rw [hi0] at hstep
                refine hstep _ ?_ h
                rfl
          · simp [bindLoop, hp, hi0] at h
        · simp only [bindLoop, hp, if_false] at h
          refine hstep _ ?_ h
          rfl
      | failed errno =>
        cases errno with
        | SOCK_EADDRINUSE =>
          simp only [bindLoop, loopResult.left.injEq] at h
          obtain ⟨_, rfl, rfl⟩ := h
          refine ⟨⟨[.failed .SOCK_EADDRINUSE], rfl⟩, ?_⟩
          rw [List.count_cons_of_ne (by simp)]
        | SOCK_EADDRNOTAVAIL =>
          simp only [bindLoop, loopResult.left.injEq] at h
          obtain ⟨_, rfl, rfl⟩ := h
          refine ⟨⟨[.failed .SOCK_EADDRNOTAVAIL], rfl⟩, ?_⟩
          rw [List.count_cons_self]
          simp only [List.length_eraseIdx]
          have hi : i < st.casIntfAddrList.length := by omega
          rw [if_pos hi]
          omega
        | other code =>
          simp only [bindLoop, loopResult.left.injEq] at h
          obtain ⟨_, rfl, rfl⟩ := h
          refine ⟨⟨[.failed (.other code)], rfl⟩, ?_⟩
          rw [List.count_cons_of_ne (by simp)]

/-- No assertion of `rsrv_grap_tcp` fails as long as the kernel never reports
the port 0 and the answers `SOCK_EADDRNOTAVAIL` are fewer than the interfaces,
so that the interface list never becomes empty. -/
theorem grapLoop_no_assert (passes : Nat) :
    ∀ (st : grapState) (answers : List bindAnswer),
      (∀ a ∈ answers, a ≠ .bound (some 0)) →
      answers.count (.failed .SOCK_EADDRNOTAVAIL) < st.casIntfAddrList.length →
      grapLoop passes st answers ≠ .fault .assertFailed := by
  induction passes with
  | zero =>
    intro st answers _ _
    simp [grapLoop]
  | succ passes ih =>
    intro st answers hk hc
    obtain ⟨i1, _, _, _, _, _, _⟩ := initSocks_facts st
    simp only [grapLoop]
    cases hb : bindLoop 0 (initSocks st).casIntfAddrList (initSocks st) answers with
    | fault f =>
      have hne := bindLoop_no_assert (initSocks st).casIntfAddrList 0 (initSocks st) answers hk
        (Or.inl rfl)
      rw [hb] at hne
      simp only
      intro hf
      apply hne
      rw [grapResult.fault.injEq] at hf
      rw [hf]
    | pending => simp
    | left ok st1 rest =>
      obtain ⟨⟨pre, hpre⟩, hcount⟩ := bindLoop_consumes _ _ _ _ _ _ _ hb (by omega)
      rw [i1] at hcount
      cases ok with
      | true =>
        have hok := bindLoop_ok _ _ _ _ _ _ hb
        have hne : (initSocks st).casIntfAddrList ≠ [] := by
          rw [i1]
          intro h0
          rw [h0] at hc
          simp at hc
        have hp : st1.sin_port ≠ 0 := hok.2.2.2.2.2.1 hne
        simp [hp]
      | false =>
        simp only
        apply ih
        · intro a ha
          exact hk a (by rw [hpre]; exact List.mem_append_right _ ha)
        · have hcl : (cleanupSocks st1).casIntfAddrList = st1.casIntfAddrList :=
            (cleanup_fold _ st1).1
          show rest.count (.failed .SOCK_EADDRNOTAVAIL) < (cleanupSocks st1).casIntfAddrList.length
          rw [hcl]
          omega

/-- No assertion of `rsrv_grap_tcp` fails when the kernel never reports the
port 0 and fewer interfaces are refused with `SOCK_EADDRNOTAVAIL` than the
list has. -/
theorem rsrv_grap_tcp_no_assert (casIntfAddrList : List osiSockAddr) (nextSock port : Nat)
    (answers : List bindAnswer) (hk : ∀ a ∈ answers, a ≠ .bound (some 0))
    (hc : answers.count (.failed .SOCK_EADDRNOTAVAIL) < casIntfAddrList.length) :
    rsrv_grap_tcp casIntfAddrList nextSock port answers ≠ .fault .assertFailed :=
  grapLoop_no_assert _ _ _ hk hc

/-- C21, the code at the failing input: when the only interface of the list
is refused with `SOCK_EADDRNOTAVAIL`, whatever the preferred port and whatever
the answers that would follow, `rsrv_grap_tcp` removes the interface, resets
the port to 0, completes the next pass over the empty list with `ok = 1`, and
stops at `assert(scratch.ia.sin_port!=0)`. -/
theorem rsrv_grap_tcp_empty_list_fails_assert (addr : osiSockAddr) (nextSock port : Nat)
    (rest : List bindAnswer) :
    rsrv_grap_tcp [addr] nextSock port (.failed .SOCK_EADDRNOTAVAIL :: rest)
      = .fault .assertFailed := by
  simp [rsrv_grap_tcp, grapLoop, bindLoop, initSocks, cleanupSocks, cleanupStep]


/-! ## C22: the sockets `rsrv_grap_tcp` creates -/

/-- A pass of the `for` loop keeps the effects so far and the entries of
`socks` below its first index, and every socket it creates is stored in the
entry of `socks` of an interface it visits. -/
theorem bindLoop_created (cur : List osiSockAddr) :
    ∀ (i : Nat) (st : grapState) (answers : List bindAnswer) (ok : Bool) (st' : grapState)
      (rest : List bindAnswer), bindLoop i cur st answers = .left ok st' rest →
      i + cur.length ≤ st.socks.length →
      (∀ e ∈ st.log, e ∈ st'.log)
        ∧ (∀ m, m < i → st'.socks[m]? = st.socks[m]?)
        ∧ ∀ s, .epicsSocketCreate s ∈ st'.log → .epicsSocketCreate s ∈ st.log
            ∨ ∃ m, i ≤ m ∧ m < i + cur.length ∧ st'.socks[m]? = some s
                ∧ s ≠ INVALID_SOCKET := by
  induction cur with
  | nil =>
    intro i st answers ok st' rest h _
    simp only [bindLoop, loopResult.left.injEq] at h
    obtain ⟨_, rfl, _⟩ := h
    exact ⟨fun e he => he, fun m _ => rfl, fun s hs => Or.inl hs⟩
  | cons ifaceAddr tl ih =>
    intro i st answers ok st' rest h hlen
    simp only [List.length_cons] at hlen
    have hi : i < st.socks.length := by omega
    have hvalid : ((st.nextSock : Nat) : Int) ≠ INVALID_SOCKET := by
      have h0 : (0 : Int) ≤ ((st.nextSock : Nat) : Int) := Int.ofNat_nonneg _
      intro hc
      rw [hc] at h0
      exact absurd h0 (by decide)
    -- what one visit contributes, whatever follows it
    have hone : ∀ (extra : List srvEvent) (b : Bool) (s : SOCKET),
        srvEvent.epicsSocketCreate s ∈ st.log ++ [.epicsSocketCreate (st.nextSock : Int),
            .epicsSocketEnableAddressReuseDuringTimeWaitState (st.nextSock : Int),
            .bind (st.nextSock : Int) ifaceAddr.sin_addr st.sin_port b] ++ extra →
        (∀ e ∈ extra, ∀ x, e ≠ .epicsSocketCreate x) →
        srvEvent.epicsSocketCreate s ∈ st.log ∨ s = (st.nextSock : Int) := by
      intro extra b s hs hex
      simp only [List.mem_append, List.mem_cons, List.mem_nil_iff, or_false,
        srvEvent.epicsSocketCreate.injEq] at hs
      rcases hs with (hs | hs | hs | hs) | hs
      · exact Or.inl hs
      · exact Or.inr hs
      · exact absurd hs (by simp)
      · exact absurd hs (by simp)
      · exact absurd rfl (hex _ hs s)
    have hget : (st.socks.set i (st.nextSock : Int))[i]? = some (st.nextSock : Int) := by
      rw [List.getElem?_set_self (by simpa using hi)]
    -- the step into the rest of the list
    have hstep : ∀ (st1 : grapState) (extra : List srvEvent),
        st1.socks = st.socks.set i (st.nextSock : Int) →
        (∃ b, st1.log = st.log ++ [.epicsSocketCreate (st.nextSock : Int),
            .epicsSocketEnableAddressReuseDuringTimeWaitState (st.nextSock : Int),
            .bind (st.nextSock : Int) ifaceAddr.sin_addr st.sin_port b] ++ extra) →
        (∀ e ∈ extra, ∀ x, e ≠ .epicsSocketCreate x) →
        bindLoop (i + 1) tl st1 answers.tail = .left ok st' rest →
        (∀ e ∈ st.log, e ∈ st'.log)
          ∧ (∀ m, m < i → st'.socks[m]? = st.socks[m]?)
          ∧ ∀ s, .epicsSocketCreate s ∈ st'.log → .epicsSocketCreate s ∈ st.log
              ∨ ∃ m, i ≤ m ∧ m < i + (tl.length + 1) ∧ st'.socks[m]? = some s
                  ∧ s ≠ INVALID_SOCKET := by
      intro st1 extra hsocks hlog hex h2
      obtain ⟨b, hlog⟩ := hlog
      obtain ⟨k1, k2, k3⟩ := ih (i + 1) st1 answers.tail ok st' rest h2
        (by rw [hsocks, List.length_set]; omega)
      refine ⟨?_, ?_, ?_⟩
      · intro e he
        apply k1
        rw [hlog]
        simp only [List.append_assoc]
        exact List.mem_append_left _ he
      · intro m hm
        rw [k2 m (by omega), hsocks, List.getElem?_set_ne (by omega)]
      · intro s hs
        rcases k3 s hs with h3 | ⟨m, m1, m2, m3, m4⟩
        · rw [hlog] at h3
          rcases hone extra b s h3 hex with h4 | h4
          · exact Or.inl h4
          · refine Or.inr ⟨i, le_refl _, by omega, ?_, by rw [h4]; exact hvalid⟩
            rw [k2 i (by omega), hsocks, hget, h4]
        · exact Or.inr ⟨m, by omega, by omega, m3, m4⟩
    -- the exits by `break`
    have hexit : ∀ (st1 : grapState) (extra : List srvEvent),
        st1.socks = st.socks.set i (st.nextSock : Int) →
        (∃ b, st1.log = st.log ++ [.epicsSocketCreate (st.nextSock : Int),
            .epicsSocketEnableAddressReuseDuringTimeWaitState (st.nextSock : Int),
            .bind (st.nextSock : Int) ifaceAddr.sin_addr st.sin_port b] ++ extra) →
        (∀ e ∈ extra, ∀ x, e ≠ .epicsSocketCreate x) →
        (∀ e ∈ st.log, e ∈ st1.log)
          ∧ (∀ m, m < i → st1.socks[m]? = st.socks[m]?)
          ∧ ∀ s, .epicsSocketCreate s ∈ st1.log → .epicsSocketCreate s ∈ st.log
              ∨ ∃ m, i ≤ m ∧ m < i + (tl.length + 1) ∧ st1.socks[m]? = some s
                  ∧ s ≠ INVALID_SOCKET := by
      intro st1 extra hsocks hlog hex
      obtain ⟨b, hlog⟩ := hlog
      refine ⟨?_, ?_, ?_⟩
      · intro e he
        rw [hlog]
        simp only [List.append_assoc]
        exact List.mem_append_left _ he
      · intro m hm
        rw [hsocks, List.getElem?_set_ne (by omega)]
      · intro s hs
        rw [hlog] at hs
        rcases hone extra b s hs hex with h4 | h4
        · exact Or.inl h4
        · refine Or.inr ⟨i, le_refl _, by omega, ?_, by rw [h4]; exact hvalid⟩
          rw [hsocks, hget, h4]
    cases answers with
    | nil => simp [bindLoop] at h
    | cons a answers =>
      simp only [List.tail_cons] at hstep
      cases a with
      | noSocket => simp [bindLoop] at h
      | bound gsn =>
        by_cases hp : st.sin_port = 0
        · by_cases hi0 : i = 0
          · cases gsn with
            | none =>
              simp only [bindLoop, hp, hi0, if_true, loopResult.left.injEq] at h
              obtain ⟨_, hst, _⟩ := h
              rw [← hst]
              rw [hi0] at hexit
              rw [hi0]
              refine hexit _ [.getsockname (st.nextSock : Int) none,
                .print .getsocknameError, .epicsThreadSuspendSelf] (by rfl) ⟨true, ?_⟩ ?_
              · simp only [hp]
              · intro e he x
                simp only [List.mem_cons, List.mem_nil_iff, or_false] at he
                rcases he with rfl | rfl | rfl <;> simp
            | some p =>
              by_cases hpn : p = 0
              · simp [bindLoop, hp, hi0, hpn] at h
              · simp only [bindLoop, hp, hi0, if_true, ne_eq, hpn, not_false_eq_true] at h
                rw [hi0] at hstep
                rw [hi0]
                refine hstep _ [.getsockname (st.nextSock : Int) (some p)] (by rfl) ⟨true, ?_⟩ ?_ h
                · simp only [hp]
                · intro e he x
                  simp only [List.mem_cons, List.mem_nil_iff, or_false] at he
                  rw [he]
                  simp
          · simp [bindLoop, hp, hi0] at h
        · simp only [bindLoop, hp, if_false] at h
          refine hstep _ [] (by rfl) ⟨true, ?_⟩ ?_ h
          · simp only [List.append_nil]
          · intro e he
            simp at he
      | failed errno =>
        cases errno with
        | SOCK_EADDRINUSE =>
          simp only [bindLoop, loopResult.left.injEq] at h
          obtain ⟨_, hst, _⟩ := h
          rw [← hst]
          refine hexit _ [] (by rfl) ⟨false, ?_⟩ ?_
          · simp only [List.append_nil]
          · intro e he
            simp at he
        | SOCK_EADDRNOTAVAIL =>
          simp only [bindLoop, loopResult.left.injEq] at h
          obtain ⟨_, hst, _⟩ := h
          rw [← hst]
          refine hexit _ [.print (.skippingNotInterface ifaceAddr.sin_addr),
            .ellDelete ifaceAddr] (by rfl) ⟨false, by rfl⟩ ?_
          intro e he x
          simp only [List.mem_cons, List.mem_nil_iff, or_false] at he
          rcases he with rfl | rfl <;> simp
        | other code =>
          simp only [bindLoop, loopResult.left.injEq] at h
          obtain ⟨_, hst, _⟩ := h
          rw [← hst]
          refine hexit _ [.print (.socketBindError ifaceAddr.sin_addr),
            .epicsThreadSuspendSelf] (by rfl) ⟨false, by rfl⟩ ?_
          intro e he x
          simp only [List.mem_cons, List.mem_nil_iff, or_false] at he
          rcases he with rfl | rfl <;> simp


/-- The cleanup loop adds only `epicsSocketDestroy` effects. -/
theorem cleanup_fold_new (l : List Nat) : ∀ (st : grapState),
    ∀ e ∈ (l.foldl cleanupStep st).log, e ∈ st.log ∨ ∃ s, e = .epicsSocketDestroy s := by
  induction l with
  | nil =>
    intro st e he
    exact Or.inl he
  | cons i l ih =>
    intro st e he
    simp only [List.foldl_cons] at he
    rcases ih _ e he with h | h
    · unfold cleanupStep at h
      by_cases hc : st.socks.getD i INVALID_SOCKET ≠ INVALID_SOCKET
      · rw [if_pos hc] at h
        simp only [List.mem_append, List.mem_cons, List.mem_nil_iff, or_false] at h
        rcases h with h | h
        · exact Or.inl h
        · exact Or.inr ⟨_, h⟩
      · rw [if_neg hc] at h
        exact Or.inl h
    · exact Or.inr h

/-- What holds at the head of every pass of `rsrv_grap_tcp` when no interface
is refused with `SOCK_EADDRNOTAVAIL`: every socket created so far has been
destroyed; and on return every socket created is destroyed or is the entry of
`socks` of an interface. -/
theorem grapLoop_no_leak (passes : Nat) :
    ∀ (st : grapState) (answers : List bindAnswer) (st' : grapState) (port : Nat)
      (rest : List bindAnswer),
      (∀ s, srvEvent.epicsSocketCreate s ∈ st.log → .epicsSocketDestroy s ∈ st.log) →
      st.casIntfAddrList.length ≤ st.socks.length →
      .failed .SOCK_EADDRNOTAVAIL ∉ answers →
      grapLoop passes st answers = .returned st' port rest →
      ∀ s, srvEvent.epicsSocketCreate s ∈ st'.log → .epicsSocketDestroy s ∈ st'.log
        ∨ ∃ j, j < st'.casIntfAddrList.length ∧ st'.socks[j]? = some s := by
  induction passes with
  | zero =>
    intro st answers st' port rest _ _ _ h
    simp [grapLoop] at h
  | succ passes ih =>
    intro st answers st' port rest hq hlen hno h
    obtain ⟨i1, _, _, i4, i5, _, _⟩ := initSocks_facts st
    simp only [grapLoop] at h
    cases hb : bindLoop 0 (initSocks st).casIntfAddrList (initSocks st) answers with
    | fault f => rw [hb] at h; simp at h
    | pending => rw [hb] at h; simp at h
    | left ok st1 rest1 =>
      rw [hb] at h
      obtain ⟨k1, _, k3⟩ := bindLoop_created _ _ _ _ _ _ _ hb (by rw [i1, i5]; omega)
      obtain ⟨⟨pre, hpre⟩, hcount⟩ := bindLoop_consumes _ _ _ _ _ _ _ hb (by omega)
      obtain ⟨f1, f2, _, _, _⟩ := bindLoop_frame _ _ _ _ _ _ _ hb
      rw [List.count_eq_zero_of_not_mem hno] at hcount
      have hl1 : st1.casIntfAddrList.length = st.casIntfAddrList.length := by
        have := f2.length_le
        rw [i1] at this hcount
        omega
      rw [i4] at k1 k3
      rw [i1] at k3
      cases ok with
      | true =>
        simp only at h
        by_cases hp : st1.sin_port ≠ 0
        · rw [if_pos hp, grapResult.returned.injEq] at h
          obtain ⟨rfl, _, _⟩ := h
          intro s hs
          rcases k3 s hs with h3 | ⟨m, _, m2, m3, _⟩
          · exact Or.inl (k1 _ (hq s h3))
          · exact Or.inr ⟨m, by omega, m3⟩
        · rw [if_neg hp] at h
          simp at h
      | false =>
        simp only at h
        obtain ⟨c1, _, _, c4, _, _⟩ := cleanup_fold (List.range st1.casIntfAddrList.length) st1
        obtain ⟨g1, g2⟩ := cleanup_fold_log (List.range st1.casIntfAddrList.length) st1
        refine ih _ _ _ _ _ ?_ ?_ ?_ h
        · intro s hs
          show srvEvent.epicsSocketDestroy s ∈ (cleanupSocks st1).log
          have hs' : srvEvent.epicsSocketCreate s ∈ (cleanupSocks st1).log := hs
          rcases cleanup_fold_new _ st1 _ hs' with h1 | ⟨x, hx⟩
          · rcases k3 s h1 with h3 | ⟨m, _, m2, m3, m4⟩
            · exact g1 _ (k1 _ (hq s h3))
            · exact g2 m s (List.mem_range.mpr (by omega)) m3 m4
          · exact absurd hx (by simp)
        · show (cleanupSocks st1).casIntfAddrList.length ≤ (cleanupSocks st1).socks.length
          unfold cleanupSocks
          rw [c1, c4, f1, i5, hl1]
          exact hlen
        · intro hm
          exact hno (by rw [hpre]; exact List.mem_append_right _ hm)

/-- When no interface is refused with `SOCK_EADDRNOTAVAIL`, a returning
`rsrv_grap_tcp` leaks no socket: every socket it has created is destroyed or
is the entry of the returned array for an interface of the list. -/
theorem rsrv_grap_tcp_no_leak_without_removal (casIntfAddrList : List osiSockAddr)
    (nextSock port : Nat) (answers : List bindAnswer) (st : grapState) (port1 : Nat)
    (rest : List bindAnswer) (hno : .failed .SOCK_EADDRNOTAVAIL ∉ answers)
    (h : rsrv_grap_tcp casIntfAddrList nextSock port answers = .returned st port1 rest) :
    ∀ s, srvEvent.epicsSocketCreate s ∈ st.log → .epicsSocketDestroy s ∈ st.log
      ∨ ∃ j, j < st.casIntfAddrList.length ∧ st.socks[j]? = some s := by
  refine grapLoop_no_leak _ _ _ _ _ _ ?_ ?_ hno h
  · intro s hs
    simp at hs
  · simp

/-- C22, the code at the failing input: with the interfaces 192.0.2.10 and
192.0.2.11, the preferred port 5064 and the bind to the last interface,
192.0.2.11, failing with `SOCK_EADDRNOTAVAIL`, the first pass creates the
sockets 3 and 4; the cleanup loop, which runs over the list already shortened
to one interface, destroys only socket 3, so that at the start of the retry
pass socket 4 is created and not destroyed; `rsrv_grap_tcp` then returns with
one interface, whose entry of the array is socket 5, and socket 4 has still
not been destroyed. -/
theorem rsrv_grap_tcp_leaks_socket_of_removed_last_interface :
    bindLoop 0 (initSocks demoGrapStart).casIntfAddrList (initSocks demoGrapStart)
        [.bound none, .failed .SOCK_EADDRNOTAVAIL, .bound (some 49152)]
        = .left false demoGrapBroken [.bound (some 49152)]
      ∧ demoGrapBroken.socks = [3, 4]
      ∧ (cleanupSocks demoGrapBroken).socks = [INVALID_SOCKET, 4]
      ∧ isOpen (cleanupSocks demoGrapBroken).log 4
      ∧ rsrv_grap_tcp demoIfaces 3 5064
          [.bound none, .failed .SOCK_EADDRNOTAVAIL, .bound (some 49152)]
          = .returned demoGrapSecondUnavailable 49152 []
      ∧ demoGrapSecondUnavailable.casIntfAddrList.length = 1
      ∧ demoGrapSecondUnavailable.socks.take 1 = [5]
      ∧ isOpen demoGrapSecondUnavailable.log 4 := by
  refine ⟨by rfl, by rfl, by rfl, ?_, by rfl, by rfl, by rfl, ?_⟩
  · unfold isOpen
    decide
  · unfold isOpen
    decide


end Rsrv
